import Mathlib

/-! # twothumbs: digest pipeline, ingest endpoint and interactions

A shallow embedding of the parts of the `twothumbs` repository that the digest
pipeline, the feedback endpoint with its rate limiter, the statistics queries
and the Slack interactions are made of, and theorems about them.

Conventions of the embedding:

* Go slices are `List`s; a Go `map` is an association list with unique keys
  (`GoMap`), read with zero-value default and written by key.
* Calls that leave the process (HTTP, SQL, the file system, the random source)
  are parameters of the embedded function; what a function does to the outside
  world is returned as an explicit trace.
* `float64` values that come out of the SQL statistics query are exact
  rationals (`ℚ`).
* An SQL query is embedded clause by clause over the rows of its table; what
  the database decides on its own (the sort behind `ORDER BY`, the order of
  `DISTINCT` values, the clock) is a parameter.
* A `time.Time` is an instant counted in nanoseconds, a `time.Duration` a
  number of nanoseconds; strings are sequences of Unicode characters and the
  builtin `len` is their length in UTF-8 bytes.
-/

namespace TwoThumbs

/-! ## `internal/integrations/slack.go` -/

/-- Constant `maxBlocks` of `slack.go`. -/
def maxBlocks : Nat := 50

/-- Constant `maxChars` of `slack.go` (limit for rich_text messages). -/
def maxChars : Nat := 13200

/-- The closure `split` inside `chunkBlocks`. `bodyLen bs` is
`len(json.Marshal({"channel": channel, "blocks": bs}))`; the captured variable
`chunks` is passed in and handed back. -/
def split {β : Type} (bodyLen : List β → Nat) (bs : List β) (chunks : List (List β)) :
    List (List β) :=
  if _h0 : bs.length = 0 then chunks
  else if bs.length ≤ maxBlocks ∧ bodyLen bs ≤ maxChars then chunks ++ [bs]
  else if _h1 : bs.length = 1 then chunks ++ [bs]
  else
    let mid := bs.length / 2
    split bodyLen (bs.drop mid) (split bodyLen (bs.take mid) chunks)
termination_by bs.length
decreasing_by
  all_goals simp_wf
  · omega
  · omega

/-- Function `chunkBlocks` of `slack.go`. `marshalLen channel bs` is the byte
length of the JSON encoding of the message payload for `channel` with blocks
`bs`. -/
def chunkBlocks {β : Type} (marshalLen : String → List β → Nat) (blocks : List β)
    (channel : String) : List (List β) :=
  split (marshalLen channel) blocks []

/-! ## Go values -/

/-- A Go `error` value. `errorf` is what `fmt.Errorf(format, args...)` builds,
`wrapf` the same with an error among its arguments (`%w` or `%v`), and
`external` an error handed back by a collaborator outside the repository. -/
inductive GoError where
  | external (text : String)
  | errorf (format : String) (args : List String)
  | wrapf (format : String) (args : List String) (cause : GoError)
deriving DecidableEq, Repr

/-- A Go `map[κ]ν`: at most one entry per key. -/
structure GoMap (κ ν : Type) where
  entries : List (κ × ν)
deriving Repr

namespace GoMap

/-- The empty map, `make(map[κ]ν)`. -/
def empty {κ ν : Type} : GoMap κ ν := ⟨[]⟩

/-- Search of an entry list for a key. -/
def lookup {κ ν : Type} [DecidableEq κ] : List (κ × ν) → κ → Option ν
  | [], _ => none
  | (k', v) :: rest, k => if k' = k then some v else lookup rest k

/-- Replace the value under a key, or add the key when it is new. -/
def insert {κ ν : Type} [DecidableEq κ] : List (κ × ν) → κ → ν → List (κ × ν)
  | [], k, v => [(k, v)]
  | (k', v') :: rest, k, v =>
    if k' = k then (k, v) :: rest else (k', v') :: insert rest k v

/-- The two-result read `v, ok := m[k]`. -/
def find? {κ ν : Type} [DecidableEq κ] (m : GoMap κ ν) (k : κ) : Option ν :=
  lookup m.entries k

/-- The read `m[k]`, which is the zero value for an absent key. -/
def get {κ ν : Type} [DecidableEq κ] (m : GoMap κ ν) (k : κ) (zero : ν) : ν :=
  (m.find? k).getD zero

/-- The write `m[k] = v`. -/
def set {κ ν : Type} [DecidableEq κ] (m : GoMap κ ν) (k : κ) (v : ν) : GoMap κ ν :=
  ⟨insert m.entries k v⟩

/-- The keys of the map. -/
def keys {κ ν : Type} (m : GoMap κ ν) : List κ := m.entries.map Prod.fst

/-- The values of the map. -/
def values {κ ν : Type} (m : GoMap κ ν) : List ν := m.entries.map Prod.snd

end GoMap

/-- The slice expression `s[:n]`; `none` is the run-time panic for `n` out of
range. -/
def sliceTo {α : Type} (s : List α) (n : Int) : Option (List α) :=
  if 0 ≤ n ∧ n ≤ (s.length : Int) then some (s.take n.toNat) else none

/-- The assignment `s[i], s[j] = s[j], s[i]` on a slice, for indices in range. -/
def swapElems {α : Type} (s : List α) (i j : Nat) : List α :=
  match s[i]?, s[j]? with
  | some a, some b => (s.set i b).set j a
  | _, _ => s

/-- The loop of `rand.Shuffle`: `for ; i > 0; i-- { j := draw in [0, i]; swap(i, j) }`.
`draw i` is the number the random source yields at index `i`. -/
def shuffleLoop {α : Type} (draw : Nat → Nat) : Nat → List α → List α
  | 0, s => s
  | i + 1, s => shuffleLoop draw i (swapElems s (i + 1) (draw (i + 1) % (i + 2)))

/-- The call `rand.Shuffle(n, func(i, j int) { s[i], s[j] = s[j], s[i] })`. -/
def Shuffle {α : Type} (draw : Nat → Nat) (n : Nat) (s : List α) : List α :=
  shuffleLoop draw (n - 1) s

/-! ## `internal/models/models.go` -/

/-- Struct `models.Feedback`; `time.Time` is an instant counted in integer
units. -/
structure Feedback where
  ID : Int
  CreatedAt : Int
  SlackWorkspace : String
  Prompt : String
  ThumbUp : Bool
  Comment : Option String
  Origin : String
  Category : String
  InProduction : Bool
  UserID : String
deriving DecidableEq, Repr

/-- Struct `models.FeedbackGroup`. -/
structure FeedbackGroup where
  Prompt : String
  Origin : String
  Category : String
deriving DecidableEq, Repr

/-- Struct `models.SummaryRow`. -/
structure SummaryRow where
  SummaryDate : Int
  Origin : String
  Category : String
  Prompt : String
  NComments : Int
  Summary : String
deriving DecidableEq, Repr

/-- Struct `models.FeedbackStats`. -/
structure FeedbackStats where
  ThumbsUpPct : ℚ
  PrevThumbsUpPct : ℚ
  NFeedback : Int
  PrevNFeedback : Int
  PrevNFeedbackDl : ℚ
  NComments : Int
  PrevCommentsDl : ℚ
deriving DecidableEq, Repr

/-- Struct `models.DailyDigestData`. -/
structure DailyDigestData where
  Origin : String
  NComments : Int
  Digest : String
deriving DecidableEq, Repr

/-- Struct `models.WeeklyDigestData`. -/
structure WeeklyDigestData where
  Origin : String
  Category : String
  Prompt : String
  Score : Int
  ScoreDelta : String
  NResponses : Int
  NResponsesDelta : String
  NComments : Int
  NCommentsDelta : String
  Digest : String
deriving DecidableEq, Repr

/-- Struct `models.PlotStats`. -/
structure PlotStats where
  Month : Int
  ThumbsUpPct : ℚ
  NFeedback : Int
  NComments : Int
deriving DecidableEq, Repr

/-! ## `internal/config/digest.go` -/

/-- Struct `config.DigestConfig`. -/
structure DigestConfig where
  DatabaseURL : String
  AIApiURL : String
  AIApiKey : String
  AIModel : String
  AICacheInputLimit : Int
  AIDigestInputLimit : Int
  AIDailyDigestPrompt : String
  AIWeeklyDigestPrompt : String
  AIMonthlyDigestPrompt : String
  AIQuarterlyDigestPrompt : String
  AICommentCachePrompt : String
  AIIssueCachePrompt : String
deriving DecidableEq, Repr

/-! ## Collaborators outside the repository -/

/-- Library and run-time behaviour the embedded code relies on without fixing
it: `sort.Slice` with its `less` function, the order in which `range` visits a
map, the `encoding/csv` writer (records to text, or the writer's error) and
`time.Time.Format("2006-01-02")`. -/
structure Runtime where
  sortSlice : {α : Type} → (α → α → Bool) → List α → List α
  mapRange : {κ ν : Type} → List (κ × ν) → List (κ × ν)
  csvWrite : List (List String) → Except GoError String
  formatDate : Int → String

/-- An `*http.Request` as `GetAISummary` builds it. -/
structure HTTPRequest where
  Method : String
  URL : String
  Body : String
  Header : List (String × String)
deriving DecidableEq, Repr

/-- An `*http.Response`: the status code and what `io.ReadAll(resp.Body)`
yields. -/
structure HTTPResponse where
  StatusCode : Int
  Body : Except GoError String

/-- The network side of `GetAISummary`: `json.Marshal` of the request payload
(model, instructions, input), `http.NewRequest`, `http.DefaultClient.Do` and
`json.Unmarshal` of the response bytes into the `output` list. -/
structure AIGateway (Output : Type) where
  marshal : String → String → String → Except GoError String
  newRequest : String → String → String → Except GoError HTTPRequest
  doRequest : HTTPRequest → Except GoError HTTPResponse
  unmarshal : String → Except GoError Output

/-! ## `internal/utils/csv.go` -/

/-- Function `PtrToString` of `misc.go`. -/
def PtrToString (s : Option String) : String :=
  match s with
  | none => ""
  | some v => v

/-- Function `SummariesToCSV`. -/
def SummariesToCSV (rt : Runtime) (summaries : List SummaryRow) (withDates : Bool) :
    Except GoError String :=
  if withDates then
    rt.csvWrite (["summary_date", "category", "prompt", "n_comments", "summary"] ::
      summaries.map (fun s =>
        [rt.formatDate s.SummaryDate, s.Category, s.Prompt, toString s.NComments, s.Summary]))
  else
    rt.csvWrite (["category", "prompt", "n_comments", "summary"] ::
      summaries.map (fun s => [s.Category, s.Prompt, toString s.NComments, s.Summary]))

/-- Function `FeedbackToCSV`. -/
def FeedbackToCSV (rt : Runtime) (feedbacks : List Feedback) : Except GoError String :=
  match feedbacks with
  | [] => .ok ""
  | first :: _ =>
    rt.csvWrite (["prompt"] :: [first.Prompt] :: [] :: ["comment", "user_id"] ::
      feedbacks.map (fun f => [PtrToString f.Comment, f.UserID]))

/-! ## `internal/integrations/aiapi.go` -/

/-- An element of `content` in the decoded response (field `Type` is `Typ`
here). -/
structure ContentPart where
  Typ : String
  Text : String
deriving DecidableEq, Repr

/-- An element of `output` in the decoded response. -/
structure OutputItem where
  Typ : String
  ID : String
  Status : String
  Role : String
  Content : List ContentPart
deriving DecidableEq, Repr

/-- The inner loop of `GetAISummary`, over `msg.Content`. -/
def scanContent : List ContentPart → Option String
  | [] => none
  | part :: rest => if part.Typ = "output_text" then some part.Text else scanContent rest

/-- The outer loop of `GetAISummary`, over `result.Output`, and the final
`return` after it. -/
def scanOutput : List OutputItem → Except GoError String
  | [] => .error (.errorf "no output_text segment found" [])
  | msg :: rest =>
    if msg.Typ ≠ "message" ∨ msg.Status ≠ "completed" ∨ msg.Role ≠ "assistant" then
      scanOutput rest
    else
      match scanContent msg.Content with
      | some text => .ok text
      | none => scanOutput rest

/-- Function `GetAISummary`. -/
def GetAISummary (gw : AIGateway (List OutputItem))
    (apiURL apiKey aiModel aiPrompt csvData : String) : Except GoError String :=
  match gw.marshal aiModel aiPrompt csvData with
  | .error err => .error (.wrapf "failed to marshal payload: %w" [] err)
  | .ok body =>
    match gw.newRequest "POST" apiURL body with
    | .error err => .error (.wrapf "failed to create request: %w" [] err)
    | .ok req =>
      let req := { req with Header := req.Header ++
        [("Content-Type", "application/json"), ("Authorization", "Bearer " ++ apiKey)] }
      match gw.doRequest req with
      | .error err => .error (.wrapf "call error: %w" [] err)
      | .ok resp =>
        match resp.Body with
        | .error err => .error (.wrapf "read error: %w" [] err)
        | .ok respBytes =>
          if resp.StatusCode ≠ 200 then
            .error (.errorf "AI API error %d: %s" [toString resp.StatusCode, respBytes])
          else
            match gw.unmarshal respBytes with
            | .error err => .error (.wrapf "unmarshal error: %w" [] err)
            | .ok output => scanOutput output

/-- The response text the interface description promises: the text of the first
`output_text` content item, in document order, among the output entries that
are completed assistant messages. -/
def firstAssistantText (output : List OutputItem) : Option String :=
  ((((output.filter (fun msg =>
      msg.Typ = "message" ∧ msg.Status = "completed" ∧ msg.Role = "assistant")).map
    (fun msg => msg.Content)).flatten.filter (fun part => part.Typ = "output_text")).head?).map
    (fun part => part.Text)

/-! ## `internal/utils/misc.go` -/

/-- The value of `math.Round`: an integral float, kept as sign and magnitude
because Go rounds `-0.1` to negative zero. -/
structure RoundedFloat where
  neg : Bool
  mag : Nat
deriving DecidableEq, Repr

/-- Library function `math.Round`: the nearest integer, halves away from zero,
with the sign of the argument. -/
def mathRound (val : ℚ) : RoundedFloat :=
  { neg := decide (val < 0), mag := (2 * val.num.natAbs + val.den) / (2 * val.den) }

/-- The format `fmt.Sprintf("%+.0f", x)` at an integral `x`. -/
def sprintfSigned (x : RoundedFloat) : String :=
  (if x.neg then "-" else "+") ++ toString x.mag

/-- Function `FormatDelta`. -/
def FormatDelta (val : ℚ) : String :=
  if val = 0 then "-" else sprintfSigned (mathRound val)

/-- Function `RoundFloat`. -/
def RoundFloat (val : ℚ) : Int :=
  let r := mathRound val
  if r.neg then -(r.mag : Int) else (r.mag : Int)

/-! ## `internal/queries/feedback.go` -/

/-- The row of the aggregate subqueries `c` and `p` of the statistics
queries: three `COUNT`s over a period. -/
structure PeriodCounts where
  thumbs_up : Nat
  num_feedback : Nat
  num_comments : Nat
deriving DecidableEq, Repr

/-- The outer `SELECT` of `GetWeeklyFeedbackStats` and the `Scan` of its row
into `models.FeedbackStats`. -/
def selectFeedbackStats (c p : PeriodCounts) : FeedbackStats :=
  { ThumbsUpPct :=
      if c.num_feedback > 0 then 100 * (c.thumbs_up : ℚ) / (c.num_feedback : ℚ) else 0
    PrevThumbsUpPct :=
      if p.num_feedback > 0 then 100 * (p.thumbs_up : ℚ) / (p.num_feedback : ℚ) else 0
    NFeedback := c.num_feedback
    PrevNFeedback := p.num_feedback
    PrevNFeedbackDl :=
      if p.num_feedback > 0 then
        100 * ((c.num_feedback : ℚ) - (p.num_feedback : ℚ)) / (p.num_feedback : ℚ)
      else 0
    NComments := c.num_comments
    PrevCommentsDl :=
      if p.num_comments > 0 then
        100 * ((c.num_comments : ℚ) - (p.num_comments : ℚ)) / (p.num_comments : ℚ)
      else 0 }

/-- Function `GetWeeklyFeedbackStats`; `counts` runs the two period subqueries
for a workspace, origin, category and prompt against the database. -/
def GetWeeklyFeedbackStats
    (counts : String → String → String → String → Except GoError (PeriodCounts × PeriodCounts))
    (workspace origin category prompt : String) : Except GoError FeedbackStats :=
  match counts workspace origin category prompt with
  | .error err => .error err
  | .ok (c, p) => .ok (selectFeedbackStats c p)

/-! ## Traces -/

/-- One call of `GetAISummary` made for a cohort: the cohort's key, the
instruction prompt, the rows that were encoded and the CSV text handed over. -/
structure SummarizerCall (κ ρ : Type) where
  key : κ
  instructions : String
  rows : List ρ
  csv : String
deriving DecidableEq, Repr

/-- The arguments of one `queries.InsertSummary` call. -/
structure SummaryInsert where
  workspace : String
  prompt : String
  origin : String
  category : String
  nComments : Int
  summary : String
deriving DecidableEq, Repr

/-! ## `internal/cronjobs/cache.go` -/

/-- What `processFeedbackGroup` reaches outside the process: the random source
of its `rand.Shuffle`, the summarizer endpoint and the `INSERT` of
`queries.InsertSummary`. -/
structure CacheWorld where
  draw : Nat → Nat
  gateway : AIGateway (List OutputItem)
  insertSummary : SummaryInsert → Option GoError

/-- A run of `processFeedbackGroup`: the summarizer calls and inserts it made
and the error it returned. -/
structure CacheRun where
  calls : List (SummarizerCall FeedbackGroup Feedback)
  inserts : List SummaryInsert
  err : Option GoError

/-- Function `GroupFeedback`. -/
def GroupFeedback (feedbacks : List Feedback) : GoMap FeedbackGroup (List Feedback) :=
  feedbacks.foldl
    (fun groups f =>
      let key : FeedbackGroup := { Prompt := f.Prompt, Origin := f.Origin, Category := f.Category }
      groups.set key (groups.get key [] ++ [f]))
    GoMap.empty

/-- Function `processFeedbackGroup`; `none` is a run-time panic. -/
def processFeedbackGroup (rt : Runtime) (w : CacheWorld) (cfg : DigestConfig)
    (workspace : String) (key : FeedbackGroup) (group : List Feedback) : Option CacheRun :=
  let maxRows := cfg.AICacheInputLimit
  let originalLen := group.length
  let sampled : Option (List Feedback) :=
    if (originalLen : Int) > maxRows then
      sliceTo (Shuffle w.draw originalLen group) maxRows
    else some group
  match sampled with
  | none => none
  | some group =>
    match FeedbackToCSV rt group with
    | .error err => some ⟨[], [], some err⟩
    | .ok csvData =>
      let call : SummarizerCall FeedbackGroup Feedback :=
        ⟨key, cfg.AICommentCachePrompt, group, csvData⟩
      match GetAISummary w.gateway cfg.AIApiURL cfg.AIApiKey cfg.AIModel
          cfg.AICommentCachePrompt csvData with
      | .error err => some ⟨[call], [], some err⟩
      | .ok summary =>
        let row : SummaryInsert :=
          ⟨workspace, key.Prompt, key.Origin, key.Category, (group.length : Int), summary⟩
        match w.insertSummary row with
        | some err => some ⟨[call], [row], some err⟩
        | none => some ⟨[call], [row], none⟩

/-! ## `internal/digests/weekly.go` -/

/-- What one iteration of a digest loop reaches outside the process: the random
source of its `rand.Shuffle`, the summarizer endpoint and the two period
subqueries of the statistics query. -/
structure DigestWorld where
  draw : Nat → Nat
  gateway : AIGateway (List OutputItem)
  weeklyCounts : String → String → String → String → Except GoError (PeriodCounts × PeriodCounts)

/-- The variables of `prepareWeeklyDigestData` that its loop updates, together
with the summarizer calls made so far. -/
structure WeeklyState where
  summaryMap : GoMap FeedbackGroup (List SummaryRow)
  digestBlocks : List WeeklyDigestData
  calls : List (SummarizerCall FeedbackGroup SummaryRow)

/-- The digest entry `prepareWeeklyDigestData` appends for a group, from the
statistics and the digest text. -/
def weeklyDigestEntry (g : FeedbackGroup) (stats : FeedbackStats) (digest : String) :
    WeeklyDigestData :=
  let scoreDelta :=
    if stats.PrevNFeedback > 0 then FormatDelta (stats.ThumbsUpPct - stats.PrevThumbsUpPct)
    else "-"
  { Origin := g.Origin
    Category := g.Category
    Prompt := g.Prompt
    Score := RoundFloat stats.ThumbsUpPct
    ScoreDelta := scoreDelta
    NResponses := stats.NFeedback
    NResponsesDelta := FormatDelta stats.PrevNFeedbackDl
    NComments := stats.NComments
    NCommentsDelta := FormatDelta stats.PrevCommentsDl
    Digest := digest }

/-- The body of the loop `for _, g := range groups` of
`prepareWeeklyDigestData`. The shuffle works in place on the array that the
map entry also refers to, so the shuffled rows are written back under the key.
The error, if any, is the one the function returns; `none` is a run-time
panic. -/
def weeklyGroupStep (rt : Runtime) (w : DigestWorld) (cfg : DigestConfig) (workspace : String)
    (g : FeedbackGroup) (st : WeeklyState) : Option (WeeklyState × Option GoError) :=
  let maxRows := cfg.AIDigestInputLimit
  let key : FeedbackGroup := { Origin := g.Origin, Category := g.Category, Prompt := g.Prompt }
  let groupSummaries := st.summaryMap.get key []
  let groupLen := groupSummaries.length
  let sampled : Option (GoMap FeedbackGroup (List SummaryRow) × List SummaryRow) :=
    if (groupLen : Int) > maxRows then
      let shuffled := Shuffle w.draw groupLen groupSummaries
      (sliceTo shuffled maxRows).map (fun cut => (st.summaryMap.set key shuffled, cut))
    else some (st.summaryMap, groupSummaries)
  match sampled with
  | none => none
  | some (summaryMap, groupSummaries) =>
    let st : WeeklyState := { st with summaryMap := summaryMap }
    let summarized : WeeklyState × Except GoError String :=
      if groupLen > 0 then
        match SummariesToCSV rt groupSummaries false with
        | .error err =>
          (st, .error (.wrapf
            "failed to generate CSV for workspace %s, origin %s, category %s, prompt %s: %w"
            [workspace, g.Origin, g.Category, g.Prompt] err))
        | .ok csvData =>
          let st : WeeklyState := { st with calls := st.calls ++
            [⟨key, cfg.AIWeeklyDigestPrompt, groupSummaries, csvData⟩] }
          match GetAISummary w.gateway cfg.AIApiURL cfg.AIApiKey cfg.AIModel
              cfg.AIWeeklyDigestPrompt csvData with
          | .error err =>
            (st, .error (.wrapf
              "AI job failed for workspace %s, origin %s, category %s, prompt %s: %w"
              [workspace, g.Origin, g.Category, g.Prompt] err))
          | .ok digest => (st, .ok digest)
      else (st, .ok "No comments to summarize")
    match summarized with
    | (st, .error err) => some (st, some err)
    | (st, .ok digest) =>
      match GetWeeklyFeedbackStats w.weeklyCounts workspace g.Origin g.Category g.Prompt with
      | .error err =>
        some (st, some (.wrapf
          "failed to get stats for workspace %s, origin %s, category %s, prompt %s: %w"
          [workspace, g.Origin, g.Category, g.Prompt] err))
      | .ok stats =>
        some ({ st with digestBlocks := st.digestBlocks ++ [weeklyDigestEntry g stats digest] },
          none)

/-- The loop `for _, g := range groups` of `prepareWeeklyDigestData`; iteration
number `k` meets the outside world `world k`. -/
def weeklyLoop (rt : Runtime) (world : Nat → DigestWorld) (cfg : DigestConfig)
    (workspace : String) :
    Nat → List FeedbackGroup → WeeklyState → Option (WeeklyState × Option GoError)
  | _, [], st => some (st, none)
  | k, g :: rest, st =>
    match weeklyGroupStep rt (world k) cfg workspace g st with
    | none => none
    | some (st, some err) => some (st, some err)
    | some (st, none) => weeklyLoop rt world cfg workspace (k + 1) rest st

/-- The `less` function of the `sort.Slice` call in `prepareWeeklyDigestData`. -/
def weeklyLess (a b : WeeklyDigestData) : Bool :=
  if a.Origin ≠ b.Origin then decide (a.Origin < b.Origin)
  else if a.Category ≠ b.Category then decide (a.Category < b.Category)
  else decide (a.Prompt < b.Prompt)

/-- Function `prepareWeeklyDigestData`: the summarizer calls it made and the
value it returned; `none` is a run-time panic. -/
def prepareWeeklyDigestData (rt : Runtime) (world : Nat → DigestWorld) (cfg : DigestConfig)
    (groups : List FeedbackGroup) (summaries : List SummaryRow) (workspace : String) :
    Option (List (SummarizerCall FeedbackGroup SummaryRow) ×
      Except GoError (List WeeklyDigestData)) :=
  let summaryMap : GoMap FeedbackGroup (List SummaryRow) :=
    summaries.foldl
      (fun m s =>
        let key : FeedbackGroup := { Origin := s.Origin, Category := s.Category, Prompt := s.Prompt }
        m.set key (m.get key [] ++ [s]))
      GoMap.empty
  match weeklyLoop rt world cfg workspace 0 groups ⟨summaryMap, [], []⟩ with
  | none => none
  | some (st, some err) => some (st.calls, .error err)
  | some (st, none) => some (st.calls, .ok (rt.sortSlice weeklyLess st.digestBlocks))

/-! ## `internal/digests/daily.go` -/

/-- The variables of `prepareDailyDigestData` that its loop updates, together
with the summarizer calls made so far. -/
structure DailyState where
  digestBlocks : List DailyDigestData
  calls : List (SummarizerCall String SummaryRow)

/-- The body of the loop `for origin, group := range originMap` of
`prepareDailyDigestData`. -/
def dailyGroupStep (rt : Runtime) (w : DigestWorld) (cfg : DigestConfig) (workspace : String)
    (origin : String) (group : List SummaryRow) (st : DailyState) :
    Option (DailyState × Option GoError) :=
  let maxRows := cfg.AIDigestInputLimit
  let originalLen := group.length
  let sampled : Option (List SummaryRow) :=
    if (originalLen : Int) > maxRows then
      sliceTo (Shuffle w.draw originalLen group) maxRows
    else some group
  match sampled with
  | none => none
  | some group =>
    match SummariesToCSV rt group false with
    | .error err =>
      some (st, some (.wrapf "failed to generate CSV for workspace %s, origin %s: %w"
        [workspace, origin] err))
    | .ok csvData =>
      let st : DailyState := { st with calls := st.calls ++
        [⟨origin, cfg.AIDailyDigestPrompt, group, csvData⟩] }
      match GetAISummary w.gateway cfg.AIApiURL cfg.AIApiKey cfg.AIModel
          cfg.AIDailyDigestPrompt csvData with
      | .error err =>
        some (st, some (.wrapf "AI job failed for workspace %s, origin %s: %w"
          [workspace, origin] err))
      | .ok digest =>
        let nComments := group.foldl (fun n s => n + s.NComments) 0
        some ({ st with digestBlocks := st.digestBlocks ++
          [{ Origin := origin, NComments := nComments, Digest := digest }] }, none)

/-- The loop `for origin, group := range originMap` of
`prepareDailyDigestData`, over the entries in the order `range` yields them. -/
def dailyLoop (rt : Runtime) (world : Nat → DigestWorld) (cfg : DigestConfig)
    (workspace : String) :
    Nat → List (String × List SummaryRow) → DailyState → Option (DailyState × Option GoError)
  | _, [], st => some (st, none)
  | k, (origin, group) :: rest, st =>
    match dailyGroupStep rt (world k) cfg workspace origin group st with
    | none => none
    | some (st, some err) => some (st, some err)
    | some (st, none) => dailyLoop rt world cfg workspace (k + 1) rest st

/-- The `less` function of the `sort.Slice` call in `prepareDailyDigestData`. -/
def dailyLess (a b : DailyDigestData) : Bool :=
  decide (a.Origin < b.Origin)

/-- Function `prepareDailyDigestData`: the summarizer calls it made and the
value it returned; `none` is a run-time panic. -/
def prepareDailyDigestData (rt : Runtime) (world : Nat → DigestWorld) (cfg : DigestConfig)
    (summaries : List SummaryRow) (workspace : String) :
    Option (List (SummarizerCall String SummaryRow) × Except GoError (List DailyDigestData)) :=
  let originMap : GoMap String (List SummaryRow) :=
    summaries.foldl (fun m s => m.set s.Origin (m.get s.Origin [] ++ [s])) GoMap.empty
  match dailyLoop rt world cfg workspace 0 (rt.mapRange originMap.entries) ⟨[], []⟩ with
  | none => none
  | some (st, some err) => some (st.calls, .error err)
  | some (st, none) => some (st.calls, .ok (rt.sortSlice dailyLess st.digestBlocks))

/-! ## `internal/digests/monthly.go` and `internal/digests/quarterly.go` -/

/-- What chart generation reaches outside the process: the two plot statistics
queries, the clock (`time.Now().UnixNano()`), `integrations.PlotAPlot`,
`integrations.UploadFileToSlack` and `os.Remove`. -/
structure GraphWorld where
  monthlyPlotStats : String → String → String → Except GoError (List PlotStats)
  quarterlyPlotStats : String → String → Except GoError (List PlotStats)
  nowUnixNano : Int
  plotAPlot : List PlotStats → String → Option GoError
  uploadFileToSlack : String → String → String → String → String → Except GoError String
  remove : String → Option GoError

/-- An action of chart generation on the outside world. -/
inductive GraphEvent where
  | plot (stats : List PlotStats) (filePath : String)
  | upload (botToken channel filePath title initialComment : String)
  | remove (filePath : String)
deriving DecidableEq, Repr

/-- A run of a chart function: its actions in order and its two results. -/
structure GraphRun where
  events : List GraphEvent
  url : String
  err : Option GoError
deriving DecidableEq, Repr

/-- Function `GenerateAndUploadMonthlyGraph`. -/
def GenerateAndUploadMonthlyGraph (w : GraphWorld)
    (botToken channel workspace origin category : String) : GraphRun :=
  match w.monthlyPlotStats workspace origin category with
  | .error err => ⟨[], "", some (.wrapf "failed to get plot stats: %w" [] err)⟩
  | .ok stats =>
    if stats.length < 3 then
      ⟨[], "", some (.errorf "no stats for origin %s and category %s" [origin, category])⟩
    else
      let filePath := "plot_" ++ toString w.nowUnixNano ++ ".png"
      match w.plotAPlot stats filePath with
      | some err =>
        ⟨[.plot stats filePath, .remove filePath], "",
          some (.wrapf "failed to plot graph: %w" [] err)⟩
      | none =>
        let title := "Quarterly graph for " ++ origin
        match w.uploadFileToSlack botToken channel filePath title "" with
        | .error err =>
          ⟨[.plot stats filePath, .upload botToken channel filePath title "", .remove filePath],
            "", some (.wrapf "failed to upload file to Slack: %w" [] err)⟩
        | .ok url =>
          ⟨[.plot stats filePath, .upload botToken channel filePath title "", .remove filePath],
            url, none⟩

/-- Function `GenerateAndUploadQuarterlyGraph`. -/
def GenerateAndUploadQuarterlyGraph (w : GraphWorld)
    (botToken channel workspace origin : String) : GraphRun :=
  match w.quarterlyPlotStats workspace origin with
  | .error err => ⟨[], "", some (.wrapf "failed to get plot stats: %w" [] err)⟩
  | .ok stats =>
    if stats.length < 3 then
      ⟨[], "", some (.errorf "not enough stats for origin %s" [origin])⟩
    else
      let filePath := "plot_" ++ toString w.nowUnixNano ++ ".png"
      match w.plotAPlot stats filePath with
      | some err =>
        ⟨[.plot stats filePath, .remove filePath], "",
          some (.wrapf "failed to plot graph: %w" [] err)⟩
      | none =>
        let title := "Quarterly graph for " ++ origin
        match w.uploadFileToSlack botToken channel filePath title "" with
        | .error err =>
          ⟨[.plot stats filePath, .upload botToken channel filePath title "", .remove filePath],
            "", some (.wrapf "failed to upload file to Slack: %w" [] err)⟩
        | .ok url =>
          ⟨[.plot stats filePath, .upload botToken channel filePath title "", .remove filePath],
            url, none⟩

/-! ## Cohorts and sampling, as the design describes them -/

/-- The cohort of a key in the weekly digest: the summary rows that carry the
key's origin, category and prompt, in input order. -/
def weeklyCohort (summaries : List SummaryRow) (key : FeedbackGroup) : List SummaryRow :=
  summaries.filter (fun s =>
    s.Origin = key.Origin ∧ s.Category = key.Category ∧ s.Prompt = key.Prompt)

/-- The cohort of an origin in the daily digest: the summary rows of that
origin, in input order. -/
def dailyCohort (summaries : List SummaryRow) (origin : String) : List SummaryRow :=
  summaries.filter (fun s => s.Origin = origin)

/-- The contract of the sampling limiter for a cohort, the rows handed on and
the limit `M`: a cohort of more than `M` rows is cut to exactly `M` of its own
rows, each used no more often than it occurs; a cohort of at most `M` rows is
handed on unchanged. -/
def SampleOf {α : Type} (M : Int) (cohort rows : List α) : Prop :=
  ((cohort.length : Int) > M → (rows.length : Int) = M ∧ rows.Subperm cohort) ∧
  ((cohort.length : Int) ≤ M → rows = cohort)

/-- The invariant of the weekly loop: every map entry holds its cohort, in
some order, and in input order when the cohort is within the limit; every
summarizer call made so far got a sample of the cohort of its key. -/
def WeeklyInv (M : Int) (summaries : List SummaryRow) (st : WeeklyState) : Prop :=
  (∀ key, (st.summaryMap.get key []).Perm (weeklyCohort summaries key)) ∧
  (∀ key, ((weeklyCohort summaries key).length : Int) ≤ M →
    st.summaryMap.get key [] = weeklyCohort summaries key) ∧
  (∀ call ∈ st.calls, SampleOf M (weeklyCohort summaries call.key) call.rows)

/-! ## The delta rendering, as the design describes it -/

/-- The sign-prefixed rounded value of a rational: the sign of the value, then
its magnitude rounded to the nearest integer. -/
def signedRounded (x : ℚ) : String :=
  (if x < 0 then "-" else "+") ++ toString (round |x|).toNat

/-- The percentage change from `previous` to `current`,
`100 * (current - previous) / previous`. -/
def deltaPct (current previous : Nat) : ℚ :=
  100 * ((current : ℚ) - (previous : ℚ)) / (previous : ℚ)

/-! ## Example inputs -/

/-- A runtime for examples: a stable merge sort for `sort.Slice`, maps visited
in insertion order, a CSV writer that joins fields with commas and records with
line breaks, and dates printed as their number. -/
def exampleRuntime : Runtime :=
  { sortSlice := fun less l => l.mergeSort (fun a b => !less b a)
    mapRange := fun l => l
    csvWrite := fun records =>
      .ok (String.intercalate "\n" (records.map (fun r => String.intercalate "," r)))
    formatDate := fun t => toString t }

/-- A summarizer endpoint for examples: it answers every request with status
200 and one completed assistant message. -/
def exampleGateway : AIGateway (List OutputItem) :=
  { marshal := fun _ _ input => .ok input
    newRequest := fun method url body => .ok ⟨method, url, body, []⟩
    doRequest := fun _ => .ok ⟨200, .ok "response"⟩
    unmarshal := fun _ =>
      .ok [⟨"reasoning", "r1", "completed", "assistant", []⟩,
        ⟨"message", "m1", "completed", "assistant",
          [⟨"refusal", "no"⟩, ⟨"output_text", "Users like it."⟩, ⟨"output_text", "second"⟩]⟩] }

/-- A configuration for examples, with both input limits at 1. -/
def exampleConfig : DigestConfig :=
  { DatabaseURL := "db", AIApiURL := "https://ai.example/v1/responses", AIApiKey := "key"
    AIModel := "model", AICacheInputLimit := 1, AIDigestInputLimit := 1
    AIDailyDigestPrompt := "daily", AIWeeklyDigestPrompt := "weekly"
    AIMonthlyDigestPrompt := "monthly", AIQuarterlyDigestPrompt := "quarterly"
    AICommentCachePrompt := "cache", AIIssueCachePrompt := "issues" }

/-- The outside world of a cache job step in examples. -/
def exampleCacheWorld : CacheWorld :=
  { draw := fun i => i + 1, gateway := exampleGateway, insertSummary := fun _ => none }

/-- The outside world of a digest iteration in examples; the statistics
subqueries count 20 responses, 15 approvals and 5 comments in the current
period and 10 responses, 4 approvals and 2 comments in the previous one. -/
def exampleDigestWorld : DigestWorld :=
  { draw := fun i => i + 1, gateway := exampleGateway
    weeklyCounts := fun _ _ _ _ => .ok (⟨15, 20, 5⟩, ⟨4, 10, 2⟩) }

/-- Two feedback rows of one cohort. -/
def exampleFeedback : List Feedback :=
  [⟨1, 100, "T1", "summarize", true, some "good", "docs", "api", true, "u1"⟩,
    ⟨2, 200, "T1", "summarize", false, some "slow", "docs", "api", true, "u2"⟩]

/-- Summary rows of two origins. -/
def exampleSummaries : List SummaryRow :=
  [⟨1, "docs", "api", "summarize", 2, "fine"⟩, ⟨2, "app", "ui", "rate", 1, "slow"⟩,
    ⟨3, "docs", "api", "summarize", 4, "better"⟩]

/-- The outside world of chart generation in examples: two monthly points for
the monthly chart, three for the quarterly one; plotting and upload succeed. -/
def exampleGraphWorld : GraphWorld :=
  { monthlyPlotStats := fun _ _ _ => .ok [⟨1, 50, 4, 1⟩, ⟨2, 75, 8, 2⟩]
    quarterlyPlotStats := fun _ _ => .ok [⟨1, 50, 4, 1⟩, ⟨2, 75, 8, 2⟩, ⟨3, 80, 10, 3⟩]
    nowUnixNano := 17
    plotAPlot := fun _ _ => none
    uploadFileToSlack := fun _ _ filePath _ _ => .ok ("https://files.example/" ++ filePath)
    remove := fun _ => none }

/-! ## `internal/models/models.go`, the digest side -/

/-- Struct `models.MonthlyDigestData`. -/
structure MonthlyDigestData where
  Origin : String
  Category : String
  Score : Int
  ScoreDelta : String
  NResponses : Int
  NResponsesDelta : String
  NComments : Int
  NCommentsDelta : String
  Digest : String
  GraphURL : String
deriving DecidableEq, Repr

/-- Struct `models.QuarterlyDigestData`. -/
structure QuarterlyDigestData where
  Origin : String
  Digest : String
  GraphURL : String
deriving DecidableEq, Repr

/-- Struct `models.WorkspaceChannel`. -/
structure WorkspaceChannel where
  Workspace : String
  Channel : String
deriving DecidableEq, Repr

/-- Type `models.DigestRange`, a string. -/
abbrev DigestRange := String

/-- Constant `models.Daily`. -/
def Daily : DigestRange := "1 day"

/-- Constant `models.Weekly`. -/
def Weekly : DigestRange := "7 days"

/-- Constant `models.Monthly`. -/
def Monthly : DigestRange := "1 month"

/-- Constant `models.Quarterly`. -/
def Quarterly : DigestRange := "3 months"

/-- A value of type `any` as the Block Kit templates build it: a string, a
`map[string]any` with its entries in the order of the source, or a slice. -/
inductive JSON where
  | str (s : String)
  | obj (fields : List (String × JSON))
  | arr (items : List JSON)

/-- Struct `models.DigestMessage`. -/
structure DigestMessage where
  BotToken : String
  Channel : String
  Blocks : List JSON
  Workspace : String

namespace JSON

/-- The read `m[key]` on a `map[string]any`. -/
def field? : JSON → String → Option JSON
  | obj fields, key => GoMap.lookup fields key
  | _, _ => none

/-- The entry `"type"` of a block, or the empty string. -/
def blockType (b : JSON) : String :=
  match b.field? "type" with
  | some (str t) => t
  | _ => ""

/-- The entry `"text"` of the text object of a block, or the empty string. -/
def blockText (b : JSON) : String :=
  match b.field? "text" with
  | some t =>
    match t.field? "text" with
    | some (str s) => s
    | _ => ""
  | none => ""

/-- The entry `"type"` of the text object of a block, or the empty string. -/
def blockTextType (b : JSON) : String :=
  match b.field? "text" with
  | some t => blockType t
  | none => ""

end JSON

/-! ## `internal/utils/misc.go`, the formatting side -/

/-- Function `Spacer`. -/
def Spacer : JSON :=
  .obj [("type", .str "section"),
    ("text", .obj [("type", .str "plain_text"), ("text", .str " ")])]

/-- Function `FormatDigestStats`; the three symbols are the characters of the
source file. -/
def FormatDigestStats (prompt : String) (score : Int) (scoreDelta : String) (nResponses : Int)
    (nResponsesDelta : String) (nComments : Int) (nCommentsDelta : String) : String :=
  "_" ++ prompt ++ "_\n\n\nðŸ‘   " ++ toString score ++ "% (" ++ scoreDelta ++
    "%)    ðŸ‘‹   " ++ toString nResponses ++ " (" ++ nResponsesDelta ++
    "%)    ðŸ’¬   " ++ toString nComments ++ " (" ++ nCommentsDelta ++ "%)"

/-! ## `internal/templates/digests` -/

/-- Function `DigestFooter`. -/
def DigestFooter : List JSON :=
  [.obj [("type", .str "divider")],
    .obj [("type", .str "actions"),
      ("elements", .arr [
        .obj [("type", .str "button"),
          ("text", .obj [("type", .str "plain_text"), ("text", .str "Explore Feedback")]),
          ("action_id", .str "explore_feedback")],
        .obj [("type", .str "button"),
          ("text", .obj [("type", .str "plain_text"), ("text", .str "Report an Issue")]),
          ("action_id", .str "report_issue")]])]]

/-- The block `{"type": "header", "text": {"type": "plain_text", "text": text}}`. -/
def headerBlock (text : String) : JSON :=
  .obj [("type", .str "header"), ("text", .obj [("type", .str "plain_text"), ("text", .str text)])]

/-- The block `{"type": "divider"}`. -/
def dividerBlock : JSON := .obj [("type", .str "divider")]

/-- The block `{"type": "section", "text": {"type": "mrkdwn", "text": text}}`. -/
def mrkdwnSection (text : String) : JSON :=
  .obj [("type", .str "section"), ("text", .obj [("type", .str "mrkdwn"), ("text", .str text)])]

/-- The block `{"type": "context", "elements": [{"type": "plain_text", "text": text}]}`. -/
def contextBlock (text : String) : JSON :=
  .obj [("type", .str "context"),
    ("elements", .arr [.obj [("type", .str "plain_text"), ("text", .str text)]])]

/-- The `rich_text` block that quotes a digest text. -/
def quoteBlock (text : String) : JSON :=
  .obj [("type", .str "rich_text"),
    ("elements", .arr [.obj [("type", .str "rich_text_quote"),
      ("elements", .arr [.obj [("type", .str "text"), ("text", .str text)]])]])]

/-- The block `{"type": "image", "image_url": url, "alt_text": alt}`. -/
def imageBlock (url alt : String) : JSON :=
  .obj [("type", .str "image"), ("image_url", .str url), ("alt_text", .str alt)]

/-- Function `DailyBlockText`. -/
def DailyBlockText (origin : String) (nComments : Int) (commentWord : String) : String :=
  "*" ++ origin ++ "* _(" ++ toString nComments ++ " new " ++ commentWord ++ ")_"

/-- Function `MonthlyBlockText`. -/
def MonthlyBlockText (category : String) (score : Int) (scoreDelta : String) (nResponses : Int)
    (nResponsesDelta : String) (nComments : Int) (nCommentsDelta : String) : String :=
  "*" ++ category ++ "*\n\n\n👍   " ++ toString score ++ "% (" ++ scoreDelta ++
    "%)    👋   " ++ toString nResponses ++ " (" ++ nResponsesDelta ++
    "%)    💬   " ++ toString nComments ++ " (" ++ nCommentsDelta ++ "%)"

/-- Function `BuildDailyDigestBlocks`. -/
def BuildDailyDigestBlocks (digests : List DailyDigestData) : List JSON :=
  let blocks := [headerBlock "Daily Digest  ☀️"]
  let blocks :=
    if digests.length = 0 then
      blocks ++ [mrkdwnSection "_No new comments in the last 24 hours_"]
    else
      digests.foldl
        (fun blocks d =>
          let commentWord := if d.NComments = 1 then "comment" else "comments"
          blocks ++ [mrkdwnSection (DailyBlockText d.Origin d.NComments commentWord),
            quoteBlock d.Digest])
        blocks
  blocks ++ DigestFooter

/-- The variables that the loop of `BuildWeeklyDigestBlocks` updates. -/
structure WeeklyBlocksState where
  blocks : List JSON
  lastOrigin : String
  lastCategory : String

/-- The body of the loop `for _, d := range digests` of
`BuildWeeklyDigestBlocks`. -/
def weeklyBlocksStep (st : WeeklyBlocksState) (d : WeeklyDigestData) : WeeklyBlocksState :=
  let st : WeeklyBlocksState :=
    if d.Origin ≠ st.lastOrigin then
      { blocks := st.blocks ++ [headerBlock d.Origin, Spacer]
        lastOrigin := d.Origin
        lastCategory := "" }
    else st
  let st : WeeklyBlocksState :=
    if d.Category ≠ st.lastCategory then
      { st with
        blocks := st.blocks ++
          [dividerBlock, mrkdwnSection ("*" ++ d.Category ++ "*"), Spacer]
        lastCategory := d.Category }
    else st
  { st with
    blocks := st.blocks ++
      [mrkdwnSection (FormatDigestStats d.Prompt d.Score d.ScoreDelta d.NResponses
          d.NResponsesDelta d.NComments d.NCommentsDelta),
        Spacer, quoteBlock d.Digest, Spacer] }

/-- Function `BuildWeeklyDigestBlocks`. -/
def BuildWeeklyDigestBlocks (digests : List WeeklyDigestData) : List JSON :=
  let blocks := [Spacer, headerBlock "Weekly Digest  🚀", Spacer]
  let st := digests.foldl weeklyBlocksStep ⟨blocks, "", ""⟩
  st.blocks ++ DigestFooter

/-- The variables that the loop of `BuildMonthlyDigestBlocks` updates. -/
structure MonthlyBlocksState where
  blocks : List JSON
  lastOrigin : String

/-- The body of the loop `for _, d := range digests` of
`BuildMonthlyDigestBlocks`. -/
def monthlyBlocksStep (st : MonthlyBlocksState) (d : MonthlyDigestData) : MonthlyBlocksState :=
  let st : MonthlyBlocksState :=
    if d.Origin ≠ st.lastOrigin then
      { blocks := st.blocks ++ [dividerBlock, headerBlock d.Origin], lastOrigin := d.Origin }
    else st
  let blocks := st.blocks ++
    [Spacer,
      mrkdwnSection (MonthlyBlockText d.Category d.Score d.ScoreDelta d.NResponses
        d.NResponsesDelta d.NComments d.NCommentsDelta),
      Spacer, quoteBlock d.Digest]
  let blocks := if d.GraphURL ≠ "" then blocks ++ [imageBlock d.GraphURL d.Category] else blocks
  { st with blocks := blocks ++ [Spacer] }

/-- Function `BuildMonthlyDigestBlocks`. -/
def BuildMonthlyDigestBlocks (digests : List MonthlyDigestData) (monthLabel : String) :
    List JSON :=
  let blocks := [Spacer, headerBlock "Monthly Digest  🌙", contextBlock monthLabel, Spacer]
  let st := digests.foldl monthlyBlocksStep ⟨blocks, ""⟩
  st.blocks ++ DigestFooter

/-- Function `BuildQuarterlyDigestBlocks`. -/
def BuildQuarterlyDigestBlocks (digests : List QuarterlyDigestData) (quarterLabel : String) :
    List JSON :=
  let blocks := [Spacer, headerBlock "Quarterly Digest  📊", contextBlock quarterLabel, Spacer]
  let blocks := digests.foldl
    (fun blocks d =>
      let blocks := blocks ++ [dividerBlock, headerBlock d.Origin]
      let blocks := if d.GraphURL ≠ "" then blocks ++ [imageBlock d.GraphURL d.Origin] else blocks
      blocks ++ [Spacer, quoteBlock d.Digest, Spacer])
    blocks
  blocks ++ DigestFooter

/-! ## `internal/queries/feedback.go`, the monthly statistics -/

/-- Function `GetMonthlyFeedbackStats`; `counts` runs the two period
subqueries for a workspace, origin and category against the database. Its
outer `SELECT` is that of `GetWeeklyFeedbackStats`. -/
def GetMonthlyFeedbackStats
    (counts : String → String → String → Except GoError (PeriodCounts × PeriodCounts))
    (workspace origin category : String) : Except GoError FeedbackStats :=
  match counts workspace origin category with
  | .error err => .error err
  | .ok (c, p) => .ok (selectFeedbackStats c p)

/-! ## `internal/digests/monthly.go` -/

/-- The local type `groupKey` of `prepareMonthlyDigestData`. -/
structure groupKey where
  Origin : String
  Category : String
deriving DecidableEq, Repr

/-- What one iteration of the monthly or quarterly loop reaches outside the
process: the random source of its `rand.Shuffle`, the summarizer endpoint, the
two period subqueries of the monthly statistics query and the world of chart
generation. -/
structure ChartDigestWorld where
  draw : Nat → Nat
  gateway : AIGateway (List OutputItem)
  monthlyCounts : String → String → String → Except GoError (PeriodCounts × PeriodCounts)
  graph : GraphWorld

/-- The variables of `prepareMonthlyDigestData` that its loop updates, together
with the summarizer calls and the chart actions made so far. -/
structure MonthlyState where
  summaryMap : GoMap groupKey (List SummaryRow)
  digestBlocks : List MonthlyDigestData
  calls : List (SummarizerCall groupKey SummaryRow)
  events : List GraphEvent

/-- The digest entry `prepareMonthlyDigestData` appends for a group, from the
statistics, the digest text and the chart URL. -/
def monthlyDigestEntry (g : FeedbackGroup) (stats : FeedbackStats) (digest graphURL : String) :
    MonthlyDigestData :=
  let scoreDelta :=
    if stats.PrevNFeedback > 0 then FormatDelta (stats.ThumbsUpPct - stats.PrevThumbsUpPct)
    else "-"
  { Origin := g.Origin
    Category := g.Category
    Score := RoundFloat stats.ThumbsUpPct
    ScoreDelta := scoreDelta
    NResponses := stats.NFeedback
    NResponsesDelta := FormatDelta stats.PrevNFeedbackDl
    NComments := stats.NComments
    NCommentsDelta := FormatDelta stats.PrevCommentsDl
    Digest := digest
    GraphURL := graphURL }

/-- The body of the loop `for _, g := range groups` of
`prepareMonthlyDigestData`. The shuffle works in place on the array that the
map entry also refers to, so the shuffled rows are written back under the key.
The error, if any, is the one the function returns; `none` is a run-time
panic. -/
def monthlyGroupStep (rt : Runtime) (w : ChartDigestWorld) (cfg : DigestConfig)
    (workspace botToken channel : String) (g : FeedbackGroup) (st : MonthlyState) :
    Option (MonthlyState × Option GoError) :=
  let maxRows := cfg.AIDigestInputLimit
  let key : groupKey := { Origin := g.Origin, Category := g.Category }
  let groupSummaries := st.summaryMap.get key []
  let groupLen := groupSummaries.length
  let sampled : Option (GoMap groupKey (List SummaryRow) × List SummaryRow) :=
    if (groupLen : Int) > maxRows then
      let shuffled := Shuffle w.draw groupLen groupSummaries
      (sliceTo shuffled maxRows).map (fun cut => (st.summaryMap.set key shuffled, cut))
    else some (st.summaryMap, groupSummaries)
  match sampled with
  | none => none
  | some (summaryMap, groupSummaries) =>
    let st : MonthlyState := { st with summaryMap := summaryMap }
    let summarized : MonthlyState × Except GoError String :=
      if groupLen > 0 then
        match SummariesToCSV rt groupSummaries true with
        | .error err =>
          (st, .error (.wrapf
            "failed to generate CSV for workspace %s, origin %s, category %s: %w"
            [workspace, g.Origin, g.Category] err))
        | .ok csvData =>
          let st : MonthlyState := { st with calls := st.calls ++
            [⟨key, cfg.AIMonthlyDigestPrompt, groupSummaries, csvData⟩] }
          match GetAISummary w.gateway cfg.AIApiURL cfg.AIApiKey cfg.AIModel
              cfg.AIMonthlyDigestPrompt csvData with
          | .error err =>
            (st, .error (.wrapf "AI job failed for workspace %s, origin %s, category %s: %w"
              [workspace, g.Origin, g.Category] err))
          | .ok digest => (st, .ok digest)
      else (st, .ok "No comments to summarize")
    match summarized with
    | (st, .error err) => some (st, some err)
    | (st, .ok digest) =>
      match GetMonthlyFeedbackStats w.monthlyCounts workspace g.Origin g.Category with
      | .error err =>
        some (st, some (.wrapf
          "failed to get stats for workspace %s, origin %s, category %s: %w"
          [workspace, g.Origin, g.Category] err))
      | .ok stats =>
        let run := GenerateAndUploadMonthlyGraph w.graph botToken channel workspace g.Origin
          g.Category
        let st : MonthlyState := { st with events := st.events ++ run.events }
        match run.err with
        | some err =>
          some (st, some (.wrapf
            "failed to generate or upload graph for %s/%s of workspace %s: %w"
            [g.Origin, g.Category, workspace] err))
        | none =>
          some ({ st with digestBlocks := st.digestBlocks ++
            [monthlyDigestEntry g stats digest run.url] }, none)

/-- The loop `for _, g := range groups` of `prepareMonthlyDigestData`;
iteration number `k` meets the outside world `world k`. -/
def monthlyLoop (rt : Runtime) (world : Nat → ChartDigestWorld) (cfg : DigestConfig)
    (workspace botToken channel : String) :
    Nat → List FeedbackGroup → MonthlyState → Option (MonthlyState × Option GoError)
  | _, [], st => some (st, none)
  | k, g :: rest, st =>
    match monthlyGroupStep rt (world k) cfg workspace botToken channel g st with
    | none => none
    | some (st, some err) => some (st, some err)
    | some (st, none) => monthlyLoop rt world cfg workspace botToken channel (k + 1) rest st

/-- The `less` function of the `sort.Slice` call in `prepareMonthlyDigestData`. -/
def monthlyLess (a b : MonthlyDigestData) : Bool :=
  if a.Origin ≠ b.Origin then decide (a.Origin < b.Origin)
  else decide (a.Category < b.Category)

/-- A run of `prepareMonthlyDigestData` or `prepareQuarterlyDigestData`: the
summarizer calls and chart actions it made and the value it returned. -/
structure ChartDigestRun (κ δ : Type) where
  calls : List (SummarizerCall κ SummaryRow)
  events : List GraphEvent
  result : Except GoError (List δ)

/-- Function `prepareMonthlyDigestData`; `none` is a run-time panic. -/
def prepareMonthlyDigestData (rt : Runtime) (world : Nat → ChartDigestWorld)
    (cfg : DigestConfig) (groups : List FeedbackGroup) (summaries : List SummaryRow)
    (workspace botToken channel : String) :
    Option (ChartDigestRun groupKey MonthlyDigestData) :=
  let summaryMap : GoMap groupKey (List SummaryRow) :=
    summaries.foldl
      (fun m s =>
        let key : groupKey := { Origin := s.Origin, Category := s.Category }
        m.set key (m.get key [] ++ [s]))
      GoMap.empty
  match monthlyLoop rt world cfg workspace botToken channel 0 groups
      ⟨summaryMap, [], [], []⟩ with
  | none => none
  | some (st, some err) => some ⟨st.calls, st.events, .error err⟩
  | some (st, none) =>
    some ⟨st.calls, st.events, .ok (rt.sortSlice monthlyLess st.digestBlocks)⟩

/-! ## `internal/digests/quarterly.go` -/

/-- The variables of `prepareQuarterlyDigestData` that its loop updates,
together with the summarizer calls and the chart actions made so far. -/
structure QuarterlyState where
  summaryMap : GoMap String (List SummaryRow)
  digestBlocks : List QuarterlyDigestData
  calls : List (SummarizerCall String SummaryRow)
  events : List GraphEvent

/-- The body of the loop `for _, g := range groups` of
`prepareQuarterlyDigestData`, with the in-place shuffle written back to the
map. The error, if any, is the one the function returns; `none` is a run-time
panic. -/
def quarterlyGroupStep (rt : Runtime) (w : ChartDigestWorld) (cfg : DigestConfig)
    (workspace botToken channel : String) (g : FeedbackGroup) (st : QuarterlyState) :
    Option (QuarterlyState × Option GoError) :=
  let maxRows := cfg.AIDigestInputLimit
  let groupSummaries := st.summaryMap.get g.Origin []
  let groupLen := groupSummaries.length
  let sampled : Option (GoMap String (List SummaryRow) × List SummaryRow) :=
    if (groupLen : Int) > maxRows then
      let shuffled := Shuffle w.draw groupLen groupSummaries
      (sliceTo shuffled maxRows).map (fun cut => (st.summaryMap.set g.Origin shuffled, cut))
    else some (st.summaryMap, groupSummaries)
  match sampled with
  | none => none
  | some (summaryMap, groupSummaries) =>
    let st : QuarterlyState := { st with summaryMap := summaryMap }
    let summarized : QuarterlyState × Except GoError String :=
      if groupLen > 0 then
        match SummariesToCSV rt groupSummaries true with
        | .error err =>
          (st, .error (.wrapf "failed to generate CSV for workspace %s, origin %s: %w"
            [workspace, g.Origin] err))
        | .ok csvData =>
          let st : QuarterlyState := { st with calls := st.calls ++
            [⟨g.Origin, cfg.AIQuarterlyDigestPrompt, groupSummaries, csvData⟩] }
          match GetAISummary w.gateway cfg.AIApiURL cfg.AIApiKey cfg.AIModel
              cfg.AIQuarterlyDigestPrompt csvData with
          | .error err =>
            (st, .error (.wrapf "AI job failed for workspace %s, origin %s: %w"
              [workspace, g.Origin] err))
          | .ok digest => (st, .ok digest)
      else (st, .ok "No comments to summarize")
    match summarized with
    | (st, .error err) => some (st, some err)
    | (st, .ok digest) =>
      let run := GenerateAndUploadQuarterlyGraph w.graph botToken channel workspace g.Origin
      let st : QuarterlyState := { st with events := st.events ++ run.events }
      match run.err with
      | some err =>
        some (st, some (.wrapf "failed to generate or upload graph for %s of workspace %s: %w"
          [g.Origin, workspace] err))
      | none =>
        some ({ st with digestBlocks := st.digestBlocks ++
          [{ Origin := g.Origin, Digest := digest, GraphURL := run.url }] }, none)

/-- The loop `for _, g := range groups` of `prepareQuarterlyDigestData`;
iteration number `k` meets the outside world `world k`. -/
def quarterlyLoop (rt : Runtime) (world : Nat → ChartDigestWorld) (cfg : DigestConfig)
    (workspace botToken channel : String) :
    Nat → List FeedbackGroup → QuarterlyState → Option (QuarterlyState × Option GoError)
  | _, [], st => some (st, none)
  | k, g :: rest, st =>
    match quarterlyGroupStep rt (world k) cfg workspace botToken channel g st with
    | none => none
    | some (st, some err) => some (st, some err)
    | some (st, none) => quarterlyLoop rt world cfg workspace botToken channel (k + 1) rest st

/-- The `less` function of the `sort.Slice` call in
`prepareQuarterlyDigestData`. -/
def quarterlyLess (a b : QuarterlyDigestData) : Bool :=
  decide (a.Origin < b.Origin)

/-- Function `prepareQuarterlyDigestData`; `none` is a run-time panic. -/
def prepareQuarterlyDigestData (rt : Runtime) (world : Nat → ChartDigestWorld)
    (cfg : DigestConfig) (groups : List FeedbackGroup) (summaries : List SummaryRow)
    (workspace botToken channel : String) :
    Option (ChartDigestRun String QuarterlyDigestData) :=
  let summaryMap : GoMap String (List SummaryRow) :=
    summaries.foldl (fun m s => m.set s.Origin (m.get s.Origin [] ++ [s])) GoMap.empty
  match quarterlyLoop rt world cfg workspace botToken channel 0 groups
      ⟨summaryMap, [], [], []⟩ with
  | none => none
  | some (st, some err) => some ⟨st.calls, st.events, .error err⟩
  | some (st, none) =>
    some ⟨st.calls, st.events, .ok (rt.sortSlice quarterlyLess st.digestBlocks)⟩

/-! ## `internal/integrations/slack.go`, sending -/

/-- The decoded body of a `chat.postMessage` response. -/
structure SlackReply where
  OK : Bool
  Error : String
  Messages : List String
deriving DecidableEq, Repr

/-- The `*http.Response` of a `chat.postMessage` call: status code, status
text and what `json.NewDecoder(resp.Body).Decode` yields. -/
structure SlackResponse where
  StatusCode : Int
  Status : String
  Reply : Except GoError SlackReply

/-- The network side of `sendSingleMessage`: `json.Marshal` of the payload
(channel, blocks), `http.NewRequest` and `http.DefaultClient.Do`. -/
structure SlackGateway where
  marshal : String → List JSON → Except GoError String
  newRequest : String → String → String → Except GoError HTTPRequest
  doRequest : HTTPRequest → Except GoError SlackResponse

/-- What `SendBlockKitMessage` reaches outside the process: the length of the
JSON encoding that `chunkBlocks` measures, and the network at the call of
`sendSingleMessage` for chunk number `i`. -/
structure SlackWorld where
  marshalLen : String → List JSON → Nat
  gateway : Nat → SlackGateway

/-- Function `sendSingleMessage`. -/
def sendSingleMessage (gw : SlackGateway) (botToken channel : String) (blocks : List JSON) :
    Option GoError :=
  match gw.marshal channel blocks with
  | .error err => some (.wrapf "failed to marshal Slack payload: %w" [] err)
  | .ok body =>
    match gw.newRequest "POST" "https://slack.com/api/chat.postMessage" body with
    | .error err => some (.wrapf "failed to create Slack request: %w" [] err)
    | .ok req =>
      let req := { req with Header := req.Header ++
        [("Content-Type", "application/json"), ("Authorization", "Bearer " ++ botToken)] }
      match gw.doRequest req with
      | .error err => some (.wrapf "failed to send Slack request: %w" [] err)
      | .ok resp =>
        if resp.StatusCode ≠ 200 then
          some (.errorf "slack API returned status: %s" [resp.Status])
        else
          match resp.Reply with
          | .error err => some (.wrapf "failed to decode Slack response: %w" [] err)
          | .ok respBody =>
            if !respBody.OK then
              let metaMsg :=
                if respBody.Messages.length > 0 then
                  " Details: [" ++ String.intercalate " " respBody.Messages ++ "]"
                else ""
              some (.errorf "slack API error: %s.%s" [respBody.Error, metaMsg])
            else none

/-- A run of `SendBlockKitMessage`: the chunks `sendSingleMessage` was called
with, in order, and the error returned. -/
structure SendRun where
  attempts : List (List JSON)
  err : Option GoError

/-- The loop `for i, chunk := range chunks` of `SendBlockKitMessage`; `total`
is `len(chunks)`. -/
def sendChunks (gateway : Nat → SlackGateway) (botToken channel : String) (total : Nat) :
    Nat → List (List JSON) → List (List JSON) → SendRun
  | _, [], attempts => ⟨attempts, none⟩
  | i, chunk :: rest, attempts =>
    match sendSingleMessage (gateway i) botToken channel chunk with
    | some err =>
      ⟨attempts ++ [chunk],
        some (.wrapf "failed to send message part %d/%d: %w" [toString (i + 1), toString total]
          err)⟩
    | none => sendChunks gateway botToken channel total (i + 1) rest (attempts ++ [chunk])

/-- Function `SendBlockKitMessage`. -/
def SendBlockKitMessage (w : SlackWorld) (botToken channel : String) (blocks : List JSON) :
    SendRun :=
  let chunks := chunkBlocks w.marshalLen blocks channel
  sendChunks w.gateway botToken channel chunks.length 0 chunks []

/-! ## The per-workspace functions of `internal/digests` -/

/-- What building the digest of one workspace reaches outside the process: the
queries `GetFeedbackGroups`, `GetSummariesByWorkspace` and
`GetBotTokenForWorkspace`, the worlds of the iterations of the prepare
function, and the labels `utils.MonthLabel()` and `utils.QuarterLabel()`. -/
structure WorkspaceWorld where
  feedbackGroups : String → DigestRange → Except GoError (List FeedbackGroup)
  summariesByWorkspace : String → DigestRange → Except GoError (List SummaryRow)
  botToken : String → Except GoError String
  digest : Nat → DigestWorld
  chart : Nat → ChartDigestWorld
  monthLabel : String
  quarterLabel : String

/-- Function `processDailyDigest`: the blocks and the bot token, or the error;
`none` is a run-time panic. -/
def processDailyDigest (rt : Runtime) (w : WorkspaceWorld) (ws : WorkspaceChannel)
    (cfg : DigestConfig) : Option (Except GoError (List JSON × String)) :=
  match w.summariesByWorkspace ws.Workspace Daily with
  | .error err => some (.error (.wrapf "failed to get summaries: %w" [] err))
  | .ok summaries =>
    match prepareDailyDigestData rt w.digest cfg summaries ws.Workspace with
    | none => none
    | some (_, .error err) => some (.error err)
    | some (_, .ok digestBlocks) =>
      if digestBlocks.length = 0 then some (.ok ([], ""))
      else
        let blocks := BuildDailyDigestBlocks digestBlocks
        match w.botToken ws.Workspace with
        | .error err =>
          some (.error (.wrapf "no bot token found for workspace %s: %w" [ws.Workspace] err))
        | .ok botToken => some (.ok (blocks, botToken))

/-- Function `processWeeklyDigest`: the blocks and the bot token, or the error;
`none` is a run-time panic. -/
def processWeeklyDigest (rt : Runtime) (w : WorkspaceWorld) (ws : WorkspaceChannel)
    (cfg : DigestConfig) : Option (Except GoError (List JSON × String)) :=
  match w.feedbackGroups ws.Workspace Weekly with
  | .error err => some (.error (.wrapf "failed to get feedback groups: %w" [] err))
  | .ok groups =>
    if groups.length = 0 then some (.ok ([], ""))
    else
      match w.summariesByWorkspace ws.Workspace Weekly with
      | .error err => some (.error (.wrapf "failed to get summaries: %w" [] err))
      | .ok summaries =>
        match prepareWeeklyDigestData rt w.digest cfg groups summaries ws.Workspace with
        | none => none
        | some (_, .error err) => some (.error err)
        | some (_, .ok digestBlocks) =>
          if digestBlocks.length = 0 then some (.ok ([], ""))
          else
            let blocks := BuildWeeklyDigestBlocks digestBlocks
            match w.botToken ws.Workspace with
            | .error err =>
              some (.error (.wrapf "no bot token found for workspace %s: %w" [ws.Workspace] err))
            | .ok botToken => some (.ok (blocks, botToken))

/-- Function `processMonthlyDigest`: the blocks and the bot token, or the
error; `none` is a run-time panic. -/
def processMonthlyDigest (rt : Runtime) (w : WorkspaceWorld) (ws : WorkspaceChannel)
    (cfg : DigestConfig) : Option (Except GoError (List JSON × String)) :=
  match w.feedbackGroups ws.Workspace Monthly with
  | .error err => some (.error (.wrapf "failed to get feedback groups: %w" [] err))
  | .ok groups =>
    if groups.length = 0 then some (.ok ([], ""))
    else
      match w.summariesByWorkspace ws.Workspace Monthly with
      | .error err => some (.error (.wrapf "failed to get summaries: %w" [] err))
      | .ok summaries =>
        match w.botToken ws.Workspace with
        | .error err =>
          some (.error (.wrapf "no bot token found for workspace %s: %w" [ws.Workspace] err))
        | .ok botToken =>
          match prepareMonthlyDigestData rt w.chart cfg groups summaries ws.Workspace botToken
              ws.Channel with
          | none => none
          | some run =>
            match run.result with
            | .error err => some (.error err)
            | .ok digestBlocks =>
              if digestBlocks.length = 0 then some (.ok ([], botToken))
              else some (.ok (BuildMonthlyDigestBlocks digestBlocks w.monthLabel, botToken))

/-- Function `processQuarterlyDigest`: the blocks and the bot token, or the
error; `none` is a run-time panic. -/
def processQuarterlyDigest (rt : Runtime) (w : WorkspaceWorld) (ws : WorkspaceChannel)
    (cfg : DigestConfig) : Option (Except GoError (List JSON × String)) :=
  match w.feedbackGroups ws.Workspace Quarterly with
  | .error err => some (.error (.wrapf "failed to get feedback groups: %w" [] err))
  | .ok groups =>
    if groups.length = 0 then some (.ok ([], ""))
    else
      match w.summariesByWorkspace ws.Workspace Quarterly with
      | .error err => some (.error (.wrapf "failed to get summaries: %w" [] err))
      | .ok summaries =>
        match w.botToken ws.Workspace with
        | .error err =>
          some (.error (.wrapf "no bot token found for workspace %s: %w" [ws.Workspace] err))
        | .ok botToken =>
          match prepareQuarterlyDigestData rt w.chart cfg groups summaries ws.Workspace
              botToken ws.Channel with
          | none => none
          | some run =>
            match run.result with
            | .error err => some (.error err)
            | .ok digestBlocks =>
              if digestBlocks.length = 0 then some (.ok ([], botToken))
              else some (.ok (BuildQuarterlyDigestBlocks digestBlocks w.quarterLabel, botToken))

/-! ## The orchestrators of `internal/digests` -/

/-- What a cadence run reaches outside the process: the query
`GetActiveWorkspacesAndChannels`, the world while workspace number `i` is
built and the world while message number `j` is sent. -/
structure RunWorld where
  activeWorkspaces : DigestRange → Except GoError (List WorkspaceChannel)
  workspace : Nat → WorkspaceWorld
  slack : Nat → SlackWorld

/-- An action of a cadence run: a `log.Printf` of the orchestrator (with the
error it prints, if any), the building of a workspace's digest, the
`time.Sleep` in seconds, and a call of `SendBlockKitMessage` with the chunks it
tried to post. -/
inductive RunEvent where
  | log (format : String) (args : List String) (err : Option GoError)
  | build (workspace : String)
  | sleep (seconds : Nat)
  | send (workspace channel : String) (attempts : List (List JSON))

/-- The loop `for _, ws := range workspaces` of the four orchestrators, which
is the same text in each but for the cadence word in the error message and the
per-workspace function called. It gives the messages collected, or the error
the orchestrator returns at once; `none` is a run-time panic. -/
def buildMessages (process : Nat → WorkspaceChannel → Option (Except GoError (List JSON × String)))
    (cadence : String) :
    Nat → List WorkspaceChannel → List DigestMessage → List RunEvent →
      Option (List RunEvent × Except GoError (List DigestMessage))
  | _, [], messages, trace => some (trace, .ok messages)
  | i, ws :: rest, messages, trace =>
    match process i ws with
    | none => none
    | some (.error err) =>
      some (trace ++ [.build ws.Workspace],
        .error (.wrapf ("failed to process " ++ cadence ++ " digest for workspace %s: %v")
          [ws.Workspace] err))
    | some (.ok (blocks, botToken)) =>
      if blocks.length = 0 then
        buildMessages process cadence (i + 1) rest messages
          (trace ++ [.build ws.Workspace, .log "No digest data for workspace %s" [ws.Workspace]
            none])
      else
        buildMessages process cadence (i + 1) rest
          (messages ++ [⟨botToken, ws.Channel, blocks, ws.Workspace⟩])
          (trace ++ [.build ws.Workspace])

/-- The loop `for _, msg := range messages` of `SendDailyDigests`,
`SendMonthlyDigests` and `SendQuarterlyDigests`, the same text in each but for
the cadence word: a failed send is logged and the loop continues. -/
def sendMessages (slack : Nat → SlackWorld) (cadence : String) :
    Nat → List DigestMessage → List RunEvent → List RunEvent
  | _, [], trace => trace
  | j, msg :: rest, trace =>
    let run := SendBlockKitMessage (slack j) msg.BotToken msg.Channel msg.Blocks
    let trace := trace ++ [.send msg.Workspace msg.Channel run.attempts]
    match run.err with
    | some err =>
      sendMessages slack cadence (j + 1) rest
        (trace ++ [.log ("failed to send " ++ cadence ++ " digest to workspace %s: %v")
          [msg.Workspace] (some err)])
    | none =>
      sendMessages slack cadence (j + 1) rest
        (trace ++ [.log ("Sent " ++ cadence ++ " digest to workspace %s, channel %s")
          [msg.Workspace, msg.Channel] none])

/-- The loop `for _, msg := range messages` of `SendWeeklyDigests`: a failed
send makes the function return the error. -/
def sendMessagesWeekly (slack : Nat → SlackWorld) :
    Nat → List DigestMessage → List RunEvent → List RunEvent × Option GoError
  | _, [], trace => (trace, none)
  | j, msg :: rest, trace =>
    let run := SendBlockKitMessage (slack j) msg.BotToken msg.Channel msg.Blocks
    let trace := trace ++ [.send msg.Workspace msg.Channel run.attempts]
    match run.err with
    | some err =>
      (trace, some (.wrapf "failed to send weekly digest to workspace %s: %v" [msg.Workspace]
        err))
    | none =>
      sendMessagesWeekly slack (j + 1) rest
        (trace ++ [.log "Sent weekly digest to workspace %s, channel %s"
          [msg.Workspace, msg.Channel] none])

/-- Function `SendDailyDigests`: its actions and the error it returns; `none`
is a run-time panic. -/
def SendDailyDigests (rt : Runtime) (w : RunWorld) (cfg : DigestConfig) :
    Option (List RunEvent × Option GoError) :=
  match w.activeWorkspaces Daily with
  | .error err => some ([], some (.wrapf "failed to get active workspaces: %w" [] err))
  | .ok workspaces =>
    let trace := [RunEvent.log "Processing %d workspaces for daily digests"
      [toString workspaces.length] none]
    match buildMessages (fun i ws => processDailyDigest rt (w.workspace i) ws cfg) "daily" 0
        workspaces [] trace with
    | none => none
    | some (trace, .error err) => some (trace, some err)
    | some (trace, .ok messages) => some (sendMessages w.slack "daily" 0 messages trace, none)

/-- Function `SendWeeklyDigests`: its actions and the error it returns; `none`
is a run-time panic. -/
def SendWeeklyDigests (rt : Runtime) (w : RunWorld) (cfg : DigestConfig) :
    Option (List RunEvent × Option GoError) :=
  match w.activeWorkspaces Weekly with
  | .error err => some ([], some (.wrapf "failed to get active workspaces: %w" [] err))
  | .ok workspaces =>
    let trace := [RunEvent.log "Processing %d workspaces for weekly digests"
      [toString workspaces.length] none]
    match buildMessages (fun i ws => processWeeklyDigest rt (w.workspace i) ws cfg) "weekly" 0
        workspaces [] trace with
    | none => none
    | some (trace, .error err) => some (trace, some err)
    | some (trace, .ok messages) => some (sendMessagesWeekly w.slack 0 messages trace)

/-- Function `SendMonthlyDigests`: its actions and the error it returns; `none`
is a run-time panic. -/
def SendMonthlyDigests (rt : Runtime) (w : RunWorld) (cfg : DigestConfig) :
    Option (List RunEvent × Option GoError) :=
  match w.activeWorkspaces Monthly with
  | .error err => some ([], some (.wrapf "failed to get active workspaces: %w" [] err))
  | .ok workspaces =>
    let trace := [RunEvent.log "Processing %d workspaces for monthly digests"
      [toString workspaces.length] none]
    match buildMessages (fun i ws => processMonthlyDigest rt (w.workspace i) ws cfg) "monthly" 0
        workspaces [] trace with
    | none => none
    | some (trace, .error err) => some (trace, some err)
    | some (trace, .ok messages) =>
      let trace := trace ++
        [.log "Waiting 10 seconds for Slack to finish file processing..." [] none, .sleep 10]
      some (sendMessages w.slack "monthly" 0 messages trace, none)

/-- Function `SendQuarterlyDigests`: its actions and the error it returns;
`none` is a run-time panic. -/
def SendQuarterlyDigests (rt : Runtime) (w : RunWorld) (cfg : DigestConfig) :
    Option (List RunEvent × Option GoError) :=
  match w.activeWorkspaces Quarterly with
  | .error err => some ([], some (.wrapf "failed to get active workspaces: %w" [] err))
  | .ok workspaces =>
    let trace := [RunEvent.log "Processing %d workspaces for quarterly digests"
      [toString workspaces.length] none]
    match buildMessages (fun i ws => processQuarterlyDigest rt (w.workspace i) ws cfg)
        "quarterly" 0 workspaces [] trace with
    | none => none
    | some (trace, .error err) => some (trace, some err)
    | some (trace, .ok messages) =>
      let trace := trace ++
        [.log "Waiting 10 seconds for Slack to finish file processing..." [] none, .sleep 10]
      some (sendMessages w.slack "quarterly" 0 messages trace, none)

/-! ## Reading a run's actions -/

namespace RunEvent

/-- The workspace of a `build` action. -/
def built? : RunEvent → Option String
  | build workspace => some workspace
  | _ => none

/-- The workspace, channel and tried chunks of a `send` action. -/
def sent? : RunEvent → Option (String × String × List (List JSON))
  | send workspace channel attempts => some (workspace, channel, attempts)
  | _ => none

/-- The format, arguments and error of a `log` action. -/
def logged? : RunEvent → Option (String × List String × Option GoError)
  | log format args err => some (format, args, err)
  | _ => none

end RunEvent

/-- The message the build loop of an orchestrator collects for workspace
number `i`, if any: none when the per-workspace function fails or gives no
blocks. -/
def messageOf (process : Nat → WorkspaceChannel → Option (Except GoError (List JSON × String)))
    (i : Nat) (ws : WorkspaceChannel) : Option DigestMessage :=
  match process i ws with
  | some (.ok (blocks, botToken)) =>
    if blocks.length = 0 then none else some ⟨botToken, ws.Channel, blocks, ws.Workspace⟩
  | _ => none

/-- The `send` action for message number `j`, as a triple. -/
def sendOf (slack : Nat → SlackWorld) (j : Nat) (msg : DigestMessage) :
    String × String × List (List JSON) :=
  (msg.Workspace, msg.Channel,
    (SendBlockKitMessage (slack j) msg.BotToken msg.Channel msg.Blocks).attempts)

/-- The messages the build loop collects from `workspaces` when every
workspace builds: those of the workspaces with blocks, in order. -/
def messagesOf (process : Nat → WorkspaceChannel → Option (Except GoError (List JSON × String)))
    (workspaces : List WorkspaceChannel) : List DigestMessage :=
  (workspaces.enumFrom 0).filterMap (fun p => messageOf process p.1 p.2)

/-- Delivery failures are independent across workspaces: the run returns no
error, it built every workspace, every message got its send, in order, and
every failed send was logged with its error. -/
def SendsIndependently
    (process : Nat → WorkspaceChannel → Option (Except GoError (List JSON × String)))
    (slack : Nat → SlackWorld) (cadence : String) (workspaces : List WorkspaceChannel)
    (outcome : Option (List RunEvent × Option GoError)) : Prop :=
  ∃ trace, outcome = some (trace, none) ∧
    trace.filterMap RunEvent.built? = workspaces.map (fun ws => ws.Workspace) ∧
    trace.filterMap RunEvent.sent? =
      ((messagesOf process workspaces).enumFrom 0).map (fun p => sendOf slack p.1 p.2) ∧
    ∀ j msg err, (messagesOf process workspaces)[j]? = some msg →
      (SendBlockKitMessage (slack j) msg.BotToken msg.Channel msg.Blocks).err = some err →
      RunEvent.log ("failed to send " ++ cadence ++ " digest to workspace %s: %v")
        [msg.Workspace] (some err) ∈ trace

/-- A build error is fatal to the run: the run returns the error of workspace
number `n` wrapped, it built the workspaces up to that one and no later one,
and it sent nothing. -/
def AbortsAtBuild (cadence : String) (workspaces : List WorkspaceChannel) (n : Nat)
    (ws : WorkspaceChannel) (err : GoError)
    (outcome : Option (List RunEvent × Option GoError)) : Prop :=
  ∃ trace, outcome = some (trace, some (.wrapf
      ("failed to process " ++ cadence ++ " digest for workspace %s: %v") [ws.Workspace] err)) ∧
    trace.filterMap RunEvent.built? = (workspaces.take (n + 1)).map (fun ws => ws.Workspace) ∧
    trace.filterMap RunEvent.sent? = []

/-! ## Splittings of a block sequence -/

/-- A splitting of `blocks` into ordered, contiguous chunks that each respect
both limits: the chunks concatenate to `blocks`, and each has at most
`maxBlocks` blocks and a payload of at most `maxChars` bytes. -/
def IsSplitting {β : Type} (bodyLen : List β → Nat) (blocks : List β)
    (chunks : List (List β)) : Prop :=
  chunks.flatten = blocks ∧ ∀ c ∈ chunks, c.length ≤ maxBlocks ∧ bodyLen c ≤ maxChars

/-! ## Cohorts of the monthly and quarterly digests -/

/-- The cohort of a key in the monthly digest: the summary rows that carry the
key's origin and category, in input order. -/
def monthlyCohort (summaries : List SummaryRow) (key : groupKey) : List SummaryRow :=
  summaries.filter (fun s => s.Origin = key.Origin ∧ s.Category = key.Category)

/-- The cohort of an origin in the quarterly digest: the summary rows of that
origin, in input order. -/
def quarterlyCohort (summaries : List SummaryRow) (origin : String) : List SummaryRow :=
  summaries.filter (fun s => s.Origin = origin)

/-- The invariant of the monthly and quarterly loops, for the map and the
calls of the loop state: every map entry holds its cohort, in some order, and
in input order when the cohort is within the limit; every summarizer call made
so far got a sample of the cohort of its key. -/
def CohortInv {κ : Type} [DecidableEq κ] (M : Int) (cohort : κ → List SummaryRow)
    (summaryMap : GoMap κ (List SummaryRow)) (calls : List (SummarizerCall κ SummaryRow)) :
    Prop :=
  (∀ key, (summaryMap.get key []).Perm (cohort key)) ∧
  (∀ key, ((cohort key).length : Int) ≤ M → summaryMap.get key [] = cohort key) ∧
  (∀ call ∈ calls, SampleOf M (cohort call.key) call.rows)

/-! ## The order of the digest entries -/

/-- The contract of `sort.Slice` when called with `less`: the result is a
rearrangement of the slice in which no element is less than an element before
it. -/
def SortsBy (rt : Runtime) {α : Type} (less : α → α → Bool) : Prop :=
  ∀ l : List α, (rt.sortSlice less l).Perm l ∧
    (rt.sortSlice less l).Pairwise (fun a b => less b a = false)

/-- Alphabetical order of weekly entries: by origin, then category, then
prompt. -/
def weeklyOrdered (a b : WeeklyDigestData) : Prop :=
  a.Origin < b.Origin ∨
    (a.Origin = b.Origin ∧
      (a.Category < b.Category ∨ (a.Category = b.Category ∧ a.Prompt ≤ b.Prompt)))

/-- Alphabetical order of monthly entries: by origin, then category. -/
def monthlyOrdered (a b : MonthlyDigestData) : Prop :=
  a.Origin < b.Origin ∨ (a.Origin = b.Origin ∧ a.Category ≤ b.Category)

/-! ## Reading a digest payload -/

/-- The texts of the header blocks of a payload, in order. -/
def headerTexts (blocks : List JSON) : List String :=
  (blocks.filter (fun b => b.blockType = "header")).map JSON.blockText

/-- A category section of the weekly digest: a section whose text is markdown
that starts with `*`, the bold mark. -/
def isCategorySection (b : JSON) : Bool :=
  b.blockType = "section" ∧ b.blockTextType = "mrkdwn" ∧ b.blockText.data.head? = some '*'

/-- The texts of the category sections of a payload, in order. -/
def categoryTexts (blocks : List JSON) : List String :=
  (blocks.filter isCategorySection).map JSON.blockText

/-- The keys at which a sequence of keys differs from the key before it;
`last` is the key before the first one. -/
def keyChanges {κ : Type} [DecidableEq κ] : κ → List κ → List κ
  | _, [] => []
  | last, k :: rest => if k ≠ last then k :: keyChanges k rest else keyChanges k rest

/-! ## How a summarizer call shows in what a prepare function returns -/

/-- What a prepare function returns when its loop ends with the error `e` and
the entries `blocks`, before the entries are sorted. -/
def loopOutcome {β : Type} (e : Option GoError) (blocks : List β) : Except GoError (List β) :=
  match e with
  | some err => .error err
  | none => .ok blocks

/-- The records a CSV text of summary rows holds, spelled out row by row: a
header, then one record per row in the order of the rows, holding the category,
the prompt, the comment count and the summary, with the date in front when
dates are wanted. -/
def summaryRecords (rt : Runtime) (withDates : Bool) (rows : List SummaryRow) :
    List (List String) :=
  ((if withDates then ["summary_date"] else []) ++
      ["category", "prompt", "n_comments", "summary"]) ::
    rows.map (fun s =>
      (if withDates then [rt.formatDate s.SummaryDate] else []) ++
        [s.Category, s.Prompt, toString s.NComments, s.Summary])

/-- The CSV text of feedback rows, spelled out row by row: the empty text
for no rows; otherwise what the CSV writer makes of the prompt of the first row
under its header, an empty record, and a header with one record of comment and
user id per row, in the order of the rows. -/
def feedbackText (rt : Runtime) (rows : List Feedback) : Except GoError String :=
  if rows = [] then .ok ""
  else
    rt.csvWrite (["prompt"] :: [(rows.head?.map (fun f => f.Prompt)).getD ""] :: [] ::
      ["comment", "user_id"] :: rows.map (fun f => [f.Comment.getD "", f.UserID]))

/-- The summarizer call `call` was made through the gateway `gw` with the
instructions `prompt` and with the CSV text of its rows, and `result`, the
value the prepare function returns, shows the answer: the text of the call is
what the CSV writer makes of the records of the rows of the call; when
`GetAISummary` fails on that text the function returns that failure, wrapped by
`failure`; when it answers with a digest and the function returns entries, one
of them carries the digest. -/
def CallHanded {κ β : Type} (rt : Runtime) (gw : AIGateway (List OutputItem))
    (cfg : DigestConfig) (withDates : Bool) (prompt : String) (failure : GoError → GoError)
    (carries : β → String → Prop) (call : SummarizerCall κ SummaryRow)
    (result : Except GoError (List β)) : Prop :=
  call.instructions = prompt ∧
  rt.csvWrite (summaryRecords rt withDates call.rows) = .ok call.csv ∧
  (∀ err, GetAISummary gw cfg.AIApiURL cfg.AIApiKey cfg.AIModel prompt call.csv = .error err →
    result = .error (failure err)) ∧
  (∀ digest blocks,
    GetAISummary gw cfg.AIApiURL cfg.AIApiKey cfg.AIModel prompt call.csv = .ok digest →
    result = .ok blocks → ∃ b ∈ blocks, carries b digest)

/-- A summarizer call of `prepareWeeklyDigestData` and the value the function
returns: the call got the CSV text of its rows, without dates, under the weekly
instructions; a failure of the summarizer on that text is returned as
`AI job failed ...`, and a digest is the `Digest` of the entry of the call's
origin, category and prompt. -/
def WeeklyCallHanded (rt : Runtime) (gw : AIGateway (List OutputItem)) (cfg : DigestConfig)
    (workspace : String) (call : SummarizerCall FeedbackGroup SummaryRow)
    (result : Except GoError (List WeeklyDigestData)) : Prop :=
  CallHanded rt gw cfg false cfg.AIWeeklyDigestPrompt
    (fun err => .wrapf "AI job failed for workspace %s, origin %s, category %s, prompt %s: %w"
      [workspace, call.key.Origin, call.key.Category, call.key.Prompt] err)
    (fun b digest => b.Origin = call.key.Origin ∧ b.Category = call.key.Category ∧
      b.Prompt = call.key.Prompt ∧ b.Digest = digest)
    call result

/-- A summarizer call of `prepareDailyDigestData` and the value the function
returns: the call got the CSV text of its rows, without dates, under the daily
instructions; a failure of the summarizer on that text is returned as
`AI job failed ...`, and a digest is the `Digest` of the entry of the call's
origin, whose comment count is the sum over the rows of the call. -/
def DailyCallHanded (rt : Runtime) (gw : AIGateway (List OutputItem)) (cfg : DigestConfig)
    (workspace : String) (call : SummarizerCall String SummaryRow)
    (result : Except GoError (List DailyDigestData)) : Prop :=
  CallHanded rt gw cfg false cfg.AIDailyDigestPrompt
    (fun err => .wrapf "AI job failed for workspace %s, origin %s: %w" [workspace, call.key] err)
    (fun b digest => b.Origin = call.key ∧ b.Digest = digest ∧
      b.NComments = call.rows.foldl (fun n s => n + s.NComments) 0)
    call result

/-- A summarizer call of `prepareMonthlyDigestData` and the value the function
returns: the call got the CSV text of its rows, with dates, under the monthly
instructions; a failure of the summarizer on that text is returned as
`AI job failed ...`, and a digest is the `Digest` of the entry of the call's
origin and category. -/
def MonthlyCallHanded (rt : Runtime) (gw : AIGateway (List OutputItem)) (cfg : DigestConfig)
    (workspace : String) (call : SummarizerCall groupKey SummaryRow)
    (result : Except GoError (List MonthlyDigestData)) : Prop :=
  CallHanded rt gw cfg true cfg.AIMonthlyDigestPrompt
    (fun err => .wrapf "AI job failed for workspace %s, origin %s, category %s: %w"
      [workspace, call.key.Origin, call.key.Category] err)
    (fun b digest => b.Origin = call.key.Origin ∧ b.Category = call.key.Category ∧
      b.Digest = digest)
    call result

/-- A summarizer call of `prepareQuarterlyDigestData` and the value the
function returns: the call got the CSV text of its rows, with dates, under the
quarterly instructions; a failure of the summarizer on that text is returned as
`AI job failed ...`, and a digest is the `Digest` of the entry of the call's
origin. -/
def QuarterlyCallHanded (rt : Runtime) (gw : AIGateway (List OutputItem)) (cfg : DigestConfig)
    (workspace : String) (call : SummarizerCall String SummaryRow)
    (result : Except GoError (List QuarterlyDigestData)) : Prop :=
  CallHanded rt gw cfg true cfg.AIQuarterlyDigestPrompt
    (fun err => .wrapf "AI job failed for workspace %s, origin %s: %w" [workspace, call.key] err)
    (fun b digest => b.Origin = call.key ∧ b.Digest = digest)
    call result

/-- The contract of `sort.Slice` that the entries it returns are the entries
it was given, in some order. -/
def SortKeepsEntries (rt : Runtime) : Prop :=
  ∀ (α : Type) (less : α → α → Bool) (l : List α), (rt.sortSlice less l).Perm l

/-! ## Example inputs of the orchestrators -/

/-- A chart world for examples in which both plot queries give `n` monthly
points; plotting and upload succeed. -/
def exampleGraphWorldOf (n : Nat) : GraphWorld :=
  { monthlyPlotStats := fun _ _ _ => .ok (List.replicate n ⟨1, 50, 4, 1⟩)
    quarterlyPlotStats := fun _ _ => .ok (List.replicate n ⟨1, 50, 4, 1⟩)
    nowUnixNano := 17
    plotAPlot := fun _ _ => none
    uploadFileToSlack := fun _ _ filePath _ _ => .ok ("https://files.example/" ++ filePath)
    remove := fun _ => none }

/-- The outside world of a monthly or quarterly iteration in examples, with
`n` monthly points for the chart. -/
def exampleChartWorld (n : Nat) : ChartDigestWorld :=
  { draw := fun i => i + 1, gateway := exampleGateway
    monthlyCounts := fun _ _ _ => .ok (⟨15, 20, 5⟩, ⟨4, 10, 2⟩)
    graph := exampleGraphWorldOf n }

/-- A workspace for examples: one feedback group, one cached summary row, a
bot token, and charts with three monthly points. -/
def exampleWorkspaceWorld : WorkspaceWorld :=
  { feedbackGroups := fun _ _ => .ok [⟨"summarize", "docs", "api"⟩]
    summariesByWorkspace := fun _ _ => .ok [⟨1, "docs", "api", "summarize", 2, "fine"⟩]
    botToken := fun workspace => .ok ("xoxb-" ++ workspace)
    digest := fun _ => exampleDigestWorld
    chart := fun _ => exampleChartWorld 3
    monthLabel := "October 2026"
    quarterLabel := "Q3 2026" }

/-- A workspace for examples whose queries fail. -/
def brokenWorkspaceWorld : WorkspaceWorld :=
  { exampleWorkspaceWorld with
    feedbackGroups := fun _ _ => .error (.external "connection refused")
    summariesByWorkspace := fun _ _ => .error (.external "connection refused") }

/-- A Slack endpoint for examples that answers every post with the given
status code and an `ok` body. -/
def exampleSlackGateway (status : Int) : SlackGateway :=
  { marshal := fun channel _ => .ok channel
    newRequest := fun method url body => .ok ⟨method, url, body, []⟩
    doRequest := fun _ => .ok ⟨status, toString status, .ok ⟨true, "", []⟩⟩ }

/-- A Slack world for examples: every block encodes to 100 bytes. -/
def exampleSlackWorld (status : Int) : SlackWorld :=
  { marshalLen := fun _ blocks => 100 * blocks.length
    gateway := fun _ => exampleSlackGateway status }

/-- Two active workspaces for examples. -/
def exampleWorkspaces : List WorkspaceChannel := [⟨"T1", "C1"⟩, ⟨"T2", "C2"⟩]

/-- A run for examples: both workspaces build; the send of the first message
is answered with status 500, the later ones with status 200. -/
def exampleRunWorld : RunWorld :=
  { activeWorkspaces := fun _ => .ok exampleWorkspaces
    workspace := fun _ => exampleWorkspaceWorld
    slack := fun j => if j = 0 then exampleSlackWorld 500 else exampleSlackWorld 200 }

/-- A run for examples in which the first workspace builds and the queries of
the second fail. -/
def brokenRunWorld : RunWorld :=
  { exampleRunWorld with
    workspace := fun i => if i = 0 then exampleWorkspaceWorld else brokenWorkspaceWorld }

/-- A configuration for examples with both input limits at 10. -/
def wideConfig : DigestConfig :=
  { exampleConfig with AICacheInputLimit := 10, AIDigestInputLimit := 10 }

/-- Two summary rows of one origin that differ in category and prompt. -/
def mixedSummaries : List SummaryRow :=
  [⟨1, "docs", "api", "summarize", 2, "fine"⟩, ⟨2, "docs", "ui", "rate", 1, "slow"⟩]

/-- Three weekly digest entries in alphabetical order: two prompts of one
category, and the same category under a second origin. -/
def exampleWeeklyDigests : List WeeklyDigestData :=
  [⟨"docs", "api", "rate", 75, "+35", 20, "+100", 5, "+150", "Users like it."⟩,
    ⟨"docs", "api", "summarize", 60, "-", 10, "-", 2, "-", "Users like it."⟩,
    ⟨"web", "api", "rate", 50, "+0", 4, "+0", 1, "+0", "Users like it."⟩]

/-- Three monthly digest entries in alphabetical order, two of one origin. -/
def exampleMonthlyDigests : List MonthlyDigestData :=
  [⟨"docs", "api", 75, "+35", 20, "+100", 5, "+150", "Users like it.", ""⟩,
    ⟨"docs", "ui", 60, "-", 10, "-", 2, "-", "Users like it.",
      "https://files.example/plot_17.png"⟩,
    ⟨"web", "api", 50, "+0", 4, "+0", 1, "+0", "Users like it.", ""⟩]

/-! ## `internal/utils/rate_limiter.go` -/

/-- The largest `time.Duration`, in nanoseconds. -/
def maxDuration : Int := 9223372036854775807

/-- The smallest `time.Duration`, in nanoseconds. -/
def minDuration : Int := -9223372036854775808

/-- Library method `Time.Sub` on instants counted in nanoseconds: the
difference, saturated to the range of `time.Duration`. -/
def timeSub (t u : Int) : Int :=
  if t - u > maxDuration then maxDuration
  else if t - u < minDuration then minDuration
  else t - u

/-- Arithmetic on `int64` wraps around. -/
def wrapInt64 (x : Int) : Int := (x + 9223372036854775808) % 18446744073709551616 -
  9223372036854775808

/-- Struct `visitor`. -/
structure visitor where
  lastSeen : Int
  tokens : Int
deriving DecidableEq, Repr

/-- Struct `RateLimiter`, without its mutex, together with the memory its
visitors live in: `objects` holds every `visitor` made so far, a `*visitor` is
the position of its object there, and the map `visitors` holds such pointers.
An object stays where it is when its map entry is deleted. -/
structure RateLimiter where
  objects : List visitor
  visitors : GoMap String Nat
  rate : Int
  window : Int
  cleanupInterval : Int

/-- Function `NewRateLimiter`, without the start of the cleanup goroutine;
`time.Second` is 1,000,000,000. -/
def NewRateLimiter (rate windowSeconds cleanupIntervalSeconds : Int) : RateLimiter :=
  { objects := []
    visitors := GoMap.empty
    rate := rate
    window := wrapInt64 (windowSeconds * 1000000000)
    cleanupInterval := wrapInt64 (cleanupIntervalSeconds * 1000000000) }

namespace RateLimiter

/-- Method `getVisitor`, which runs under the mutex: the pointer the map holds
for the key, or a pointer to a new visitor that it enters in the map; `now` is
what `time.Now()` yields in it. -/
def getVisitor (rl : RateLimiter) (key : String) (now : Int) : RateLimiter × Nat :=
  match rl.visitors.find? key with
  | some v => (rl, v)
  | none =>
    ({ rl with
        objects := rl.objects ++ [{ lastSeen := now, tokens := rl.rate }]
        visitors := rl.visitors.set key rl.objects.length },
      rl.objects.length)

/-- One pass of the loop of `cleanupVisitors` after its sleep, which runs under
the mutex: every map entry whose visitor was last seen longer ago than the
cleanup interval is deleted; `now k` is what `time.Since` reads the clock as
when it looks at the visitor of key `k`. -/
def cleanupPass (rl : RateLimiter) (now : String → Int) : RateLimiter :=
  { rl with visitors :=
      ⟨rl.visitors.entries.filter (fun e =>
        match rl.objects[e.2]? with
        | some v => !decide (timeSub (now e.1) v.lastSeen > rl.cleanupInterval)
        | none => true)⟩ }

/-- The handler that `Limit` returns, from the statement after
`v := rl.getVisitor(key)` on, which runs without the mutex: it updates the
visitor that `v` points to, whether the map still holds that pointer or not,
and tells whether the request was let through (`c.Next()`). `now` is what
`time.Now()` yields in the handler. -/
def afterGetVisitor (rl : RateLimiter) (v : Nat) (now : Int) : RateLimiter × Bool :=
  match rl.objects[v]? with
  | none => (rl, false)
  | some obj =>
    let elapsed := timeSub now obj.lastSeen
    let obj : visitor := { obj with lastSeen := now }
    let obj : visitor := if elapsed > rl.window then { obj with tokens := rl.rate } else obj
    if obj.tokens > 0 then
      ({ rl with objects := rl.objects.set v { obj with tokens := obj.tokens - 1 } }, true)
    else ({ rl with objects := rl.objects.set v obj }, false)

/-- The handler that `Limit` returns, for a request of client `key`: the call
of `getVisitor` at clock `created`, then the cleanup passes `between` that take
the mutex after `getVisitor` released it and before the handler goes on, then
the rest of the handler at clock `now`. -/
def Limit (rl : RateLimiter) (key : String) (created now : Int)
    (between : List (String → Int)) : RateLimiter × Bool :=
  let (rl, v) := rl.getVisitor key created
  let rl := between.foldl cleanupPass rl
  rl.afterGetVisitor v now

end RateLimiter

/-- What happens to a rate limiter, one at a time: a request of a client, with
the cleanup passes that run between its two halves, or a pass of the cleanup
loop between two requests. -/
inductive LimiterEvent where
  | request (key : String) (created now : Int) (between : List (String → Int))
  | cleanup (now : String → Int)

/-- One event: the limiter afterwards and, for a request, its client and
whether it was let through. -/
def limiterStep (rl : RateLimiter) : LimiterEvent → RateLimiter × Option (String × Bool)
  | .request key created now between =>
    let r := rl.Limit key created now between
    (r.1, some (key, r.2))
  | .cleanup now => (rl.cleanupPass now, none)

/-- A sequence of events: the limiter afterwards and the outcomes of the
requests, in order. -/
def limiterRun : RateLimiter → List LimiterEvent → RateLimiter × List (String × Bool)
  | rl, [] => (rl, [])
  | rl, ev :: rest =>
    let r := limiterStep rl ev
    let r' := limiterRun r.1 rest
    (r'.1, (match r.2 with | some o => [o] | none => []) ++ r'.2)

/-! ## Example runs of the rate limiter -/

/-- Three requests of client `10.0.0.1` at 0 s, 11 s and 12 s to a limiter
whose cleanup loop, with an interval of 10 s, wakes at 1 s and at 11 s; the
pass at 11 s takes the mutex while the second request is handled, between
`getVisitor` and the rest of the handler. -/
def racingRequests : List LimiterEvent :=
  [.request "10.0.0.1" 0 0 [], .cleanup (fun _ => 1000000000),
    .request "10.0.0.1" 11000000000 11000000000 [fun _ => 11000000000],
    .request "10.0.0.1" 12000000000 12000000000 []]

/-- The same requests and cleanup passes, with the pass at 11 s before the
second request instead of inside it. -/
def orderlyRequests : List LimiterEvent :=
  [.request "10.0.0.1" 0 0 [], .cleanup (fun _ => 1000000000),
    .cleanup (fun _ => 11000000000),
    .request "10.0.0.1" 11000000000 11000000000 [],
    .request "10.0.0.1" 12000000000 12000000000 []]

/-! ## `internal/config/ingest.go` -/

/-- Constant `config.MaxPromptLen`. -/
def MaxPromptLen : Nat := 128

/-- Constant `config.MaxOriginLen`. -/
def MaxOriginLen : Nat := 32

/-- Constant `config.MaxCategoryLen`. -/
def MaxCategoryLen : Nat := 32

/-- Constant `config.MaxCommentLen`. -/
def MaxCommentLen : Nat := 256

/-- Constant `config.MaxUserIDLen`. -/
def MaxUserIDLen : Nat := 64

/-- Struct `config.IngestConfig`. -/
structure IngestConfig where
  DatabaseURL : String
  SlackAppURI : String
  SlackAppClientId : String
  SlackAppClientSecret : String
  SlackAppRedirectURI : String
  SlackOAuthRedirectURI : String
  SlackSigningSecret : String
  PromptCountLimit : Int
  MonthlyFeedbackLimit : Int
  FeedbackRateLimitRequests : Int
  FeedbackRateLimitWindow : Int
deriving DecidableEq, Repr

/-! ## Go strings -/

/-- Library function `unicode.IsSpace`: the characters with the Unicode
property White_Space. -/
def unicodeIsSpace (c : Char) : Bool :=
  let n := c.toNat
  (9 ≤ n && n ≤ 13) || n == 32 || n == 133 || n == 160 || n == 5760 ||
    (8192 ≤ n && n ≤ 8202) || n == 8232 || n == 8233 || n == 8239 || n == 8287 ||
    n == 12288

/-- Library function `strings.TrimSpace`: the string without its leading and
trailing white space. -/
def TrimSpace (s : String) : String :=
  ⟨(s.data.dropWhile unicodeIsSpace).rdropWhile unicodeIsSpace⟩

/-- The builtin `len` on a string: its number of bytes in UTF-8. -/
def goLen (s : String) : Nat := s.utf8ByteSize

/-! ## `internal/utils/misc.go`: request fields -/

/-- Function `utils.PtrOrNil`. -/
def PtrOrNil (s : String) : Option String :=
  if s = "" then none else some s

/-- Function `utils.TrimFeedbackFields`. -/
def TrimFeedbackFields (origin category prompt : String) : String × String × String :=
  (TrimSpace origin, TrimSpace category, TrimSpace prompt)

/-! ## `internal/models/models.go`: ingest -/

/-- Struct `models.FeedbackRequest`; a `*bool` is an `Option Bool`. -/
structure FeedbackRequest where
  Prompt : String
  ThumbUp : Option Bool
  Comment : String
  Origin : String
  Category : String
  InProduction : Option Bool
  UserID : String
deriving DecidableEq, Repr

/-- Struct `models.Account`, with the three fields `GetAccount` reads. -/
structure Account where
  AccountExpiryDate : Int
  SlackWorkspace : Option String
  FeedbackCount : Int
deriving DecidableEq, Repr

/-- A row of table `prompts`. -/
structure PromptRow where
  SlackWorkspace : String
  Origin : String
  Category : String
  Prompt : String
deriving DecidableEq, Repr

/-- The tables `prompts` and `feedback`, rows in the order of their insertion. -/
structure IngestDB where
  prompts : List PromptRow
  feedback : List Feedback
deriving DecidableEq, Repr

/-- The reply `c.JSON(status, body)` with a body of one string field. -/
structure JSONReply where
  status : Int
  key : String
  text : String
deriving DecidableEq, Repr

/-- What the outside world decides while one request is handled: the result of
`queries.GetAccount`, the clock, the result of `c.ShouldBindJSON`, whether
each statement sent to the database fails, and the `id` and `created_at` the
database gives a new feedback row. -/
structure IngestWorld where
  getAccount : String → Except GoError (Option Account)
  now : Int
  bindJSON : Except GoError FeedbackRequest
  promptLookupFails : Option GoError
  insertPromptFails : Option GoError
  insertFeedbackFails : Option GoError
  updateCountFails : Option GoError
  newID : Int
  newCreatedAt : Int

/-! ## `internal/queries`: prompts and feedback -/

/-- Function `queries.InsertPrompt`: the trimmed row is added unless the table
has it already; the boolean tells whether a row was added. -/
def InsertPrompt (fails : Option GoError) (db : IngestDB)
    (workspace origin category prompt : String) : IngestDB × Except GoError Bool :=
  let (origin, category, prompt) := TrimFeedbackFields origin category prompt
  match fails with
  | some err => (db, .error err)
  | none =>
    let row : PromptRow := ⟨workspace, origin, category, prompt⟩
    if row ∈ db.prompts then (db, .ok false)
    else ({ db with prompts := db.prompts ++ [row] }, .ok true)

/-- Function `queries.GetPromptCountAndExists`: the number of prompt rows of the
workspace and whether one of them has the given origin, category and prompt. -/
def GetPromptCountAndExists (fails : Option GoError) (db : IngestDB)
    (workspace origin category prompt : String) : Except GoError (Int × Bool) :=
  match fails with
  | some err => .error err
  | none =>
    let rows := db.prompts.filter (fun r => r.SlackWorkspace = workspace)
    .ok ((rows.length : Int),
      rows.any (fun r => r.Origin = origin && r.Category = category && r.Prompt = prompt))

/-- Function `queries.InsertFeedback`: the row is stored with its origin,
category, prompt, comment and user id trimmed, then the feedback count of the
account is raised. -/
def InsertFeedback (w : IngestWorld) (db : IngestDB) (fb : Feedback) :
    IngestDB × Option GoError :=
  let (origin, category, prompt) := TrimFeedbackFields fb.Origin fb.Category fb.Prompt
  let comment : Option String :=
    match fb.Comment with
    | none => none
    | some c =>
      let trimmed := TrimSpace c
      if trimmed = "" then none else some trimmed
  match w.insertFeedbackFails with
  | some err => (db, some err)
  | none =>
    let row : Feedback :=
      { ID := w.newID, CreatedAt := w.newCreatedAt, SlackWorkspace := fb.SlackWorkspace,
        Prompt := prompt, ThumbUp := fb.ThumbUp, Comment := comment, Origin := origin,
        Category := category, InProduction := fb.InProduction,
        UserID := TrimSpace fb.UserID }
    ({ db with feedback := db.feedback ++ [row] }, w.updateCountFails)

/-! ## `internal/api/feedback.go` -/

/-- Function `validateFeedbackRequest`. -/
def validateFeedbackRequest (req : FeedbackRequest) : String × Bool :=
  if goLen (TrimSpace req.Prompt) = 0 ∨ goLen req.Prompt > MaxPromptLen then
    ("Prompt is required and must be at most " ++ toString MaxPromptLen ++ " characters", false)
  else if req.ThumbUp = none then
    ("ThumbUp is required", false)
  else if goLen (TrimSpace req.Origin) = 0 ∨ goLen req.Origin > MaxOriginLen then
    ("Origin is required and must be at most " ++ toString MaxOriginLen ++ " characters", false)
  else if req.InProduction = none then
    ("InProduction is required", false)
  else if goLen (TrimSpace req.UserID) = 0 ∨ goLen req.UserID > MaxUserIDLen then
    ("UserID is required and must be at most " ++ toString MaxUserIDLen ++ " characters", false)
  else if goLen (TrimSpace req.Category) = 0 ∨ goLen req.Category > MaxCategoryLen then
    ("Category is required and must be at most " ++ toString MaxCategoryLen ++ " characters",
      false)
  else if goLen req.Comment > MaxCommentLen then
    ("Comment must be at most " ++ toString MaxCommentLen ++ " characters", false)
  else ("", true)

/-- Method `FeedbackHandler.enforcePromptLimit`. -/
def enforcePromptLimit (cfg : IngestConfig) (fails : Option GoError) (db : IngestDB)
    (workspace origin category prompt : String) : Bool :=
  match GetPromptCountAndExists fails db workspace origin category prompt with
  | .error _ => false
  | .ok (count, found) => found || decide (count < cfg.PromptCountLimit)

/-- Method `FeedbackHandler.PostFeedback` on a request with header `X-API-Key`
equal to `apiKey`: the tables afterwards and the reply; `none` is the run-time
panic of dereferencing a nil `ThumbUp` or `InProduction`. -/
def PostFeedback (cfg : IngestConfig) (w : IngestWorld) (apiKey : String) (db : IngestDB) :
    Option (IngestDB × JSONReply) :=
  if apiKey = "" then some (db, ⟨401, "error", "Unauthorized"⟩)
  else
    match w.getAccount apiKey with
    | .error _ => some (db, ⟨500, "error", "Internal server error"⟩)
    | .ok none => some (db, ⟨401, "error", "Unauthorized"⟩)
    | .ok (some account) =>
      match account.SlackWorkspace with
      | none => some (db, ⟨401, "error", "Unauthorized"⟩)
      | some workspace =>
        if account.AccountExpiryDate < w.now then some (db, ⟨402, "error", "Account expired"⟩)
        else
          match w.bindJSON with
          | .error _ => some (db, ⟨400, "error", "Invalid request body"⟩)
          | .ok req =>
            match validateFeedbackRequest req with
            | (msg, false) => some (db, ⟨400, "error", msg⟩)
            | (_, true) =>
              if account.FeedbackCount ≥ cfg.MonthlyFeedbackLimit then
                some (db, ⟨429, "error", "Monthly feedback limit reached"⟩)
              else if !enforcePromptLimit cfg w.promptLookupFails db workspace req.Origin
                  req.Category req.Prompt then
                some (db, ⟨400, "error", "Prompt limit reached"⟩)
              else
                match InsertPrompt w.insertPromptFails db workspace req.Origin req.Category
                    req.Prompt with
                | (db1, .error _) => some (db1, ⟨500, "error", "Internal server error"⟩)
                | (db1, .ok _) =>
                  match req.ThumbUp, req.InProduction with
                  | some thumbUp, some inProduction =>
                    let feedback : Feedback :=
                      { ID := 0, CreatedAt := 0, SlackWorkspace := workspace,
                        Prompt := req.Prompt, ThumbUp := thumbUp,
                        Comment := PtrOrNil req.Comment, Origin := req.Origin,
                        Category := req.Category, InProduction := inProduction,
                        UserID := req.UserID }
                    match InsertFeedback w db1 feedback with
                    | (db2, some _) => some (db2, ⟨500, "error", "Internal server error"⟩)
                    | (db2, none) =>
                      some (db2, ⟨201, "message", "Feedback submitted successfully"⟩)
                  | _, _ => none

/-- Requests handled one after the other, each with its own outside world and
API key: the tables at the end and the replies. -/
def postFeedbackRun (cfg : IngestConfig) :
    IngestDB → List (IngestWorld × String) → Option (IngestDB × List JSONReply)
  | db, [] => some (db, [])
  | db, (w, apiKey) :: rest =>
    match PostFeedback cfg w apiKey db with
    | none => none
    | some r =>
      match postFeedbackRun cfg r.1 rest with
      | none => none
      | some rs => some (rs.1, r.2 :: rs.2)

/-! ## Stored rows and the validation as the specification words it -/

/-- Whether the first character of the string is white space. -/
def startsWithSpace (s : String) : Bool :=
  match s.data.head? with
  | some c => unicodeIsSpace c
  | none => false

/-- Whether the last character of the string is white space. -/
def endsWithSpace (s : String) : Bool :=
  match s.data.getLast? with
  | some c => unicodeIsSpace c
  | none => false

/-- A string that is not empty and has no white space at either end. -/
def TrimmedNonEmpty (s : String) : Prop :=
  s ≠ "" ∧ startsWithSpace s = false ∧ endsWithSpace s = false

instance (s : String) : Decidable (TrimmedNonEmpty s) := by
  unfold TrimmedNonEmpty; infer_instance

/-- The number of distinct prompt rows the table holds for a workspace. -/
def distinctPromptCount (db : IngestDB) (workspace : String) : Nat :=
  ((db.prompts.filter (fun r => r.SlackWorkspace = workspace)).dedup).length

/-- Every prompt row has its origin, category and prompt as `InsertPrompt`
stores them: trimming changes none of them. -/
def PromptsTrimmed (db : IngestDB) : Prop :=
  ∀ r ∈ db.prompts,
    TrimSpace r.Origin = r.Origin ∧ TrimSpace r.Category = r.Category ∧
      TrimSpace r.Prompt = r.Prompt

instance (db : IngestDB) : Decidable (PromptsTrimmed db) := by
  unfold PromptsTrimmed; infer_instance

/-- The checks on a feedback request in their order, each with the message of
its failure, for a given measure `len` of the length of a string. -/
def feedbackChecks (len : String → Nat) (req : FeedbackRequest) : List (Bool × String) :=
  [(decide (TrimSpace req.Prompt = "" ∨ len req.Prompt > 128),
      "Prompt is required and must be at most 128 characters"),
   (decide (req.ThumbUp = none), "ThumbUp is required"),
   (decide (TrimSpace req.Origin = "" ∨ len req.Origin > 32),
      "Origin is required and must be at most 32 characters"),
   (decide (req.InProduction = none), "InProduction is required"),
   (decide (TrimSpace req.UserID = "" ∨ len req.UserID > 64),
      "UserID is required and must be at most 64 characters"),
   (decide (TrimSpace req.Category = "" ∨ len req.Category > 32),
      "Category is required and must be at most 32 characters"),
   (decide (len req.Comment > 256), "Comment must be at most 256 characters")]

/-- The outcome of a list of checks: the message of the first one that fails,
or acceptance. -/
def firstFailing (checks : List (Bool × String)) : String × Bool :=
  match checks.find? (fun c => c.1) with
  | some c => (c.2, false)
  | none => ("", true)

/-- The validation with lengths counted in characters, as the specification
words it. -/
def validateByCharacters (req : FeedbackRequest) : String × Bool :=
  firstFailing (feedbackChecks String.length req)

/-- Whether every character of the string is in the ASCII range. -/
def isASCII (s : String) : Bool := s.data.all (fun c => decide (c.toNat < 128))

/-! ## Example requests -/

/-- A request whose prompt is one hundred times the letter e with an acute
accent: 100 characters, 200 bytes. -/
def accentedRequest : FeedbackRequest :=
  { Prompt := String.mk (List.replicate 100 (Char.ofNat 233)), ThumbUp := some true,
    Comment := "", Origin := "docs", Category := "search", InProduction := some true,
    UserID := "U1" }

/-- A request whose origin, category and prompt are padded with white space. -/
def paddedRequest : FeedbackRequest :=
  { Prompt := "\tWas this helpful? ", ThumbUp := some true, Comment := " fine ",
    Origin := " docs ", Category := " search\n", InProduction := some true, UserID := " U1 " }

/-- A configuration that allows two prompts per workspace. -/
def exampleIngestConfig : IngestConfig :=
  { DatabaseURL := "", SlackAppURI := "", SlackAppClientId := "", SlackAppClientSecret := "",
    SlackAppRedirectURI := "", SlackOAuthRedirectURI := "", SlackSigningSecret := "",
    PromptCountLimit := 2, MonthlyFeedbackLimit := 1000, FeedbackRateLimitRequests := 10,
    FeedbackRateLimitWindow := 60 }

/-- An outside world in which key `k1` belongs to workspace `T1`, nothing fails
and the request body is `req`. -/
def exampleIngestWorld (req : FeedbackRequest) : IngestWorld :=
  { getAccount := fun k => if k = "k1" then .ok (some ⟨100, some "T1", 0⟩) else .ok none,
    now := 10, bindJSON := .ok req, promptLookupFails := none, insertPromptFails := none,
    insertFeedbackFails := none, updateCountFails := none, newID := 1, newCreatedAt := 10 }

/-- Tables in which workspace `T1` holds two prompts. -/
def fullPromptTable : IngestDB :=
  ⟨[⟨"T1", "docs", "search", "Was the answer right?"⟩,
    ⟨"T1", "docs", "search", "Was the answer complete?"⟩], []⟩

/-! ## `internal/queries/feedback.go`: the period subqueries -/

/-- The database as the statistics queries see it: table `feedback`, the day
number `DATE(created_at)` of an instant, the day number `CURRENT_DATE`, the day
number of `DATE_TRUNC('month', CURRENT_DATE) - INTERVAL 'n months'`, the sort
the database runs for `ORDER BY user_id, created_at DESC` (how it places equal
rows and how it collates user ids is its own business), and whether the query
fails. -/
structure StatsDB where
  feedback : List Feedback
  date : Int → Int
  currentDate : Int
  monthStart : Nat → Int
  orderBy : List Feedback → List Feedback
  queryFails : Option GoError

/-- The rows `DISTINCT ON (user_id)` keeps of rows that arrive in order: the
first row of every run of rows with the same user id; `prev` is the user id of
the row before. -/
def distinctOnFrom : Option String → List Feedback → List Feedback
  | _, [] => []
  | prev, a :: rest =>
    if prev = some a.UserID then distinctOnFrom prev rest
    else a :: distinctOnFrom (some a.UserID) rest

/-- The clause `SELECT DISTINCT ON (user_id) ...` over ordered rows. -/
def distinctOnUser (rows : List Feedback) : List Feedback := distinctOnFrom none rows

/-- The `WHERE` clause of a period subquery: the rows of the cohort that are
from production and whose day lies in `[lo, hi)`. -/
def periodWhere (db : StatsDB) (cohort : Feedback → Bool) (lo hi : Int) : List Feedback :=
  db.feedback.filter (fun f =>
    cohort f && f.InProduction && decide (db.date f.CreatedAt ≥ lo) &&
      decide (db.date f.CreatedAt < hi))

/-- A period subquery (`current_period`, `prev_period`): the rows of the
`WHERE` clause, ordered, one row kept per user id. -/
def periodRows (db : StatsDB) (cohort : Feedback → Bool) (lo hi : Int) : List Feedback :=
  distinctOnUser (db.orderBy (periodWhere db cohort lo hi))

/-- The aggregate subqueries `c` and `p`: `COUNT(thumb_up) FILTER (WHERE thumb_up
IS TRUE)`, `COUNT(thumb_up)` and `COUNT(comment)` over the rows of a period. -/
def aggregatePeriod (rows : List Feedback) : PeriodCounts :=
  { thumbs_up := (rows.filter (fun f => f.ThumbUp)).length
    num_feedback := rows.length
    num_comments := (rows.filter (fun f => f.Comment.isSome)).length }

/-- The cohort condition of `GetWeeklyFeedbackStats`. -/
def weeklyStatsWhere (workspace origin category prompt : String) (f : Feedback) : Bool :=
  f.SlackWorkspace = workspace && f.Origin = origin && f.Category = category &&
    f.Prompt = prompt

/-- The cohort condition of `GetMonthlyFeedbackStats`. -/
def monthlyStatsWhere (workspace origin category : String) (f : Feedback) : Bool :=
  f.SlackWorkspace = workspace && f.Origin = origin && f.Category = category

/-- The query of `GetWeeklyFeedbackStats` up to its outer `SELECT`: the counts
of the last seven days before today and of the seven days before those. -/
def weeklyPeriodCounts (db : StatsDB) (workspace origin category prompt : String) :
    Except GoError (PeriodCounts × PeriodCounts) :=
  match db.queryFails with
  | some err => .error err
  | none =>
    let cohort := weeklyStatsWhere workspace origin category prompt
    .ok (aggregatePeriod (periodRows db cohort (db.currentDate - 7) db.currentDate),
      aggregatePeriod (periodRows db cohort (db.currentDate - 14) (db.currentDate - 7)))

/-- The query of `GetMonthlyFeedbackStats` up to its outer `SELECT`: the counts
of the month before the current one and of the month before that. -/
def monthlyPeriodCounts (db : StatsDB) (workspace origin category : String) :
    Except GoError (PeriodCounts × PeriodCounts) :=
  match db.queryFails with
  | some err => .error err
  | none =>
    let cohort := monthlyStatsWhere workspace origin category
    .ok (aggregatePeriod (periodRows db cohort (db.monthStart 1) (db.monthStart 0)),
      aggregatePeriod (periodRows db cohort (db.monthStart 2) (db.monthStart 1)))

/-! ## Properties of the ordered rows -/

/-- Whether the rows of every user id stand together. -/
def groupedByUser : List Feedback → Bool
  | [] => true
  | a :: rest =>
    (rest.dropWhile (fun b => b.UserID = a.UserID)).all (fun b => b.UserID ≠ a.UserID) &&
      groupedByUser rest

/-- The database ordered `rows` by user id and, within a user id, newest first:
the result has the same rows, the rows of a user id stand together and a later
row of the same user id is not newer. -/
def OrderedByUserNewestFirst (db : StatsDB) (rows : List Feedback) : Prop :=
  (db.orderBy rows).Perm rows ∧ groupedByUser (db.orderBy rows) = true ∧
    (db.orderBy rows).Pairwise (fun a b => a.UserID = b.UserID → b.CreatedAt ≤ a.CreatedAt)

instance (db : StatsDB) (rows : List Feedback) : Decidable (OrderedByUserNewestFirst db rows) := by
  unfold OrderedByUserNewestFirst; infer_instance

/-- The rows `counted` hold, of every user id with a row in `window`, exactly
one row, and it is a newest one of that user id in `window`. -/
def LatestPerUser (window counted : List Feedback) : Prop :=
  (∀ b ∈ counted, b ∈ window) ∧ (counted.map (fun f => f.UserID)).Nodup ∧
    ∀ a ∈ window, ∃ b ∈ counted, b.UserID = a.UserID ∧ a.CreatedAt ≤ b.CreatedAt

/-- The order `user_id, created_at DESC` with user ids compared character by
character. -/
def userNewestFirst (a b : Feedback) : Prop :=
  a.UserID.data < b.UserID.data ∨ (a.UserID = b.UserID ∧ b.CreatedAt ≤ a.CreatedAt)

instance : DecidableRel userNewestFirst := fun a b => by
  unfold userNewestFirst; infer_instance

/-- The comment count as the specification words it: all rows of the window
that have a comment, every row of a user counted. -/
def commentsOfAllRows (db : StatsDB) (cohort : Feedback → Bool) (lo hi : Int) : Nat :=
  ((periodWhere db cohort lo hi).filter (fun f => f.Comment.isSome)).length

/-! ## Example database -/

/-- A database for examples, which orders rows by insertion sort. One day has 100
instants; today is day 10. Of the
cohort `T1`, `docs`, `api`, `summarize`, user `u1` sent two commented records on
days 5 and 6, user `u2` one approval without comment on day 7, and user `u1` one
record on day 1, in the window before. -/
def exampleStatsDB : StatsDB :=
  { feedback :=
      [⟨1, 510, "T1", "summarize", false, some "slow", "docs", "api", true, "u1"⟩,
        ⟨2, 620, "T1", "summarize", true, some "better now", "docs", "api", true, "u1"⟩,
        ⟨3, 730, "T1", "summarize", true, none, "docs", "api", true, "u2"⟩,
        ⟨4, 150, "T1", "summarize", false, none, "docs", "api", true, "u1"⟩,
        ⟨5, 640, "T1", "summarize", false, some "test", "docs", "api", false, "u3"⟩]
    date := fun t => t / 100
    currentDate := 10
    monthStart := fun n => 9 - 30 * (n : Int)
    orderBy := fun rows => rows.insertionSort userNewestFirst
    queryFails := none }

/-! ## `internal/queries/cronjobs.go`: issue reports -/

/-- The arguments of one `queries.InsertIssueReport` call. -/
structure IssueInsert where
  workspace : String
  origin : String
  issueReport : String
deriving DecidableEq, Repr

/-- What `prepareIssueReports` reaches outside the process: table `summaries`
(the workspace of a row and its six selected columns), the day number
`CURRENT_DATE`, the order in which the database hands back `DISTINCT` values,
its sort for `ORDER BY summary_date DESC`, whether a query fails (the one for
the summaries is sent once per iteration), the summarizer endpoint of each
iteration and the statement of `queries.InsertIssueReport`. -/
structure IssueWorld where
  summaries : List (String × SummaryRow)
  currentDate : Int
  distinct : List String → List String
  orderBy : List SummaryRow → List SummaryRow
  originsFails : Option GoError
  summariesFails : Nat → Option GoError
  gateway : Nat → AIGateway (List OutputItem)
  insertIssueReport : Nat → IssueInsert → Option GoError

/-- Function `queries.GetDistinctOrigins`. -/
def GetDistinctOrigins (w : IssueWorld) (workspace : String) : Except GoError (List String) :=
  match w.originsFails with
  | some err => .error err
  | none =>
    .ok (w.distinct ((w.summaries.filter (fun r => r.1 = workspace)).map (fun r => r.2.Origin)))

/-- Function `queries.GetLatestSummaries`, as iteration `i` calls it: the rows
of the workspace of the last 30 days, newest first. -/
def GetLatestSummaries (w : IssueWorld) (i : Nat) (workspace : String) :
    Except GoError (List SummaryRow) :=
  match w.summariesFails i with
  | some err => .error err
  | none =>
    .ok (w.orderBy ((w.summaries.filter (fun r =>
      r.1 = workspace && decide (r.2.SummaryDate ≥ w.currentDate - 30))).map (fun r => r.2)))

/-! ## `internal/cronjobs/cache.go`: issue reports -/

/-- A run of `prepareIssueReports` or of a part of it: the summarizer calls it
made, each under its origin, the inserts it made and the error it returned. -/
structure IssueRun where
  calls : List (SummarizerCall String SummaryRow)
  inserts : List IssueInsert
  err : Option GoError
deriving DecidableEq, Repr

/-- The body of the loop of `prepareIssueReports` for the origin of iteration
`i`; `none` is a run-time panic. A run without error and without insert is the
`continue` of an empty report. -/
def issueReportStep (rt : Runtime) (w : IssueWorld) (cfg : DigestConfig) (workspace : String)
    (i : Nat) (origin : String) : Option IssueRun :=
  match GetLatestSummaries w i workspace with
  | .error err => some ⟨[], [], some err⟩
  | .ok summaries =>
    let truncated : Option (List SummaryRow) :=
      if (summaries.length : Int) > cfg.AICacheInputLimit then
        sliceTo summaries cfg.AICacheInputLimit
      else some summaries
    match truncated with
    | none => none
    | some summaries =>
      match SummariesToCSV rt summaries true with
      | .error err => some ⟨[], [], some err⟩
      | .ok csvData =>
        let call : SummarizerCall String SummaryRow :=
          ⟨origin, cfg.AIIssueCachePrompt, summaries, csvData⟩
        match GetAISummary (w.gateway i) cfg.AIApiURL cfg.AIApiKey cfg.AIModel
            cfg.AIIssueCachePrompt csvData with
        | .error err => some ⟨[call], [], some err⟩
        | .ok aiReport =>
          if aiReport = "" then some ⟨[call], [], none⟩
          else
            let row : IssueInsert := ⟨workspace, origin, aiReport⟩
            match w.insertIssueReport i row with
            | some err => some ⟨[call], [row], some err⟩
            | none => some ⟨[call], [row], none⟩

/-- The loop `for _, origin := range origins` of `prepareIssueReports` from
iteration `i` on: it stops at the first error. -/
def issueReportLoop (rt : Runtime) (w : IssueWorld) (cfg : DigestConfig) (workspace : String) :
    Nat → List String → Option IssueRun
  | _, [] => some ⟨[], [], none⟩
  | i, origin :: rest =>
    match issueReportStep rt w cfg workspace i origin with
    | none => none
    | some r =>
      match r.err with
      | some err => some ⟨r.calls, r.inserts, some err⟩
      | none =>
        match issueReportLoop rt w cfg workspace (i + 1) rest with
        | none => none
        | some rs => some ⟨r.calls ++ rs.calls, r.inserts ++ rs.inserts, rs.err⟩

/-- Function `prepareIssueReports`; `none` is a run-time panic. -/
def prepareIssueReports (rt : Runtime) (w : IssueWorld) (cfg : DigestConfig)
    (workspace : String) : Option IssueRun :=
  match GetDistinctOrigins w workspace with
  | .error err => some ⟨[], [], some err⟩
  | .ok origins => issueReportLoop rt w cfg workspace 0 origins

/-! ## Example world of the issue reports -/

/-- A summarizer endpoint that answers with an empty text. -/
def emptyGateway : AIGateway (List OutputItem) :=
  { marshal := fun _ _ input => .ok input
    newRequest := fun method url body => .ok ⟨method, url, body, []⟩
    doRequest := fun _ => .ok ⟨200, .ok "response"⟩
    unmarshal := fun _ => .ok [⟨"message", "m1", "completed", "assistant", [⟨"output_text", ""⟩]⟩] }

/-- The order `summary_date DESC`. -/
def newestSummaryFirst (a b : SummaryRow) : Prop := b.SummaryDate ≤ a.SummaryDate

instance : DecidableRel newestSummaryFirst := fun a b => by
  unfold newestSummaryFirst; infer_instance

/-- A world for examples. Today is day 10; workspace `T1` has the three rows of
`exampleSummaries`, of origins `docs` and `app`, and workspace `T2` one row. The
summarizer answers the first call with an empty text and later calls with a
report. -/
def exampleIssueWorld : IssueWorld :=
  { summaries := exampleSummaries.map (fun r => ("T1", r)) ++
      [("T2", ⟨4, "web", "ui", "rate", 1, "fine"⟩)]
    currentDate := 10
    distinct := fun l => l.dedup
    orderBy := fun rows => rows.insertionSort newestSummaryFirst
    originsFails := none
    summariesFails := fun _ => none
    gateway := fun i => if i = 0 then emptyGateway else exampleGateway
    insertIssueReport := fun _ _ => none }

/-- A configuration for examples that lets ten rows through. -/
def exampleIssueConfig : DigestConfig := { exampleConfig with AICacheInputLimit := 10 }

/-! ## Go values: `any` and the text of an error -/

/-- A value of type `any` as `encoding/json` decodes a payload: a string, a
`map[string]any`, a `[]any`, or `other`, which stands for a number, a boolean or
nil. -/
inductive AnyValue where
  | str (s : String)
  | obj (fields : List (String × AnyValue))
  | arr (items : List AnyValue)
  | other

namespace AnyValue

/-- The read `m[key]` on a `map[string]any`; an absent key reads as nil. -/
def index : List (String × AnyValue) → String → AnyValue
  | [], _ => other
  | (k, v) :: rest, key => if k = key then v else index rest key

/-- The type assertion `v.(string)`. -/
def asString : AnyValue → Option String
  | str s => some s
  | _ => none

/-- The type assertion `v.(map[string]any)`. -/
def asMap : AnyValue → Option (List (String × AnyValue))
  | obj fields => some fields
  | _ => none

/-- The type assertion `v.([]any)`. -/
def asSlice : AnyValue → Option (List AnyValue)
  | arr items => some items
  | _ => none

end AnyValue

/-- The text `fmt.Sprintf` builds from a format and arguments that are already
printed: every verb takes the next argument, `%%` is a percent sign, and a
verb without argument or a percent sign without verb is reported in the text. -/
def sprintf : List Char → List String → List Char
  | [], _ => []
  | [c], _ => if c = '%' then "%!(NOVERB)".data else [c]
  | c :: d :: rest, args =>
    if c = '%' then
      if d = '%' then '%' :: sprintf rest args
      else
        match args with
        | a :: args => a.data ++ sprintf rest args
        | [] => '%' :: '!' :: d :: "(MISSING)".data ++ sprintf rest []
    else c :: sprintf (d :: rest) args

/-- Method `Error` of a Go `error`: the text of the error. An error built with
`%w` or `%v` carries the text of its cause. -/
def GoError.Error : GoError → String
  | .external text => text
  | .errorf format args => ⟨sprintf format.data args⟩
  | .wrapf format args cause => ⟨sprintf format.data (args ++ [cause.Error])⟩

/-! ## `internal/interactions/common.go` -/

/-- Struct `models.InteractionContext`. -/
structure InteractionContext where
  TriggerID : String
  Workspace : String
  BotToken : String
  UserID : String
deriving DecidableEq, Repr

/-- What `HandleViewInteraction` reaches outside itself: the query
`queries.GetBotTokenForWorkspace`, the handler that the `switch` picks for an
action id, run on the context and the payload, and the statement
`queries.LinkWorkspace` for an activation code and a workspace. -/
structure InteractWorld where
  getBotTokenForWorkspace : String → Except GoError String
  delegate : String → InteractionContext → List (String × AnyValue) → Option GoError
  linkWorkspace : String → String → Except GoError Bool

/-- Function `ExtractInteractionContext`. -/
def ExtractInteractionContext (w : InteractWorld) (payload : List (String × AnyValue)) :
    Except GoError InteractionContext :=
  match (AnyValue.index payload "trigger_id").asString with
  | none => .error (.errorf "missing or invalid trigger_id" [])
  | some triggerID =>
    if triggerID = "" then .error (.errorf "missing or invalid trigger_id" [])
    else
      match (AnyValue.index payload "team").asMap with
      | none => .error (.errorf "missing or invalid team in payload" [])
      | some team =>
        match (AnyValue.index team "id").asString with
        | none => .error (.errorf "missing or invalid workspace ID" [])
        | some workspace =>
          if workspace = "" then .error (.errorf "missing or invalid workspace ID" [])
          else
            match (AnyValue.index payload "user").asMap with
            | none => .error (.errorf "missing or invalid user in payload" [])
            | some user =>
              match (AnyValue.index user "id").asString with
              | none => .error (.errorf "missing or invalid user ID" [])
              | some userID =>
                if userID = "" then .error (.errorf "missing or invalid user ID" [])
                else
                  match w.getBotTokenForWorkspace workspace with
                  | .error err =>
                    .error (.wrapf "failed to fetch bot token for workspace %s: %w" [workspace]
                      err)
                  | .ok botToken => .ok ⟨triggerID, workspace, botToken, userID⟩

/-- Function `handleLinkWorkspace` of `settings.go`: the reply it writes and the
error it returns. -/
def handleLinkWorkspace (w : InteractWorld) (ctx : InteractionContext)
    (payload : List (String × AnyValue)) : JSONReply × Option GoError :=
  match (AnyValue.index payload "actions").asSlice with
  | none => (⟨400, "error", "unable to process request"⟩, none)
  | some [] => (⟨400, "error", "unable to process request"⟩, none)
  | some (first :: _) =>
    match first.asMap with
    | none => (⟨400, "error", "unable to process request"⟩, none)
    | some action =>
      match (AnyValue.index action "value").asString with
      | none => (⟨400, "error", "missing or invalid activation code"⟩, none)
      | some value =>
        if value = "" then (⟨400, "error", "missing or invalid activation code"⟩, none)
        else
          match w.linkWorkspace value ctx.Workspace with
          | .error err => (⟨500, "error", "failed to link workspace"⟩, some err)
          | .ok linked =>
            if !linked then (⟨404, "error", "activation code not found or already used"⟩, none)
            else (⟨200, "status", "workspace linked"⟩, none)

/-- The action ids for which the `switch` of `HandleViewInteraction` runs a
handler and keeps its error. -/
def delegatedActions : List String :=
  ["home-explore", "home-expand", "home-prompts", "home-settings", "home-support",
    "home-comments", "home-top-issues", "home-stats-7d", "home-stats-30d",
    "select-origin", "select-category", "select-prompt", "select-thumb", "stats-date-from",
    "stats-date-to", "clear-origin", "clear-category", "clear-prompt", "clear-thumb",
    "clear-dates", "view-stats", "view-comments", "view-data", "modal-delete-prompt",
    "modal-comments", "modal-top-issues", "modal-stats-7d", "modal-stats-30d", "set-channel",
    "clear-channel", "rotate-api-key", "view-test-data"]

/-- Function `HandleViewInteraction`: the reply it writes for a payload. -/
def HandleViewInteraction (w : InteractWorld) (payload : List (String × AnyValue)) : JSONReply :=
  match ExtractInteractionContext w payload with
  | .error err => ⟨400, "error", err.Error⟩
  | .ok ctx =>
    match (AnyValue.index payload "actions").asSlice with
    | none => ⟨400, "error", "invalid actions payload"⟩
    | some [] => ⟨400, "error", "invalid actions payload"⟩
    | some (first :: _) =>
      match first.asMap with
      | none => ⟨400, "error", "invalid action structure"⟩
      | some action =>
        match (AnyValue.index action "action_id").asString with
        | none => ⟨400, "error", "missing or invalid action ID"⟩
        | some actionID =>
          if actionID = "" then ⟨400, "error", "missing or invalid action ID"⟩
          else if actionID ∈ delegatedActions then
            match w.delegate actionID ctx payload with
            | some _ => ⟨500, "error", "failed to handle action"⟩
            | none => ⟨200, "status", "action handled"⟩
          else if actionID = "link-workspace" then (handleLinkWorkspace w ctx payload).1
          else ⟨400, "error", "unknown action"⟩

/-! ## `internal/interactions/explore.go`: the windows of the stats view -/

/-- One day in nanoseconds. -/
def dayNs : Int := 86400000000000

/-- Method `Time.AddDate(0, 0, days)` on an instant in UTC, counted in
nanoseconds. -/
def AddDate (t : Int) (days : Int) : Int := t + days * dayNs

/-- Method `Duration.Hours`. -/
def durationHours (d : Int) : ℚ := (d : ℚ) / 3600000000000

/-- The conversion `int(x)` of a float: the fraction is cut off. -/
def truncateFloat (x : ℚ) : Int := x.num.tdiv (x.den : Int)

/-- Struct `models.StatsFilterValues`. -/
structure StatsFilterValues where
  Origin : String
  Category : String
  Prompt : String
  DateFrom : String
  DateTo : String
  Thumb : String
deriving DecidableEq, Repr

/-- The arguments of one call of `queries.GetFilteredStats`: the current window
is `[fromTime, toTime)`, the previous one `[prevFrom, prevTo)`, as its query
compares `created_at`. -/
structure FilteredStatsCall where
  workspace : String
  origin : String
  category : String
  prompt : String
  fromTime : Int
  toTime : Int
  prevFrom : Int
  prevTo : Int
  thumb : String
deriving DecidableEq, Repr

/-- What `handleStatsViewAction` reaches outside itself: the date parser
`time.ParseInLocation("2006-01-02", s, UTC)` with its error dropped, the query
`queries.GetFeedbackGroupsWithFilters` and the call that opens the modal. -/
structure StatsViewWorld where
  parseDate : String → Int
  feedbackGroups :
    String → Int → Int → String → String → String → String → Except GoError (List FeedbackGroup)
  openSlackModal : InteractionContext → List FilteredStatsCall → Option GoError

/-- A run of `handleStatsViewAction`: the calls of `GetFilteredStats` it made
and the error it returned. -/
structure StatsViewRun where
  calls : List FilteredStatsCall
  err : Option GoError
deriving DecidableEq, Repr

/-- Function `handleStatsViewAction`, on the filter values that
`extractStatsFilterValues` reads from the payload; `FetchStatsWithRange` calls
`GetFilteredStats` once per group with the four bounds. -/
def handleStatsViewAction (w : StatsViewWorld) (ctx : InteractionContext)
    (values : StatsFilterValues) : StatsViewRun :=
  let fromTime := w.parseDate values.DateFrom
  let toTime := w.parseDate values.DateTo
  let periodDays := truncateFloat (durationHours (timeSub (AddDate toTime 1) fromTime) / 24)
  let prevTo := AddDate fromTime (-1)
  let prevFrom := AddDate prevTo (-periodDays + 1)
  match w.feedbackGroups ctx.Workspace fromTime (AddDate toTime 1) values.Origin values.Category
      values.Prompt values.Thumb with
  | .error err => ⟨[], some err⟩
  | .ok groups =>
    let calls := groups.map (fun group =>
      (⟨ctx.Workspace, group.Origin, group.Category, group.Prompt, fromTime, AddDate toTime 1,
        prevFrom, prevTo, values.Thumb⟩ : FilteredStatsCall))
    ⟨calls, w.openSlackModal ctx calls⟩

/-! ## Example payloads and worlds of the interactions -/

/-- A payload of the button `view-stats`, pressed by user `U1` of workspace
`T1`. -/
def examplePayload : List (String × AnyValue) :=
  [("trigger_id", .str "trig1"), ("team", .obj [("id", .str "T1")]),
    ("user", .obj [("id", .str "U1")]),
    ("actions", .arr [.obj [("action_id", .str "view-stats")]])]

/-- A world in which the bot token query fails with the database error
`dbError`. -/
def botTokenFailure (dbError : String) : InteractWorld :=
  { getBotTokenForWorkspace := fun _ => .error (.external dbError)
    delegate := fun _ _ _ => none
    linkWorkspace := fun _ _ => .ok true }

/-- A world in which the bot token is found and every delegated handler fails
with `err`. -/
def handlerFailure (err : GoError) : InteractWorld :=
  { getBotTokenForWorkspace := fun _ => .ok "xoxb-1"
    delegate := fun _ _ _ => some err
    linkWorkspace := fun _ _ => .ok true }

/-- A world of the stats view in which a date is read as its day of March 2024,
counted from the first, one cohort has feedback and the modal opens. -/
def exampleStatsViewWorld : StatsViewWorld :=
  { parseDate := fun s =>
      if s = "2024-03-10" then 9 * dayNs else if s = "2024-03-16" then 15 * dayNs else 0
    feedbackGroups := fun _ _ _ _ _ _ _ => .ok [⟨"summarize", "docs", "api"⟩]
    openSlackModal := fun _ _ => none }

/-! # Theorems -/

/-! ## Chunking -/

theorem split_flatten {β : Type} (bodyLen : List β → Nat) :
    ∀ (n : Nat) (bs : List β) (chunks : List (List β)), bs.length = n →
      (split bodyLen bs chunks).flatten = chunks.flatten ++ bs := by
  intro n
  induction n using Nat.strong_induction_on with
  | _ n ih =>
    intro bs chunks hn
    rw [split]
    split_ifs with h0 hfit h1
    · have : bs = [] := List.length_eq_zero.mp h0
      simp [this]
    · simp
    · simp
    · have hlen : 2 ≤ bs.length := by omega
      have htake : (bs.take (bs.length / 2)).length < n := by
        rw [List.length_take]; omega
      have hdrop : (bs.drop (bs.length / 2)).length < n := by
        rw [List.length_drop]; omega
      simp only []
      rw [ih _ hdrop _ _ rfl, ih _ htake _ _ rfl, List.append_assoc, List.take_append_drop]

theorem split_chunk_cases {β : Type} (bodyLen : List β → Nat) :
    ∀ (n : Nat) (bs : List β) (chunks : List (List β)), bs.length = n →
      ∀ c ∈ split bodyLen bs chunks,
        c ∈ chunks ∨ (c.length ≤ maxBlocks ∧ bodyLen c ≤ maxChars) ∨ c.length = 1 := by
  intro n
  induction n using Nat.strong_induction_on with
  | _ n ih =>
    intro bs chunks hn c hc
    rw [split] at hc
    split_ifs at hc with h0 hfit h1
    · exact Or.inl hc
    · rcases List.mem_append.mp hc with h | h
      · exact Or.inl h
      · rw [List.mem_singleton] at h; subst h; exact Or.inr (Or.inl hfit)
    · rcases List.mem_append.mp hc with h | h
      · exact Or.inl h
      · rw [List.mem_singleton] at h; subst h; exact Or.inr (Or.inr h1)
    · have hlen : 2 ≤ bs.length := by omega
      have htake : (bs.take (bs.length / 2)).length < n := by
        rw [List.length_take]; omega
      have hdrop : (bs.drop (bs.length / 2)).length < n := by
        rw [List.length_drop]; omega
      simp only [] at hc
      rcases ih _ hdrop _ _ rfl c hc with h | h
      · exact ih _ htake _ _ rfl c h
      · exact Or.inr h

theorem split_singleton {β : Type} (bodyLen : List β → Nat) (b : β) (chunks : List (List β)) :
    split bodyLen [b] chunks = chunks ++ [[b]] := by
  rw [split]
  split_ifs with h0 hfit h1
  · simp at h0
  · rfl
  · rfl
  · simp at h1

/-- C1. Concatenating the chunks that `chunkBlocks` returns, in order, gives
back the block sequence exactly: nothing is dropped, duplicated or reordered. -/
theorem chunkBlocks_flatten {β : Type} (marshalLen : String → List β → Nat) (blocks : List β)
    (channel : String) :
    (chunkBlocks marshalLen blocks channel).flatten = blocks := by
  unfold chunkBlocks
  rw [split_flatten (marshalLen channel) blocks.length blocks [] rfl]
  rfl

/-- C2. Every chunk that `chunkBlocks` returns either has at most 50 blocks and
a payload of at most 13,200 bytes, or is a single block. A block sequence of
one block is returned as one chunk holding that block, whatever its size; and
when a payload is never shorter than the payload of one of its blocks alone, a
block whose own payload exceeds 13,200 bytes is a chunk of its own. -/
theorem chunkBlocks_fits_or_single {β : Type} (marshalLen : String → List β → Nat)
    (blocks : List β) (channel : String) :
    (∀ c ∈ chunkBlocks marshalLen blocks channel,
      (c.length ≤ 50 ∧ marshalLen channel c ≤ 13200) ∨ c.length = 1) ∧
    (∀ b : β, chunkBlocks marshalLen [b] channel = [[b]]) ∧
    (∀ b ∈ blocks, (∀ c : List β, b ∈ c → marshalLen channel [b] ≤ marshalLen channel c) →
      marshalLen channel [b] > 13200 → [b] ∈ chunkBlocks marshalLen blocks channel) := by
  have hfit : ∀ c ∈ chunkBlocks marshalLen blocks channel,
      (c.length ≤ 50 ∧ marshalLen channel c ≤ 13200) ∨ c.length = 1 := by
    intro c hc
    unfold chunkBlocks at hc
    rcases split_chunk_cases (marshalLen channel) blocks.length blocks [] rfl c hc with h | h
    · simp at h
    · exact h
  refine ⟨hfit, fun b => ?_, fun b hb hmono hbig => ?_⟩
  · unfold chunkBlocks
    rw [split_singleton]
    rfl
  · have hflat : b ∈ (chunkBlocks marshalLen blocks channel).flatten := by
      unfold chunkBlocks
      rw [split_flatten (marshalLen channel) blocks.length blocks [] rfl]
      exact hb
    obtain ⟨c, hc, hbc⟩ := List.mem_flatten.mp hflat
    rcases hfit c hc with ⟨_, hsize⟩ | hone
    · have := hmono c hbc
      omega
    · obtain ⟨x, hx⟩ := List.length_eq_one.mp hone
      subst hx
      rw [List.mem_singleton] at hbc
      subst hbc
      exact hc

/-! ## Go maps and the grouping loop -/

namespace GoMap

theorem lookup_insert_self {κ ν : Type} [DecidableEq κ] (m : List (κ × ν)) (k : κ) (v : ν) :
    lookup (insert m k v) k = some v := by
  induction m with
  | nil => simp [insert, lookup]
  | cons e rest ih =>
    obtain ⟨k', v'⟩ := e
    by_cases h : k' = k
    · simp [insert, lookup, h]
    · simp [insert, lookup, h, ih]

theorem lookup_insert_ne {κ ν : Type} [DecidableEq κ] (m : List (κ × ν)) (k k₂ : κ) (v : ν)
    (hne : k₂ ≠ k) : lookup (insert m k v) k₂ = lookup m k₂ := by
  induction m with
  | nil =>
    have : ¬ k = k₂ := fun h => hne h.symm
    simp [insert, lookup, this]
  | cons e rest ih =>
    obtain ⟨k', v'⟩ := e
    by_cases h : k' = k
    · subst h
      have : ¬ k' = k₂ := fun h => hne h.symm
      simp [insert, lookup, this]
    · by_cases h2 : k' = k₂
      · subst h2
        simp [insert, lookup, h]
      · simp [insert, lookup, h, h2, ih]

theorem lookup_eq_none_iff {κ ν : Type} [DecidableEq κ] (m : List (κ × ν)) (k : κ) :
    lookup m k = none ↔ k ∉ m.map Prod.fst := by
  induction m with
  | nil => simp [lookup]
  | cons e rest ih =>
    obtain ⟨k', v'⟩ := e
    by_cases h : k' = k
    · simp [lookup, h]
    · have h' : ¬ k = k' := fun e => h e.symm
      simp [lookup, h, h', ih]

theorem keys_insert_of_mem {κ ν : Type} [DecidableEq κ] (m : List (κ × ν)) (k : κ) (v : ν)
    (hk : k ∈ m.map Prod.fst) : (insert m k v).map Prod.fst = m.map Prod.fst := by
  induction m with
  | nil => simp at hk
  | cons e rest ih =>
    obtain ⟨k', v'⟩ := e
    by_cases h : k' = k
    · simp [insert, h]
    · have hk' : k ∈ rest.map Prod.fst := by
        simp only [List.map_cons, List.mem_cons] at hk
        rcases hk with hk | hk
        · exact absurd hk.symm h
        · exact hk
      simp [insert, h, ih hk']

theorem keys_insert_of_not_mem {κ ν : Type} [DecidableEq κ] (m : List (κ × ν)) (k : κ) (v : ν)
    (hk : k ∉ m.map Prod.fst) : (insert m k v).map Prod.fst = m.map Prod.fst ++ [k] := by
  induction m with
  | nil => simp [insert]
  | cons e rest ih =>
    obtain ⟨k', v'⟩ := e
    simp only [List.map_cons, List.mem_cons, not_or] at hk
    have h : ¬ k' = k := fun e => hk.1 e.symm
    simp [insert, h, ih hk.2]

theorem nodup_keys_insert {κ ν : Type} [DecidableEq κ] (m : List (κ × ν)) (k : κ) (v : ν)
    (hnd : (m.map Prod.fst).Nodup) : ((insert m k v).map Prod.fst).Nodup := by
  by_cases hk : k ∈ m.map Prod.fst
  · rw [keys_insert_of_mem m k v hk]; exact hnd
  · rw [keys_insert_of_not_mem m k v hk]
    exact List.Nodup.append hnd (List.nodup_singleton k) (by simpa using hk)

theorem values_insert_append_perm {κ ρ : Type} [DecidableEq κ] (m : List (κ × List ρ)) (k : κ)
    (x : ρ) :
    (((insert m k ((lookup m k).getD [] ++ [x])).map Prod.snd).flatten).Perm
      ((m.map Prod.snd).flatten ++ [x]) := by
  induction m with
  | nil => simp [insert, lookup]
  | cons e rest ih =>
    obtain ⟨k', v'⟩ := e
    by_cases h : k' = k
    · simp only [insert, lookup, h, if_true, Option.getD_some, List.map_cons, List.flatten_cons]
      rw [List.append_assoc, List.append_assoc]
      exact List.Perm.append_left _ List.perm_append_comm
    · simp only [insert, lookup, h, if_false, List.map_cons, List.flatten_cons]
      rw [List.append_assoc]
      exact List.Perm.append_left _ ih

end GoMap

/-- The grouping loop that `GroupFeedback` and the prepare functions share:
it keeps one entry per key, the bucket of a key is the list of rows seen with
that key, in order, and the buckets together hold the rows seen. -/
theorem groupFold_spec {κ ρ : Type} [DecidableEq κ] (key : ρ → κ) :
    ∀ (xs seen : List ρ) (m : GoMap κ (List ρ)),
      m.keys.Nodup →
      (∀ k, m.find? k =
        if (seen.filter (fun x => key x = k)).isEmpty then none
        else some (seen.filter (fun x => key x = k))) →
      m.values.flatten.Perm seen →
      let m' := xs.foldl (fun m x => m.set (key x) (m.get (key x) [] ++ [x])) m
      m'.keys.Nodup ∧
      (∀ k, m'.find? k =
        if ((seen ++ xs).filter (fun x => key x = k)).isEmpty then none
        else some ((seen ++ xs).filter (fun x => key x = k))) ∧
      m'.values.flatten.Perm (seen ++ xs) := by
  intro xs
  induction xs with
  | nil =>
    intro seen m hnd hfind hperm
    simp only [List.foldl_nil, List.append_nil]
    exact ⟨hnd, hfind, hperm⟩
  | cons x rest ih =>
    intro seen m hnd hfind hperm
    have step := ih (seen ++ [x]) (m.set (key x) (m.get (key x) [] ++ [x]))
      (GoMap.nodup_keys_insert m.entries _ _ hnd)
      (by
        intro k
        by_cases hk : key x = k
        · subst hk
          simp only [GoMap.find?, GoMap.set, GoMap.get, GoMap.lookup_insert_self]
          have hx : List.filter (fun y => decide (key y = key x)) [x] = [x] := by simp
          rw [List.filter_append, hx]
          have hf := hfind (key x)
          simp only [GoMap.find?] at hf
          rw [hf]
          by_cases hempty : List.filter (fun y => decide (key y = key x)) seen = []
          · simp [hempty]
          · simp [hempty]
        · have hne : k ≠ key x := fun e => hk e.symm
          simp only [GoMap.find?, GoMap.set, GoMap.lookup_insert_ne _ _ _ _ hne]
          have hx : List.filter (fun y => decide (key y = k)) [x] = [] := by simp [hk]
          rw [List.filter_append, hx, List.append_nil]
          exact hfind k)
      (by
        simp only [GoMap.values, GoMap.set, GoMap.get, GoMap.find?]
        exact (GoMap.values_insert_append_perm m.entries (key x) x).trans
          (List.Perm.append_right _ hperm))
    simp only [List.append_assoc, List.singleton_append] at step
    simp only [List.foldl_cons]
    exact step

theorem groupFold_empty {κ ρ : Type} [DecidableEq κ] (key : ρ → κ) (xs : List ρ) :
    (xs.foldl (fun m x => m.set (key x) (m.get (key x) [] ++ [x]))
      (GoMap.empty : GoMap κ (List ρ))).keys.Nodup ∧
    (∀ k, (xs.foldl (fun m x => m.set (key x) (m.get (key x) [] ++ [x]))
      (GoMap.empty : GoMap κ (List ρ))).find? k =
      if (xs.filter (fun x => key x = k)).isEmpty then none
      else some (xs.filter (fun x => key x = k))) ∧
    (xs.foldl (fun m x => m.set (key x) (m.get (key x) [] ++ [x]))
      (GoMap.empty : GoMap κ (List ρ))).values.flatten.Perm xs := by
  have h := groupFold_spec key xs [] (GoMap.empty : GoMap κ (List ρ))
    (by simp [GoMap.keys, GoMap.empty])
    (by intro k; simp [GoMap.find?, GoMap.empty, GoMap.lookup])
    (by simp [GoMap.values, GoMap.empty])
  simpa only [List.nil_append] using h

/-- C3. `GroupFeedback` returns a map with one entry per key; a key (prompt,
origin, category) is present iff some input row carries exactly that key; the
bucket under a present key is the list of input rows with that key, in input
order; every input row lies in exactly one bucket; and the buckets together
hold exactly the input rows. -/
theorem GroupFeedback_partition (feedbacks : List Feedback) :
    (GroupFeedback feedbacks).keys.Nodup ∧
    (∀ key : FeedbackGroup, ((GroupFeedback feedbacks).find? key).isSome ↔
      ∃ f ∈ feedbacks, f.Prompt = key.Prompt ∧ f.Origin = key.Origin ∧
        f.Category = key.Category) ∧
    (∀ (key : FeedbackGroup) (bucket : List Feedback),
      (GroupFeedback feedbacks).find? key = some bucket →
      bucket = feedbacks.filter (fun f =>
        f.Prompt = key.Prompt ∧ f.Origin = key.Origin ∧ f.Category = key.Category)) ∧
    (∀ f ∈ feedbacks, ∃! key : FeedbackGroup,
      ∃ bucket, (GroupFeedback feedbacks).find? key = some bucket ∧ f ∈ bucket) ∧
    (GroupFeedback feedbacks).values.flatten.Perm feedbacks := by
  obtain ⟨hnd, hfind, hperm⟩ := groupFold_empty
    (fun f : Feedback => ({ Prompt := f.Prompt, Origin := f.Origin, Category := f.Category } :
      FeedbackGroup)) feedbacks
  have hkey : ∀ (f : Feedback) (key : FeedbackGroup),
      (({ Prompt := f.Prompt, Origin := f.Origin, Category := f.Category } : FeedbackGroup) = key)
        ↔ (f.Prompt = key.Prompt ∧ f.Origin = key.Origin ∧ f.Category = key.Category) := by
    intro f key
    cases key
    simp
  have hfilter : ∀ key : FeedbackGroup,
      feedbacks.filter (fun f => decide
        (({ Prompt := f.Prompt, Origin := f.Origin, Category := f.Category } : FeedbackGroup)
          = key)) =
      feedbacks.filter (fun f => decide
        (f.Prompt = key.Prompt ∧ f.Origin = key.Origin ∧ f.Category = key.Category)) := by
    intro key
    apply List.filter_congr
    intro f _
    simp only [hkey]
  have hfind' : ∀ key : FeedbackGroup, (GroupFeedback feedbacks).find? key =
      if (feedbacks.filter (fun f => decide
        (f.Prompt = key.Prompt ∧ f.Origin = key.Origin ∧ f.Category = key.Category))).isEmpty
      then none
      else some (feedbacks.filter (fun f => decide
        (f.Prompt = key.Prompt ∧ f.Origin = key.Origin ∧ f.Category = key.Category))) := by
    intro key
    rw [← hfilter key]
    exact hfind key
  have hmem : ∀ (key : FeedbackGroup) (bucket : List Feedback),
      (GroupFeedback feedbacks).find? key = some bucket →
      bucket = feedbacks.filter (fun f => decide
        (f.Prompt = key.Prompt ∧ f.Origin = key.Origin ∧ f.Category = key.Category)) := by
    intro key bucket hb
    rw [hfind' key] at hb
    split_ifs at hb with he
    cases hb
    rfl
  refine ⟨hnd, ?_, hmem, ?_, hperm⟩
  · intro key
    rw [hfind' key]
    split_ifs with he
    · simp only [Option.isSome_none, Bool.false_eq_true, false_iff]
      rintro ⟨f, hf, hk⟩
      rw [List.isEmpty_iff] at he
      have hin : f ∈ feedbacks.filter (fun f => decide
          (f.Prompt = key.Prompt ∧ f.Origin = key.Origin ∧ f.Category = key.Category)) :=
        List.mem_filter.mpr ⟨hf, decide_eq_true hk⟩
      rw [he] at hin
      exact List.not_mem_nil _ hin
    · simp only [Option.isSome_some, true_iff]
      rw [List.isEmpty_iff] at he
      obtain ⟨f, hf⟩ := List.exists_mem_of_ne_nil _ he
      rw [List.mem_filter] at hf
      exact ⟨f, hf.1, of_decide_eq_true hf.2⟩
  · intro f hf
    refine ⟨{ Prompt := f.Prompt, Origin := f.Origin, Category := f.Category }, ?_, ?_⟩
    · have hin : f ∈ feedbacks.filter (fun g => decide
          (g.Prompt = f.Prompt ∧ g.Origin = f.Origin ∧ g.Category = f.Category)) :=
        List.mem_filter.mpr ⟨hf, decide_eq_true ⟨rfl, rfl, rfl⟩⟩
      refine ⟨_, ?_, hin⟩
      rw [hfind']
      have hne : ¬ (feedbacks.filter (fun g => decide
          (g.Prompt = f.Prompt ∧ g.Origin = f.Origin ∧ g.Category = f.Category))).isEmpty
          = true := by
        rw [List.isEmpty_iff]
        exact List.ne_nil_of_mem hin
      exact if_neg hne
    · rintro key ⟨bucket, hb, hfb⟩
      rw [hmem key bucket hb, List.mem_filter] at hfb
      obtain ⟨h1, h2, h3⟩ := of_decide_eq_true hfb.2
      cases key
      simp only at h1 h2 h3
      subst h1 h2 h3
      rfl

/-! ## Shuffling and sampling -/

theorem cons_set_perm {α : Type} (x : α) :
    ∀ (t : List α) (j : Nat) (b : α), t[j]? = some b → (b :: t.set j x).Perm (x :: t) := by
  intro t
  induction t with
  | nil => intro j b h; simp at h
  | cons y t ih =>
    intro j b h
    cases j with
    | zero =>
      simp only [List.getElem?_cons_zero, Option.some.injEq] at h
      subst h
      exact List.Perm.swap _ _ _
    | succ j =>
      simp only [List.getElem?_cons_succ] at h
      simp only [List.set_cons_succ]
      exact (List.Perm.swap y b _).trans (((ih j b h).cons y).trans (List.Perm.swap x y t))

theorem set_set_swap_perm {α : Type} :
    ∀ (s : List α) (i j : Nat) (a b : α), s[i]? = some a → s[j]? = some b →
      ((s.set i b).set j a).Perm s := by
  intro s
  induction s with
  | nil => intro i j a b h; simp at h
  | cons x t ih =>
    intro i j a b hi hj
    cases i with
    | zero =>
      simp only [List.getElem?_cons_zero, Option.some.injEq] at hi
      subst hi
      cases j with
      | zero =>
        simp only [List.getElem?_cons_zero, Option.some.injEq] at hj
        subst hj
        simp
      | succ j =>
        simp only [List.getElem?_cons_succ] at hj
        simp only [List.set_cons_zero, List.set_cons_succ]
        exact cons_set_perm x t j b hj
    | succ i =>
      simp only [List.getElem?_cons_succ] at hi
      cases j with
      | zero =>
        simp only [List.getElem?_cons_zero, Option.some.injEq] at hj
        subst hj
        simp only [List.set_cons_zero, List.set_cons_succ]
        exact cons_set_perm x t i a hi
      | succ j =>
        simp only [List.getElem?_cons_succ] at hj
        simp only [List.set_cons_succ]
        exact (ih i j a b hi hj).cons x

theorem swapElems_perm {α : Type} (s : List α) (i j : Nat) : (swapElems s i j).Perm s := by
  unfold swapElems
  split
  · next a b hi hj => exact set_set_swap_perm s i j a b hi hj
  · exact List.Perm.refl s

theorem shuffleLoop_perm {α : Type} (draw : Nat → Nat) :
    ∀ (i : Nat) (s : List α), (shuffleLoop draw i s).Perm s := by
  intro i
  induction i with
  | zero => intro s; exact List.Perm.refl s
  | succ i ih =>
    intro s
    exact (ih _).trans (swapElems_perm s _ _)

theorem Shuffle_perm {α : Type} (draw : Nat → Nat) (n : Nat) (s : List α) :
    (Shuffle draw n s).Perm s :=
  shuffleLoop_perm draw (n - 1) s

/-- The sampling step `rand.Shuffle(len(s), swap); s = s[:maxRows]`: when the
slice expression does not panic, it leaves `maxRows` rows, each taken from `s`
no more often than it occurs there. -/
theorem sample_spec {α : Type} [DecidableEq α] (draw : Nat → Nat) (n : Nat) (s cut : List α)
    (maxRows : Int) (h : sliceTo (Shuffle draw n s) maxRows = some cut) :
    (cut.length : Int) = maxRows ∧ cut.Subperm s ∧ (∀ r, cut.count r ≤ s.count r) ∧
      (∀ r ∈ cut, r ∈ s) := by
  unfold sliceTo at h
  split_ifs at h with hr
  simp only [Option.some.injEq] at h
  subst h
  have hsub : (List.take maxRows.toNat (Shuffle draw n s)).Subperm s :=
    (List.take_sublist _ _).subperm.trans (Shuffle_perm draw n s).subperm
  refine ⟨?_, hsub, fun r => hsub.count_le r, fun r hr => hsub.subset hr⟩
  rw [List.length_take]
  have := hr.1
  have := hr.2
  omega

/-- The slice expression of the sampling step does not panic when the limit is
not negative and the cohort is longer than the limit. -/
theorem sample_isSome {α : Type} (draw : Nat → Nat) (n : Nat) (s : List α) (maxRows : Int)
    (h0 : 0 ≤ maxRows) (hlt : (s.length : Int) > maxRows) :
    ∃ cut, sliceTo (Shuffle draw n s) maxRows = some cut := by
  unfold sliceTo
  have hlen : (Shuffle draw n s).length = s.length := (Shuffle_perm draw n s).length_eq
  rw [if_pos ⟨h0, by rw [hlen]; omega⟩]
  exact ⟨_, rfl⟩

/-! ## The cache job step -/

theorem processFeedbackGroup_calls (rt : Runtime) (w : CacheWorld) (cfg : DigestConfig)
    (workspace : String) (key : FeedbackGroup) (group : List Feedback) (run : CacheRun)
    (h : processFeedbackGroup rt w cfg workspace key group = some run) :
    ∃ rows : List Feedback,
      ((group.length : Int) > cfg.AICacheInputLimit →
        (rows.length : Int) = cfg.AICacheInputLimit ∧ (∀ r, rows.count r ≤ group.count r) ∧
          (∀ r ∈ rows, r ∈ group)) ∧
      ((group.length : Int) ≤ cfg.AICacheInputLimit → rows = group) ∧
      (∀ err, FeedbackToCSV rt rows = .error err → run.calls = []) ∧
      (∀ csv, FeedbackToCSV rt rows = .ok csv →
        run.calls = [⟨key, cfg.AICommentCachePrompt, rows, csv⟩]) := by
  unfold processFeedbackGroup at h
  simp only [] at h
  split at h
  · cases h
  · next rows hs =>
    refine ⟨rows, ?_, ?_, ?_, ?_⟩
    · intro hgt
      rw [if_pos hgt] at hs
      obtain ⟨h1, _, h3, h4⟩ := sample_spec _ _ _ _ _ hs
      exact ⟨h1, h3, h4⟩
    · intro hle
      rw [if_neg (by omega)] at hs
      cases hs
      rfl
    · intro err hcsv
      rw [hcsv] at h
      cases h
      rfl
    · intro csv hcsv
      rw [hcsv] at h
      simp only [] at h
      split at h
      · cases h; rfl
      · split at h <;> (cases h; rfl)

/-! ## The weekly loop -/

theorem GoMap.get_set_self {κ ν : Type} [DecidableEq κ] (m : GoMap κ ν) (k : κ) (v zero : ν) :
    (m.set k v).get k zero = v := by
  simp [GoMap.get, GoMap.set, GoMap.find?, GoMap.lookup_insert_self]

theorem GoMap.get_set_ne {κ ν : Type} [DecidableEq κ] (m : GoMap κ ν) (k k₂ : κ) (v zero : ν)
    (hne : k₂ ≠ k) : (m.set k v).get k₂ zero = m.get k₂ zero := by
  simp [GoMap.get, GoMap.set, GoMap.find?, GoMap.lookup_insert_ne _ _ _ _ hne]

theorem SampleOf.length_le {α : Type} {M : Int} {cohort rows : List α}
    (h : SampleOf M cohort rows) : rows.length ≤ cohort.length := by
  by_cases hgt : (cohort.length : Int) > M
  · have := (h.1 hgt).1
    omega
  · rw [h.2 (by omega)]

/-- The sampling block applied to rows that are the cohort in some order, and
in input order when the cohort is within the limit. -/
theorem sampleOf_of_block {α : Type} (draw : Nat → Nat) (M : Int) (cohort held rows : List α)
    (hperm : held.Perm cohort) (hsame : (cohort.length : Int) ≤ M → held = cohort)
    (hgt : (held.length : Int) > M → sliceTo (Shuffle draw held.length held) M = some rows)
    (hle : (held.length : Int) ≤ M → rows = held) : SampleOf M cohort rows := by
  have hlen : held.length = cohort.length := hperm.length_eq
  constructor
  · intro hc
    have hs := hgt (by omega)
    unfold sliceTo at hs
    split_ifs at hs with hr
    simp only [Option.some.injEq] at hs
    subst hs
    refine ⟨?_, (List.take_sublist _ _).subperm.trans
      ((Shuffle_perm draw _ held).trans hperm).subperm⟩
    rw [List.length_take]
    have := hr.1
    have := hr.2
    omega
  · intro hc
    rw [hle (by omega), hsame hc]
/-- What one iteration of the weekly loop does to the map and to the list of
summarizer calls. -/
theorem weeklyGroupStep_shape (rt : Runtime) (w : DigestWorld) (cfg : DigestConfig)
    (workspace : String) (g : FeedbackGroup) (st st' : WeeklyState) (e : Option GoError)
    (h : weeklyGroupStep rt w cfg workspace g st = some (st', e)) :
    ∃ rows : List SummaryRow,
      (((st.summaryMap.get g []).length : Int) > cfg.AIDigestInputLimit →
        sliceTo (Shuffle w.draw (st.summaryMap.get g []).length (st.summaryMap.get g []))
          cfg.AIDigestInputLimit = some rows ∧
        st'.summaryMap = st.summaryMap.set g
          (Shuffle w.draw (st.summaryMap.get g []).length (st.summaryMap.get g []))) ∧
      (((st.summaryMap.get g []).length : Int) ≤ cfg.AIDigestInputLimit →
        rows = st.summaryMap.get g [] ∧ st'.summaryMap = st.summaryMap) ∧
      ((st'.calls = st.calls ∧ (e = none → st.summaryMap.get g [] = [])) ∨
        (∃ csv, st'.calls = st.calls ++ [⟨g, cfg.AIWeeklyDigestPrompt, rows, csv⟩])) := by
  have hg : ({ Prompt := g.Prompt, Origin := g.Origin, Category := g.Category } :
      FeedbackGroup) = g := rfl
  unfold weeklyGroupStep at h
  simp only [hg] at h
  split at h
  · cases h
  · next summaryMap rows hs =>
    have hst : st'.summaryMap = summaryMap ∧
        ((st'.calls = st.calls ∧ (e = none → st.summaryMap.get g [] = [])) ∨
          (∃ csv, st'.calls = st.calls ++ [⟨g, cfg.AIWeeklyDigestPrompt, rows, csv⟩])) := by
      by_cases hpos : (st.summaryMap.get g []).length > 0
      · simp only [hpos, if_true] at h
        cases hcsv : SummariesToCSV rt rows false with
        | error err =>
          simp only [hcsv] at h
          cases h
          exact ⟨rfl, Or.inl ⟨rfl, fun h => by cases h⟩⟩
        | ok csvData =>
          simp only [hcsv] at h
          cases hai : GetAISummary w.gateway cfg.AIApiURL cfg.AIApiKey cfg.AIModel
              cfg.AIWeeklyDigestPrompt csvData with
          | error err =>
            simp only [hai] at h
            cases h
            exact ⟨rfl, Or.inr ⟨csvData, rfl⟩⟩
          | ok digest =>
            simp only [hai] at h
            cases hstats : GetWeeklyFeedbackStats w.weeklyCounts workspace g.Origin g.Category
                g.Prompt with
            | error err =>
              simp only [hstats] at h
              cases h
              exact ⟨rfl, Or.inr ⟨csvData, rfl⟩⟩
            | ok stats =>
              simp only [hstats] at h
              cases h
              exact ⟨rfl, Or.inr ⟨csvData, rfl⟩⟩
      · simp only [hpos, if_false] at h
        have hnil : st.summaryMap.get g [] = [] := by
          apply List.eq_nil_of_length_eq_zero
          omega
        cases hstats : GetWeeklyFeedbackStats w.weeklyCounts workspace g.Origin g.Category
            g.Prompt with
        | error err =>
          simp only [hstats] at h
          cases h
          exact ⟨rfl, Or.inl ⟨rfl, fun h => by cases h⟩⟩
        | ok stats =>
          simp only [hstats] at h
          cases h
          exact ⟨rfl, Or.inl ⟨rfl, fun _ => hnil⟩⟩
    refine ⟨rows, ?_, ?_, hst.2⟩
    · intro hgt
      rw [if_pos hgt] at hs
      cases hcut : sliceTo (Shuffle w.draw (st.summaryMap.get g []).length
          (st.summaryMap.get g [])) cfg.AIDigestInputLimit with
      | none => rw [hcut] at hs; cases hs
      | some cut =>
        rw [hcut] at hs
        simp only [Option.map_some', Option.some.injEq, Prod.mk.injEq] at hs
        rw [hst.1, ← hs.1, hs.2]
        exact ⟨rfl, rfl⟩
    · intro hle
      rw [if_neg (by omega)] at hs
      simp only [Option.some.injEq, Prod.mk.injEq] at hs
      rw [hst.1, ← hs.1, ← hs.2]
      exact ⟨rfl, rfl⟩


theorem weeklyGroupStep_inv (rt : Runtime) (w : DigestWorld) (cfg : DigestConfig)
    (workspace : String) (summaries : List SummaryRow) (g : FeedbackGroup)
    (st st' : WeeklyState) (e : Option GoError)
    (hinv : WeeklyInv cfg.AIDigestInputLimit summaries st)
    (h : weeklyGroupStep rt w cfg workspace g st = some (st', e)) :
    WeeklyInv cfg.AIDigestInputLimit summaries st' := by
  obtain ⟨hperm, hsame, hcalls⟩ := hinv
  obtain ⟨rows, hgt, hle, hcall⟩ := weeklyGroupStep_shape rt w cfg workspace g st st' e h
  have hlen : (st.summaryMap.get g []).length = (weeklyCohort summaries g).length :=
    (hperm g).length_eq
  have hrows : SampleOf cfg.AIDigestInputLimit (weeklyCohort summaries g) rows :=
    sampleOf_of_block w.draw _ _ (st.summaryMap.get g []) rows (hperm g) (hsame g)
      (fun hc => (hgt hc).1) (fun hc => (hle hc).1)
  refine ⟨?_, ?_, ?_⟩
  · intro key
    by_cases hc : ((st.summaryMap.get g []).length : Int) > cfg.AIDigestInputLimit
    · rw [(hgt hc).2]
      by_cases hk : key = g
      · subst hk
        rw [GoMap.get_set_self]
        exact (Shuffle_perm _ _ _).trans (hperm key)
      · rw [GoMap.get_set_ne _ _ _ _ _ hk]
        exact hperm key
    · rw [(hle (by omega)).2]
      exact hperm key
  · intro key hkey
    by_cases hc : ((st.summaryMap.get g []).length : Int) > cfg.AIDigestInputLimit
    · rw [(hgt hc).2]
      have hk : key ≠ g := by
        rintro rfl
        omega
      rw [GoMap.get_set_ne _ _ _ _ _ hk]
      exact hsame key hkey
    · rw [(hle (by omega)).2]
      exact hsame key hkey
  · intro call hmem
    rcases hcall with ⟨heq, _⟩ | ⟨csv, heq⟩
    · rw [heq] at hmem
      exact hcalls call hmem
    · rw [heq, List.mem_append, List.mem_singleton] at hmem
      rcases hmem with hmem | hmem
      · exact hcalls call hmem
      · subst hmem
        exact hrows

theorem weeklyLoop_inv (rt : Runtime) (world : Nat → DigestWorld) (cfg : DigestConfig)
    (workspace : String) (summaries : List SummaryRow) :
    ∀ (groups : List FeedbackGroup) (k : Nat) (st st' : WeeklyState) (e : Option GoError),
      WeeklyInv cfg.AIDigestInputLimit summaries st →
      weeklyLoop rt world cfg workspace k groups st = some (st', e) →
      WeeklyInv cfg.AIDigestInputLimit summaries st' := by
  intro groups
  induction groups with
  | nil =>
    intro k st st' e hinv h
    simp only [weeklyLoop, Option.some.injEq, Prod.mk.injEq] at h
    rw [← h.1]
    exact hinv
  | cons g rest ih =>
    intro k st st' e hinv h
    rw [weeklyLoop] at h
    cases hstep : weeklyGroupStep rt (world k) cfg workspace g st with
    | none => simp only [hstep] at h; cases h
    | some r =>
      obtain ⟨st₁, e₁⟩ := r
      have hinv₁ := weeklyGroupStep_inv rt (world k) cfg workspace summaries g st st₁ e₁ hinv hstep
      cases e₁ with
      | some err =>
        simp only [hstep, Option.some.injEq, Prod.mk.injEq] at h
        rw [← h.1]
        exact hinv₁
      | none =>
        simp only [hstep] at h
        exact ih (k + 1) st₁ st' e hinv₁ h

theorem GoMap.get_eq {κ ν : Type} [DecidableEq κ] (m : GoMap κ ν) (k : κ) (zero : ν) :
    m.get k zero = (m.find? k).getD zero := rfl

theorem weeklyGroupStep_isSome (rt : Runtime) (w : DigestWorld) (cfg : DigestConfig)
    (workspace : String) (g : FeedbackGroup) (st : WeeklyState)
    (h0 : 0 ≤ cfg.AIDigestInputLimit) :
    ∃ r, weeklyGroupStep rt w cfg workspace g st = some r := by
  have hg : ({ Prompt := g.Prompt, Origin := g.Origin, Category := g.Category } :
      FeedbackGroup) = g := rfl
  unfold weeklyGroupStep
  simp only [hg]
  by_cases hgt : ((st.summaryMap.get g []).length : Int) > cfg.AIDigestInputLimit
  · obtain ⟨cut, hcut⟩ := sample_isSome w.draw (st.summaryMap.get g []).length
      (st.summaryMap.get g []) cfg.AIDigestInputLimit h0 hgt
    simp only [if_pos hgt, hcut, Option.map_some']
    split
    · exact ⟨_, rfl⟩
    · split <;> exact ⟨_, rfl⟩
  · simp only [if_neg hgt]
    split
    · exact ⟨_, rfl⟩
    · split <;> exact ⟨_, rfl⟩

theorem weeklyLoop_isSome (rt : Runtime) (world : Nat → DigestWorld) (cfg : DigestConfig)
    (workspace : String) (h0 : 0 ≤ cfg.AIDigestInputLimit) :
    ∀ (groups : List FeedbackGroup) (k : Nat) (st : WeeklyState),
      ∃ r, weeklyLoop rt world cfg workspace k groups st = some r := by
  intro groups
  induction groups with
  | nil => intro k st; exact ⟨_, rfl⟩
  | cons g rest ih =>
    intro k st
    obtain ⟨⟨st₁, e₁⟩, hstep⟩ := weeklyGroupStep_isSome rt (world k) cfg workspace g st h0
    rw [weeklyLoop]
    cases e₁ with
    | some err => simp only [hstep]; exact ⟨_, rfl⟩
    | none => simp only [hstep]; exact ih (k + 1) st₁

/-- A weekly loop that ends without error has called the summarizer for every
group whose map entry holds rows, and keeps the calls made before. -/
theorem weeklyLoop_calls (rt : Runtime) (world : Nat → DigestWorld) (cfg : DigestConfig)
    (workspace : String) (summaries : List SummaryRow) :
    ∀ (groups : List FeedbackGroup) (k : Nat) (st st' : WeeklyState) (e : Option GoError),
      WeeklyInv cfg.AIDigestInputLimit summaries st →
      weeklyLoop rt world cfg workspace k groups st = some (st', e) →
      (∀ call ∈ st.calls, call ∈ st'.calls) ∧
      (e = none → ∀ g ∈ groups, weeklyCohort summaries g ≠ [] →
        ∃ call ∈ st'.calls, call.key = g) := by
  intro groups
  induction groups with
  | nil =>
    intro k st st' e _ h
    simp only [weeklyLoop, Option.some.injEq, Prod.mk.injEq] at h
    rw [← h.1]
    exact ⟨fun _ hc => hc, fun _ g hg => by simp at hg⟩
  | cons g rest ih =>
    intro k st st' e hinv h
    rw [weeklyLoop] at h
    cases hstep : weeklyGroupStep rt (world k) cfg workspace g st with
    | none => simp only [hstep] at h; cases h
    | some r =>
      obtain ⟨st₁, e₁⟩ := r
      have hinv₁ := weeklyGroupStep_inv rt (world k) cfg workspace summaries g st st₁ e₁ hinv hstep
      obtain ⟨rows, _, _, hcall⟩ := weeklyGroupStep_shape rt (world k) cfg workspace g st st₁ e₁ hstep
      have hmono : ∀ call ∈ st.calls, call ∈ st₁.calls := by
        intro call hc
        rcases hcall with ⟨heq, _⟩ | ⟨csv, heq⟩
        · rw [heq]; exact hc
        · rw [heq]; exact List.mem_append_left _ hc
      cases e₁ with
      | some err =>
        simp only [hstep, Option.some.injEq, Prod.mk.injEq] at h
        rw [← h.1]
        refine ⟨hmono, fun he => ?_⟩
        rw [← h.2] at he
        cases he
      | none =>
        simp only [hstep] at h
        obtain ⟨hm, hex⟩ := ih (k + 1) st₁ st' e hinv₁ h
        refine ⟨fun call hc => hm call (hmono call hc), fun he g' hg' hne => ?_⟩
        rcases List.mem_cons.mp hg' with rfl | hin
        · rcases hcall with ⟨_, hnil⟩ | ⟨csv, heq⟩
          · exfalso
            have hp := hinv.1 g'
            rw [hnil rfl] at hp
            exact hne hp.symm.eq_nil
          · refine ⟨⟨g', cfg.AIWeeklyDigestPrompt, rows, csv⟩, hm _ ?_, rfl⟩
            rw [heq]
            exact List.mem_append_right _ (List.mem_singleton.mpr rfl)
        · exact hex he g' hin hne

theorem weeklyInv_init (M : Int) (summaries : List SummaryRow) :
    WeeklyInv M summaries
      ⟨summaries.foldl
        (fun m s =>
          let key : FeedbackGroup :=
            { Origin := s.Origin, Category := s.Category, Prompt := s.Prompt }
          m.set key (m.get key [] ++ [s]))
        GoMap.empty, [], []⟩ := by
  obtain ⟨_, hfind, _⟩ := groupFold_empty
    (fun s : SummaryRow => ({ Origin := s.Origin, Category := s.Category, Prompt := s.Prompt } :
      FeedbackGroup)) summaries
  have hfilter : ∀ key : FeedbackGroup,
      summaries.filter (fun s => decide
        (({ Origin := s.Origin, Category := s.Category, Prompt := s.Prompt } : FeedbackGroup)
          = key)) = weeklyCohort summaries key := by
    intro key
    unfold weeklyCohort
    apply List.filter_congr
    intro s _
    cases key
    simp only [FeedbackGroup.mk.injEq]
    exact decide_eq_decide.mpr ⟨fun ⟨a, b, c⟩ => ⟨b, c, a⟩, fun ⟨b, c, a⟩ => ⟨a, b, c⟩⟩
  have hget : ∀ key : FeedbackGroup,
      (summaries.foldl
        (fun m s => m.set ({ Origin := s.Origin, Category := s.Category, Prompt := s.Prompt } :
          FeedbackGroup) (m.get { Origin := s.Origin, Category := s.Category, Prompt := s.Prompt }
            [] ++ [s]))
        (GoMap.empty : GoMap FeedbackGroup (List SummaryRow))).get key [] =
        weeklyCohort summaries key := by
    intro key
    rw [GoMap.get_eq, hfind key, hfilter key]
    split_ifs with he
    · rw [List.isEmpty_iff] at he
      rw [he]
      rfl
    · rfl
  refine ⟨fun key => ?_, fun key _ => ?_, fun call hc => by simp at hc⟩
  · show (GoMap.get _ key []).Perm _
    rw [hget key]
  · exact hget key

/-! ## The daily loop -/

theorem GoMap.mem_of_lookup {κ ν : Type} [DecidableEq κ] (m : List (κ × ν)) (k : κ) (v : ν)
    (h : GoMap.lookup m k = some v) : (k, v) ∈ m := by
  induction m with
  | nil => simp [GoMap.lookup] at h
  | cons e rest ih =>
    obtain ⟨k', v'⟩ := e
    by_cases hk : k' = k
    · subst hk
      simp only [GoMap.lookup, if_true, Option.some.injEq] at h
      subst h
      exact List.mem_cons_self _ _
    · simp only [GoMap.lookup, hk, if_false] at h
      exact List.mem_cons_of_mem _ (ih h)

theorem GoMap.lookup_of_mem {κ ν : Type} [DecidableEq κ] (m : List (κ × ν)) (k : κ) (v : ν)
    (hnd : (m.map Prod.fst).Nodup) (h : (k, v) ∈ m) : GoMap.lookup m k = some v := by
  induction m with
  | nil => simp at h
  | cons e rest ih =>
    obtain ⟨k', v'⟩ := e
    simp only [List.map_cons, List.nodup_cons] at hnd
    rcases List.mem_cons.mp h with heq | hin
    · simp only [Prod.mk.injEq] at heq
      simp [GoMap.lookup, heq.1, heq.2]
    · have hk : ¬ k' = k := by
        rintro rfl
        exact hnd.1 (List.mem_map.mpr ⟨(k', v), hin, rfl⟩)
      simp only [GoMap.lookup, hk, if_false]
      exact ih hnd.2 hin

/-- What one iteration of the daily loop does to the list of summarizer
calls. -/
theorem dailyGroupStep_shape (rt : Runtime) (w : DigestWorld) (cfg : DigestConfig)
    (workspace origin : String) (group : List SummaryRow) (st st' : DailyState)
    (e : Option GoError)
    (h : dailyGroupStep rt w cfg workspace origin group st = some (st', e)) :
    ∃ rows : List SummaryRow,
      ((group.length : Int) > cfg.AIDigestInputLimit →
        sliceTo (Shuffle w.draw group.length group) cfg.AIDigestInputLimit = some rows) ∧
      ((group.length : Int) ≤ cfg.AIDigestInputLimit → rows = group) ∧
      ((st'.calls = st.calls ∧ e ≠ none) ∨
        (∃ csv, st'.calls = st.calls ++ [⟨origin, cfg.AIDailyDigestPrompt, rows, csv⟩])) := by
  unfold dailyGroupStep at h
  simp only [] at h
  split at h
  · cases h
  · next rows hs =>
    refine ⟨rows, ?_, ?_, ?_⟩
    · intro hgt
      rw [if_pos hgt] at hs
      exact hs
    · intro hle
      rw [if_neg (by omega)] at hs
      cases hs
      rfl
    · cases hcsv : SummariesToCSV rt rows false with
      | error err =>
        simp only [hcsv] at h
        cases h
        exact Or.inl ⟨rfl, fun h => by cases h⟩
      | ok csvData =>
        simp only [hcsv] at h
        cases hai : GetAISummary w.gateway cfg.AIApiURL cfg.AIApiKey cfg.AIModel
            cfg.AIDailyDigestPrompt csvData with
        | error err =>
          simp only [hai] at h
          cases h
          exact Or.inr ⟨csvData, rfl⟩
        | ok digest =>
          simp only [hai] at h
          cases h
          exact Or.inr ⟨csvData, rfl⟩

theorem dailyGroupStep_isSome (rt : Runtime) (w : DigestWorld) (cfg : DigestConfig)
    (workspace origin : String) (group : List SummaryRow) (st : DailyState)
    (h0 : 0 ≤ cfg.AIDigestInputLimit) :
    ∃ r, dailyGroupStep rt w cfg workspace origin group st = some r := by
  unfold dailyGroupStep
  simp only []
  by_cases hgt : (group.length : Int) > cfg.AIDigestInputLimit
  · obtain ⟨cut, hcut⟩ := sample_isSome w.draw group.length group cfg.AIDigestInputLimit h0 hgt
    simp only [if_pos hgt, hcut]
    split
    · exact ⟨_, rfl⟩
    · split <;> exact ⟨_, rfl⟩
  · simp only [if_neg hgt]
    split
    · exact ⟨_, rfl⟩
    · split <;> exact ⟨_, rfl⟩

theorem dailyLoop_isSome (rt : Runtime) (world : Nat → DigestWorld) (cfg : DigestConfig)
    (workspace : String) (h0 : 0 ≤ cfg.AIDigestInputLimit) :
    ∀ (entries : List (String × List SummaryRow)) (k : Nat) (st : DailyState),
      ∃ r, dailyLoop rt world cfg workspace k entries st = some r := by
  intro entries
  induction entries with
  | nil => intro k st; exact ⟨_, rfl⟩
  | cons en rest ih =>
    intro k st
    obtain ⟨origin, group⟩ := en
    obtain ⟨⟨st₁, e₁⟩, hstep⟩ :=
      dailyGroupStep_isSome rt (world k) cfg workspace origin group st h0
    rw [dailyLoop]
    cases e₁ with
    | some err => simp only [hstep]; exact ⟨_, rfl⟩
    | none => simp only [hstep]; exact ih (k + 1) st₁

/-- The daily loop over entries that each hold the cohort of their origin:
every summarizer call gets a sample of the cohort of its origin, and a loop
that ends without error has made a call for every entry. -/
theorem dailyLoop_calls (rt : Runtime) (world : Nat → DigestWorld) (cfg : DigestConfig)
    (workspace : String) (summaries : List SummaryRow) :
    ∀ (entries : List (String × List SummaryRow)) (k : Nat) (st st' : DailyState)
      (e : Option GoError),
      (∀ en ∈ entries, en.2 = dailyCohort summaries en.1) →
      (∀ call ∈ st.calls,
        SampleOf cfg.AIDigestInputLimit (dailyCohort summaries call.key) call.rows) →
      dailyLoop rt world cfg workspace k entries st = some (st', e) →
      (∀ call ∈ st'.calls,
        SampleOf cfg.AIDigestInputLimit (dailyCohort summaries call.key) call.rows) ∧
      (∀ call ∈ st.calls, call ∈ st'.calls) ∧
      (e = none → ∀ en ∈ entries, ∃ call ∈ st'.calls, call.key = en.1) := by
  intro entries
  induction entries with
  | nil =>
    intro k st st' e _ hcalls h
    simp only [dailyLoop, Option.some.injEq, Prod.mk.injEq] at h
    rw [← h.1]
    exact ⟨hcalls, fun _ hc => hc, fun _ en hen => by simp at hen⟩
  | cons en rest ih =>
    intro k st st' e hent hcalls h
    obtain ⟨origin, group⟩ := en
    rw [dailyLoop] at h
    cases hstep : dailyGroupStep rt (world k) cfg workspace origin group st with
    | none => simp only [hstep] at h; cases h
    | some r =>
      obtain ⟨st₁, e₁⟩ := r
      obtain ⟨rows, hgt, hle, hcall⟩ :=
        dailyGroupStep_shape rt (world k) cfg workspace origin group st st₁ e₁ hstep
      have hgroup : group = dailyCohort summaries origin := hent (origin, group) (List.mem_cons_self _ _)
      have hrows : SampleOf cfg.AIDigestInputLimit (dailyCohort summaries origin) rows := by
        rw [← hgroup]
        exact sampleOf_of_block (world k).draw _ group group rows (List.Perm.refl _)
          (fun _ => rfl) hgt hle
      have hcalls₁ : ∀ call ∈ st₁.calls,
          SampleOf cfg.AIDigestInputLimit (dailyCohort summaries call.key) call.rows := by
        intro call hmem
        rcases hcall with ⟨heq, _⟩ | ⟨csv, heq⟩
        · rw [heq] at hmem
          exact hcalls call hmem
        · rw [heq, List.mem_append, List.mem_singleton] at hmem
          rcases hmem with hmem | hmem
          · exact hcalls call hmem
          · subst hmem
            exact hrows
      have hmono : ∀ call ∈ st.calls, call ∈ st₁.calls := by
        intro call hc
        rcases hcall with ⟨heq, _⟩ | ⟨csv, heq⟩
        · rw [heq]; exact hc
        · rw [heq]; exact List.mem_append_left _ hc
      cases e₁ with
      | some err =>
        simp only [hstep, Option.some.injEq, Prod.mk.injEq] at h
        rw [← h.1]
        refine ⟨hcalls₁, hmono, fun he => ?_⟩
        rw [← h.2] at he
        cases he
      | none =>
        simp only [hstep] at h
        obtain ⟨hok, hm, hex⟩ := ih (k + 1) st₁ st' e
          (fun en hen => hent en (List.mem_cons_of_mem _ hen)) hcalls₁ h
        refine ⟨hok, fun call hc => hm call (hmono call hc), fun he en hen => ?_⟩
        rcases List.mem_cons.mp hen with rfl | hin
        · rcases hcall with ⟨_, hne⟩ | ⟨csv, heq⟩
          · exact absurd rfl hne
          · refine ⟨⟨origin, cfg.AIDailyDigestPrompt, rows, csv⟩, hm _ ?_, rfl⟩
            rw [heq]
            exact List.mem_append_right _ (List.mem_singleton.mpr rfl)
        · exact hex he en hin

/-- The map `originMap` of `prepareDailyDigestData`: an entry holds the cohort
of its origin, and every origin with rows has an entry. -/
theorem originMap_entries (summaries : List SummaryRow) :
    (∀ en ∈ (summaries.foldl (fun m s => m.set s.Origin (m.get s.Origin [] ++ [s]))
        (GoMap.empty : GoMap String (List SummaryRow))).entries,
      en.2 = dailyCohort summaries en.1) ∧
    (∀ origin, dailyCohort summaries origin ≠ [] →
      (origin, dailyCohort summaries origin) ∈
        (summaries.foldl (fun m s => m.set s.Origin (m.get s.Origin [] ++ [s]))
          (GoMap.empty : GoMap String (List SummaryRow))).entries) := by
  obtain ⟨hnd, hfind, _⟩ := groupFold_empty (fun s : SummaryRow => s.Origin) summaries
  constructor
  · intro en hen
    obtain ⟨origin, group⟩ := en
    have hl := GoMap.lookup_of_mem _ origin group hnd hen
    have hf := hfind origin
    unfold GoMap.find? at hf
    rw [hl] at hf
    split_ifs at hf with he
    simp only [Option.some.injEq] at hf
    exact hf
  · intro origin hne
    have hf := hfind origin
    unfold GoMap.find? at hf
    have he : ¬ (List.filter (fun x => decide (x.Origin = origin)) summaries).isEmpty = true := by
      rw [List.isEmpty_iff]
      exact hne
    rw [if_neg he] at hf
    exact GoMap.mem_of_lookup _ _ _ hf

/-! ## Summarizer calls and the outcome of the prepare functions -/

/-- The text `SummariesToCSV` makes of summary rows is what the CSV writer
makes of their records. -/
theorem SummariesToCSV_records (rt : Runtime) (rows : List SummaryRow) (withDates : Bool) :
    SummariesToCSV rt rows withDates = rt.csvWrite (summaryRecords rt withDates rows) := by
  cases withDates <;> simp [SummariesToCSV, summaryRecords]

/-- The text `FeedbackToCSV` makes of feedback rows is the text of the
design. -/
theorem FeedbackToCSV_text (rt : Runtime) (rows : List Feedback) :
    FeedbackToCSV rt rows = feedbackText rt rows := by
  cases rows with
  | nil => simp [FeedbackToCSV, feedbackText]
  | cons first rest =>
    simp only [FeedbackToCSV, feedbackText, List.head?_cons, Option.map_some', Option.getD_some,
      if_neg (List.cons_ne_nil first rest)]
    congr 1
    simp only [List.cons.injEq, true_and]
    apply List.map_congr_left
    intro f _
    cases f.Comment <;> rfl

/-- A call whose answer showed when the loop had no error and the entries
`blocks₁` still shows it when the loop ends with `e` and entries that include
`blocks₁`. -/
theorem CallHanded.later {κ β : Type} {rt : Runtime} {gw : AIGateway (List OutputItem)}
    {cfg : DigestConfig} {withDates : Bool} {prompt : String} {failure : GoError → GoError}
    {carries : β → String → Prop} {call : SummarizerCall κ SummaryRow} {blocks₁ blocks₂ : List β}
    (e : Option GoError)
    (h : CallHanded rt gw cfg withDates prompt failure carries call (loopOutcome none blocks₁))
    (hsub : ∀ b ∈ blocks₁, b ∈ blocks₂) :
    CallHanded rt gw cfg withDates prompt failure carries call (loopOutcome e blocks₂) := by
  obtain ⟨h1, h2, h3, h4⟩ := h
  refine ⟨h1, h2, ?_, ?_⟩
  · intro err herr
    have := h3 err herr
    simp [loopOutcome] at this
  · intro digest blocks hd hres
    obtain ⟨b, hb, hc⟩ := h4 digest blocks₁ hd rfl
    cases e with
    | some err => simp [loopOutcome] at hres
    | none =>
      simp only [loopOutcome, Except.ok.injEq] at hres
      subst hres
      exact ⟨b, hsub b hb, hc⟩

/-- A call whose answer shows in the outcome of the loop shows it in the
sorted outcome, when sorting keeps the entries. -/
theorem CallHanded.sorted {κ β : Type} {rt : Runtime} {gw : AIGateway (List OutputItem)}
    {cfg : DigestConfig} {withDates : Bool} {prompt : String} {failure : GoError → GoError}
    {carries : β → String → Prop} {call : SummarizerCall κ SummaryRow} {blocks : List β}
    (e : Option GoError) (less : β → β → Bool) (hsort : SortKeepsEntries rt)
    (h : CallHanded rt gw cfg withDates prompt failure carries call (loopOutcome e blocks)) :
    CallHanded rt gw cfg withDates prompt failure carries call
      (loopOutcome e (rt.sortSlice less blocks)) := by
  obtain ⟨h1, h2, h3, h4⟩ := h
  refine ⟨h1, h2, ?_, ?_⟩
  · intro err herr
    have := h3 err herr
    cases e with
    | some err' => simpa [loopOutcome] using this
    | none => simp [loopOutcome] at this
  · intro digest blocks' hd hres
    cases e with
    | some err => simp [loopOutcome] at hres
    | none =>
      simp only [loopOutcome, Except.ok.injEq] at hres
      subst hres
      obtain ⟨b, hb, hc⟩ := h4 digest blocks hd rfl
      exact ⟨b, (hsort _ less blocks).symm.subset hb, hc⟩

/-- What one iteration of the weekly loop does to the calls and the entries:
the entries made before stay, and a call it makes got the CSV text of its rows
and shows its answer in the outcome of the iteration. -/
theorem weeklyGroupStep_handed (rt : Runtime) (w : DigestWorld) (cfg : DigestConfig)
    (workspace : String) (g : FeedbackGroup) (st st' : WeeklyState) (e : Option GoError)
    (h : weeklyGroupStep rt w cfg workspace g st = some (st', e)) :
    (∀ b ∈ st.digestBlocks, b ∈ st'.digestBlocks) ∧
    (st'.calls = st.calls ∨
      ∃ call, st'.calls = st.calls ++ [call] ∧
        WeeklyCallHanded rt w.gateway cfg workspace call (loopOutcome e st'.digestBlocks)) := by
  have hg : ({ Prompt := g.Prompt, Origin := g.Origin, Category := g.Category } :
      FeedbackGroup) = g := rfl
  unfold weeklyGroupStep at h
  simp only [hg] at h
  split at h
  · cases h
  · next summaryMap rows hs =>
    by_cases hpos : (st.summaryMap.get g []).length > 0
    · simp only [hpos, if_true] at h
      cases hcsv : SummariesToCSV rt rows false with
      | error err =>
        simp only [hcsv] at h
        cases h
        exact ⟨fun b hb => hb, Or.inl rfl⟩
      | ok csvData =>
        simp only [hcsv] at h
        cases hai : GetAISummary w.gateway cfg.AIApiURL cfg.AIApiKey cfg.AIModel
            cfg.AIWeeklyDigestPrompt csvData with
        | error err =>
          simp only [hai] at h
          cases h
          refine ⟨fun b hb => hb, Or.inr ⟨_, rfl, rfl, (SummariesToCSV_records rt _ _).symm.trans hcsv, ?_, ?_⟩⟩
          · intro err' herr'
            rw [hai] at herr'
            cases herr'
            rfl
          · intro digest blocks hd
            rw [hai] at hd
            cases hd
        | ok digest =>
          simp only [hai] at h
          cases hstats : GetWeeklyFeedbackStats w.weeklyCounts workspace g.Origin g.Category
              g.Prompt with
          | error err =>
            simp only [hstats] at h
            cases h
            refine ⟨fun b hb => hb, Or.inr ⟨_, rfl, rfl, (SummariesToCSV_records rt _ _).symm.trans hcsv, ?_, ?_⟩⟩
            · intro err' herr'
              rw [hai] at herr'
              cases herr'
            · intro digest' blocks _ hres
              simp [loopOutcome] at hres
          | ok stats =>
            simp only [hstats] at h
            cases h
            refine ⟨fun b hb => List.mem_append_left _ hb, Or.inr ⟨_, rfl, rfl, (SummariesToCSV_records rt _ _).symm.trans hcsv, ?_, ?_⟩⟩
            · intro err' herr'
              rw [hai] at herr'
              cases herr'
            · intro digest' blocks hd hres
              rw [hai] at hd
              cases hd
              simp only [loopOutcome, Except.ok.injEq] at hres
              subst hres
              exact ⟨weeklyDigestEntry g stats digest, by simp, rfl, rfl, rfl, rfl⟩
    · simp only [hpos, if_false] at h
      cases hstats : GetWeeklyFeedbackStats w.weeklyCounts workspace g.Origin g.Category
          g.Prompt with
      | error err =>
        simp only [hstats] at h
        cases h
        exact ⟨fun b hb => hb, Or.inl rfl⟩
      | ok stats =>
        simp only [hstats] at h
        cases h
        exact ⟨fun b hb => List.mem_append_left _ hb, Or.inl rfl⟩

/-- Every call a weekly loop makes got the CSV text of its rows and shows its
answer in the outcome of the loop. -/
theorem weeklyLoop_handed (rt : Runtime) (world : Nat → DigestWorld) (cfg : DigestConfig)
    (workspace : String) :
    ∀ (groups : List FeedbackGroup) (k : Nat) (st st' : WeeklyState) (e : Option GoError),
      weeklyLoop rt world cfg workspace k groups st = some (st', e) →
      (∀ b ∈ st.digestBlocks, b ∈ st'.digestBlocks) ∧
      ∀ call ∈ st'.calls, call ∈ st.calls ∨
        ∃ j, WeeklyCallHanded rt (world j).gateway cfg workspace call
          (loopOutcome e st'.digestBlocks) := by
  intro groups
  induction groups with
  | nil =>
    intro k st st' e h
    simp only [weeklyLoop, Option.some.injEq, Prod.mk.injEq] at h
    rw [← h.1]
    exact ⟨fun b hb => hb, fun call hc => Or.inl hc⟩
  | cons g rest ih =>
    intro k st st' e h
    rw [weeklyLoop] at h
    cases hstep : weeklyGroupStep rt (world k) cfg workspace g st with
    | none => simp only [hstep] at h; cases h
    | some r =>
      obtain ⟨st₁, e₁⟩ := r
      obtain ⟨hb₁, hc₁⟩ := weeklyGroupStep_handed rt (world k) cfg workspace g st st₁ e₁ hstep
      cases e₁ with
      | some err =>
        simp only [hstep, Option.some.injEq, Prod.mk.injEq] at h
        obtain ⟨h1, h2⟩ := h
        subst h1 h2
        refine ⟨hb₁, fun call hc => ?_⟩
        rcases hc₁ with heq | ⟨c, heq, hh⟩
        · rw [heq] at hc; exact Or.inl hc
        · rw [heq, List.mem_append, List.mem_singleton] at hc
          rcases hc with hc | hc
          · exact Or.inl hc
          · subst hc; exact Or.inr ⟨k, hh⟩
      | none =>
        simp only [hstep] at h
        obtain ⟨hb₂, hc₂⟩ := ih (k + 1) st₁ st' e h
        refine ⟨fun b hb => hb₂ b (hb₁ b hb), fun call hc => ?_⟩
        rcases hc₂ call hc with hc' | hnew
        · rcases hc₁ with heq | ⟨c, heq, hh⟩
          · rw [heq] at hc'; exact Or.inl hc'
          · rw [heq, List.mem_append, List.mem_singleton] at hc'
            rcases hc' with hc' | hc'
            · exact Or.inl hc'
            · subst hc'
              exact Or.inr ⟨k, CallHanded.later e hh hb₂⟩
        · exact Or.inr hnew

/-- Every summarizer call of `prepareWeeklyDigestData` got the CSV text of its
rows and shows its answer in the value the function returns. -/
theorem prepareWeeklyDigestData_handed (rt : Runtime) (world : Nat → DigestWorld)
    (cfg : DigestConfig) (groups : List FeedbackGroup) (summaries : List SummaryRow)
    (workspace : String) (hsort : SortKeepsEntries rt)
    (calls : List (SummarizerCall FeedbackGroup SummaryRow))
    (result : Except GoError (List WeeklyDigestData))
    (h : prepareWeeklyDigestData rt world cfg groups summaries workspace = some (calls, result)) :
    ∀ call ∈ calls, ∃ j, WeeklyCallHanded rt (world j).gateway cfg workspace call result := by
  unfold prepareWeeklyDigestData at h
  simp only [] at h
  split at h
  · cases h
  · next st err hloop =>
    simp only [Option.some.injEq, Prod.mk.injEq] at h
    obtain ⟨h1, h2⟩ := h
    subst h1 h2
    intro call hc
    rcases (weeklyLoop_handed rt world cfg workspace groups 0 _ st (some err) hloop).2 call hc
      with hold | ⟨j, hj⟩
    · simp at hold
    · exact ⟨j, hj⟩
  · next st hloop =>
    simp only [Option.some.injEq, Prod.mk.injEq] at h
    obtain ⟨h1, h2⟩ := h
    subst h1 h2
    intro call hc
    rcases (weeklyLoop_handed rt world cfg workspace groups 0 _ st none hloop).2 call hc
      with hold | ⟨j, hj⟩
    · simp at hold
    · exact ⟨j, CallHanded.sorted none weeklyLess hsort hj⟩

/-- What one iteration of the daily loop does to the calls and the entries: the
entries made before stay, and a call it makes got the CSV text of its rows and
shows its answer in the outcome of the iteration. -/
theorem dailyGroupStep_handed (rt : Runtime) (w : DigestWorld) (cfg : DigestConfig)
    (workspace origin : String) (group : List SummaryRow) (st st' : DailyState)
    (e : Option GoError)
    (h : dailyGroupStep rt w cfg workspace origin group st = some (st', e)) :
    (∀ b ∈ st.digestBlocks, b ∈ st'.digestBlocks) ∧
    (st'.calls = st.calls ∨
      ∃ call, st'.calls = st.calls ++ [call] ∧
        DailyCallHanded rt w.gateway cfg workspace call (loopOutcome e st'.digestBlocks)) := by
  unfold dailyGroupStep at h
  simp only [] at h
  split at h
  · cases h
  · next rows hs =>
    cases hcsv : SummariesToCSV rt rows false with
    | error err =>
      simp only [hcsv] at h
      cases h
      exact ⟨fun b hb => hb, Or.inl rfl⟩
    | ok csvData =>
      simp only [hcsv] at h
      cases hai : GetAISummary w.gateway cfg.AIApiURL cfg.AIApiKey cfg.AIModel
          cfg.AIDailyDigestPrompt csvData with
      | error err =>
        simp only [hai] at h
        cases h
        refine ⟨fun b hb => hb, Or.inr ⟨_, rfl, rfl, (SummariesToCSV_records rt _ _).symm.trans hcsv, ?_, ?_⟩⟩
        · intro err' herr'
          rw [hai] at herr'
          cases herr'
          rfl
        · intro digest blocks hd
          rw [hai] at hd
          cases hd
      | ok digest =>
        simp only [hai] at h
        cases h
        refine ⟨fun b hb => List.mem_append_left _ hb, Or.inr ⟨_, rfl, rfl, (SummariesToCSV_records rt _ _).symm.trans hcsv, ?_, ?_⟩⟩
        · intro err' herr'
          rw [hai] at herr'
          cases herr'
        · intro digest' blocks hd hres
          rw [hai] at hd
          cases hd
          simp only [loopOutcome, Except.ok.injEq] at hres
          subst hres
          exact ⟨_, List.mem_append_right _ (List.mem_singleton_self _), rfl, rfl, rfl⟩

/-- Every call a daily loop makes got the CSV text of its rows and shows its
answer in the outcome of the loop. -/
theorem dailyLoop_handed (rt : Runtime) (world : Nat → DigestWorld) (cfg : DigestConfig)
    (workspace : String) :
    ∀ (entries : List (String × List SummaryRow)) (k : Nat) (st st' : DailyState)
      (e : Option GoError),
      dailyLoop rt world cfg workspace k entries st = some (st', e) →
      (∀ b ∈ st.digestBlocks, b ∈ st'.digestBlocks) ∧
      ∀ call ∈ st'.calls, call ∈ st.calls ∨
        ∃ j, DailyCallHanded rt (world j).gateway cfg workspace call
          (loopOutcome e st'.digestBlocks) := by
  intro entries
  induction entries with
  | nil =>
    intro k st st' e h
    simp only [dailyLoop, Option.some.injEq, Prod.mk.injEq] at h
    rw [← h.1]
    exact ⟨fun b hb => hb, fun call hc => Or.inl hc⟩
  | cons en rest ih =>
    intro k st st' e h
    obtain ⟨origin, group⟩ := en
    rw [dailyLoop] at h
    cases hstep : dailyGroupStep rt (world k) cfg workspace origin group st with
    | none => simp only [hstep] at h; cases h
    | some r =>
      obtain ⟨st₁, e₁⟩ := r
      obtain ⟨hb₁, hc₁⟩ :=
        dailyGroupStep_handed rt (world k) cfg workspace origin group st st₁ e₁ hstep
      cases e₁ with
      | some err =>
        simp only [hstep, Option.some.injEq, Prod.mk.injEq] at h
        obtain ⟨h1, h2⟩ := h
        subst h1 h2
        refine ⟨hb₁, fun call hc => ?_⟩
        rcases hc₁ with heq | ⟨c, heq, hh⟩
        · rw [heq] at hc; exact Or.inl hc
        · rw [heq, List.mem_append, List.mem_singleton] at hc
          rcases hc with hc | hc
          · exact Or.inl hc
          · subst hc; exact Or.inr ⟨k, hh⟩
      | none =>
        simp only [hstep] at h
        obtain ⟨hb₂, hc₂⟩ := ih (k + 1) st₁ st' e h
        refine ⟨fun b hb => hb₂ b (hb₁ b hb), fun call hc => ?_⟩
        rcases hc₂ call hc with hc' | hnew
        · rcases hc₁ with heq | ⟨c, heq, hh⟩
          · rw [heq] at hc'; exact Or.inl hc'
          · rw [heq, List.mem_append, List.mem_singleton] at hc'
            rcases hc' with hc' | hc'
            · exact Or.inl hc'
            · subst hc'
              exact Or.inr ⟨k, CallHanded.later e hh hb₂⟩
        · exact Or.inr hnew

/-- Every summarizer call of `prepareDailyDigestData` got the CSV text of its
rows and shows its answer in the value the function returns. -/
theorem prepareDailyDigestData_handed (rt : Runtime) (world : Nat → DigestWorld)
    (cfg : DigestConfig) (summaries : List SummaryRow) (workspace : String)
    (hsort : SortKeepsEntries rt) (calls : List (SummarizerCall String SummaryRow))
    (result : Except GoError (List DailyDigestData))
    (h : prepareDailyDigestData rt world cfg summaries workspace = some (calls, result)) :
    ∀ call ∈ calls, ∃ j, DailyCallHanded rt (world j).gateway cfg workspace call result := by
  unfold prepareDailyDigestData at h
  simp only [] at h
  split at h
  · cases h
  · next st err hloop =>
    simp only [Option.some.injEq, Prod.mk.injEq] at h
    obtain ⟨h1, h2⟩ := h
    subst h1 h2
    intro call hc
    rcases (dailyLoop_handed rt world cfg workspace _ 0 _ st (some err) hloop).2 call hc
      with hold | ⟨j, hj⟩
    · simp at hold
    · exact ⟨j, hj⟩
  · next st hloop =>
    simp only [Option.some.injEq, Prod.mk.injEq] at h
    obtain ⟨h1, h2⟩ := h
    subst h1 h2
    intro call hc
    rcases (dailyLoop_handed rt world cfg workspace _ 0 _ st none hloop).2 call hc
      with hold | ⟨j, hj⟩
    · simp at hold
    · exact ⟨j, CallHanded.sorted none dailyLess hsort hj⟩

/-- What one iteration of the monthly loop does to the calls and the entries:
the entries made before stay, and a call it makes got the CSV text of its rows
and shows its answer in the outcome of the iteration. -/
theorem monthlyGroupStep_handed (rt : Runtime) (w : ChartDigestWorld) (cfg : DigestConfig)
    (workspace botToken channel : String) (g : FeedbackGroup) (st st' : MonthlyState)
    (e : Option GoError)
    (h : monthlyGroupStep rt w cfg workspace botToken channel g st = some (st', e)) :
    (∀ b ∈ st.digestBlocks, b ∈ st'.digestBlocks) ∧
    (st'.calls = st.calls ∨
      ∃ call, st'.calls = st.calls ++ [call] ∧
        MonthlyCallHanded rt w.gateway cfg workspace call (loopOutcome e st'.digestBlocks)) := by
  unfold monthlyGroupStep at h
  simp only [] at h
  split at h
  · cases h
  · next summaryMap rows hs =>
    by_cases hpos : (st.summaryMap.get ⟨g.Origin, g.Category⟩ []).length > 0
    · simp only [hpos, if_true] at h
      cases hcsv : SummariesToCSV rt rows true with
      | error err =>
        simp only [hcsv] at h
        cases h
        exact ⟨fun b hb => hb, Or.inl rfl⟩
      | ok csvData =>
        simp only [hcsv] at h
        cases hai : GetAISummary w.gateway cfg.AIApiURL cfg.AIApiKey cfg.AIModel
            cfg.AIMonthlyDigestPrompt csvData with
        | error err =>
          simp only [hai] at h
          cases h
          refine ⟨fun b hb => hb, Or.inr ⟨_, rfl, rfl, (SummariesToCSV_records rt _ _).symm.trans hcsv, ?_, ?_⟩⟩
          · intro err' herr'
            rw [hai] at herr'
            cases herr'
            rfl
          · intro digest blocks hd
            rw [hai] at hd
            cases hd
        | ok digest =>
          simp only [hai] at h
          cases hstats : GetMonthlyFeedbackStats w.monthlyCounts workspace g.Origin
              g.Category with
          | error err =>
            simp only [hstats] at h
            cases h
            refine ⟨fun b hb => hb, Or.inr ⟨_, rfl, rfl, (SummariesToCSV_records rt _ _).symm.trans hcsv, ?_, ?_⟩⟩
            · intro err' herr'
              rw [hai] at herr'
              cases herr'
            · intro digest' blocks _ hres
              simp [loopOutcome] at hres
          | ok stats =>
            simp only [hstats] at h
            cases hgraph : (GenerateAndUploadMonthlyGraph w.graph botToken channel workspace
                g.Origin g.Category).err with
            | some err =>
              simp only [hgraph] at h
              cases h
              refine ⟨fun b hb => hb, Or.inr ⟨_, rfl, rfl, (SummariesToCSV_records rt _ _).symm.trans hcsv, ?_, ?_⟩⟩
              · intro err' herr'
                rw [hai] at herr'
                cases herr'
              · intro digest' blocks _ hres
                simp [loopOutcome] at hres
            | none =>
              simp only [hgraph] at h
              cases h
              refine ⟨fun b hb => List.mem_append_left _ hb,
                Or.inr ⟨_, rfl, rfl, (SummariesToCSV_records rt _ _).symm.trans hcsv, ?_, ?_⟩⟩
              · intro err' herr'
                rw [hai] at herr'
                cases herr'
              · intro digest' blocks hd hres
                rw [hai] at hd
                cases hd
                simp only [loopOutcome, Except.ok.injEq] at hres
                subst hres
                exact ⟨_, List.mem_append_right _ (List.mem_singleton_self _), rfl, rfl, rfl⟩
    · simp only [hpos, if_false] at h
      cases hstats : GetMonthlyFeedbackStats w.monthlyCounts workspace g.Origin g.Category with
      | error err =>
        simp only [hstats] at h
        cases h
        exact ⟨fun b hb => hb, Or.inl rfl⟩
      | ok stats =>
        simp only [hstats] at h
        cases hgraph : (GenerateAndUploadMonthlyGraph w.graph botToken channel workspace
            g.Origin g.Category).err with
        | some err =>
          simp only [hgraph] at h
          cases h
          exact ⟨fun b hb => hb, Or.inl rfl⟩
        | none =>
          simp only [hgraph] at h
          cases h
          exact ⟨fun b hb => List.mem_append_left _ hb, Or.inl rfl⟩

/-- Every call a monthly loop makes got the CSV text of its rows and shows its
answer in the outcome of the loop. -/
theorem monthlyLoop_handed (rt : Runtime) (world : Nat → ChartDigestWorld) (cfg : DigestConfig)
    (workspace botToken channel : String) :
    ∀ (groups : List FeedbackGroup) (k : Nat) (st st' : MonthlyState) (e : Option GoError),
      monthlyLoop rt world cfg workspace botToken channel k groups st = some (st', e) →
      (∀ b ∈ st.digestBlocks, b ∈ st'.digestBlocks) ∧
      ∀ call ∈ st'.calls, call ∈ st.calls ∨
        ∃ j, MonthlyCallHanded rt (world j).gateway cfg workspace call
          (loopOutcome e st'.digestBlocks) := by
  intro groups
  induction groups with
  | nil =>
    intro k st st' e h
    simp only [monthlyLoop, Option.some.injEq, Prod.mk.injEq] at h
    rw [← h.1]
    exact ⟨fun b hb => hb, fun call hc => Or.inl hc⟩
  | cons g rest ih =>
    intro k st st' e h
    rw [monthlyLoop] at h
    cases hstep : monthlyGroupStep rt (world k) cfg workspace botToken channel g st with
    | none => simp only [hstep] at h; cases h
    | some r =>
      obtain ⟨st₁, e₁⟩ := r
      obtain ⟨hb₁, hc₁⟩ := monthlyGroupStep_handed rt (world k) cfg workspace botToken channel
        g st st₁ e₁ hstep
      cases e₁ with
      | some err =>
        simp only [hstep, Option.some.injEq, Prod.mk.injEq] at h
        obtain ⟨h1, h2⟩ := h
        subst h1 h2
        refine ⟨hb₁, fun call hc => ?_⟩
        rcases hc₁ with heq | ⟨c, heq, hh⟩
        · rw [heq] at hc; exact Or.inl hc
        · rw [heq, List.mem_append, List.mem_singleton] at hc
          rcases hc with hc | hc
          · exact Or.inl hc
          · subst hc; exact Or.inr ⟨k, hh⟩
      | none =>
        simp only [hstep] at h
        obtain ⟨hb₂, hc₂⟩ := ih (k + 1) st₁ st' e h
        refine ⟨fun b hb => hb₂ b (hb₁ b hb), fun call hc => ?_⟩
        rcases hc₂ call hc with hc' | hnew
        · rcases hc₁ with heq | ⟨c, heq, hh⟩
          · rw [heq] at hc'; exact Or.inl hc'
          · rw [heq, List.mem_append, List.mem_singleton] at hc'
            rcases hc' with hc' | hc'
            · exact Or.inl hc'
            · subst hc'
              exact Or.inr ⟨k, CallHanded.later e hh hb₂⟩
        · exact Or.inr hnew

/-- Every summarizer call of `prepareMonthlyDigestData` got the CSV text of its
rows and shows its answer in the value the function returns. -/
theorem prepareMonthlyDigestData_handed (rt : Runtime) (world : Nat → ChartDigestWorld)
    (cfg : DigestConfig) (groups : List FeedbackGroup) (summaries : List SummaryRow)
    (workspace botToken channel : String) (hsort : SortKeepsEntries rt)
    (run : ChartDigestRun groupKey MonthlyDigestData)
    (h : prepareMonthlyDigestData rt world cfg groups summaries workspace botToken channel =
      some run) :
    ∀ call ∈ run.calls,
      ∃ j, MonthlyCallHanded rt (world j).gateway cfg workspace call run.result := by
  unfold prepareMonthlyDigestData at h
  simp only [] at h
  split at h
  · cases h
  · next st err hloop =>
    simp only [Option.some.injEq] at h
    subst h
    intro call hc
    rcases (monthlyLoop_handed rt world cfg workspace botToken channel groups 0 _ st (some err)
      hloop).2 call hc with hold | ⟨j, hj⟩
    · simp at hold
    · exact ⟨j, hj⟩
  · next st hloop =>
    simp only [Option.some.injEq] at h
    subst h
    intro call hc
    rcases (monthlyLoop_handed rt world cfg workspace botToken channel groups 0 _ st none
      hloop).2 call hc with hold | ⟨j, hj⟩
    · simp at hold
    · exact ⟨j, CallHanded.sorted none monthlyLess hsort hj⟩

/-- What one iteration of the quarterly loop does to the calls and the entries:
the entries made before stay, and a call it makes got the CSV text of its rows
and shows its answer in the outcome of the iteration. -/
theorem quarterlyGroupStep_handed (rt : Runtime) (w : ChartDigestWorld) (cfg : DigestConfig)
    (workspace botToken channel : String) (g : FeedbackGroup) (st st' : QuarterlyState)
    (e : Option GoError)
    (h : quarterlyGroupStep rt w cfg workspace botToken channel g st = some (st', e)) :
    (∀ b ∈ st.digestBlocks, b ∈ st'.digestBlocks) ∧
    (st'.calls = st.calls ∨
      ∃ call, st'.calls = st.calls ++ [call] ∧
        QuarterlyCallHanded rt w.gateway cfg workspace call
          (loopOutcome e st'.digestBlocks)) := by
  unfold quarterlyGroupStep at h
  simp only [] at h
  split at h
  · cases h
  · next summaryMap rows hs =>
    by_cases hpos : (st.summaryMap.get g.Origin []).length > 0
    · simp only [hpos, if_true] at h
      cases hcsv : SummariesToCSV rt rows true with
      | error err =>
        simp only [hcsv] at h
        cases h
        exact ⟨fun b hb => hb, Or.inl rfl⟩
      | ok csvData =>
        simp only [hcsv] at h
        cases hai : GetAISummary w.gateway cfg.AIApiURL cfg.AIApiKey cfg.AIModel
            cfg.AIQuarterlyDigestPrompt csvData with
        | error err =>
          simp only [hai] at h
          cases h
          refine ⟨fun b hb => hb, Or.inr ⟨_, rfl, rfl, (SummariesToCSV_records rt _ _).symm.trans hcsv, ?_, ?_⟩⟩
          · intro err' herr'
            rw [hai] at herr'
            cases herr'
            rfl
          · intro digest blocks hd
            rw [hai] at hd
            cases hd
        | ok digest =>
          simp only [hai] at h
          cases hgraph : (GenerateAndUploadQuarterlyGraph w.graph botToken channel workspace
              g.Origin).err with
          | some err =>
            simp only [hgraph] at h
            cases h
            refine ⟨fun b hb => hb, Or.inr ⟨_, rfl, rfl, (SummariesToCSV_records rt _ _).symm.trans hcsv, ?_, ?_⟩⟩
            · intro err' herr'
              rw [hai] at herr'
              cases herr'
            · intro digest' blocks _ hres
              simp [loopOutcome] at hres
          | none =>
            simp only [hgraph] at h
            cases h
            refine ⟨fun b hb => List.mem_append_left _ hb,
              Or.inr ⟨_, rfl, rfl, (SummariesToCSV_records rt _ _).symm.trans hcsv, ?_, ?_⟩⟩
            · intro err' herr'
              rw [hai] at herr'
              cases herr'
            · intro digest' blocks hd hres
              rw [hai] at hd
              cases hd
              simp only [loopOutcome, Except.ok.injEq] at hres
              subst hres
              exact ⟨_, List.mem_append_right _ (List.mem_singleton_self _), rfl, rfl⟩
    · simp only [hpos, if_false] at h
      cases hgraph : (GenerateAndUploadQuarterlyGraph w.graph botToken channel workspace
          g.Origin).err with
      | some err =>
        simp only [hgraph] at h
        cases h
        exact ⟨fun b hb => hb, Or.inl rfl⟩
      | none =>
        simp only [hgraph] at h
        cases h
        exact ⟨fun b hb => List.mem_append_left _ hb, Or.inl rfl⟩

/-- Every call a quarterly loop makes got the CSV text of its rows and shows its
answer in the outcome of the loop. -/
theorem quarterlyLoop_handed (rt : Runtime) (world : Nat → ChartDigestWorld) (cfg : DigestConfig)
    (workspace botToken channel : String) :
    ∀ (groups : List FeedbackGroup) (k : Nat) (st st' : QuarterlyState) (e : Option GoError),
      quarterlyLoop rt world cfg workspace botToken channel k groups st = some (st', e) →
      (∀ b ∈ st.digestBlocks, b ∈ st'.digestBlocks) ∧
      ∀ call ∈ st'.calls, call ∈ st.calls ∨
        ∃ j, QuarterlyCallHanded rt (world j).gateway cfg workspace call
          (loopOutcome e st'.digestBlocks) := by
  intro groups
  induction groups with
  | nil =>
    intro k st st' e h
    simp only [quarterlyLoop, Option.some.injEq, Prod.mk.injEq] at h
    rw [← h.1]
    exact ⟨fun b hb => hb, fun call hc => Or.inl hc⟩
  | cons g rest ih =>
    intro k st st' e h
    rw [quarterlyLoop] at h
    cases hstep : quarterlyGroupStep rt (world k) cfg workspace botToken channel g st with
    | none => simp only [hstep] at h; cases h
    | some r =>
      obtain ⟨st₁, e₁⟩ := r
      obtain ⟨hb₁, hc₁⟩ := quarterlyGroupStep_handed rt (world k) cfg workspace botToken channel
        g st st₁ e₁ hstep
      cases e₁ with
      | some err =>
        simp only [hstep, Option.some.injEq, Prod.mk.injEq] at h
        obtain ⟨h1, h2⟩ := h
        subst h1 h2
        refine ⟨hb₁, fun call hc => ?_⟩
        rcases hc₁ with heq | ⟨c, heq, hh⟩
        · rw [heq] at hc; exact Or.inl hc
        · rw [heq, List.mem_append, List.mem_singleton] at hc
          rcases hc with hc | hc
          · exact Or.inl hc
          · subst hc; exact Or.inr ⟨k, hh⟩
      | none =>
        simp only [hstep] at h
        obtain ⟨hb₂, hc₂⟩ := ih (k + 1) st₁ st' e h
        refine ⟨fun b hb => hb₂ b (hb₁ b hb), fun call hc => ?_⟩
        rcases hc₂ call hc with hc' | hnew
        · rcases hc₁ with heq | ⟨c, heq, hh⟩
          · rw [heq] at hc'; exact Or.inl hc'
          · rw [heq, List.mem_append, List.mem_singleton] at hc'
            rcases hc' with hc' | hc'
            · exact Or.inl hc'
            · subst hc'
              exact Or.inr ⟨k, CallHanded.later e hh hb₂⟩
        · exact Or.inr hnew

/-- Every summarizer call of `prepareQuarterlyDigestData` got the CSV text of its
rows and shows its answer in the value the function returns. -/
theorem prepareQuarterlyDigestData_handed (rt : Runtime) (world : Nat → ChartDigestWorld)
    (cfg : DigestConfig) (groups : List FeedbackGroup) (summaries : List SummaryRow)
    (workspace botToken channel : String) (hsort : SortKeepsEntries rt)
    (run : ChartDigestRun String QuarterlyDigestData)
    (h : prepareQuarterlyDigestData rt world cfg groups summaries workspace botToken channel =
      some run) :
    ∀ call ∈ run.calls,
      ∃ j, QuarterlyCallHanded rt (world j).gateway cfg workspace call run.result := by
  unfold prepareQuarterlyDigestData at h
  simp only [] at h
  split at h
  · cases h
  · next st err hloop =>
    simp only [Option.some.injEq] at h
    subst h
    intro call hc
    rcases (quarterlyLoop_handed rt world cfg workspace botToken channel groups 0 _ st (some err)
      hloop).2 call hc with hold | ⟨j, hj⟩
    · simp at hold
    · exact ⟨j, hj⟩
  · next st hloop =>
    simp only [Option.some.injEq] at h
    subst h
    intro call hc
    rcases (quarterlyLoop_handed rt world cfg workspace botToken channel groups 0 _ st none
      hloop).2 call hc with hold | ⟨j, hj⟩
    · simp at hold
    · exact ⟨j, CallHanded.sorted none quarterlyLess hsort hj⟩

/-- What `processFeedbackGroup` does with the rows it hands on: the summarizer
gets their CSV text under the cache instructions; a failure of the summarizer
on that text is the error of the run and nothing is inserted; a summary is
inserted with the key of the group and the number of rows handed on. -/
theorem processFeedbackGroup_handed (rt : Runtime) (w : CacheWorld) (cfg : DigestConfig)
    (workspace : String) (key : FeedbackGroup) (group : List Feedback) (run : CacheRun)
    (rows : List Feedback) (csv : String)
    (h : processFeedbackGroup rt w cfg workspace key group = some run)
    (hcall : run.calls = [⟨key, cfg.AICommentCachePrompt, rows, csv⟩]) :
    feedbackText rt rows = .ok csv ∧
    (∀ err, GetAISummary w.gateway cfg.AIApiURL cfg.AIApiKey cfg.AIModel
        cfg.AICommentCachePrompt csv = .error err → run.inserts = [] ∧ run.err = some err) ∧
    (∀ summary, GetAISummary w.gateway cfg.AIApiURL cfg.AIApiKey cfg.AIModel
        cfg.AICommentCachePrompt csv = .ok summary →
      run.inserts = [⟨workspace, key.Prompt, key.Origin, key.Category, (rows.length : Int),
        summary⟩] ∧
      run.err = w.insertSummary ⟨workspace, key.Prompt, key.Origin, key.Category,
        (rows.length : Int), summary⟩) := by
  unfold processFeedbackGroup at h
  simp only [] at h
  split at h
  · cases h
  · next rows' hs =>
    cases hcsv : FeedbackToCSV rt rows' with
    | error err =>
      rw [hcsv] at h
      cases h
      simp at hcall
    | ok csvData =>
      rw [hcsv] at h
      simp only [] at h
      cases hai : GetAISummary w.gateway cfg.AIApiURL cfg.AIApiKey cfg.AIModel
          cfg.AICommentCachePrompt csvData with
      | error err =>
        rw [hai] at h
        cases h
        simp only [List.cons.injEq, SummarizerCall.mk.injEq, and_true, true_and] at hcall
        obtain ⟨h1, h2⟩ := hcall
        subst h1 h2
        refine ⟨(FeedbackToCSV_text rt _).symm.trans hcsv, ?_, ?_⟩
        · intro err' he
          rw [hai] at he
          cases he
          exact ⟨rfl, rfl⟩
        · intro summary he
          rw [hai] at he
          cases he
      | ok summary =>
        rw [hai] at h
        simp only [] at h
        cases hins : w.insertSummary ⟨workspace, key.Prompt, key.Origin, key.Category,
            (rows'.length : Int), summary⟩ with
        | some err =>
          rw [hins] at h
          cases h
          simp only [List.cons.injEq, SummarizerCall.mk.injEq, and_true, true_and] at hcall
          obtain ⟨h1, h2⟩ := hcall
          subst h1 h2
          refine ⟨(FeedbackToCSV_text rt _).symm.trans hcsv, ?_, ?_⟩
          · intro err' he
            rw [hai] at he
            cases he
          · intro summary' he
            rw [hai] at he
            cases he
            exact ⟨rfl, hins.symm⟩
        | none =>
          rw [hins] at h
          cases h
          simp only [List.cons.injEq, SummarizerCall.mk.injEq, and_true, true_and] at hcall
          obtain ⟨h1, h2⟩ := hcall
          subst h1 h2
          refine ⟨(FeedbackToCSV_text rt _).symm.trans hcsv, ?_, ?_⟩
          · intro err' he
            rw [hai] at he
            cases he
          · intro summary' he
            rw [hai] at he
            cases he
            exact ⟨rfl, hins.symm⟩

/-! ## The sampling limiter in the prepare functions -/

theorem prepareWeeklyDigestData_calls (rt : Runtime) (world : Nat → DigestWorld)
    (cfg : DigestConfig) (groups : List FeedbackGroup) (summaries : List SummaryRow)
    (workspace : String) (h0 : 0 ≤ cfg.AIDigestInputLimit) :
    ∃ calls result,
      prepareWeeklyDigestData rt world cfg groups summaries workspace = some (calls, result) ∧
      (∀ call ∈ calls,
        SampleOf cfg.AIDigestInputLimit (weeklyCohort summaries call.key) call.rows) ∧
      ((∃ blocks, result = .ok blocks) → ∀ g ∈ groups, weeklyCohort summaries g ≠ [] →
        ∃ call ∈ calls, call.key = g) := by
  have hinit := weeklyInv_init cfg.AIDigestInputLimit summaries
  obtain ⟨⟨st', e⟩, hloop⟩ := weeklyLoop_isSome rt world cfg workspace h0 groups 0
    ⟨summaries.foldl
      (fun m s =>
        let key : FeedbackGroup :=
          { Origin := s.Origin, Category := s.Category, Prompt := s.Prompt }
        m.set key (m.get key [] ++ [s]))
      GoMap.empty, [], []⟩
  have hinv := weeklyLoop_inv rt world cfg workspace summaries groups 0 _ st' e hinit hloop
  have hcalls := weeklyLoop_calls rt world cfg workspace summaries groups 0 _ st' e hinit hloop
  unfold prepareWeeklyDigestData
  simp only [] at hloop ⊢
  rw [hloop]
  cases e with
  | some err =>
    refine ⟨st'.calls, .error err, rfl, hinv.2.2, ?_⟩
    rintro ⟨blocks, hb⟩
    cases hb
  | none =>
    exact ⟨st'.calls, .ok (rt.sortSlice weeklyLess st'.digestBlocks), rfl, hinv.2.2,
      fun _ => hcalls.2 rfl⟩

theorem prepareDailyDigestData_calls (rt : Runtime) (world : Nat → DigestWorld)
    (cfg : DigestConfig) (summaries : List SummaryRow) (workspace : String)
    (hrange : ∀ l : List (String × List SummaryRow), (rt.mapRange l).Perm l)
    (h0 : 0 ≤ cfg.AIDigestInputLimit) :
    ∃ calls result,
      prepareDailyDigestData rt world cfg summaries workspace = some (calls, result) ∧
      (∀ call ∈ calls,
        SampleOf cfg.AIDigestInputLimit (dailyCohort summaries call.key) call.rows) ∧
      ((∃ blocks, result = .ok blocks) → ∀ origin, dailyCohort summaries origin ≠ [] →
        ∃ call ∈ calls, call.key = origin) := by
  obtain ⟨hent, hhas⟩ := originMap_entries summaries
  obtain ⟨⟨st', e⟩, hloop⟩ := dailyLoop_isSome rt world cfg workspace h0
    (rt.mapRange (summaries.foldl (fun m s => m.set s.Origin (m.get s.Origin [] ++ [s]))
      (GoMap.empty : GoMap String (List SummaryRow))).entries) 0 ⟨[], []⟩
  obtain ⟨hok, _, hex⟩ := dailyLoop_calls rt world cfg workspace summaries _ 0 ⟨[], []⟩ st' e
    (fun en hen => hent en ((hrange _).subset hen)) (fun call hc => by simp at hc) hloop
  unfold prepareDailyDigestData
  simp only [] at hloop ⊢
  rw [hloop]
  cases e with
  | some err =>
    refine ⟨st'.calls, .error err, rfl, hok, ?_⟩
    rintro ⟨blocks, hb⟩
    cases hb
  | none =>
    refine ⟨st'.calls, .ok (rt.sortSlice dailyLess st'.digestBlocks), rfl, hok, ?_⟩
    intro _ origin hne
    exact hex rfl (origin, dailyCohort summaries origin)
      ((hrange _).symm.subset (hhas origin hne))

/-- C4. When a cohort has more rows than the configured limit `M` (not
negative), then for every outcome of the shuffle the rows handed to the
summarizer number exactly `M` and each is a row of the cohort, used no more
often than it occurs there; and the text the summarizer gets is the CSV text of
exactly these rows. `processFeedbackGroup` makes its one call with these rows
whenever the CSV encoding succeeds, returns the failure of the summarizer on
that text and otherwise inserts its answer with the count `M`. Every summarizer
call of `prepareWeeklyDigestData` and `prepareDailyDigestData` has such rows,
got the CSV text of its rows and shows the answer to that text in what the
function returns; on success these functions have made a call for every cohort
that has rows. -/
theorem sampling_over_limit (rt : Runtime) (cfg : DigestConfig) (workspace : String)
    (hrange : ∀ l : List (String × List SummaryRow), (rt.mapRange l).Perm l)
    (hsort : SortKeepsEntries rt)
    (hcache : 0 ≤ cfg.AICacheInputLimit) (hdigest : 0 ≤ cfg.AIDigestInputLimit) :
    (∀ (w : CacheWorld) (key : FeedbackGroup) (group : List Feedback),
      (group.length : Int) > cfg.AICacheInputLimit →
      ∃ run rows, processFeedbackGroup rt w cfg workspace key group = some run ∧
        (rows.length : Int) = cfg.AICacheInputLimit ∧
        (∀ r, rows.count r ≤ group.count r) ∧ (∀ r ∈ rows, r ∈ group) ∧
        (∀ err, feedbackText rt rows = .error err → run.calls = []) ∧
        (∀ csv, feedbackText rt rows = .ok csv →
          run.calls = [⟨key, cfg.AICommentCachePrompt, rows, csv⟩] ∧
          (∀ err, GetAISummary w.gateway cfg.AIApiURL cfg.AIApiKey cfg.AIModel
              cfg.AICommentCachePrompt csv = .error err →
            run.inserts = [] ∧ run.err = some err) ∧
          (∀ summary, GetAISummary w.gateway cfg.AIApiURL cfg.AIApiKey cfg.AIModel
              cfg.AICommentCachePrompt csv = .ok summary →
            run.inserts = [⟨workspace, key.Prompt, key.Origin, key.Category,
              cfg.AICacheInputLimit, summary⟩] ∧
            run.err = w.insertSummary ⟨workspace, key.Prompt, key.Origin, key.Category,
              cfg.AICacheInputLimit, summary⟩))) ∧
    (∀ (world : Nat → DigestWorld) (groups : List FeedbackGroup) (summaries : List SummaryRow),
      ∃ calls result,
        prepareWeeklyDigestData rt world cfg groups summaries workspace = some (calls, result) ∧
        (∀ call ∈ calls,
          (((weeklyCohort summaries call.key).length : Int) > cfg.AIDigestInputLimit →
            (call.rows.length : Int) = cfg.AIDigestInputLimit ∧
            (∀ r, call.rows.count r ≤ (weeklyCohort summaries call.key).count r) ∧
            (∀ r ∈ call.rows, r ∈ weeklyCohort summaries call.key)) ∧
          ∃ j, WeeklyCallHanded rt (world j).gateway cfg workspace call result) ∧
        ((∃ blocks, result = .ok blocks) → ∀ g ∈ groups, weeklyCohort summaries g ≠ [] →
          ∃ call ∈ calls, call.key = g)) ∧
    (∀ (world : Nat → DigestWorld) (summaries : List SummaryRow),
      ∃ calls result,
        prepareDailyDigestData rt world cfg summaries workspace = some (calls, result) ∧
        (∀ call ∈ calls,
          (((dailyCohort summaries call.key).length : Int) > cfg.AIDigestInputLimit →
            (call.rows.length : Int) = cfg.AIDigestInputLimit ∧
            (∀ r, call.rows.count r ≤ (dailyCohort summaries call.key).count r) ∧
            (∀ r ∈ call.rows, r ∈ dailyCohort summaries call.key)) ∧
          ∃ j, DailyCallHanded rt (world j).gateway cfg workspace call result) ∧
        ((∃ blocks, result = .ok blocks) → ∀ origin, dailyCohort summaries origin ≠ [] →
          ∃ call ∈ calls, call.key = origin)) := by
  refine ⟨?_, ?_, ?_⟩
  · intro w key group hgt
    have hsome : ∃ run, processFeedbackGroup rt w cfg workspace key group = some run := by
      obtain ⟨cut, hcut⟩ := sample_isSome w.draw group.length group cfg.AICacheInputLimit
        hcache hgt
      unfold processFeedbackGroup
      simp only [if_pos hgt, hcut]
      split
      · exact ⟨_, rfl⟩
      · split
        · exact ⟨_, rfl⟩
        · split <;> exact ⟨_, rfl⟩
    obtain ⟨run, hrun⟩ := hsome
    obtain ⟨rows, h1, _, h3, h4⟩ :=
      processFeedbackGroup_calls rt w cfg workspace key group run hrun
    obtain ⟨hlen, hcount, hmem⟩ := h1 hgt
    simp only [FeedbackToCSV_text] at h3 h4
    refine ⟨run, rows, hrun, hlen, hcount, hmem, h3, fun csv hcsv => ?_⟩
    obtain ⟨_, he, hs⟩ :=
      processFeedbackGroup_handed rt w cfg workspace key group run rows csv hrun (h4 csv hcsv)
    rw [hlen] at hs
    exact ⟨h4 csv hcsv, he, hs⟩
  · intro world groups summaries
    obtain ⟨calls, result, hrun, hsample, hex⟩ :=
      prepareWeeklyDigestData_calls rt world cfg groups summaries workspace hdigest
    have hh := prepareWeeklyDigestData_handed rt world cfg groups summaries workspace hsort
      calls result hrun
    refine ⟨calls, result, hrun, fun call hc => ⟨fun hgt => ?_, hh call hc⟩, hex⟩
    obtain ⟨hlen, hsub⟩ := (hsample call hc).1 hgt
    exact ⟨hlen, fun r => hsub.count_le r, fun r hr => hsub.subset hr⟩
  · intro world summaries
    obtain ⟨calls, result, hrun, hsample, hex⟩ :=
      prepareDailyDigestData_calls rt world cfg summaries workspace hrange hdigest
    have hh := prepareDailyDigestData_handed rt world cfg summaries workspace hsort
      calls result hrun
    refine ⟨calls, result, hrun, fun call hc => ⟨fun hgt => ?_, hh call hc⟩, hex⟩
    obtain ⟨hlen, hsub⟩ := (hsample call hc).1 hgt
    exact ⟨hlen, fun r => hsub.count_le r, fun r hr => hsub.subset hr⟩

/-- C5. When a cohort has at most `M` rows (the configured limit), the rows
handed to the summarizer are exactly the cohort's rows in their original
order, and the text the summarizer gets is the CSV text of exactly these rows:
`processFeedbackGroup` hands on its group unchanged, returns the failure of the
summarizer on that text and otherwise inserts its answer with the size of the
group; every summarizer call of `prepareWeeklyDigestData` and
`prepareDailyDigestData` for such a cohort carries the cohort itself, got the
CSV text of its rows and shows the answer to that text in what the function
returns. In no case does a call carry more rows than its cohort has. -/
theorem sampling_within_limit (rt : Runtime) (cfg : DigestConfig) (workspace : String)
    (hrange : ∀ l : List (String × List SummaryRow), (rt.mapRange l).Perm l)
    (hsort : SortKeepsEntries rt) (hdigest : 0 ≤ cfg.AIDigestInputLimit) :
    (∀ (w : CacheWorld) (key : FeedbackGroup) (group : List Feedback),
      (group.length : Int) ≤ cfg.AICacheInputLimit →
      ∃ run, processFeedbackGroup rt w cfg workspace key group = some run ∧
        (∀ err, feedbackText rt group = .error err → run.calls = []) ∧
        (∀ csv, feedbackText rt group = .ok csv →
          run.calls = [⟨key, cfg.AICommentCachePrompt, group, csv⟩] ∧
          (∀ err, GetAISummary w.gateway cfg.AIApiURL cfg.AIApiKey cfg.AIModel
              cfg.AICommentCachePrompt csv = .error err →
            run.inserts = [] ∧ run.err = some err) ∧
          (∀ summary, GetAISummary w.gateway cfg.AIApiURL cfg.AIApiKey cfg.AIModel
              cfg.AICommentCachePrompt csv = .ok summary →
            run.inserts = [⟨workspace, key.Prompt, key.Origin, key.Category,
              (group.length : Int), summary⟩] ∧
            run.err = w.insertSummary ⟨workspace, key.Prompt, key.Origin, key.Category,
              (group.length : Int), summary⟩))) ∧
    (∀ (w : CacheWorld) (key : FeedbackGroup) (group : List Feedback) (run : CacheRun),
      processFeedbackGroup rt w cfg workspace key group = some run →
      ∀ call ∈ run.calls, call.rows.length ≤ group.length) ∧
    (∀ (world : Nat → DigestWorld) (groups : List FeedbackGroup) (summaries : List SummaryRow),
      ∃ calls result,
        prepareWeeklyDigestData rt world cfg groups summaries workspace = some (calls, result) ∧
        (∀ call ∈ calls,
          (((weeklyCohort summaries call.key).length : Int) ≤ cfg.AIDigestInputLimit →
            call.rows = weeklyCohort summaries call.key) ∧
          call.rows.length ≤ (weeklyCohort summaries call.key).length ∧
          ∃ j, WeeklyCallHanded rt (world j).gateway cfg workspace call result) ∧
        ((∃ blocks, result = .ok blocks) → ∀ g ∈ groups, weeklyCohort summaries g ≠ [] →
          ∃ call ∈ calls, call.key = g)) ∧
    (∀ (world : Nat → DigestWorld) (summaries : List SummaryRow),
      ∃ calls result,
        prepareDailyDigestData rt world cfg summaries workspace = some (calls, result) ∧
        (∀ call ∈ calls,
          (((dailyCohort summaries call.key).length : Int) ≤ cfg.AIDigestInputLimit →
            call.rows = dailyCohort summaries call.key) ∧
          call.rows.length ≤ (dailyCohort summaries call.key).length ∧
          ∃ j, DailyCallHanded rt (world j).gateway cfg workspace call result) ∧
        ((∃ blocks, result = .ok blocks) → ∀ origin, dailyCohort summaries origin ≠ [] →
          ∃ call ∈ calls, call.key = origin)) := by
  refine ⟨?_, ?_, ?_, ?_⟩
  · intro w key group hle
    have hsome : ∃ run, processFeedbackGroup rt w cfg workspace key group = some run := by
      have hng : ¬ (group.length : Int) > cfg.AICacheInputLimit := by omega
      unfold processFeedbackGroup
      simp only [if_neg hng]
      split
      · exact ⟨_, rfl⟩
      · split
        · exact ⟨_, rfl⟩
        · split <;> exact ⟨_, rfl⟩
    obtain ⟨run, hrun⟩ := hsome
    obtain ⟨rows, _, h2, h3, h4⟩ :=
      processFeedbackGroup_calls rt w cfg workspace key group run hrun
    rw [h2 hle] at h3 h4
    simp only [FeedbackToCSV_text] at h3 h4
    refine ⟨run, hrun, h3, fun csv hcsv => ?_⟩
    obtain ⟨_, he, hs⟩ :=
      processFeedbackGroup_handed rt w cfg workspace key group run group csv hrun (h4 csv hcsv)
    exact ⟨h4 csv hcsv, he, hs⟩
  · intro w key group run hrun call hc
    obtain ⟨rows, h1, h2, h3, h4⟩ :=
      processFeedbackGroup_calls rt w cfg workspace key group run hrun
    have hlen : rows.length ≤ group.length := by
      by_cases hgt : (group.length : Int) > cfg.AICacheInputLimit
      · have := (h1 hgt).1
        omega
      · rw [h2 (by omega)]
    cases hcsv : FeedbackToCSV rt rows with
    | error err =>
      rw [h3 err hcsv] at hc
      simp at hc
    | ok csv =>
      rw [h4 csv hcsv, List.mem_singleton] at hc
      subst hc
      exact hlen
  · intro world groups summaries
    obtain ⟨calls, result, hrun, hsample, hex⟩ :=
      prepareWeeklyDigestData_calls rt world cfg groups summaries workspace hdigest
    have hh := prepareWeeklyDigestData_handed rt world cfg groups summaries workspace hsort
      calls result hrun
    exact ⟨calls, result, hrun,
      fun call hc => ⟨(hsample call hc).2, (hsample call hc).length_le, hh call hc⟩, hex⟩
  · intro world summaries
    obtain ⟨calls, result, hrun, hsample, hex⟩ :=
      prepareDailyDigestData_calls rt world cfg summaries workspace hrange hdigest
    have hh := prepareDailyDigestData_handed rt world cfg summaries workspace hsort
      calls result hrun
    exact ⟨calls, result, hrun,
      fun call hc => ⟨(hsample call hc).2, (hsample call hc).length_le, hh call hc⟩, hex⟩

/-! ## Rendering of deltas -/

theorem toDigitsCore_ne_nil (base : Nat) :
    ∀ (fuel n : Nat) (ds : List Char), (fuel = 0 → ds ≠ []) →
      Nat.toDigitsCore base fuel n ds ≠ [] := by
  intro fuel
  induction fuel with
  | zero => intro n ds h; simpa [Nat.toDigitsCore] using h rfl
  | succ fuel ih =>
    intro n ds _
    simp only [Nat.toDigitsCore]
    split_ifs
    · simp
    · exact ih _ _ (fun _ => by simp)

theorem natToString_ne_empty (n : Nat) : toString n ≠ "" := by
  show Nat.repr n ≠ ""
  unfold Nat.repr
  intro h
  have h2 := congrArg String.data h
  simp only [List.asString] at h2
  exact toDigitsCore_ne_nil 10 (n + 1) n [] (by simp) h2

theorem sprintfSigned_ne_dash (x : RoundedFloat) : sprintfSigned x ≠ "-" := by
  unfold sprintfSigned
  intro h
  have h2 := congrArg String.length h
  have hpos : 0 < (toString x.mag).length := by
    rcases Nat.eq_zero_or_pos (toString x.mag).length with h0 | h0
    · exact absurd (String.ext (by simpa using List.length_eq_zero.mp h0)) (natToString_ne_empty x.mag)
    · exact h0
  have hplus : "+".length = 1 := rfl
  have hminus : "-".length = 1 := rfl
  split_ifs at h2 <;> simp only [String.length_append, hplus, hminus] at h2 <;> omega

theorem FormatDelta_eq_dash_iff (val : ℚ) : FormatDelta val = "-" ↔ val = 0 := by
  unfold FormatDelta
  split_ifs with h
  · simp [h]
  · simp [h, sprintfSigned_ne_dash]

theorem mathRound_mag (val : ℚ) : (mathRound val).mag = (round |val|).toNat := by
  unfold mathRound
  simp only []
  rw [round_eq, Rat.abs_def]
  have hd : (0 : ℚ) < (val.den : ℚ) := by exact_mod_cast val.den_pos
  have hq : Rat.divInt (val.num.natAbs : ℤ) (val.den : ℤ) + 1 / 2 =
      (((2 * val.num.natAbs + val.den : ℕ) : ℤ) : ℚ) / (((2 * val.den : ℕ)) : ℚ) := by
    rw [Rat.divInt_eq_div]
    push_cast
    field_simp
    ring
  rw [hq, Rat.floor_intCast_div_natCast]
  norm_cast

theorem FormatDelta_eq_signedRounded (val : ℚ) (h : val ≠ 0) :
    FormatDelta val = signedRounded val := by
  unfold FormatDelta signedRounded sprintfSigned
  rw [if_neg h, mathRound_mag]
  simp [mathRound]

/-! ## Digest entries -/

/-- What one iteration of the weekly loop does to the list of digest entries:
an iteration without error appends the entry of its group, built from the
statistics the query returned; an iteration with an error appends nothing. -/
theorem weeklyGroupStep_blocks (rt : Runtime) (w : DigestWorld) (cfg : DigestConfig)
    (workspace : String) (g : FeedbackGroup) (st st' : WeeklyState) (e : Option GoError)
    (h : weeklyGroupStep rt w cfg workspace g st = some (st', e)) :
    (e ≠ none ∧ st'.digestBlocks = st.digestBlocks) ∨
    (e = none ∧ ∃ stats digest,
      GetWeeklyFeedbackStats w.weeklyCounts workspace g.Origin g.Category g.Prompt = .ok stats ∧
      st'.digestBlocks = st.digestBlocks ++ [weeklyDigestEntry g stats digest]) := by
  unfold weeklyGroupStep at h
  simp only [] at h
  split at h
  · cases h
  · next summaryMap rows hs =>
    split at h
    · next st₁ err hsum =>
      simp only [Option.some.injEq, Prod.mk.injEq] at h
      left
      refine ⟨by rw [← h.2]; simp, ?_⟩
      rw [← h.1]
      split at hsum
      · split at hsum
        · cases hsum; rfl
        · split at hsum <;> cases hsum
          rfl
      · cases hsum
    · next st₁ digest hsum =>
      have hst₁ : st₁.digestBlocks = st.digestBlocks := by
        split at hsum
        · split at hsum
          · cases hsum
          · split at hsum <;> cases hsum
            rfl
        · cases hsum; rfl
      cases hstats : GetWeeklyFeedbackStats w.weeklyCounts workspace g.Origin g.Category
          g.Prompt with
      | error err =>
        simp only [hstats, Option.some.injEq, Prod.mk.injEq] at h
        left
        refine ⟨by rw [← h.2]; simp, ?_⟩
        rw [← h.1, hst₁]
      | ok stats =>
        simp only [hstats, Option.some.injEq, Prod.mk.injEq] at h
        right
        refine ⟨h.2.symm, stats, digest, rfl, ?_⟩
        rw [← h.1, hst₁]

/-- A weekly loop that ends without error has appended one digest entry per
group, in the order of the groups, each built from the statistics the query
returned for that group. -/
theorem weeklyLoop_blocks (rt : Runtime) (world : Nat → DigestWorld) (cfg : DigestConfig)
    (workspace : String) :
    ∀ (groups : List FeedbackGroup) (k : Nat) (st st' : WeeklyState),
      weeklyLoop rt world cfg workspace k groups st = some (st', none) →
      ∃ entries, st'.digestBlocks = st.digestBlocks ++ entries ∧
        List.Forall₂ (fun g b => ∃ i stats digest,
          GetWeeklyFeedbackStats (world i).weeklyCounts workspace g.Origin g.Category g.Prompt
            = .ok stats ∧ b = weeklyDigestEntry g stats digest) groups entries := by
  intro groups
  induction groups with
  | nil =>
    intro k st st' h
    simp only [weeklyLoop, Option.some.injEq, Prod.mk.injEq] at h
    exact ⟨[], by rw [← h.1]; simp, List.Forall₂.nil⟩
  | cons g rest ih =>
    intro k st st' h
    rw [weeklyLoop] at h
    cases hstep : weeklyGroupStep rt (world k) cfg workspace g st with
    | none => simp only [hstep] at h; cases h
    | some r =>
      obtain ⟨st₁, e₁⟩ := r
      cases e₁ with
      | some err =>
        simp only [hstep, Option.some.injEq, Prod.mk.injEq] at h
        cases h.2
      | none =>
        simp only [hstep] at h
        rcases weeklyGroupStep_blocks rt (world k) cfg workspace g st st₁ none hstep with
          ⟨hne, _⟩ | ⟨_, stats, digest, hq, hb⟩
        · exact absurd rfl hne
        · obtain ⟨entries, heq, hall⟩ := ih (k + 1) st₁ st' h
          refine ⟨weeklyDigestEntry g stats digest :: entries, ?_,
            List.Forall₂.cons ⟨k, stats, digest, hq, rfl⟩ hall⟩
          rw [heq, hb, List.append_assoc]
          rfl

theorem forall₂_right_mem {α β : Type} {R : α → β → Prop} :
    ∀ {l₁ : List α} {l₂ : List β}, List.Forall₂ R l₁ l₂ → ∀ b ∈ l₂, ∃ a ∈ l₁, R a b := by
  intro l₁ l₂ h
  induction h with
  | nil => intro b hb; simp at hb
  | cons hr _ ih =>
    intro b hb
    rcases List.mem_cons.mp hb with rfl | hin
    · exact ⟨_, List.mem_cons_self _ _, hr⟩
    · obtain ⟨a, ha, hR⟩ := ih b hin
      exact ⟨a, List.mem_cons_of_mem _ ha, hR⟩

/-- The entries `prepareWeeklyDigestData` returns are, before sorting, one per
group in the order of the groups. -/
theorem prepareWeeklyDigestData_blocks (rt : Runtime) (world : Nat → DigestWorld)
    (cfg : DigestConfig) (groups : List FeedbackGroup) (summaries : List SummaryRow)
    (workspace : String) (calls : List (SummarizerCall FeedbackGroup SummaryRow))
    (blocks : List WeeklyDigestData)
    (h : prepareWeeklyDigestData rt world cfg groups summaries workspace =
      some (calls, .ok blocks)) :
    ∃ entries, blocks = rt.sortSlice weeklyLess entries ∧
      List.Forall₂ (fun g b => ∃ i stats digest,
        GetWeeklyFeedbackStats (world i).weeklyCounts workspace g.Origin g.Category g.Prompt
          = .ok stats ∧ b = weeklyDigestEntry g stats digest) groups entries := by
  unfold prepareWeeklyDigestData at h
  simp only [] at h
  split at h
  · cases h
  · cases h
  · next st hloop =>
    simp only [Option.some.injEq, Prod.mk.injEq, Except.ok.injEq] at h
    obtain ⟨entries, heq, hall⟩ := weeklyLoop_blocks rt world cfg workspace groups 0 _ st hloop
    simp only [List.nil_append] at heq
    exact ⟨entries, by rw [← h.2, heq], hall⟩

theorem FormatDelta_countDelta (current previous : Nat) :
    (previous > 0 → current ≠ previous →
      FormatDelta (if previous > 0 then
        100 * ((current : ℚ) - (previous : ℚ)) / (previous : ℚ) else 0) =
        signedRounded (deltaPct current previous)) ∧
    (FormatDelta (if previous > 0 then
        100 * ((current : ℚ) - (previous : ℚ)) / (previous : ℚ) else 0) = "-" ↔
      previous = 0 ∨ current = previous) := by
  constructor
  · intro hp hne
    rw [if_pos hp]
    apply FormatDelta_eq_signedRounded
    have hp' : (previous : ℚ) ≠ 0 := by exact_mod_cast (Nat.pos_iff_ne_zero.mp hp)
    have hsub : (current : ℚ) - (previous : ℚ) ≠ 0 := by
      intro h
      exact hne (by exact_mod_cast sub_eq_zero.mp h)
    exact div_ne_zero (mul_ne_zero (by norm_num) hsub) hp'
  · rw [FormatDelta_eq_dash_iff]
    by_cases hp : previous > 0
    · rw [if_pos hp]
      have hp' : (previous : ℚ) ≠ 0 := by exact_mod_cast (Nat.pos_iff_ne_zero.mp hp)
      constructor
      · intro h
        right
        rcases div_eq_zero_iff.mp h with h | h
        · rcases mul_eq_zero.mp h with h | h
          · norm_num at h
          · exact_mod_cast sub_eq_zero.mp h
        · exact absurd h hp'
      · rintro (h | h)
        · omega
        · rw [h]; simp
    · rw [if_neg hp]
      simp only [true_iff]
      left
      omega

theorem weeklyDigestEntry_no_previous
    (counts : String → String → String → String → Except GoError (PeriodCounts × PeriodCounts))
    (workspace origin category prompt : String) (stats : FeedbackStats) (g : FeedbackGroup)
    (digest : String)
    (hq : GetWeeklyFeedbackStats counts workspace origin category prompt = .ok stats)
    (hprev : stats.PrevNFeedback = 0) :
    (weeklyDigestEntry g stats digest).ScoreDelta = "-" ∧
    (weeklyDigestEntry g stats digest).NResponsesDelta = "-" := by
  unfold GetWeeklyFeedbackStats at hq
  split at hq
  · cases hq
  · next c p _ =>
    simp only [Except.ok.injEq] at hq
    subst hq
    have hp : p.num_feedback = 0 := by
      simpa [selectFeedbackStats] using hprev
    constructor
    · simp [weeklyDigestEntry, selectFeedbackStats, hp]
    · simp [weeklyDigestEntry, selectFeedbackStats, hp, FormatDelta]

/-- C6. When the statistics query reports a previous-period response count of
0, the digest entry renders both the approval delta (`ScoreDelta`) and the
response-count delta (`NResponsesDelta`) as the dash, whatever the
current-period values are. Every entry that `prepareWeeklyDigestData` returns
is such an entry, built for one of the groups from the statistics the query
returned for it. -/
theorem weekly_entry_no_previous :
    (∀ (counts : String → String → String → String →
        Except GoError (PeriodCounts × PeriodCounts))
      (workspace origin category prompt : String) (stats : FeedbackStats) (g : FeedbackGroup)
      (digest : String),
      GetWeeklyFeedbackStats counts workspace origin category prompt = .ok stats →
      stats.PrevNFeedback = 0 →
      (weeklyDigestEntry g stats digest).ScoreDelta = "-" ∧
      (weeklyDigestEntry g stats digest).NResponsesDelta = "-") ∧
    (∀ (rt : Runtime) (world : Nat → DigestWorld) (cfg : DigestConfig)
      (groups : List FeedbackGroup) (summaries : List SummaryRow) (workspace : String)
      (calls : List (SummarizerCall FeedbackGroup SummaryRow)) (blocks : List WeeklyDigestData),
      (∀ l : List WeeklyDigestData, (rt.sortSlice weeklyLess l).Perm l) →
      prepareWeeklyDigestData rt world cfg groups summaries workspace =
        some (calls, .ok blocks) →
      ∀ b ∈ blocks, ∃ g ∈ groups, ∃ i stats digest,
        GetWeeklyFeedbackStats (world i).weeklyCounts workspace g.Origin g.Category g.Prompt
          = .ok stats ∧
        b = weeklyDigestEntry g stats digest ∧
        (stats.PrevNFeedback = 0 → b.ScoreDelta = "-" ∧ b.NResponsesDelta = "-")) := by
  refine ⟨fun counts workspace origin category prompt stats g digest hq hprev =>
    weeklyDigestEntry_no_previous counts workspace origin category prompt stats g digest hq hprev,
    ?_⟩
  intro rt world cfg groups summaries workspace calls blocks hsort hrun b hb
  obtain ⟨entries, heq, hall⟩ :=
    prepareWeeklyDigestData_blocks rt world cfg groups summaries workspace calls blocks hrun
  rw [heq] at hb
  obtain ⟨g, hg, i, stats, digest, hq, hbe⟩ := forall₂_right_mem hall b ((hsort entries).subset hb)
  refine ⟨g, hg, i, stats, digest, hq, hbe, fun hprev => ?_⟩
  rw [hbe]
  exact weeklyDigestEntry_no_previous _ _ _ _ _ stats g digest hq hprev

theorem weekly_entry_no_previous_witness :
    (weeklyDigestEntry ⟨"summarize", "docs", "api"⟩
      (selectFeedbackStats ⟨3, 5, 1⟩ ⟨0, 0, 0⟩) "text").ScoreDelta = "-" ∧
    (weeklyDigestEntry ⟨"summarize", "docs", "api"⟩
      (selectFeedbackStats ⟨3, 5, 1⟩ ⟨0, 0, 0⟩) "text").NResponsesDelta = "-" :=
  weekly_entry_no_previous.1 (fun _ _ _ _ => .ok (⟨3, 5, 1⟩, ⟨0, 0, 0⟩)) "T1" "docs" "api"
    "summarize" _ ⟨"summarize", "docs", "api"⟩ "text" rfl rfl

/-- C7, as the code has it. For a previous-period count above 0 and a current
count different from it, the rendered count delta is the sign-prefixed rounded
value of `100 * (current - previous) / previous` (`+50` for previous 10 and
current 15); the dash is rendered exactly when the previous count is 0 or the
current count equals the previous one. The same holds for the comment
counts. -/
theorem count_delta_rendering (c p : PeriodCounts) :
    (p.num_feedback > 0 → c.num_feedback ≠ p.num_feedback →
      FormatDelta (selectFeedbackStats c p).PrevNFeedbackDl =
        signedRounded (deltaPct c.num_feedback p.num_feedback)) ∧
    (FormatDelta (selectFeedbackStats c p).PrevNFeedbackDl = "-" ↔
      p.num_feedback = 0 ∨ c.num_feedback = p.num_feedback) ∧
    (p.num_comments > 0 → c.num_comments ≠ p.num_comments →
      FormatDelta (selectFeedbackStats c p).PrevCommentsDl =
        signedRounded (deltaPct c.num_comments p.num_comments)) ∧
    (FormatDelta (selectFeedbackStats c p).PrevCommentsDl = "-" ↔
      p.num_comments = 0 ∨ c.num_comments = p.num_comments) ∧
    (c.num_feedback = 15 → p.num_feedback = 10 →
      FormatDelta (selectFeedbackStats c p).PrevNFeedbackDl = "+50") := by
  refine ⟨(FormatDelta_countDelta c.num_feedback p.num_feedback).1,
    (FormatDelta_countDelta c.num_feedback p.num_feedback).2,
    (FormatDelta_countDelta c.num_comments p.num_comments).1,
    (FormatDelta_countDelta c.num_comments p.num_comments).2, ?_⟩
  intro hc hp
  simp only [selectFeedbackStats, hc, hp]
  norm_num [FormatDelta, mathRound, sprintfSigned]
  rfl

theorem count_delta_rendering_witness :
    FormatDelta (selectFeedbackStats ⟨9, 15, 2⟩ ⟨5, 10, 1⟩).PrevNFeedbackDl = "+50" :=
  (count_delta_rendering ⟨9, 15, 2⟩ ⟨5, 10, 1⟩).2.2.2.2 rfl rfl

/-- C7, as stated, fails: with 10 responses in both periods the previous count
is above 0, yet the rendered delta is the dash, not the sign-prefixed rounded
value `+0`. -/
theorem count_delta_sentinel_counterexample :
    (⟨5, 10, 3⟩ : PeriodCounts).num_feedback > 0 ∧
    FormatDelta (selectFeedbackStats ⟨6, 10, 3⟩ ⟨5, 10, 3⟩).PrevNFeedbackDl = "-" ∧
    FormatDelta (selectFeedbackStats ⟨6, 10, 3⟩ ⟨5, 10, 3⟩).PrevNFeedbackDl ≠
      signedRounded (deltaPct 10 10) := by
  have h : FormatDelta (selectFeedbackStats ⟨6, 10, 3⟩ ⟨5, 10, 3⟩).PrevNFeedbackDl = "-" := by
    norm_num [selectFeedbackStats, FormatDelta]
  refine ⟨by decide, h, ?_⟩
  rw [h]
  norm_num [signedRounded, deltaPct]
  decide

/-- C8. With 20 responses, 15 approvals and 5 comments in the current period
and 10 responses, 4 approvals and 2 comments in the previous one, the digest
entry has score 75 against a previous approval of 40, `ScoreDelta` `+35`,
`NResponsesDelta` `+100` and `NCommentsDelta` `+150`; `prepareWeeklyDigestData`
returns exactly this entry for the cohort. -/
theorem weekly_entry_scenario :
    (selectFeedbackStats ⟨15, 20, 5⟩ ⟨4, 10, 2⟩).ThumbsUpPct = 75 ∧
    (selectFeedbackStats ⟨15, 20, 5⟩ ⟨4, 10, 2⟩).PrevThumbsUpPct = 40 ∧
    weeklyDigestEntry ⟨"summarize", "docs", "api"⟩
        (selectFeedbackStats ⟨15, 20, 5⟩ ⟨4, 10, 2⟩) "No comments to summarize" =
      { Origin := "docs", Category := "api", Prompt := "summarize", Score := 75,
        ScoreDelta := "+35", NResponses := 20, NResponsesDelta := "+100", NComments := 5,
        NCommentsDelta := "+150", Digest := "No comments to summarize" } ∧
    prepareWeeklyDigestData exampleRuntime (fun _ => exampleDigestWorld) exampleConfig
        [⟨"summarize", "docs", "api"⟩] [] "T1" =
      some ([], .ok [weeklyDigestEntry ⟨"summarize", "docs", "api"⟩
        (selectFeedbackStats ⟨15, 20, 5⟩ ⟨4, 10, 2⟩) "No comments to summarize"]) := by
  refine ⟨by norm_num [selectFeedbackStats], by norm_num [selectFeedbackStats], ?_, ?_⟩
  · simp only [weeklyDigestEntry, selectFeedbackStats]
    norm_num [FormatDelta, mathRound, sprintfSigned, RoundFloat]
    refine ⟨?_, ?_, ?_⟩ <;> rfl
  · simp [prepareWeeklyDigestData, weeklyLoop, weeklyGroupStep, GoMap.get, GoMap.find?,
      GoMap.empty, GoMap.lookup, exampleConfig, exampleDigestWorld, exampleRuntime,
      GetWeeklyFeedbackStats]

/-! ## The summarizer response -/

theorem scanContent_eq_head (content : List ContentPart) :
    scanContent content =
      ((content.filter (fun part => part.Typ = "output_text")).head?).map
        (fun part => part.Text) := by
  induction content with
  | nil => rfl
  | cons part rest ih =>
    by_cases h : part.Typ = "output_text"
    · simp [scanContent, h]
    · simp [scanContent, h, ih]

theorem firstAssistantText_cons (msg : OutputItem) (rest : List OutputItem) :
    firstAssistantText (msg :: rest) =
      if msg.Typ = "message" ∧ msg.Status = "completed" ∧ msg.Role = "assistant" then
        (scanContent msg.Content).or (firstAssistantText rest)
      else firstAssistantText rest := by
  unfold firstAssistantText
  split_ifs with h
  · rw [List.filter_cons_of_pos (by simpa using h)]
    simp only [List.map_cons, List.flatten_cons, List.filter_append, List.head?_append,
      scanContent_eq_head]
    cases (List.filter (fun part => decide (part.Typ = "output_text")) msg.Content).head? <;> rfl
  · rw [List.filter_cons_of_neg (by simpa using h)]

theorem scanOutput_spec (output : List OutputItem) :
    (∀ text, firstAssistantText output = some text → scanOutput output = .ok text) ∧
    (firstAssistantText output = none →
      scanOutput output = .error (.errorf "no output_text segment found" [])) := by
  induction output with
  | nil =>
    constructor
    · intro text h
      simp [firstAssistantText] at h
    · intro _
      rfl
  | cons msg rest ih =>
    rw [firstAssistantText_cons]
    by_cases h : msg.Typ = "message" ∧ msg.Status = "completed" ∧ msg.Role = "assistant"
    · have hn : ¬ (msg.Typ ≠ "message" ∨ msg.Status ≠ "completed" ∨ msg.Role ≠ "assistant") := by
        simp [h.1, h.2.1, h.2.2]
      rw [if_pos h, scanOutput, if_neg hn]
      cases hc : scanContent msg.Content with
      | some t =>
        simp only [Option.or_some]
        exact ⟨fun text ht => by cases ht; rfl, fun h0 => by cases h0⟩
      | none =>
        simp only [Option.none_or]
        exact ih
    · have hn : msg.Typ ≠ "message" ∨ msg.Status ≠ "completed" ∨ msg.Role ≠ "assistant" := by
        by_contra hc
        simp only [not_or, not_not] at hc
        exact h hc
      rw [if_neg h, scanOutput, if_pos hn]
      exact ih

/-- C9. When the summarizer's response was received with status 200 and decoded
into `output`, `GetAISummary` returns the text of the first content item of
type `output_text`, in document order, among the entries of `output` with type
`message`, status `completed` and role `assistant`; it returns an error exactly
when there is no such content item. -/
theorem GetAISummary_first_text (gw : AIGateway (List OutputItem))
    (apiURL apiKey aiModel aiPrompt csvData body respBytes : String) (req : HTTPRequest)
    (resp : HTTPResponse) (output : List OutputItem)
    (hmarshal : gw.marshal aiModel aiPrompt csvData = .ok body)
    (hreq : gw.newRequest "POST" apiURL body = .ok req)
    (hdo : gw.doRequest { req with Header := req.Header ++
      [("Content-Type", "application/json"), ("Authorization", "Bearer " ++ apiKey)] } =
        .ok resp)
    (hbody : resp.Body = .ok respBytes) (hstatus : resp.StatusCode = 200)
    (hdecode : gw.unmarshal respBytes = .ok output) :
    (∀ text, firstAssistantText output = some text →
      GetAISummary gw apiURL apiKey aiModel aiPrompt csvData = .ok text) ∧
    (firstAssistantText output = none →
      GetAISummary gw apiURL apiKey aiModel aiPrompt csvData =
        .error (.errorf "no output_text segment found" [])) ∧
    ((∃ err, GetAISummary gw apiURL apiKey aiModel aiPrompt csvData = .error err) ↔
      firstAssistantText output = none) := by
  have hrun : GetAISummary gw apiURL apiKey aiModel aiPrompt csvData = scanOutput output := by
    unfold GetAISummary
    simp only [hmarshal, hreq, hdo, hbody, hstatus, hdecode]
    simp
  rw [hrun]
  obtain ⟨hsome, hnone⟩ := scanOutput_spec output
  refine ⟨hsome, hnone, ?_⟩
  constructor
  · rintro ⟨err, herr⟩
    cases hf : firstAssistantText output with
    | none => rfl
    | some text =>
      rw [hsome text hf] at herr
      cases herr
  · intro hf
    exact ⟨_, hnone hf⟩

theorem GetAISummary_first_text_witness :
    firstAssistantText
        [⟨"reasoning", "r1", "completed", "assistant", []⟩,
          ⟨"message", "m1", "completed", "assistant",
            [⟨"refusal", "no"⟩, ⟨"output_text", "Users like it."⟩, ⟨"output_text", "second"⟩]⟩] =
      some "Users like it." ∧
    GetAISummary exampleGateway "https://ai.example/v1/responses" "key" "model" "weekly"
      "category,prompt" = .ok "Users like it." :=
  ⟨by decide,
    (GetAISummary_first_text exampleGateway "https://ai.example/v1/responses" "key" "model"
      "weekly" "category,prompt" "category,prompt" "response"
      ⟨"POST", "https://ai.example/v1/responses", "category,prompt", []⟩
      ⟨200, .ok "response"⟩ _ rfl rfl rfl rfl rfl rfl).1 "Users like it." (by decide)⟩

/-! ## Chart generation -/

/-- C10. When the plot statistics of a cohort hold fewer than 3 monthly points,
`GenerateAndUploadMonthlyGraph` and `GenerateAndUploadQuarterlyGraph` return
their not-enough-data error and an empty URL and do nothing to the outside
world: no plot, no upload. With 3 or more points they start by plotting and
never return that error. -/
theorem graph_needs_three_points (w : GraphWorld)
    (botToken channel workspace origin category : String) (mstats qstats : List PlotStats)
    (hm : w.monthlyPlotStats workspace origin category = .ok mstats)
    (hq : w.quarterlyPlotStats workspace origin = .ok qstats) :
    (mstats.length < 3 →
      GenerateAndUploadMonthlyGraph w botToken channel workspace origin category =
        ⟨[], "", some (.errorf "no stats for origin %s and category %s" [origin, category])⟩) ∧
    (3 ≤ mstats.length →
      (GenerateAndUploadMonthlyGraph w botToken channel workspace origin category).err ≠
        some (.errorf "no stats for origin %s and category %s" [origin, category]) ∧
      ∃ rest, (GenerateAndUploadMonthlyGraph w botToken channel workspace origin category).events
        = .plot mstats ("plot_" ++ toString w.nowUnixNano ++ ".png") :: rest) ∧
    (qstats.length < 3 →
      GenerateAndUploadQuarterlyGraph w botToken channel workspace origin =
        ⟨[], "", some (.errorf "not enough stats for origin %s" [origin])⟩) ∧
    (3 ≤ qstats.length →
      (GenerateAndUploadQuarterlyGraph w botToken channel workspace origin).err ≠
        some (.errorf "not enough stats for origin %s" [origin]) ∧
      ∃ rest, (GenerateAndUploadQuarterlyGraph w botToken channel workspace origin).events
        = .plot qstats ("plot_" ++ toString w.nowUnixNano ++ ".png") :: rest) := by
  refine ⟨?_, ?_, ?_, ?_⟩
  · intro hlt
    unfold GenerateAndUploadMonthlyGraph
    simp only [hm, if_pos hlt]
  · intro hge
    have hn : ¬ mstats.length < 3 := by omega
    unfold GenerateAndUploadMonthlyGraph
    simp only [hm, if_neg hn]
    cases w.plotAPlot mstats ("plot_" ++ toString w.nowUnixNano ++ ".png") with
    | some err => exact ⟨by simp, _, rfl⟩
    | none =>
      simp only []
      cases w.uploadFileToSlack botToken channel ("plot_" ++ toString w.nowUnixNano ++ ".png")
          ("Quarterly graph for " ++ origin) "" with
      | error err => exact ⟨by simp, _, rfl⟩
      | ok url => exact ⟨by simp, _, rfl⟩
  · intro hlt
    unfold GenerateAndUploadQuarterlyGraph
    simp only [hq, if_pos hlt]
  · intro hge
    have hn : ¬ qstats.length < 3 := by omega
    unfold GenerateAndUploadQuarterlyGraph
    simp only [hq, if_neg hn]
    cases w.plotAPlot qstats ("plot_" ++ toString w.nowUnixNano ++ ".png") with
    | some err => exact ⟨by simp, _, rfl⟩
    | none =>
      simp only []
      cases w.uploadFileToSlack botToken channel ("plot_" ++ toString w.nowUnixNano ++ ".png")
          ("Quarterly graph for " ++ origin) "" with
      | error err => exact ⟨by simp, _, rfl⟩
      | ok url => exact ⟨by simp, _, rfl⟩

theorem graph_needs_three_points_witness :
    GenerateAndUploadMonthlyGraph exampleGraphWorld "xoxb" "C1" "T1" "docs" "api" =
      ⟨[], "", some (.errorf "no stats for origin %s and category %s" ["docs", "api"])⟩ ∧
    (GenerateAndUploadQuarterlyGraph exampleGraphWorld "xoxb" "C1" "T1" "docs").err ≠
      some (.errorf "not enough stats for origin %s" ["docs"]) :=
  ⟨(graph_needs_three_points exampleGraphWorld "xoxb" "C1" "T1" "docs" "api" _ _ rfl rfl).1
      (by decide),
    ((graph_needs_three_points exampleGraphWorld "xoxb" "C1" "T1" "docs" "api" _ _ rfl rfl).2.2.2
      (by decide)).1⟩

/-! ## Instances on the example inputs -/

theorem chunkBlocks_fits_or_single_witness :
    chunkBlocks (fun _ bs => 14000 * bs.length) [7] "C1" = [[7]] :=
  (chunkBlocks_fits_or_single (fun _ bs => 14000 * bs.length) [7] "C1").2.1 7

theorem exampleRuntime_sortKeeps : SortKeepsEntries exampleRuntime :=
  fun _ _ l => List.mergeSort_perm l _

/-- The example cohorts of two rows under a limit of 1: the cache group
`exampleFeedback`, and in `exampleSummaries` the weekly cohort of `docs`, `api`,
`summarize` and the daily cohort of `docs`. -/
theorem sampling_over_limit_witness :
    ((exampleFeedback.length : Int) > exampleConfig.AICacheInputLimit) ∧
    (((weeklyCohort exampleSummaries ⟨"summarize", "docs", "api"⟩).length : Int) >
      exampleConfig.AIDigestInputLimit) ∧
    (((dailyCohort exampleSummaries "docs").length : Int) > exampleConfig.AIDigestInputLimit) ∧
    (∃ run rows,
      processFeedbackGroup exampleRuntime exampleCacheWorld exampleConfig "T1"
        ⟨"summarize", "docs", "api"⟩ exampleFeedback = some run ∧
      (rows.length : Int) = exampleConfig.AICacheInputLimit ∧
      (∀ r, rows.count r ≤ exampleFeedback.count r) ∧ (∀ r ∈ rows, r ∈ exampleFeedback) ∧
      (∀ err, feedbackText exampleRuntime rows = .error err → run.calls = []) ∧
      (∀ csv, feedbackText exampleRuntime rows = .ok csv →
        run.calls = [⟨⟨"summarize", "docs", "api"⟩, exampleConfig.AICommentCachePrompt, rows,
          csv⟩] ∧
        (∀ err, GetAISummary exampleCacheWorld.gateway exampleConfig.AIApiURL
            exampleConfig.AIApiKey exampleConfig.AIModel exampleConfig.AICommentCachePrompt
            csv = .error err →
          run.inserts = [] ∧ run.err = some err) ∧
        (∀ summary, GetAISummary exampleCacheWorld.gateway exampleConfig.AIApiURL
            exampleConfig.AIApiKey exampleConfig.AIModel exampleConfig.AICommentCachePrompt
            csv = .ok summary →
          run.inserts = [⟨"T1", "summarize", "docs", "api", exampleConfig.AICacheInputLimit,
            summary⟩] ∧
          run.err = exampleCacheWorld.insertSummary ⟨"T1", "summarize", "docs", "api",
            exampleConfig.AICacheInputLimit, summary⟩))) ∧
    (∃ calls result,
      prepareWeeklyDigestData exampleRuntime (fun _ => exampleDigestWorld) exampleConfig
        [⟨"summarize", "docs", "api"⟩] exampleSummaries "T1" = some (calls, result) ∧
      (∀ call ∈ calls,
        (((weeklyCohort exampleSummaries call.key).length : Int) >
            exampleConfig.AIDigestInputLimit →
          (call.rows.length : Int) = exampleConfig.AIDigestInputLimit ∧
          (∀ r, call.rows.count r ≤ (weeklyCohort exampleSummaries call.key).count r) ∧
          (∀ r ∈ call.rows, r ∈ weeklyCohort exampleSummaries call.key)) ∧
        ∃ _ : Nat, WeeklyCallHanded exampleRuntime exampleDigestWorld.gateway
          exampleConfig "T1" call result) ∧
      ((∃ blocks, result = .ok blocks) → ∀ g ∈ [(⟨"summarize", "docs", "api"⟩ : FeedbackGroup)],
        weeklyCohort exampleSummaries g ≠ [] → ∃ call ∈ calls, call.key = g)) ∧
    (∃ calls result,
      prepareDailyDigestData exampleRuntime (fun _ => exampleDigestWorld) exampleConfig
        exampleSummaries "T1" = some (calls, result) ∧
      (∀ call ∈ calls,
        (((dailyCohort exampleSummaries call.key).length : Int) >
            exampleConfig.AIDigestInputLimit →
          (call.rows.length : Int) = exampleConfig.AIDigestInputLimit ∧
          (∀ r, call.rows.count r ≤ (dailyCohort exampleSummaries call.key).count r) ∧
          (∀ r ∈ call.rows, r ∈ dailyCohort exampleSummaries call.key)) ∧
        ∃ _ : Nat, DailyCallHanded exampleRuntime exampleDigestWorld.gateway
          exampleConfig "T1" call result) ∧
      ((∃ blocks, result = .ok blocks) → ∀ origin, dailyCohort exampleSummaries origin ≠ [] →
        ∃ call ∈ calls, call.key = origin)) :=
  ⟨by decide, by decide, by decide,
    (sampling_over_limit exampleRuntime exampleConfig "T1" (fun l => List.Perm.refl l)
      exampleRuntime_sortKeeps (by decide) (by decide)).1 exampleCacheWorld
      ⟨"summarize", "docs", "api"⟩ exampleFeedback (by decide),
    (sampling_over_limit exampleRuntime exampleConfig "T1" (fun l => List.Perm.refl l)
      exampleRuntime_sortKeeps (by decide) (by decide)).2.1 (fun _ => exampleDigestWorld)
      [⟨"summarize", "docs", "api"⟩] exampleSummaries,
    (sampling_over_limit exampleRuntime exampleConfig "T1" (fun l => List.Perm.refl l)
      exampleRuntime_sortKeeps (by decide) (by decide)).2.2 (fun _ => exampleDigestWorld)
      exampleSummaries⟩

/-- The example cohorts under a limit of 10: the cache group `exampleFeedback`,
and in `exampleSummaries` the weekly cohort of `docs`, `api`, `summarize` and
the daily cohorts. -/
theorem sampling_within_limit_witness :
    ((exampleFeedback.length : Int) ≤ wideConfig.AICacheInputLimit) ∧
    (((weeklyCohort exampleSummaries ⟨"summarize", "docs", "api"⟩).length : Int) ≤
      wideConfig.AIDigestInputLimit) ∧
    (((dailyCohort exampleSummaries "docs").length : Int) ≤ wideConfig.AIDigestInputLimit) ∧
    (∃ run,
      processFeedbackGroup exampleRuntime exampleCacheWorld wideConfig "T1"
        ⟨"summarize", "docs", "api"⟩ exampleFeedback = some run ∧
      (∀ err, feedbackText exampleRuntime exampleFeedback = .error err → run.calls = []) ∧
      (∀ csv, feedbackText exampleRuntime exampleFeedback = .ok csv →
        run.calls = [⟨⟨"summarize", "docs", "api"⟩, wideConfig.AICommentCachePrompt,
          exampleFeedback, csv⟩] ∧
        (∀ err, GetAISummary exampleCacheWorld.gateway wideConfig.AIApiURL
            wideConfig.AIApiKey wideConfig.AIModel wideConfig.AICommentCachePrompt
            csv = .error err →
          run.inserts = [] ∧ run.err = some err) ∧
        (∀ summary, GetAISummary exampleCacheWorld.gateway wideConfig.AIApiURL
            wideConfig.AIApiKey wideConfig.AIModel wideConfig.AICommentCachePrompt
            csv = .ok summary →
          run.inserts = [⟨"T1", "summarize", "docs", "api", (exampleFeedback.length : Int),
            summary⟩] ∧
          run.err = exampleCacheWorld.insertSummary ⟨"T1", "summarize", "docs", "api",
            (exampleFeedback.length : Int), summary⟩))) ∧
    (∀ run : CacheRun,
      processFeedbackGroup exampleRuntime exampleCacheWorld wideConfig "T1"
        ⟨"summarize", "docs", "api"⟩ exampleFeedback = some run →
      ∀ call ∈ run.calls, call.rows.length ≤ exampleFeedback.length) ∧
    (∃ calls result,
      prepareWeeklyDigestData exampleRuntime (fun _ => exampleDigestWorld) wideConfig
        [⟨"summarize", "docs", "api"⟩] exampleSummaries "T1" = some (calls, result) ∧
      (∀ call ∈ calls,
        (((weeklyCohort exampleSummaries call.key).length : Int) ≤
            wideConfig.AIDigestInputLimit →
          call.rows = weeklyCohort exampleSummaries call.key) ∧
        call.rows.length ≤ (weeklyCohort exampleSummaries call.key).length ∧
        ∃ _ : Nat, WeeklyCallHanded exampleRuntime exampleDigestWorld.gateway
          wideConfig "T1" call result) ∧
      ((∃ blocks, result = .ok blocks) → ∀ g ∈ [(⟨"summarize", "docs", "api"⟩ : FeedbackGroup)],
        weeklyCohort exampleSummaries g ≠ [] → ∃ call ∈ calls, call.key = g)) ∧
    (∃ calls result,
      prepareDailyDigestData exampleRuntime (fun _ => exampleDigestWorld) wideConfig
        exampleSummaries "T1" = some (calls, result) ∧
      (∀ call ∈ calls,
        (((dailyCohort exampleSummaries call.key).length : Int) ≤
            wideConfig.AIDigestInputLimit →
          call.rows = dailyCohort exampleSummaries call.key) ∧
        call.rows.length ≤ (dailyCohort exampleSummaries call.key).length ∧
        ∃ _ : Nat, DailyCallHanded exampleRuntime exampleDigestWorld.gateway
          wideConfig "T1" call result) ∧
      ((∃ blocks, result = .ok blocks) → ∀ origin, dailyCohort exampleSummaries origin ≠ [] →
        ∃ call ∈ calls, call.key = origin)) :=
  ⟨by decide, by decide, by decide,
    (sampling_within_limit exampleRuntime wideConfig "T1" (fun l => List.Perm.refl l)
      exampleRuntime_sortKeeps (by decide)).1 exampleCacheWorld ⟨"summarize", "docs", "api"⟩
      exampleFeedback (by decide),
    (sampling_within_limit exampleRuntime wideConfig "T1" (fun l => List.Perm.refl l)
      exampleRuntime_sortKeeps (by decide)).2.1 exampleCacheWorld ⟨"summarize", "docs", "api"⟩
      exampleFeedback,
    (sampling_within_limit exampleRuntime wideConfig "T1" (fun l => List.Perm.refl l)
      exampleRuntime_sortKeeps (by decide)).2.2.1 (fun _ => exampleDigestWorld)
      [⟨"summarize", "docs", "api"⟩] exampleSummaries,
    (sampling_within_limit exampleRuntime wideConfig "T1" (fun l => List.Perm.refl l)
      exampleRuntime_sortKeeps (by decide)).2.2.2 (fun _ => exampleDigestWorld)
      exampleSummaries⟩

/-! ## Delivery of the chunks -/

/-- The loop of `SendBlockKitMessage`: either every chunk was sent without
error, or the loop stopped at the first chunk whose send failed. -/
theorem sendChunks_spec (gateway : Nat → SlackGateway) (botToken channel : String)
    (total : Nat) :
    ∀ (chunks : List (List JSON)) (k : Nat) (attempts : List (List JSON)),
      ((sendChunks gateway botToken channel total k chunks attempts).err = none ∧
        (sendChunks gateway botToken channel total k chunks attempts).attempts =
          attempts ++ chunks ∧
        ∀ i c, chunks[i]? = some c →
          sendSingleMessage (gateway (k + i)) botToken channel c = none) ∨
      (∃ i c cause, chunks[i]? = some c ∧
        sendSingleMessage (gateway (k + i)) botToken channel c = some cause ∧
        (sendChunks gateway botToken channel total k chunks attempts).attempts =
          attempts ++ chunks.take (i + 1) ∧
        (sendChunks gateway botToken channel total k chunks attempts).err =
          some (.wrapf "failed to send message part %d/%d: %w"
            [toString (k + i + 1), toString total] cause) ∧
        ∀ j c', j < i → chunks[j]? = some c' →
          sendSingleMessage (gateway (k + j)) botToken channel c' = none) := by
  intro chunks
  induction chunks with
  | nil =>
    intro k attempts
    left
    refine ⟨rfl, by simp [sendChunks], fun i c h => by simp at h⟩
  | cons chunk rest ih =>
    intro k attempts
    cases hsend : sendSingleMessage (gateway k) botToken channel chunk with
    | some cause =>
      right
      refine ⟨0, chunk, cause, by simp, hsend, ?_, ?_, fun j c' hj _ => by omega⟩
      · simp [sendChunks, hsend]
      · simp [sendChunks, hsend]
    | none =>
      have hstep : sendChunks gateway botToken channel total k (chunk :: rest) attempts =
          sendChunks gateway botToken channel total (k + 1) rest (attempts ++ [chunk]) := by
        simp [sendChunks, hsend]
      rw [hstep]
      rcases ih (k + 1) (attempts ++ [chunk]) with ⟨h1, h2, h3⟩ | ⟨i, c, cause, h1, h2, h3, h4, h5⟩
      · left
        refine ⟨h1, by rw [h2]; simp, fun i c hc => ?_⟩
        cases i with
        | zero =>
          simp only [List.getElem?_cons_zero, Option.some.injEq] at hc
          subst hc
          exact hsend
        | succ i =>
          simp only [List.getElem?_cons_succ] at hc
          have := h3 i c hc
          rwa [show k + 1 + i = k + (i + 1) by omega] at this
      · right
        refine ⟨i + 1, c, cause, by simpa using h1, ?_, ?_, ?_, ?_⟩
        · rwa [show k + 1 + i = k + (i + 1) by omega] at h2
        · rw [h3]; simp
        · rw [h4, show k + 1 + i + 1 = k + (i + 1) + 1 by omega]
        · intro j c' hj hc
          cases j with
          | zero =>
            simp only [List.getElem?_cons_zero, Option.some.injEq] at hc
            subst hc
            exact hsend
          | succ j =>
            simp only [List.getElem?_cons_succ] at hc
            have := h5 j c' (by omega) hc
            rwa [show k + 1 + j = k + (j + 1) by omega] at this

/-- C12. `SendBlockKitMessage` calls `sendSingleMessage` on the chunks of
`chunkBlocks` in order. It returns nil exactly when every chunk was sent and
every send succeeded. Otherwise it stops at the first chunk whose send fails:
the chunks tried are those up to and including that one, none of the later
chunks is tried, and the error returned wraps the error of that send. -/
theorem SendBlockKitMessage_in_order (w : SlackWorld) (botToken channel : String)
    (blocks : List JSON) :
    ((SendBlockKitMessage w botToken channel blocks).err = none ↔
      ((SendBlockKitMessage w botToken channel blocks).attempts =
          chunkBlocks w.marshalLen blocks channel ∧
        ∀ i c, (chunkBlocks w.marshalLen blocks channel)[i]? = some c →
          sendSingleMessage (w.gateway i) botToken channel c = none)) ∧
    (∀ err, (SendBlockKitMessage w botToken channel blocks).err = some err →
      ∃ i c cause, (chunkBlocks w.marshalLen blocks channel)[i]? = some c ∧
        sendSingleMessage (w.gateway i) botToken channel c = some cause ∧
        (SendBlockKitMessage w botToken channel blocks).attempts =
          (chunkBlocks w.marshalLen blocks channel).take (i + 1) ∧
        err = .wrapf "failed to send message part %d/%d: %w"
          [toString (i + 1), toString (chunkBlocks w.marshalLen blocks channel).length] cause ∧
        ∀ j c', j < i → (chunkBlocks w.marshalLen blocks channel)[j]? = some c' →
          sendSingleMessage (w.gateway j) botToken channel c' = none) := by
  have hspec := sendChunks_spec w.gateway botToken channel
    (chunkBlocks w.marshalLen blocks channel).length (chunkBlocks w.marshalLen blocks channel) 0 []
  simp only [Nat.zero_add, List.nil_append] at hspec
  unfold SendBlockKitMessage
  simp only []
  rcases hspec with ⟨h1, h2, h3⟩ | ⟨i, c, cause, h1, h2, h3, h4, h5⟩
  · refine ⟨⟨fun _ => ⟨h2, h3⟩, fun _ => h1⟩, fun err herr => ?_⟩
    rw [h1] at herr
    cases herr
  · refine ⟨⟨fun hnone => ?_, fun hall => ?_⟩, fun err herr => ?_⟩
    · rw [h4] at hnone
      cases hnone
    · have := hall.2 i c h1
      rw [h2] at this
      cases this
    · rw [h4] at herr
      simp only [Option.some.injEq] at herr
      exact ⟨i, c, cause, h1, h2, h3, herr.symm, h5⟩

/-! ## The orchestrators -/

theorem filterMap_sent_append_log (l : List RunEvent) (f : String) (a : List String)
    (e : Option GoError) :
    (l ++ [RunEvent.log f a e]).filterMap RunEvent.sent? = l.filterMap RunEvent.sent? := by
  simp [List.filterMap_append, RunEvent.sent?]

/-- The build loop when every workspace is built without error: it collects
the messages of the workspaces that have blocks, builds every workspace in
order and sends nothing. -/
theorem buildMessages_ok
    (process : Nat → WorkspaceChannel → Option (Except GoError (List JSON × String)))
    (cadence : String) :
    ∀ (workspaces : List WorkspaceChannel) (i : Nat) (messages : List DigestMessage)
      (trace : List RunEvent),
      (∀ k ws, workspaces[k]? = some ws → ∃ r, process (i + k) ws = some (.ok r)) →
      ∃ trace', buildMessages process cadence i workspaces messages trace =
          some (trace', .ok (messages ++
            (workspaces.enumFrom i).filterMap (fun p => messageOf process p.1 p.2))) ∧
        trace'.filterMap RunEvent.built? =
          trace.filterMap RunEvent.built? ++ workspaces.map (fun ws => ws.Workspace) ∧
        trace'.filterMap RunEvent.sent? = trace.filterMap RunEvent.sent? := by
  intro workspaces
  induction workspaces with
  | nil =>
    intro i messages trace _
    exact ⟨trace, by simp [buildMessages], by simp, rfl⟩
  | cons ws rest ih =>
    intro i messages trace hall
    obtain ⟨⟨blocks, botToken⟩, hp⟩ := hall 0 ws (by simp)
    rw [Nat.add_zero] at hp
    have hrest : ∀ k ws', rest[k]? = some ws' → ∃ r, process (i + 1 + k) ws' = some (.ok r) := by
      intro k ws' hk
      have := hall (k + 1) ws' (by simpa using hk)
      rwa [show i + (k + 1) = i + 1 + k by omega] at this
    by_cases hb : blocks.length = 0
    · obtain ⟨trace', h1, h2, h3⟩ := ih (i + 1) messages
        (trace ++ [.build ws.Workspace, .log "No digest data for workspace %s" [ws.Workspace]
          none]) hrest
      refine ⟨trace', ?_, ?_, ?_⟩
      · rw [buildMessages]
        simp only [hp, hb, if_true]
        rw [h1]
        simp [List.enumFrom_cons, messageOf, hp, hb]
      · rw [h2]
        simp [List.filterMap_append, RunEvent.built?]
      · rw [h3]
        simp [List.filterMap_append, RunEvent.sent?]
    · obtain ⟨trace', h1, h2, h3⟩ := ih (i + 1)
        (messages ++ [⟨botToken, ws.Channel, blocks, ws.Workspace⟩])
        (trace ++ [.build ws.Workspace]) hrest
      refine ⟨trace', ?_, ?_, ?_⟩
      · rw [buildMessages]
        simp only [hp, hb, if_false]
        rw [h1]
        simp [List.enumFrom_cons, messageOf, hp, hb]
      · rw [h2]
        simp [List.filterMap_append, RunEvent.built?]
      · rw [h3]
        simp [List.filterMap_append, RunEvent.sent?]

/-- The build loop when the per-workspace function fails for workspace number
`n`, after it succeeded for the workspaces before: the loop stops there with
the error, having built the workspaces up to that one and sent nothing. -/
theorem buildMessages_error
    (process : Nat → WorkspaceChannel → Option (Except GoError (List JSON × String)))
    (cadence : String) :
    ∀ (workspaces : List WorkspaceChannel) (i : Nat) (messages : List DigestMessage)
      (trace : List RunEvent) (n : Nat) (ws : WorkspaceChannel) (err : GoError),
      workspaces[n]? = some ws → process (i + n) ws = some (.error err) →
      (∀ k ws', k < n → workspaces[k]? = some ws' → ∃ r, process (i + k) ws' = some (.ok r)) →
      ∃ trace', buildMessages process cadence i workspaces messages trace =
          some (trace', .error (.wrapf
            ("failed to process " ++ cadence ++ " digest for workspace %s: %v")
            [ws.Workspace] err)) ∧
        trace'.filterMap RunEvent.built? =
          trace.filterMap RunEvent.built? ++
            (workspaces.take (n + 1)).map (fun ws => ws.Workspace) ∧
        trace'.filterMap RunEvent.sent? = trace.filterMap RunEvent.sent? := by
  intro workspaces
  induction workspaces with
  | nil => intro i messages trace n ws err hn; simp at hn
  | cons w rest ih =>
    intro i messages trace n ws err hn hp hbefore
    cases n with
    | zero =>
      simp only [List.getElem?_cons_zero, Option.some.injEq] at hn
      subst hn
      rw [Nat.add_zero] at hp
      refine ⟨trace ++ [.build w.Workspace], ?_, ?_, ?_⟩
      · rw [buildMessages]
        simp only [hp]
      · simp [List.filterMap_append, RunEvent.built?]
      · simp [List.filterMap_append, RunEvent.sent?]
    | succ n =>
      simp only [List.getElem?_cons_succ] at hn
      obtain ⟨⟨blocks, botToken⟩, hw⟩ := hbefore 0 w (by omega) (by simp)
      rw [Nat.add_zero] at hw
      have hp' : process (i + 1 + n) ws = some (.error err) := by
        rwa [show i + (n + 1) = i + 1 + n by omega] at hp
      have hbefore' : ∀ k ws', k < n → rest[k]? = some ws' →
          ∃ r, process (i + 1 + k) ws' = some (.ok r) := by
        intro k ws' hk hget
        have := hbefore (k + 1) ws' (by omega) (by simpa using hget)
        rwa [show i + (k + 1) = i + 1 + k by omega] at this
      by_cases hb : blocks.length = 0
      · obtain ⟨trace', h1, h2, h3⟩ := ih (i + 1) messages
          (trace ++ [.build w.Workspace, .log "No digest data for workspace %s" [w.Workspace]
            none]) n ws err hn hp' hbefore'
        refine ⟨trace', ?_, ?_, ?_⟩
        · rw [buildMessages]
          simp only [hw, hb, if_true]
          exact h1
        · rw [h2]
          simp [List.filterMap_append, RunEvent.built?]
        · rw [h3]
          simp [List.filterMap_append, RunEvent.sent?]
      · obtain ⟨trace', h1, h2, h3⟩ := ih (i + 1)
          (messages ++ [⟨botToken, w.Channel, blocks, w.Workspace⟩])
          (trace ++ [.build w.Workspace]) n ws err hn hp' hbefore'
        refine ⟨trace', ?_, ?_, ?_⟩
        · rw [buildMessages]
          simp only [hw, hb, if_false]
          exact h1
        · rw [h2]
          simp [List.filterMap_append, RunEvent.built?]
        · rw [h3]
          simp [List.filterMap_append, RunEvent.sent?]

/-- The send loop of the daily, monthly and quarterly orchestrators: every
message gets a send, in order, whatever the outcome of the sends before it; a
failed send is logged with its error. -/
theorem sendMessages_spec (slack : Nat → SlackWorld) (cadence : String) :
    ∀ (messages : List DigestMessage) (j : Nat) (trace : List RunEvent),
      (sendMessages slack cadence j messages trace).filterMap RunEvent.sent? =
        trace.filterMap RunEvent.sent? ++
          (messages.enumFrom j).map (fun p => sendOf slack p.1 p.2) ∧
      (sendMessages slack cadence j messages trace).filterMap RunEvent.built? =
        trace.filterMap RunEvent.built? ∧
      (∀ e ∈ trace, e ∈ sendMessages slack cadence j messages trace) ∧
      (∀ k msg err, messages[k]? = some msg →
        (SendBlockKitMessage (slack (j + k)) msg.BotToken msg.Channel msg.Blocks).err = some err →
        RunEvent.log ("failed to send " ++ cadence ++ " digest to workspace %s: %v")
          [msg.Workspace] (some err) ∈ sendMessages slack cadence j messages trace) := by
  intro messages
  induction messages with
  | nil =>
    intro j trace
    refine ⟨by simp [sendMessages], by simp [sendMessages], fun e he => by simpa [sendMessages],
      fun k msg err hk => by simp at hk⟩
  | cons msg rest ih =>
    intro j trace
    cases herr : (SendBlockKitMessage (slack j) msg.BotToken msg.Channel msg.Blocks).err with
    | some err =>
      have hstep : sendMessages slack cadence j (msg :: rest) trace =
          sendMessages slack cadence (j + 1) rest
            (trace ++ [.send msg.Workspace msg.Channel
              (SendBlockKitMessage (slack j) msg.BotToken msg.Channel msg.Blocks).attempts] ++
              [.log ("failed to send " ++ cadence ++ " digest to workspace %s: %v")
                [msg.Workspace] (some err)]) := by
        rw [sendMessages]
        simp only [herr]
      obtain ⟨h1, h2, h3, h4⟩ := ih (j + 1)
        (trace ++ [.send msg.Workspace msg.Channel
          (SendBlockKitMessage (slack j) msg.BotToken msg.Channel msg.Blocks).attempts] ++
          [.log ("failed to send " ++ cadence ++ " digest to workspace %s: %v")
            [msg.Workspace] (some err)])
      rw [hstep]
      refine ⟨?_, ?_, ?_, ?_⟩
      · rw [h1]
        simp [List.filterMap_append, RunEvent.sent?, List.enumFrom_cons, sendOf]
      · rw [h2]
        simp [List.filterMap_append, RunEvent.built?]
      · intro e he
        exact h3 e (List.mem_append_left _ (List.mem_append_left _ he))
      · intro k m e hk hm
        cases k with
        | zero =>
          simp only [List.getElem?_cons_zero, Option.some.injEq] at hk
          subst hk
          rw [Nat.add_zero, herr] at hm
          cases hm
          exact h3 _ (List.mem_append_right _ (List.mem_singleton.mpr rfl))
        | succ k =>
          simp only [List.getElem?_cons_succ] at hk
          rw [show j + (k + 1) = j + 1 + k by omega] at hm
          exact h4 k m e hk hm
    | none =>
      have hstep : sendMessages slack cadence j (msg :: rest) trace =
          sendMessages slack cadence (j + 1) rest
            (trace ++ [.send msg.Workspace msg.Channel
              (SendBlockKitMessage (slack j) msg.BotToken msg.Channel msg.Blocks).attempts] ++
              [.log ("Sent " ++ cadence ++ " digest to workspace %s, channel %s")
                [msg.Workspace, msg.Channel] none]) := by
        rw [sendMessages]
        simp only [herr]
      obtain ⟨h1, h2, h3, h4⟩ := ih (j + 1)
        (trace ++ [.send msg.Workspace msg.Channel
          (SendBlockKitMessage (slack j) msg.BotToken msg.Channel msg.Blocks).attempts] ++
          [.log ("Sent " ++ cadence ++ " digest to workspace %s, channel %s")
            [msg.Workspace, msg.Channel] none])
      rw [hstep]
      refine ⟨?_, ?_, ?_, ?_⟩
      · rw [h1]
        simp [List.filterMap_append, RunEvent.sent?, List.enumFrom_cons, sendOf]
      · rw [h2]
        simp [List.filterMap_append, RunEvent.built?]
      · intro e he
        exact h3 e (List.mem_append_left _ (List.mem_append_left _ he))
      · intro k m e hk hm
        cases k with
        | zero =>
          simp only [List.getElem?_cons_zero, Option.some.injEq] at hk
          subst hk
          rw [Nat.add_zero, herr] at hm
          cases hm
        | succ k =>
          simp only [List.getElem?_cons_succ] at hk
          rw [show j + (k + 1) = j + 1 + k by omega] at hm
          exact h4 k m e hk hm

/-- The send loop of the weekly orchestrator when the send of message number
`n` fails after the sends before it succeeded: the loop returns the error, and
the messages after number `n` get no send. -/
theorem sendMessagesWeekly_error (slack : Nat → SlackWorld) :
    ∀ (messages : List DigestMessage) (j : Nat) (trace : List RunEvent) (n : Nat)
      (msg : DigestMessage) (err : GoError),
      messages[n]? = some msg →
      (SendBlockKitMessage (slack (j + n)) msg.BotToken msg.Channel msg.Blocks).err = some err →
      (∀ k m, k < n → messages[k]? = some m →
        (SendBlockKitMessage (slack (j + k)) m.BotToken m.Channel m.Blocks).err = none) →
      (sendMessagesWeekly slack j messages trace).2 =
        some (.wrapf "failed to send weekly digest to workspace %s: %v" [msg.Workspace] err) ∧
      (sendMessagesWeekly slack j messages trace).1.filterMap RunEvent.sent? =
        trace.filterMap RunEvent.sent? ++
          ((messages.take (n + 1)).enumFrom j).map (fun p => sendOf slack p.1 p.2) := by
  intro messages
  induction messages with
  | nil => intro j trace n msg err hn; simp at hn
  | cons m rest ih =>
    intro j trace n msg err hn herr hbefore
    cases n with
    | zero =>
      simp only [List.getElem?_cons_zero, Option.some.injEq] at hn
      subst hn
      rw [Nat.add_zero] at herr
      rw [sendMessagesWeekly]
      simp only [herr]
      simp [List.filterMap_append, RunEvent.sent?, List.enumFrom_cons, sendOf]
    | succ n =>
      simp only [List.getElem?_cons_succ] at hn
      have hm := hbefore 0 m (by omega) (by simp)
      rw [Nat.add_zero] at hm
      rw [show j + (n + 1) = j + 1 + n by omega] at herr
      obtain ⟨h1, h2⟩ := ih (j + 1)
        (trace ++ [.send m.Workspace m.Channel
          (SendBlockKitMessage (slack j) m.BotToken m.Channel m.Blocks).attempts] ++
          [.log "Sent weekly digest to workspace %s, channel %s" [m.Workspace, m.Channel] none])
        n msg err hn herr
        (fun k m' hk hget => by
          have := hbefore (k + 1) m' (by omega) (by simpa using hget)
          rwa [show j + (k + 1) = j + 1 + k by omega] at this)
      rw [sendMessagesWeekly]
      simp only [hm]
      refine ⟨h1, ?_⟩
      rw [h2]
      simp [List.filterMap_append, RunEvent.sent?, List.enumFrom_cons, sendOf]

/-! ## The cadence runs -/

/-- A run that builds every workspace and then sends with the loop of the
daily, monthly and quarterly orchestrators; `pre` is what the run does between
the two loops. -/
theorem run_sendsIndependently
    (process : Nat → WorkspaceChannel → Option (Except GoError (List JSON × String)))
    (slack : Nat → SlackWorld) (cadence : String) (workspaces : List WorkspaceChannel)
    (trace0 pre : List RunEvent)
    (h0b : trace0.filterMap RunEvent.built? = []) (h0s : trace0.filterMap RunEvent.sent? = [])
    (hpb : pre.filterMap RunEvent.built? = []) (hps : pre.filterMap RunEvent.sent? = [])
    (hall : ∀ k ws, workspaces[k]? = some ws → ∃ r, process k ws = some (.ok r)) :
    ∃ trace, buildMessages process cadence 0 workspaces [] trace0 =
        some (trace, .ok (messagesOf process workspaces)) ∧
      SendsIndependently process slack cadence workspaces
        (some (sendMessages slack cadence 0 (messagesOf process workspaces) (trace ++ pre),
          none)) := by
  obtain ⟨trace, h1, h2, h3⟩ := buildMessages_ok process cadence workspaces 0 [] trace0
    (fun k ws hk => by rw [Nat.zero_add]; exact hall k ws hk)
  rw [List.nil_append] at h1
  refine ⟨trace, h1, _, rfl, ?_, ?_, ?_⟩
  · rw [(sendMessages_spec slack cadence _ 0 _).2.1, List.filterMap_append, h2, h0b, hpb]
    simp
  · rw [(sendMessages_spec slack cadence _ 0 _).1, List.filterMap_append, h3, h0s, hps]
    simp
  · intro j msg err hj herr
    exact (sendMessages_spec slack cadence _ 0 _).2.2.2 j msg err hj
      (by rw [Nat.zero_add]; exact herr)

/-- A run whose build loop meets an error at workspace number `n`. -/
theorem run_abortsAtBuild
    (process : Nat → WorkspaceChannel → Option (Except GoError (List JSON × String)))
    (cadence : String) (workspaces : List WorkspaceChannel) (trace0 : List RunEvent)
    (h0b : trace0.filterMap RunEvent.built? = []) (h0s : trace0.filterMap RunEvent.sent? = [])
    (n : Nat) (ws : WorkspaceChannel) (err : GoError)
    (hn : workspaces[n]? = some ws) (herr : process n ws = some (.error err))
    (hbefore : ∀ k ws', k < n → workspaces[k]? = some ws' →
      ∃ r, process k ws' = some (.ok r)) :
    ∃ trace, buildMessages process cadence 0 workspaces [] trace0 =
        some (trace, .error (.wrapf
          ("failed to process " ++ cadence ++ " digest for workspace %s: %v")
          [ws.Workspace] err)) ∧
      AbortsAtBuild cadence workspaces n ws err (some (trace, some (.wrapf
        ("failed to process " ++ cadence ++ " digest for workspace %s: %v")
        [ws.Workspace] err))) := by
  obtain ⟨trace, h1, h2, h3⟩ := buildMessages_error process cadence workspaces 0 [] trace0 n ws
    err hn (by rw [Nat.zero_add]; exact herr)
    (fun k ws' hk hget => by rw [Nat.zero_add]; exact hbefore k ws' hk hget)
  refine ⟨trace, h1, trace, rfl, ?_, ?_⟩
  · rw [h2, h0b, List.nil_append]
  · rw [h3, h0s]

/-! ### The example run -/

theorem exampleGateway_summary (url key model prompt csv : String) :
    GetAISummary exampleGateway url key model prompt csv = .ok "Users like it." := by
  simp [GetAISummary, exampleGateway, scanOutput, scanContent]

theorem exampleRuntime_csv (rows : List SummaryRow) (withDates : Bool) :
    ∃ csv, SummariesToCSV exampleRuntime rows withDates = .ok csv := by
  cases withDates <;> simp [SummariesToCSV, exampleRuntime]

theorem exampleRuntime_sort_singleton {α : Type} (less : α → α → Bool) (a : α) :
    exampleRuntime.sortSlice less [a] = [a] := by
  simp [exampleRuntime]

theorem exampleWorkspace_daily (ws : WorkspaceChannel) :
    ∃ blocks, processDailyDigest exampleRuntime exampleWorkspaceWorld ws exampleConfig =
      some (.ok (blocks, "xoxb-" ++ ws.Workspace)) ∧ blocks.length ≠ 0 := by
  obtain ⟨csv, hcsv⟩ := exampleRuntime_csv [⟨1, "docs", "api", "summarize", 2, "fine"⟩] false
  simp [processDailyDigest, exampleWorkspaceWorld, prepareDailyDigestData, dailyLoop,
    dailyGroupStep, GoMap.get, GoMap.set, GoMap.insert, GoMap.find?, GoMap.empty, GoMap.lookup,
    exampleConfig, exampleDigestWorld, hcsv, exampleGateway_summary, BuildDailyDigestBlocks,
    DigestFooter, exampleRuntime_sort_singleton]

theorem exampleWorkspace_weekly (ws : WorkspaceChannel) :
    ∃ blocks, processWeeklyDigest exampleRuntime exampleWorkspaceWorld ws exampleConfig =
      some (.ok (blocks, "xoxb-" ++ ws.Workspace)) ∧ blocks.length ≠ 0 := by
  obtain ⟨csv, hcsv⟩ := exampleRuntime_csv [⟨1, "docs", "api", "summarize", 2, "fine"⟩] false
  simp [processWeeklyDigest, exampleWorkspaceWorld, prepareWeeklyDigestData, weeklyLoop,
    weeklyGroupStep, GoMap.get, GoMap.set, GoMap.insert, GoMap.find?, GoMap.empty, GoMap.lookup,
    exampleConfig, exampleDigestWorld, hcsv, exampleGateway_summary, BuildWeeklyDigestBlocks,
    DigestFooter, exampleRuntime_sort_singleton, GetWeeklyFeedbackStats]

theorem exampleWorkspace_monthly (ws : WorkspaceChannel) :
    ∃ blocks, processMonthlyDigest exampleRuntime exampleWorkspaceWorld ws exampleConfig =
      some (.ok (blocks, "xoxb-" ++ ws.Workspace)) ∧ blocks.length ≠ 0 := by
  obtain ⟨csv, hcsv⟩ := exampleRuntime_csv [⟨1, "docs", "api", "summarize", 2, "fine"⟩] true
  simp [processMonthlyDigest, exampleWorkspaceWorld, prepareMonthlyDigestData, monthlyLoop,
    monthlyGroupStep, GoMap.get, GoMap.set, GoMap.insert, GoMap.find?, GoMap.empty, GoMap.lookup,
    exampleConfig, exampleChartWorld, hcsv, exampleGateway_summary, BuildMonthlyDigestBlocks,
    DigestFooter, exampleRuntime_sort_singleton, GetMonthlyFeedbackStats,
    GenerateAndUploadMonthlyGraph, exampleGraphWorldOf]

theorem exampleWorkspace_quarterly (ws : WorkspaceChannel) :
    ∃ blocks, processQuarterlyDigest exampleRuntime exampleWorkspaceWorld ws exampleConfig =
      some (.ok (blocks, "xoxb-" ++ ws.Workspace)) ∧ blocks.length ≠ 0 := by
  obtain ⟨csv, hcsv⟩ := exampleRuntime_csv [⟨1, "docs", "api", "summarize", 2, "fine"⟩] true
  simp [processQuarterlyDigest, exampleWorkspaceWorld, prepareQuarterlyDigestData, quarterlyLoop,
    quarterlyGroupStep, GoMap.get, GoMap.set, GoMap.insert, GoMap.find?, GoMap.empty,
    GoMap.lookup, exampleConfig, exampleChartWorld, hcsv, exampleGateway_summary,
    BuildQuarterlyDigestBlocks, DigestFooter, exampleRuntime_sort_singleton,
    GenerateAndUploadQuarterlyGraph, exampleGraphWorldOf]

theorem chunkBlocks_ne_nil {β : Type} (marshalLen : String → List β → Nat) (blocks : List β)
    (channel : String) (h : blocks ≠ []) : chunkBlocks marshalLen blocks channel ≠ [] := by
  intro hnil
  have := split_flatten (marshalLen channel) blocks.length blocks [] rfl
  rw [chunkBlocks] at hnil
  rw [hnil] at this
  simp at this
  exact h this

theorem SendBlockKitMessage_example_down (botToken channel : String) (blocks : List JSON)
    (h : blocks.length ≠ 0) :
    ∃ err, (SendBlockKitMessage (exampleSlackWorld 500) botToken channel blocks).err =
      some err := by
  have hne : chunkBlocks (exampleSlackWorld 500).marshalLen blocks channel ≠ [] :=
    chunkBlocks_ne_nil _ blocks channel (by intro hb; rw [hb] at h; exact h rfl)
  rw [SendBlockKitMessage]
  cases hc : chunkBlocks (exampleSlackWorld 500).marshalLen blocks channel with
  | nil => exact absurd hc hne
  | cons chunk rest =>
    simp [sendChunks, sendSingleMessage, exampleSlackWorld, exampleSlackGateway]

/-! ## Send and build failures of a cadence run -/

/-- The send loop of the weekly orchestrator builds nothing. -/
theorem sendMessagesWeekly_built (slack : Nat → SlackWorld) :
    ∀ (messages : List DigestMessage) (j : Nat) (trace : List RunEvent),
      (sendMessagesWeekly slack j messages trace).1.filterMap RunEvent.built? =
        trace.filterMap RunEvent.built? := by
  intro messages
  induction messages with
  | nil => intro j trace; rfl
  | cons m rest ih =>
    intro j trace
    rw [sendMessagesWeekly]
    cases h : (SendBlockKitMessage (slack j) m.BotToken m.Channel m.Blocks).err with
    | some err => simp [List.filterMap_append, RunEvent.built?]
    | none =>
      simp only []
      rw [ih]
      simp [List.filterMap_append, RunEvent.built?]

/-- C13. `SendWeeklyDigests` on the example run, in which both workspaces build
a non-empty payload and the send to the first one fails: the weekly run returns
the send error and workspace `T2` gets no send, whereas `SendDailyDigests` on
the same run returns no error and sends to both workspaces. -/
theorem SendWeeklyDigests_stops_at_failed_send :
    (∃ m1 m2, messagesOf (fun i ws => processWeeklyDigest exampleRuntime
        (exampleRunWorld.workspace i) ws exampleConfig) exampleWorkspaces = [m1, m2] ∧
      m1.Workspace = "T1" ∧ m2.Workspace = "T2" ∧ m2.Blocks.length ≠ 0) ∧
    (∃ trace err, SendWeeklyDigests exampleRuntime exampleRunWorld exampleConfig =
        some (trace, some (.wrapf "failed to send weekly digest to workspace %s: %v" ["T1"]
          err)) ∧
      trace.filterMap RunEvent.built? = ["T1", "T2"] ∧
      (trace.filterMap RunEvent.sent?).map (fun s => s.1) = ["T1"]) ∧
    (∃ trace, SendDailyDigests exampleRuntime exampleRunWorld exampleConfig =
        some (trace, none) ∧
      trace.filterMap RunEvent.built? = ["T1", "T2"] ∧
      (trace.filterMap RunEvent.sent?).map (fun s => s.1) = ["T1", "T2"]) := by
  obtain ⟨b1, hb1, hl1⟩ := exampleWorkspace_weekly ⟨"T1", "C1"⟩
  obtain ⟨b2, hb2, hl2⟩ := exampleWorkspace_weekly ⟨"T2", "C2"⟩
  have hmsgs : messagesOf (fun i ws => processWeeklyDigest exampleRuntime
      (exampleRunWorld.workspace i) ws exampleConfig) exampleWorkspaces =
      [⟨"xoxb-T1", "C1", b1, "T1"⟩, ⟨"xoxb-T2", "C2", b2, "T2"⟩] := by
    have e1 : ("xoxb-" ++ "T1" : String) = "xoxb-T1" := by decide
    have e2 : ("xoxb-" ++ "T2" : String) = "xoxb-T2" := by decide
    simp [messagesOf, exampleWorkspaces, List.enumFrom, messageOf, exampleRunWorld, hb1, hb2,
      hl1, hl2, e1, e2]
  refine ⟨⟨_, _, hmsgs, rfl, rfl, hl2⟩, ?_, ?_⟩
  · obtain ⟨trace, h1, h2, h3⟩ := buildMessages_ok
      (fun i ws => processWeeklyDigest exampleRuntime (exampleRunWorld.workspace i) ws
        exampleConfig) "weekly" exampleWorkspaces 0 []
      [RunEvent.log "Processing %d workspaces for weekly digests"
        [toString exampleWorkspaces.length] none]
      (fun k ws _ => by
        obtain ⟨b, hb, _⟩ := exampleWorkspace_weekly ws
        exact ⟨_, hb⟩)
    rw [List.nil_append] at h1
    change buildMessages _ _ _ _ _ _ = some (trace, .ok (messagesOf _ exampleWorkspaces)) at h1
    rw [hmsgs] at h1
    obtain ⟨err, herr⟩ := SendBlockKitMessage_example_down "xoxb-T1" "C1" b1 hl1
    have hsend := sendMessagesWeekly_error exampleRunWorld.slack
      [⟨"xoxb-T1", "C1", b1, "T1"⟩, ⟨"xoxb-T2", "C2", b2, "T2"⟩] 0 trace 0
      ⟨"xoxb-T1", "C1", b1, "T1"⟩ err rfl herr (fun k m hk => absurd hk (Nat.not_lt_zero k))
    refine ⟨(sendMessagesWeekly exampleRunWorld.slack 0
      [⟨"xoxb-T1", "C1", b1, "T1"⟩, ⟨"xoxb-T2", "C2", b2, "T2"⟩] trace).1, err, ?_, ?_, ?_⟩
    · have hact : exampleRunWorld.activeWorkspaces Weekly = .ok exampleWorkspaces := rfl
      simp only [SendWeeklyDigests, hact, h1]
      rw [← hsend.1]
    · rw [sendMessagesWeekly_built, h2]
      simp [RunEvent.built?, exampleWorkspaces]
    · rw [hsend.2, h3]
      simp [RunEvent.sent?, List.enumFrom, sendOf]
  · obtain ⟨trace, h1, trace', h2, h3, h4, _⟩ := run_sendsIndependently
      (fun i ws => processDailyDigest exampleRuntime (exampleRunWorld.workspace i) ws
        exampleConfig) exampleRunWorld.slack "daily" exampleWorkspaces
      [RunEvent.log "Processing %d workspaces for daily digests"
        [toString exampleWorkspaces.length] none] [] rfl rfl rfl rfl
      (fun k ws _ => by
        obtain ⟨b, hb, _⟩ := exampleWorkspace_daily ws
        exact ⟨_, hb⟩)
    rw [List.append_nil] at h2
    have hact : exampleRunWorld.activeWorkspaces Daily = .ok exampleWorkspaces := rfl
    refine ⟨trace', ?_, h3, ?_⟩
    · simp only [SendDailyDigests, hact, h1]
      exact h2
    · rw [h4]
      obtain ⟨d1, hd1, hdl1⟩ := exampleWorkspace_daily ⟨"T1", "C1"⟩
      obtain ⟨d2, hd2, hdl2⟩ := exampleWorkspace_daily ⟨"T2", "C2"⟩
      simp [messagesOf, exampleWorkspaces, List.enumFrom, messageOf, exampleRunWorld, hd1, hd2,
        hdl1, hdl2, sendOf]

/-- C14. In `SendDailyDigests`, `SendMonthlyDigests` and `SendQuarterlyDigests`,
when every workspace is built without error, delivery failures are independent
across workspaces: the run returns no error, every workspace with a non-empty
payload gets its send, in order and whatever the outcome of the other sends,
and every failed send is logged with its error. -/
theorem send_failures_independent (rt : Runtime) (w : RunWorld) (cfg : DigestConfig) :
    (∀ workspaces, w.activeWorkspaces Daily = .ok workspaces →
      (∀ k ws, workspaces[k]? = some ws →
        ∃ r, processDailyDigest rt (w.workspace k) ws cfg = some (.ok r)) →
      SendsIndependently (fun i ws => processDailyDigest rt (w.workspace i) ws cfg) w.slack
        "daily" workspaces (SendDailyDigests rt w cfg)) ∧
    (∀ workspaces, w.activeWorkspaces Monthly = .ok workspaces →
      (∀ k ws, workspaces[k]? = some ws →
        ∃ r, processMonthlyDigest rt (w.workspace k) ws cfg = some (.ok r)) →
      SendsIndependently (fun i ws => processMonthlyDigest rt (w.workspace i) ws cfg) w.slack
        "monthly" workspaces (SendMonthlyDigests rt w cfg)) ∧
    (∀ workspaces, w.activeWorkspaces Quarterly = .ok workspaces →
      (∀ k ws, workspaces[k]? = some ws →
        ∃ r, processQuarterlyDigest rt (w.workspace k) ws cfg = some (.ok r)) →
      SendsIndependently (fun i ws => processQuarterlyDigest rt (w.workspace i) ws cfg) w.slack
        "quarterly" workspaces (SendQuarterlyDigests rt w cfg)) := by
  refine ⟨?_, ?_, ?_⟩
  · intro workspaces hact hall
    obtain ⟨trace, h1, h2⟩ := run_sendsIndependently
      (fun i ws => processDailyDigest rt (w.workspace i) ws cfg) w.slack "daily" workspaces
      [RunEvent.log "Processing %d workspaces for daily digests" [toString workspaces.length]
        none] [] rfl rfl rfl rfl hall
    rw [List.append_nil] at h2
    simp only [SendDailyDigests, hact, h1]
    exact h2
  · intro workspaces hact hall
    obtain ⟨trace, h1, h2⟩ := run_sendsIndependently
      (fun i ws => processMonthlyDigest rt (w.workspace i) ws cfg) w.slack "monthly" workspaces
      [RunEvent.log "Processing %d workspaces for monthly digests" [toString workspaces.length]
        none]
      [.log "Waiting 10 seconds for Slack to finish file processing..." [] none, .sleep 10]
      rfl rfl rfl rfl hall
    simp only [SendMonthlyDigests, hact, h1]
    exact h2
  · intro workspaces hact hall
    obtain ⟨trace, h1, h2⟩ := run_sendsIndependently
      (fun i ws => processQuarterlyDigest rt (w.workspace i) ws cfg) w.slack "quarterly"
      workspaces
      [RunEvent.log "Processing %d workspaces for quarterly digests"
        [toString workspaces.length] none]
      [.log "Waiting 10 seconds for Slack to finish file processing..." [] none, .sleep 10]
      rfl rfl rfl rfl hall
    simp only [SendQuarterlyDigests, hact, h1]
    exact h2

/-- C15. In `SendDailyDigests`, `SendMonthlyDigests` and `SendQuarterlyDigests`,
if building the digest of workspace number `n` returns an error, after the
workspaces before it were built without one, the run returns that error
wrapped, at once: it builds no workspace after number `n` and sends no message
to any workspace. -/
theorem build_error_aborts_run (rt : Runtime) (w : RunWorld) (cfg : DigestConfig)
    (workspaces : List WorkspaceChannel) (n : Nat) (ws : WorkspaceChannel) (err : GoError)
    (hn : workspaces[n]? = some ws) :
    (w.activeWorkspaces Daily = .ok workspaces →
      processDailyDigest rt (w.workspace n) ws cfg = some (.error err) →
      (∀ k ws', k < n → workspaces[k]? = some ws' →
        ∃ r, processDailyDigest rt (w.workspace k) ws' cfg = some (.ok r)) →
      AbortsAtBuild "daily" workspaces n ws err (SendDailyDigests rt w cfg)) ∧
    (w.activeWorkspaces Monthly = .ok workspaces →
      processMonthlyDigest rt (w.workspace n) ws cfg = some (.error err) →
      (∀ k ws', k < n → workspaces[k]? = some ws' →
        ∃ r, processMonthlyDigest rt (w.workspace k) ws' cfg = some (.ok r)) →
      AbortsAtBuild "monthly" workspaces n ws err (SendMonthlyDigests rt w cfg)) ∧
    (w.activeWorkspaces Quarterly = .ok workspaces →
      processQuarterlyDigest rt (w.workspace n) ws cfg = some (.error err) →
      (∀ k ws', k < n → workspaces[k]? = some ws' →
        ∃ r, processQuarterlyDigest rt (w.workspace k) ws' cfg = some (.ok r)) →
      AbortsAtBuild "quarterly" workspaces n ws err (SendQuarterlyDigests rt w cfg)) := by
  refine ⟨?_, ?_, ?_⟩
  · intro hact herr hbefore
    obtain ⟨trace, h1, h2⟩ := run_abortsAtBuild
      (fun i ws => processDailyDigest rt (w.workspace i) ws cfg) "daily" workspaces
      [RunEvent.log "Processing %d workspaces for daily digests" [toString workspaces.length]
        none] rfl rfl n ws err hn herr hbefore
    simp only [SendDailyDigests, hact, h1]
    exact h2
  · intro hact herr hbefore
    obtain ⟨trace, h1, h2⟩ := run_abortsAtBuild
      (fun i ws => processMonthlyDigest rt (w.workspace i) ws cfg) "monthly" workspaces
      [RunEvent.log "Processing %d workspaces for monthly digests" [toString workspaces.length]
        none] rfl rfl n ws err hn herr hbefore
    simp only [SendMonthlyDigests, hact, h1]
    exact h2
  · intro hact herr hbefore
    obtain ⟨trace, h1, h2⟩ := run_abortsAtBuild
      (fun i ws => processQuarterlyDigest rt (w.workspace i) ws cfg) "quarterly" workspaces
      [RunEvent.log "Processing %d workspaces for quarterly digests"
        [toString workspaces.length] none] rfl rfl n ws err hn herr hbefore
    simp only [SendQuarterlyDigests, hact, h1]
    exact h2

theorem send_failures_independent_witness :
    SendsIndependently
        (fun i ws => processDailyDigest exampleRuntime (exampleRunWorld.workspace i) ws
          exampleConfig) exampleRunWorld.slack "daily" exampleWorkspaces
        (SendDailyDigests exampleRuntime exampleRunWorld exampleConfig) ∧
    SendsIndependently
        (fun i ws => processMonthlyDigest exampleRuntime (exampleRunWorld.workspace i) ws
          exampleConfig) exampleRunWorld.slack "monthly" exampleWorkspaces
        (SendMonthlyDigests exampleRuntime exampleRunWorld exampleConfig) ∧
    SendsIndependently
        (fun i ws => processQuarterlyDigest exampleRuntime (exampleRunWorld.workspace i) ws
          exampleConfig) exampleRunWorld.slack "quarterly" exampleWorkspaces
        (SendQuarterlyDigests exampleRuntime exampleRunWorld exampleConfig) :=
  ⟨(send_failures_independent exampleRuntime exampleRunWorld exampleConfig).1 exampleWorkspaces
      rfl (fun _ ws _ => (exampleWorkspace_daily ws).elim (fun b h => ⟨(b, _), h.1⟩)),
    (send_failures_independent exampleRuntime exampleRunWorld exampleConfig).2.1
      exampleWorkspaces rfl (fun _ ws _ => (exampleWorkspace_monthly ws).elim (fun b h => ⟨(b, _), h.1⟩)),
    (send_failures_independent exampleRuntime exampleRunWorld exampleConfig).2.2
      exampleWorkspaces rfl
      (fun _ ws _ => (exampleWorkspace_quarterly ws).elim (fun b h => ⟨(b, _), h.1⟩))⟩

theorem build_error_aborts_run_witness :
    exampleWorkspaces[1]? = some ⟨"T2", "C2"⟩ ∧
    AbortsAtBuild "daily" exampleWorkspaces 1 ⟨"T2", "C2"⟩
      (.wrapf "failed to get summaries: %w" [] (.external "connection refused"))
      (SendDailyDigests exampleRuntime brokenRunWorld exampleConfig) :=
  ⟨rfl, (build_error_aborts_run exampleRuntime brokenRunWorld exampleConfig exampleWorkspaces 1
    ⟨"T2", "C2"⟩ (.wrapf "failed to get summaries: %w" [] (.external "connection refused"))
    rfl).1 rfl rfl
    (fun k ws' hk _ => by
      have hk0 : k = 0 := by omega
      subst hk0
      exact (exampleWorkspace_daily ws').elim (fun b h => ⟨(b, _), h.1⟩))⟩

/-! ## The number of chunks -/

theorem split_nil {β : Type} (bodyLen : List β → Nat) (chunks : List (List β)) :
    split bodyLen [] chunks = chunks := by
  rw [split]
  simp

theorem split_fits {β : Type} (bodyLen : List β → Nat) (bs : List β) (chunks : List (List β))
    (hne : bs ≠ []) (hfit : bs.length ≤ maxBlocks ∧ bodyLen bs ≤ maxChars) :
    split bodyLen bs chunks = chunks ++ [bs] := by
  rw [split]
  have h0 : ¬ bs.length = 0 := fun h => hne (List.length_eq_zero.mp h)
  simp only [h0, dite_false, hfit, and_self, if_true]

theorem split_halve {β : Type} (bodyLen : List β → Nat) (bs : List β) (chunks : List (List β))
    (hlen : 2 ≤ bs.length) (hfit : ¬ (bs.length ≤ maxBlocks ∧ bodyLen bs ≤ maxChars)) :
    split bodyLen bs chunks =
      split bodyLen (bs.drop (bs.length / 2)) (split bodyLen (bs.take (bs.length / 2)) chunks) := by
  rw [split]
  have h0 : ¬ bs.length = 0 := by omega
  have h1 : ¬ bs.length = 1 := by omega
  simp only [h0, h1, dite_false, hfit, if_false]

/-- The chunks `split` adds are non-empty, hold blocks of `bs` only, and either
respect both limits or are a single block. -/
theorem split_new_chunks {β : Type} (bodyLen : List β → Nat) :
    ∀ (n : Nat) (bs : List β) (chunks : List (List β)), bs.length = n →
      ∀ c ∈ split bodyLen bs chunks,
        c ∈ chunks ∨ (c ≠ [] ∧ (∀ b ∈ c, b ∈ bs) ∧
          ((c.length ≤ maxBlocks ∧ bodyLen c ≤ maxChars) ∨ c.length = 1)) := by
  intro n
  induction n using Nat.strong_induction_on with
  | _ n ih =>
    intro bs chunks hn c hc
    rw [split] at hc
    split_ifs at hc with h0 hfit h1
    · exact Or.inl hc
    · rcases List.mem_append.mp hc with h | h
      · exact Or.inl h
      · rw [List.mem_singleton] at h
        subst h
        exact Or.inr ⟨fun hnil => h0 (by rw [hnil]; rfl), fun b hb => hb, Or.inl hfit⟩
    · rcases List.mem_append.mp hc with h | h
      · exact Or.inl h
      · rw [List.mem_singleton] at h
        subst h
        exact Or.inr ⟨fun hnil => h0 (by rw [hnil]; rfl), fun b hb => hb, Or.inr h1⟩
    · have hlen : 2 ≤ bs.length := by omega
      have htake : (bs.take (bs.length / 2)).length < n := by
        rw [List.length_take]; omega
      have hdrop : (bs.drop (bs.length / 2)).length < n := by
        rw [List.length_drop]; omega
      simp only [] at hc
      rcases ih _ hdrop _ _ rfl c hc with h | ⟨hne, hmem, hsize⟩
      · rcases ih _ htake _ _ rfl c h with h' | ⟨hne, hmem, hsize⟩
        · exact Or.inl h'
        · exact Or.inr ⟨hne, fun b hb => List.mem_of_mem_take (hmem b hb), hsize⟩
      · exact Or.inr ⟨hne, fun b hb => List.mem_of_mem_drop (hmem b hb), hsize⟩

theorem flatten_length_le {β : Type} (k : Nat) :
    ∀ chunks : List (List β), (∀ c ∈ chunks, c.length ≤ k) →
      chunks.flatten.length ≤ k * chunks.length := by
  intro chunks
  induction chunks with
  | nil => intro _; simp
  | cons c rest ih =>
    intro h
    have h1 := h c (List.mem_cons_self _ _)
    have h2 := ih (fun c' hc' => h c' (List.mem_cons_of_mem _ hc'))
    simp only [List.flatten_cons, List.length_append, List.length_cons]
    rw [Nat.mul_succ]
    omega

theorem chunkBlocks_length_bound {β : Type} (marshalLen : String → List β → Nat)
    (blocks : List β) (channel : String) :
    blocks.length ≤ 50 * (chunkBlocks marshalLen blocks channel).length := by
  have hflat : (chunkBlocks marshalLen blocks channel).flatten = blocks := by
    unfold chunkBlocks
    rw [split_flatten (marshalLen channel) blocks.length blocks [] rfl]
    rfl
  have := flatten_length_le 50 (chunkBlocks marshalLen blocks channel) (by
    intro c hc
    unfold chunkBlocks at hc
    rcases split_chunk_cases (marshalLen channel) blocks.length blocks [] rfl c hc with h | h | h
    · simp at h
    · exact h.1
    · omega)
  rw [hflat] at this
  exact this

/-- C20. For every block sequence of `n` blocks `chunkBlocks` returns at least
`ceil(n/50)` chunks, so at least 3 for 120 blocks whatever the payload sizes;
with 120 blocks whose payloads take 150 bytes per block it returns exactly 4
chunks of 30 blocks. -/
theorem chunkBlocks_count_lower_bound :
    (∀ (β : Type) (marshalLen : String → List β → Nat) (blocks : List β) (channel : String),
      ⌈(blocks.length : ℚ) / 50⌉₊ ≤ (chunkBlocks marshalLen blocks channel).length ∧
      (blocks.length + 49) / 50 ≤ (chunkBlocks marshalLen blocks channel).length) ∧
    (∀ (marshalLen : String → List JSON → Nat) (channel : String),
      3 ≤ (chunkBlocks marshalLen (List.replicate 120 dividerBlock) channel).length) ∧
    chunkBlocks (fun _ bs => 150 * bs.length) (List.replicate 120 dividerBlock) "C1" =
      List.replicate 4 (List.replicate 30 dividerBlock) := by
  refine ⟨fun β marshalLen blocks channel => ⟨?_, ?_⟩, fun marshalLen channel => ?_, ?_⟩
  · have h := chunkBlocks_length_bound marshalLen blocks channel
    rw [Nat.ceil_le, div_le_iff₀ (by norm_num)]
    have : ((blocks.length : ℕ) : ℚ) ≤ ((50 * (chunkBlocks marshalLen blocks channel).length : ℕ) : ℚ) :=
      Nat.cast_le.mpr h
    push_cast at this
    linarith
  · have h := chunkBlocks_length_bound marshalLen blocks channel
    omega
  · have h := chunkBlocks_length_bound marshalLen (List.replicate 120 dividerBlock) channel
    rw [List.length_replicate] at h
    omega
  · have h30 : ∀ chunks : List (List JSON),
        split (fun bs : List JSON => 150 * bs.length) (List.replicate 30 dividerBlock) chunks =
          chunks ++ [List.replicate 30 dividerBlock] := fun chunks =>
      split_fits _ _ chunks (by simp [List.replicate]) (by simp [maxBlocks, maxChars])
    have h60 : ∀ chunks : List (List JSON),
        split (fun bs : List JSON => 150 * bs.length) (List.replicate 60 dividerBlock) chunks =
          chunks ++ [List.replicate 30 dividerBlock] ++ [List.replicate 30 dividerBlock] := by
      intro chunks
      rw [split_halve _ _ _ (by simp) (by simp [maxBlocks, maxChars])]
      simp only [List.length_replicate, List.take_replicate, List.drop_replicate]
      rw [show (60 / 2 : ℕ) = 30 by norm_num, show min 30 60 = 30 by norm_num,
        show 60 - 30 = 30 by norm_num, h30, h30]
    unfold chunkBlocks
    rw [split_halve _ _ _ (by simp) (by simp [maxBlocks, maxChars])]
    simp only [List.length_replicate, List.take_replicate, List.drop_replicate]
    rw [show (120 / 2 : ℕ) = 60 by norm_num, show min 60 120 = 60 by norm_num,
      show 120 - 60 = 60 by norm_num, h60, h60]
    rfl

/-- C19, as stated, fails. Six blocks of 5,000 bytes each: every single block
fits both limits, `chunkBlocks` halves its way to 4 chunks, and the splitting
into 3 chunks of 2 blocks respects both limits. -/
theorem chunkBlocks_not_minimal :
    (∀ b ∈ [1, 2, 3, 4, 5, 6], 5000 * [b].length ≤ maxChars) ∧
    chunkBlocks (fun _ bs => 5000 * bs.length) [1, 2, 3, 4, 5, 6] "C1" =
      [[1], [2, 3], [4], [5, 6]] ∧
    IsSplitting (fun bs => 5000 * bs.length) [1, 2, 3, 4, 5, 6] [[1, 2], [3, 4], [5, 6]] ∧
    ([[1, 2], [3, 4], [5, 6]] : List (List Nat)).length <
      (chunkBlocks (fun _ bs => 5000 * bs.length) [1, 2, 3, 4, 5, 6] "C1").length := by
  have h1 : ∀ (b : Nat) (chunks : List (List Nat)),
      split (fun bs : List Nat => 5000 * bs.length) [b] chunks = chunks ++ [[b]] :=
    fun b chunks => split_singleton _ b chunks
  have h2 : ∀ (a b : Nat) (chunks : List (List Nat)),
      split (fun bs : List Nat => 5000 * bs.length) [a, b] chunks = chunks ++ [[a, b]] :=
    fun a b chunks => split_fits _ _ chunks (by simp) (by simp [maxBlocks, maxChars])
  have h3 : ∀ (a b c : Nat) (chunks : List (List Nat)),
      split (fun bs : List Nat => 5000 * bs.length) [a, b, c] chunks =
        chunks ++ [[a]] ++ [[b, c]] := by
    intro a b c chunks
    rw [split_halve _ _ _ (by simp) (by simp [maxBlocks, maxChars])]
    simp only [List.length_cons, List.length_nil]
    rw [show ((0 + 1 + 1 + 1) / 2 : ℕ) = 1 by norm_num]
    simp only [List.take, List.drop]
    rw [h1, h2]
  have hc : chunkBlocks (fun _ bs => 5000 * bs.length) [1, 2, 3, 4, 5, 6] "C1" =
      [[1], [2, 3], [4], [5, 6]] := by
    unfold chunkBlocks
    rw [split_halve _ _ _ (by simp) (by simp [maxBlocks, maxChars])]
    simp only [List.length_cons, List.length_nil]
    rw [show ((0 + 1 + 1 + 1 + 1 + 1 + 1) / 2 : ℕ) = 3 by norm_num]
    simp only [List.take, List.drop]
    rw [h3, h3]
    rfl
  refine ⟨by simp [maxChars], hc, ⟨rfl, by simp [maxBlocks, maxChars]⟩, ?_⟩
  rw [hc]
  decide

/-- C19, as the code has it. For every block sequence in which each single block alone
fits both limits, `chunkBlocks` returns a splitting of the sequence into
ordered, contiguous, non-empty chunks that each have at most 50 blocks and a
payload of at most 13,200 bytes; when it returns at most 2 chunks, no such
splitting has fewer chunks. -/
theorem chunkBlocks_valid_splitting {β : Type} (marshalLen : String → List β → Nat)
    (blocks : List β) (channel : String)
    (hsingle : ∀ b ∈ blocks, marshalLen channel [b] ≤ maxChars) :
    IsSplitting (marshalLen channel) blocks (chunkBlocks marshalLen blocks channel) ∧
    (∀ c ∈ chunkBlocks marshalLen blocks channel, c ≠ []) ∧
    (∀ other, IsSplitting (marshalLen channel) blocks other →
      (chunkBlocks marshalLen blocks channel).length ≤ 2 →
      (chunkBlocks marshalLen blocks channel).length ≤ other.length) := by
  have hnew : ∀ c ∈ chunkBlocks marshalLen blocks channel,
      c ≠ [] ∧ (∀ b ∈ c, b ∈ blocks) ∧
        ((c.length ≤ maxBlocks ∧ marshalLen channel c ≤ maxChars) ∨ c.length = 1) := by
    intro c hc
    unfold chunkBlocks at hc
    rcases split_new_chunks (marshalLen channel) blocks.length blocks [] rfl c hc with h | h
    · simp at h
    · exact h
  refine ⟨⟨?_, ?_⟩, fun c hc => (hnew c hc).1, ?_⟩
  · unfold chunkBlocks
    rw [split_flatten (marshalLen channel) blocks.length blocks [] rfl]
    rfl
  · intro c hc
    obtain ⟨_, hmem, hsize⟩ := hnew c hc
    rcases hsize with h | h
    · exact h
    · obtain ⟨x, hx⟩ := List.length_eq_one.mp h
      subst hx
      exact ⟨by simp [maxBlocks], hsingle x (hmem x (List.mem_singleton.mpr rfl))⟩
  · intro other hother hle
    by_cases hnil : blocks = []
    · subst hnil
      unfold chunkBlocks
      rw [split_nil]
      exact Nat.zero_le _
    · by_cases hfit : blocks.length ≤ maxBlocks ∧ marshalLen channel blocks ≤ maxChars
      · have hone : chunkBlocks marshalLen blocks channel = [blocks] := by
          unfold chunkBlocks
          rw [split_fits _ _ _ hnil hfit]
          rfl
        rw [hone]
        cases other with
        | nil => exact absurd hother.1.symm hnil
        | cons c rest => simp
      · have h2 : 2 ≤ other.length := by
          match other, hother with
          | [], ho => exact absurd ho.1.symm hnil
          | [c], ho =>
            have hc : c = blocks := by simpa using ho.1
            exact absurd (hc ▸ ho.2 c (List.mem_singleton.mpr rfl)) hfit
          | _ :: _ :: _, _ => simp
        omega

theorem chunkBlocks_valid_splitting_witness :
    IsSplitting (fun bs => 5000 * bs.length) [1, 2, 3, 4, 5, 6]
      (chunkBlocks (fun _ bs => 5000 * bs.length) [1, 2, 3, 4, 5, 6] "C1") ∧
    (∀ c ∈ chunkBlocks (fun _ bs => 5000 * bs.length) [1, 2, 3, 4, 5, 6] "C1", c ≠ []) :=
  ⟨(chunkBlocks_valid_splitting (fun _ bs => 5000 * bs.length) [1, 2, 3, 4, 5, 6] "C1"
      (by simp [maxChars])).1,
    (chunkBlocks_valid_splitting (fun _ bs => 5000 * bs.length) [1, 2, 3, 4, 5, 6] "C1"
      (by simp [maxChars])).2.1⟩

/-! ## The monthly and quarterly loops -/

/-- One iteration of a loop that samples the map entry of `key` and calls the
summarizer at most once, with the sampled rows, keeps the invariant. -/
theorem cohortInv_step {κ : Type} [DecidableEq κ] (draw : Nat → Nat) (M : Int)
    (cohort : κ → List SummaryRow) (m m' : GoMap κ (List SummaryRow))
    (calls calls' : List (SummarizerCall κ SummaryRow)) (key : κ) (rows : List SummaryRow)
    (hinv : CohortInv M cohort m calls)
    (hgt : ((m.get key []).length : Int) > M →
      sliceTo (Shuffle draw (m.get key []).length (m.get key [])) M = some rows ∧
      m' = m.set key (Shuffle draw (m.get key []).length (m.get key [])))
    (hle : ((m.get key []).length : Int) ≤ M → rows = m.get key [] ∧ m' = m)
    (hcall : calls' = calls ∨ ∃ instructions csv,
      calls' = calls ++ [⟨key, instructions, rows, csv⟩]) :
    CohortInv M cohort m' calls' := by
  obtain ⟨hperm, hsame, hcalls⟩ := hinv
  have hlen : (m.get key []).length = (cohort key).length := (hperm key).length_eq
  have hrows : SampleOf M (cohort key) rows :=
    sampleOf_of_block draw _ _ (m.get key []) rows (hperm key) (hsame key)
      (fun hc => (hgt hc).1) (fun hc => (hle hc).1)
  refine ⟨?_, ?_, ?_⟩
  · intro k
    by_cases hc : ((m.get key []).length : Int) > M
    · rw [(hgt hc).2]
      by_cases hk : k = key
      · subst hk
        rw [GoMap.get_set_self]
        exact (Shuffle_perm _ _ _).trans (hperm k)
      · rw [GoMap.get_set_ne _ _ _ _ _ hk]
        exact hperm k
    · rw [(hle (by omega)).2]
      exact hperm k
  · intro k hkey
    by_cases hc : ((m.get key []).length : Int) > M
    · rw [(hgt hc).2]
      have hk : k ≠ key := by
        rintro rfl
        omega
      rw [GoMap.get_set_ne _ _ _ _ _ hk]
      exact hsame k hkey
    · rw [(hle (by omega)).2]
      exact hsame k hkey
  · intro call hmem
    rcases hcall with heq | ⟨instructions, csv, heq⟩
    · rw [heq] at hmem
      exact hcalls call hmem
    · rw [heq, List.mem_append, List.mem_singleton] at hmem
      rcases hmem with hmem | hmem
      · exact hcalls call hmem
      · subst hmem
        exact hrows

/-- The map a prepare function builds from the summary rows, for any key of a
row, satisfies the invariant with no calls made. -/
theorem cohortInv_init {κ : Type} [DecidableEq κ] (M : Int) (key : SummaryRow → κ)
    (summaries : List SummaryRow) :
    CohortInv M (fun k => summaries.filter (fun s => decide (key s = k)))
      (summaries.foldl (fun m s => m.set (key s) (m.get (key s) [] ++ [s])) GoMap.empty) [] := by
  obtain ⟨_, hfind, _⟩ := groupFold_empty key summaries
  have hget : ∀ k : κ,
      (summaries.foldl (fun m s => m.set (key s) (m.get (key s) [] ++ [s]))
        (GoMap.empty : GoMap κ (List SummaryRow))).get k [] =
        summaries.filter (fun s => decide (key s = k)) := by
    intro k
    rw [GoMap.get_eq, hfind k]
    split_ifs with he
    · rw [List.isEmpty_iff] at he
      rw [he]
      rfl
    · rfl
  refine ⟨fun k => ?_, fun k _ => hget k, fun call hc => by simp at hc⟩
  rw [hget k]

/-- What one iteration of the monthly loop does to the map, to the list of
summarizer calls and to the list of digest entries. An iteration without error
has generated the chart and appends the entry of its group with the chart's
URL; an iteration with an error appends nothing. -/
theorem monthlyGroupStep_shape (rt : Runtime) (w : ChartDigestWorld) (cfg : DigestConfig)
    (workspace botToken channel : String) (g : FeedbackGroup) (st st' : MonthlyState)
    (e : Option GoError)
    (h : monthlyGroupStep rt w cfg workspace botToken channel g st = some (st', e)) :
    ∃ rows : List SummaryRow,
      (((st.summaryMap.get ⟨g.Origin, g.Category⟩ []).length : Int) > cfg.AIDigestInputLimit →
        sliceTo (Shuffle w.draw (st.summaryMap.get ⟨g.Origin, g.Category⟩ []).length
          (st.summaryMap.get ⟨g.Origin, g.Category⟩ [])) cfg.AIDigestInputLimit = some rows ∧
        st'.summaryMap = st.summaryMap.set ⟨g.Origin, g.Category⟩
          (Shuffle w.draw (st.summaryMap.get ⟨g.Origin, g.Category⟩ []).length
            (st.summaryMap.get ⟨g.Origin, g.Category⟩ []))) ∧
      (((st.summaryMap.get ⟨g.Origin, g.Category⟩ []).length : Int) ≤ cfg.AIDigestInputLimit →
        rows = st.summaryMap.get ⟨g.Origin, g.Category⟩ [] ∧ st'.summaryMap = st.summaryMap) ∧
      ((st'.calls = st.calls ∧ (e = none → st.summaryMap.get ⟨g.Origin, g.Category⟩ [] = [])) ∨
        (∃ csv, st'.calls = st.calls ++
          [⟨⟨g.Origin, g.Category⟩, cfg.AIMonthlyDigestPrompt, rows, csv⟩])) ∧
      ((e ≠ none ∧ st'.digestBlocks = st.digestBlocks) ∨
        (e = none ∧
          (GenerateAndUploadMonthlyGraph w.graph botToken channel workspace g.Origin
            g.Category).err = none ∧
          ∃ stats digest,
            GetMonthlyFeedbackStats w.monthlyCounts workspace g.Origin g.Category = .ok stats ∧
            st'.digestBlocks = st.digestBlocks ++ [monthlyDigestEntry g stats digest
              (GenerateAndUploadMonthlyGraph w.graph botToken channel workspace g.Origin
                g.Category).url])) := by
  unfold monthlyGroupStep at h
  simp only [] at h
  split at h
  · cases h
  · next summaryMap rows hs =>
    have hst : st'.summaryMap = summaryMap ∧
        ((st'.calls = st.calls ∧
            (e = none → st.summaryMap.get ⟨g.Origin, g.Category⟩ [] = [])) ∨
          (∃ csv, st'.calls = st.calls ++
            [⟨⟨g.Origin, g.Category⟩, cfg.AIMonthlyDigestPrompt, rows, csv⟩])) ∧
        ((e ≠ none ∧ st'.digestBlocks = st.digestBlocks) ∨
          (e = none ∧
            (GenerateAndUploadMonthlyGraph w.graph botToken channel workspace g.Origin
              g.Category).err = none ∧
            ∃ stats digest,
              GetMonthlyFeedbackStats w.monthlyCounts workspace g.Origin g.Category =
                .ok stats ∧
              st'.digestBlocks = st.digestBlocks ++ [monthlyDigestEntry g stats digest
                (GenerateAndUploadMonthlyGraph w.graph botToken channel workspace g.Origin
                  g.Category).url])) := by
      by_cases hpos : (st.summaryMap.get ⟨g.Origin, g.Category⟩ []).length > 0
      · simp only [hpos, if_true] at h
        cases hcsv : SummariesToCSV rt rows true with
        | error err =>
          simp only [hcsv] at h
          cases h
          exact ⟨rfl, Or.inl ⟨rfl, fun h => by cases h⟩, Or.inl ⟨by simp, rfl⟩⟩
        | ok csvData =>
          simp only [hcsv] at h
          cases hai : GetAISummary w.gateway cfg.AIApiURL cfg.AIApiKey cfg.AIModel
              cfg.AIMonthlyDigestPrompt csvData with
          | error err =>
            simp only [hai] at h
            cases h
            exact ⟨rfl, Or.inr ⟨csvData, rfl⟩, Or.inl ⟨by simp, rfl⟩⟩
          | ok digest =>
            simp only [hai] at h
            cases hstats : GetMonthlyFeedbackStats w.monthlyCounts workspace g.Origin
                g.Category with
            | error err =>
              simp only [hstats] at h
              cases h
              exact ⟨rfl, Or.inr ⟨csvData, rfl⟩, Or.inl ⟨by simp, rfl⟩⟩
            | ok stats =>
              simp only [hstats] at h
              cases hrun : (GenerateAndUploadMonthlyGraph w.graph botToken channel workspace
                  g.Origin g.Category).err with
              | some err =>
                simp only [hrun] at h
                cases h
                exact ⟨rfl, Or.inr ⟨csvData, rfl⟩, Or.inl ⟨by simp, rfl⟩⟩
              | none =>
                simp only [hrun] at h
                cases h
                exact ⟨rfl, Or.inr ⟨csvData, rfl⟩, Or.inr ⟨rfl, rfl, stats, digest, rfl, rfl⟩⟩
      · simp only [hpos, if_false] at h
        have hnil : st.summaryMap.get ⟨g.Origin, g.Category⟩ [] = [] := by
          apply List.eq_nil_of_length_eq_zero
          omega
        cases hstats : GetMonthlyFeedbackStats w.monthlyCounts workspace g.Origin
            g.Category with
        | error err =>
          simp only [hstats] at h
          cases h
          exact ⟨rfl, Or.inl ⟨rfl, fun h => by cases h⟩, Or.inl ⟨by simp, rfl⟩⟩
        | ok stats =>
          simp only [hstats] at h
          cases hrun : (GenerateAndUploadMonthlyGraph w.graph botToken channel workspace
              g.Origin g.Category).err with
          | some err =>
            simp only [hrun] at h
            cases h
            exact ⟨rfl, Or.inl ⟨rfl, fun h => by cases h⟩, Or.inl ⟨by simp, rfl⟩⟩
          | none =>
            simp only [hrun] at h
            cases h
            exact ⟨rfl, Or.inl ⟨rfl, fun _ => hnil⟩,
              Or.inr ⟨rfl, rfl, stats, _, rfl, rfl⟩⟩
    refine ⟨rows, ?_, ?_, hst.2.1, hst.2.2⟩
    · intro hgt
      rw [if_pos hgt] at hs
      cases hcut : sliceTo (Shuffle w.draw (st.summaryMap.get ⟨g.Origin, g.Category⟩ []).length
          (st.summaryMap.get ⟨g.Origin, g.Category⟩ [])) cfg.AIDigestInputLimit with
      | none => rw [hcut] at hs; cases hs
      | some cut =>
        rw [hcut] at hs
        simp only [Option.map_some', Option.some.injEq, Prod.mk.injEq] at hs
        rw [hst.1, ← hs.1, hs.2]
        exact ⟨rfl, rfl⟩
    · intro hle
      rw [if_neg (by omega)] at hs
      simp only [Option.some.injEq, Prod.mk.injEq] at hs
      rw [hst.1, ← hs.1, ← hs.2]
      exact ⟨rfl, rfl⟩

theorem monthlyGroupStep_isSome (rt : Runtime) (w : ChartDigestWorld) (cfg : DigestConfig)
    (workspace botToken channel : String) (g : FeedbackGroup) (st : MonthlyState)
    (h0 : 0 ≤ cfg.AIDigestInputLimit) :
    ∃ r, monthlyGroupStep rt w cfg workspace botToken channel g st = some r := by
  unfold monthlyGroupStep
  simp only []
  by_cases hgt : ((st.summaryMap.get ⟨g.Origin, g.Category⟩ []).length : Int) >
      cfg.AIDigestInputLimit
  · obtain ⟨cut, hcut⟩ := sample_isSome w.draw (st.summaryMap.get ⟨g.Origin, g.Category⟩ []).length
      (st.summaryMap.get ⟨g.Origin, g.Category⟩ []) cfg.AIDigestInputLimit h0 hgt
    simp only [if_pos hgt, hcut, Option.map_some']
    split
    · exact ⟨_, rfl⟩
    · split
      · exact ⟨_, rfl⟩
      · split <;> exact ⟨_, rfl⟩
  · simp only [if_neg hgt]
    split
    · exact ⟨_, rfl⟩
    · split
      · exact ⟨_, rfl⟩
      · split <;> exact ⟨_, rfl⟩

theorem monthlyGroupStep_inv (rt : Runtime) (w : ChartDigestWorld) (cfg : DigestConfig)
    (workspace botToken channel : String) (cohort : groupKey → List SummaryRow)
    (g : FeedbackGroup) (st st' : MonthlyState) (e : Option GoError)
    (hinv : CohortInv cfg.AIDigestInputLimit cohort st.summaryMap st.calls)
    (h : monthlyGroupStep rt w cfg workspace botToken channel g st = some (st', e)) :
    CohortInv cfg.AIDigestInputLimit cohort st'.summaryMap st'.calls := by
  obtain ⟨rows, hgt, hle, hcall, _⟩ :=
    monthlyGroupStep_shape rt w cfg workspace botToken channel g st st' e h
  refine cohortInv_step w.draw _ cohort st.summaryMap st'.summaryMap st.calls st'.calls
    ⟨g.Origin, g.Category⟩ rows hinv hgt hle ?_
  rcases hcall with ⟨heq, _⟩ | ⟨csv, heq⟩
  · exact Or.inl heq
  · exact Or.inr ⟨_, csv, heq⟩

theorem monthlyLoop_isSome (rt : Runtime) (world : Nat → ChartDigestWorld) (cfg : DigestConfig)
    (workspace botToken channel : String) (h0 : 0 ≤ cfg.AIDigestInputLimit) :
    ∀ (groups : List FeedbackGroup) (k : Nat) (st : MonthlyState),
      ∃ r, monthlyLoop rt world cfg workspace botToken channel k groups st = some r := by
  intro groups
  induction groups with
  | nil => intro k st; exact ⟨_, rfl⟩
  | cons g rest ih =>
    intro k st
    obtain ⟨⟨st₁, e₁⟩, hstep⟩ :=
      monthlyGroupStep_isSome rt (world k) cfg workspace botToken channel g st h0
    rw [monthlyLoop]
    cases e₁ with
    | some err => simp only [hstep]; exact ⟨_, rfl⟩
    | none => simp only [hstep]; exact ih (k + 1) st₁

/-- The monthly loop keeps the invariant and the calls made before. A loop that
ends without error has called the summarizer for every group whose cohort has
rows, has generated the chart of every group, and has appended one digest
entry per group, in the order of the groups. -/
theorem monthlyLoop_spec (rt : Runtime) (world : Nat → ChartDigestWorld) (cfg : DigestConfig)
    (workspace botToken channel : String) (cohort : groupKey → List SummaryRow) :
    ∀ (groups : List FeedbackGroup) (k : Nat) (st st' : MonthlyState) (e : Option GoError),
      CohortInv cfg.AIDigestInputLimit cohort st.summaryMap st.calls →
      monthlyLoop rt world cfg workspace botToken channel k groups st = some (st', e) →
      CohortInv cfg.AIDigestInputLimit cohort st'.summaryMap st'.calls ∧
      (∀ call ∈ st.calls, call ∈ st'.calls) ∧
      (e = none →
        (∀ g ∈ groups, cohort ⟨g.Origin, g.Category⟩ ≠ [] →
          ∃ call ∈ st'.calls, call.key = ⟨g.Origin, g.Category⟩) ∧
        (∀ i g, groups[i]? = some g →
          (GenerateAndUploadMonthlyGraph (world (k + i)).graph botToken channel workspace
            g.Origin g.Category).err = none) ∧
        ∃ entries, st'.digestBlocks = st.digestBlocks ++ entries ∧
          List.Forall₂ (fun g b => ∃ i stats digest,
            GetMonthlyFeedbackStats (world i).monthlyCounts workspace g.Origin g.Category =
              .ok stats ∧
            b = monthlyDigestEntry g stats digest
              (GenerateAndUploadMonthlyGraph (world i).graph botToken channel workspace
                g.Origin g.Category).url) groups entries) := by
  intro groups
  induction groups with
  | nil =>
    intro k st st' e hinv h
    simp only [monthlyLoop, Option.some.injEq, Prod.mk.injEq] at h
    rw [← h.1]
    exact ⟨hinv, fun _ hc => hc, fun _ => ⟨fun g hg => by simp at hg,
      fun i g hi => by simp at hi, [], by simp, List.Forall₂.nil⟩⟩
  | cons g rest ih =>
    intro k st st' e hinv h
    rw [monthlyLoop] at h
    cases hstep : monthlyGroupStep rt (world k) cfg workspace botToken channel g st with
    | none => simp only [hstep] at h; cases h
    | some r =>
      obtain ⟨st₁, e₁⟩ := r
      have hinv₁ := monthlyGroupStep_inv rt (world k) cfg workspace botToken channel cohort g
        st st₁ e₁ hinv hstep
      obtain ⟨rows, _, _, hcall, hblocks⟩ :=
        monthlyGroupStep_shape rt (world k) cfg workspace botToken channel g st st₁ e₁ hstep
      have hmono : ∀ call ∈ st.calls, call ∈ st₁.calls := by
        intro call hc
        rcases hcall with ⟨heq, _⟩ | ⟨csv, heq⟩
        · rw [heq]; exact hc
        · rw [heq]; exact List.mem_append_left _ hc
      cases e₁ with
      | some err =>
        simp only [hstep, Option.some.injEq, Prod.mk.injEq] at h
        rw [← h.1]
        refine ⟨hinv₁, hmono, fun he => ?_⟩
        rw [← h.2] at he
        cases he
      | none =>
        simp only [hstep] at h
        obtain ⟨hinv', hm, hrest⟩ := ih (k + 1) st₁ st' e hinv₁ h
        refine ⟨hinv', fun call hc => hm call (hmono call hc), fun he => ?_⟩
        obtain ⟨hex, hgraph, entries, heq, hall⟩ := hrest he
        rcases hblocks with ⟨hne, _⟩ | ⟨_, hrun, stats, digest, hq, hb⟩
        · exact absurd rfl hne
        · refine ⟨fun g' hg' hne => ?_, fun i g' hi => ?_, ?_⟩
          · rcases List.mem_cons.mp hg' with rfl | hin
            · rcases hcall with ⟨_, hnil⟩ | ⟨csv, heq'⟩
              · exfalso
                have hp := hinv.1 ⟨g'.Origin, g'.Category⟩
                rw [hnil rfl] at hp
                exact hne hp.symm.eq_nil
              · refine ⟨⟨⟨g'.Origin, g'.Category⟩, cfg.AIMonthlyDigestPrompt, rows, csv⟩,
                  hm _ ?_, rfl⟩
                rw [heq']
                exact List.mem_append_right _ (List.mem_singleton.mpr rfl)
            · exact hex g' hin hne
          · cases i with
            | zero =>
              simp only [List.getElem?_cons_zero, Option.some.injEq] at hi
              subst hi
              exact hrun
            | succ i =>
              simp only [List.getElem?_cons_succ] at hi
              have := hgraph i g' hi
              rwa [show k + 1 + i = k + (i + 1) by omega] at this
          · refine ⟨monthlyDigestEntry g stats digest _ :: entries, ?_,
              List.Forall₂.cons ⟨k, stats, digest, hq, rfl⟩ hall⟩
            rw [heq, hb, List.append_assoc]
            rfl

theorem monthlyCohort_eq (summaries : List SummaryRow) :
    (fun k : groupKey => summaries.filter (fun s =>
      decide ((⟨s.Origin, s.Category⟩ : groupKey) = k))) = monthlyCohort summaries := by
  funext k
  unfold monthlyCohort
  apply List.filter_congr
  intro s _
  cases k
  simp only [groupKey.mk.injEq]

/-- The run of `prepareMonthlyDigestData`: it returns when the limit is not
negative; every summarizer call got a sample of the cohort of its key; on
success every group whose cohort has rows was summarized, the chart of every
group was generated, and the entries are the sorted list of one entry per
group. -/
theorem prepareMonthlyDigestData_spec (rt : Runtime) (world : Nat → ChartDigestWorld)
    (cfg : DigestConfig) (groups : List FeedbackGroup) (summaries : List SummaryRow)
    (workspace botToken channel : String) (h0 : 0 ≤ cfg.AIDigestInputLimit) :
    ∃ run, prepareMonthlyDigestData rt world cfg groups summaries workspace botToken channel =
        some run ∧
      (∀ call ∈ run.calls,
        SampleOf cfg.AIDigestInputLimit (monthlyCohort summaries call.key) call.rows) ∧
      (∀ blocks, run.result = .ok blocks →
        (∀ g ∈ groups, monthlyCohort summaries ⟨g.Origin, g.Category⟩ ≠ [] →
          ∃ call ∈ run.calls, call.key = ⟨g.Origin, g.Category⟩) ∧
        (∀ i g, groups[i]? = some g →
          (GenerateAndUploadMonthlyGraph (world i).graph botToken channel workspace
            g.Origin g.Category).err = none) ∧
        ∃ entries, blocks = rt.sortSlice monthlyLess entries ∧
          List.Forall₂ (fun g b => ∃ i stats digest,
            GetMonthlyFeedbackStats (world i).monthlyCounts workspace g.Origin g.Category =
              .ok stats ∧
            b = monthlyDigestEntry g stats digest
              (GenerateAndUploadMonthlyGraph (world i).graph botToken channel workspace
                g.Origin g.Category).url) groups entries) := by
  have hinit := cohortInv_init cfg.AIDigestInputLimit
    (fun s : SummaryRow => (⟨s.Origin, s.Category⟩ : groupKey)) summaries
  rw [monthlyCohort_eq] at hinit
  obtain ⟨⟨st', e⟩, hloop⟩ := monthlyLoop_isSome rt world cfg workspace botToken channel h0
    groups 0
    ⟨summaries.foldl
      (fun m s => m.set (⟨s.Origin, s.Category⟩ : groupKey)
        (m.get (⟨s.Origin, s.Category⟩ : groupKey) [] ++ [s]))
      GoMap.empty, [], [], []⟩
  obtain ⟨hinv, _, hok⟩ := monthlyLoop_spec rt world cfg workspace botToken channel
    (monthlyCohort summaries) groups 0 _ st' e hinit hloop
  unfold prepareMonthlyDigestData
  simp only [] at hloop ⊢
  rw [hloop]
  cases e with
  | some err =>
    refine ⟨⟨st'.calls, st'.events, .error err⟩, rfl, hinv.2.2, ?_⟩
    intro blocks hb
    cases hb
  | none =>
    refine ⟨⟨st'.calls, st'.events, .ok (rt.sortSlice monthlyLess st'.digestBlocks)⟩, rfl,
      hinv.2.2, ?_⟩
    intro blocks hb
    simp only [Except.ok.injEq] at hb
    obtain ⟨hex, hgraph, entries, heq, hall⟩ := hok rfl
    refine ⟨hex, fun i g hi => ?_, entries, ?_, hall⟩
    · have := hgraph i g hi
      rwa [Nat.zero_add] at this
    · rw [← hb, heq]
      rfl

/-- What one iteration of the quarterly loop does to the map, to the list of
summarizer calls and to the list of digest entries. An iteration without error
has generated the chart and appends the entry of its group with the chart's
URL; an iteration with an error appends nothing. -/
theorem quarterlyGroupStep_shape (rt : Runtime) (w : ChartDigestWorld) (cfg : DigestConfig)
    (workspace botToken channel : String) (g : FeedbackGroup) (st st' : QuarterlyState)
    (e : Option GoError)
    (h : quarterlyGroupStep rt w cfg workspace botToken channel g st = some (st', e)) :
    ∃ rows : List SummaryRow,
      (((st.summaryMap.get g.Origin []).length : Int) > cfg.AIDigestInputLimit →
        sliceTo (Shuffle w.draw (st.summaryMap.get g.Origin []).length
          (st.summaryMap.get g.Origin [])) cfg.AIDigestInputLimit = some rows ∧
        st'.summaryMap = st.summaryMap.set g.Origin
          (Shuffle w.draw (st.summaryMap.get g.Origin []).length
            (st.summaryMap.get g.Origin []))) ∧
      (((st.summaryMap.get g.Origin []).length : Int) ≤ cfg.AIDigestInputLimit →
        rows = st.summaryMap.get g.Origin [] ∧ st'.summaryMap = st.summaryMap) ∧
      ((st'.calls = st.calls ∧ (e = none → st.summaryMap.get g.Origin [] = [])) ∨
        (∃ csv, st'.calls = st.calls ++
          [⟨g.Origin, cfg.AIQuarterlyDigestPrompt, rows, csv⟩])) ∧
      ((e ≠ none ∧ st'.digestBlocks = st.digestBlocks) ∨
        (e = none ∧
          (GenerateAndUploadQuarterlyGraph w.graph botToken channel workspace g.Origin).err =
            none ∧
          ∃ digest,
            st'.digestBlocks = st.digestBlocks ++ [(⟨g.Origin, digest,
              (GenerateAndUploadQuarterlyGraph w.graph botToken channel workspace g.Origin).url⟩ :
              QuarterlyDigestData)])) := by
  unfold quarterlyGroupStep at h
  simp only [] at h
  split at h
  · cases h
  · next summaryMap rows hs =>
    have hst : st'.summaryMap = summaryMap ∧
        ((st'.calls = st.calls ∧ (e = none → st.summaryMap.get g.Origin [] = [])) ∨
          (∃ csv, st'.calls = st.calls ++
            [⟨g.Origin, cfg.AIQuarterlyDigestPrompt, rows, csv⟩])) ∧
        ((e ≠ none ∧ st'.digestBlocks = st.digestBlocks) ∨
          (e = none ∧
            (GenerateAndUploadQuarterlyGraph w.graph botToken channel workspace g.Origin).err =
              none ∧
            ∃ digest,
              st'.digestBlocks = st.digestBlocks ++ [(⟨g.Origin, digest,
              (GenerateAndUploadQuarterlyGraph w.graph botToken channel workspace g.Origin).url⟩ :
              QuarterlyDigestData)])) := by
      by_cases hpos : (st.summaryMap.get g.Origin []).length > 0
      · simp only [hpos, if_true] at h
        cases hcsv : SummariesToCSV rt rows true with
        | error err =>
          simp only [hcsv] at h
          cases h
          exact ⟨rfl, Or.inl ⟨rfl, fun h => by cases h⟩, Or.inl ⟨by simp, rfl⟩⟩
        | ok csvData =>
          simp only [hcsv] at h
          cases hai : GetAISummary w.gateway cfg.AIApiURL cfg.AIApiKey cfg.AIModel
              cfg.AIQuarterlyDigestPrompt csvData with
          | error err =>
            simp only [hai] at h
            cases h
            exact ⟨rfl, Or.inr ⟨csvData, rfl⟩, Or.inl ⟨by simp, rfl⟩⟩
          | ok digest =>
            simp only [hai] at h
            cases hrun : (GenerateAndUploadQuarterlyGraph w.graph botToken channel workspace
                g.Origin).err with
            | some err =>
              simp only [hrun] at h
              cases h
              exact ⟨rfl, Or.inr ⟨csvData, rfl⟩, Or.inl ⟨by simp, rfl⟩⟩
            | none =>
              simp only [hrun] at h
              cases h
              exact ⟨rfl, Or.inr ⟨csvData, rfl⟩, Or.inr ⟨rfl, rfl, digest, rfl⟩⟩
      · simp only [hpos, if_false] at h
        have hnil : st.summaryMap.get g.Origin [] = [] := by
          apply List.eq_nil_of_length_eq_zero
          omega
        cases hrun : (GenerateAndUploadQuarterlyGraph w.graph botToken channel workspace
            g.Origin).err with
        | some err =>
          simp only [hrun] at h
          cases h
          exact ⟨rfl, Or.inl ⟨rfl, fun h => by cases h⟩, Or.inl ⟨by simp, rfl⟩⟩
        | none =>
          simp only [hrun] at h
          cases h
          exact ⟨rfl, Or.inl ⟨rfl, fun _ => hnil⟩, Or.inr ⟨rfl, rfl, _, rfl⟩⟩
    refine ⟨rows, ?_, ?_, hst.2.1, hst.2.2⟩
    · intro hgt
      rw [if_pos hgt] at hs
      cases hcut : sliceTo (Shuffle w.draw (st.summaryMap.get g.Origin []).length
          (st.summaryMap.get g.Origin [])) cfg.AIDigestInputLimit with
      | none => rw [hcut] at hs; cases hs
      | some cut =>
        rw [hcut] at hs
        simp only [Option.map_some', Option.some.injEq, Prod.mk.injEq] at hs
        rw [hst.1, ← hs.1, hs.2]
        exact ⟨rfl, rfl⟩
    · intro hle
      rw [if_neg (by omega)] at hs
      simp only [Option.some.injEq, Prod.mk.injEq] at hs
      rw [hst.1, ← hs.1, ← hs.2]
      exact ⟨rfl, rfl⟩

theorem quarterlyGroupStep_isSome (rt : Runtime) (w : ChartDigestWorld) (cfg : DigestConfig)
    (workspace botToken channel : String) (g : FeedbackGroup) (st : QuarterlyState)
    (h0 : 0 ≤ cfg.AIDigestInputLimit) :
    ∃ r, quarterlyGroupStep rt w cfg workspace botToken channel g st = some r := by
  unfold quarterlyGroupStep
  simp only []
  by_cases hgt : ((st.summaryMap.get g.Origin []).length : Int) > cfg.AIDigestInputLimit
  · obtain ⟨cut, hcut⟩ := sample_isSome w.draw (st.summaryMap.get g.Origin []).length
      (st.summaryMap.get g.Origin []) cfg.AIDigestInputLimit h0 hgt
    simp only [if_pos hgt, hcut, Option.map_some']
    split
    · exact ⟨_, rfl⟩
    · split <;> exact ⟨_, rfl⟩
  · simp only [if_neg hgt]
    split
    · exact ⟨_, rfl⟩
    · split <;> exact ⟨_, rfl⟩

theorem quarterlyGroupStep_inv (rt : Runtime) (w : ChartDigestWorld) (cfg : DigestConfig)
    (workspace botToken channel : String) (cohort : String → List SummaryRow)
    (g : FeedbackGroup) (st st' : QuarterlyState) (e : Option GoError)
    (hinv : CohortInv cfg.AIDigestInputLimit cohort st.summaryMap st.calls)
    (h : quarterlyGroupStep rt w cfg workspace botToken channel g st = some (st', e)) :
    CohortInv cfg.AIDigestInputLimit cohort st'.summaryMap st'.calls := by
  obtain ⟨rows, hgt, hle, hcall, _⟩ :=
    quarterlyGroupStep_shape rt w cfg workspace botToken channel g st st' e h
  refine cohortInv_step w.draw _ cohort st.summaryMap st'.summaryMap st.calls st'.calls
    g.Origin rows hinv hgt hle ?_
  rcases hcall with ⟨heq, _⟩ | ⟨csv, heq⟩
  · exact Or.inl heq
  · exact Or.inr ⟨_, csv, heq⟩

theorem quarterlyLoop_isSome (rt : Runtime) (world : Nat → ChartDigestWorld)
    (cfg : DigestConfig) (workspace botToken channel : String)
    (h0 : 0 ≤ cfg.AIDigestInputLimit) :
    ∀ (groups : List FeedbackGroup) (k : Nat) (st : QuarterlyState),
      ∃ r, quarterlyLoop rt world cfg workspace botToken channel k groups st = some r := by
  intro groups
  induction groups with
  | nil => intro k st; exact ⟨_, rfl⟩
  | cons g rest ih =>
    intro k st
    obtain ⟨⟨st₁, e₁⟩, hstep⟩ :=
      quarterlyGroupStep_isSome rt (world k) cfg workspace botToken channel g st h0
    rw [quarterlyLoop]
    cases e₁ with
    | some err => simp only [hstep]; exact ⟨_, rfl⟩
    | none => simp only [hstep]; exact ih (k + 1) st₁

/-- The quarterly loop keeps the invariant and the calls made before. A loop
that ends without error has called the summarizer for every group whose cohort
has rows, has generated the chart of every group, and has appended one digest
entry per group, in the order of the groups. -/
theorem quarterlyLoop_spec (rt : Runtime) (world : Nat → ChartDigestWorld)
    (cfg : DigestConfig) (workspace botToken channel : String)
    (cohort : String → List SummaryRow) :
    ∀ (groups : List FeedbackGroup) (k : Nat) (st st' : QuarterlyState) (e : Option GoError),
      CohortInv cfg.AIDigestInputLimit cohort st.summaryMap st.calls →
      quarterlyLoop rt world cfg workspace botToken channel k groups st = some (st', e) →
      CohortInv cfg.AIDigestInputLimit cohort st'.summaryMap st'.calls ∧
      (∀ call ∈ st.calls, call ∈ st'.calls) ∧
      (e = none →
        (∀ g ∈ groups, cohort g.Origin ≠ [] → ∃ call ∈ st'.calls, call.key = g.Origin) ∧
        (∀ i g, groups[i]? = some g →
          (GenerateAndUploadQuarterlyGraph (world (k + i)).graph botToken channel workspace
            g.Origin).err = none) ∧
        ∃ entries, st'.digestBlocks = st.digestBlocks ++ entries ∧
          List.Forall₂ (fun g b => ∃ i digest,
            b = (⟨g.Origin, digest,
              (GenerateAndUploadQuarterlyGraph (world i).graph botToken channel workspace
                g.Origin).url⟩ : QuarterlyDigestData)) groups entries) := by
  intro groups
  induction groups with
  | nil =>
    intro k st st' e hinv h
    simp only [quarterlyLoop, Option.some.injEq, Prod.mk.injEq] at h
    rw [← h.1]
    exact ⟨hinv, fun _ hc => hc, fun _ => ⟨fun g hg => by simp at hg,
      fun i g hi => by simp at hi, [], by simp, List.Forall₂.nil⟩⟩
  | cons g rest ih =>
    intro k st st' e hinv h
    rw [quarterlyLoop] at h
    cases hstep : quarterlyGroupStep rt (world k) cfg workspace botToken channel g st with
    | none => simp only [hstep] at h; cases h
    | some r =>
      obtain ⟨st₁, e₁⟩ := r
      have hinv₁ := quarterlyGroupStep_inv rt (world k) cfg workspace botToken channel cohort g
        st st₁ e₁ hinv hstep
      obtain ⟨rows, _, _, hcall, hblocks⟩ :=
        quarterlyGroupStep_shape rt (world k) cfg workspace botToken channel g st st₁ e₁ hstep
      have hmono : ∀ call ∈ st.calls, call ∈ st₁.calls := by
        intro call hc
        rcases hcall with ⟨heq, _⟩ | ⟨csv, heq⟩
        · rw [heq]; exact hc
        · rw [heq]; exact List.mem_append_left _ hc
      cases e₁ with
      | some err =>
        simp only [hstep, Option.some.injEq, Prod.mk.injEq] at h
        rw [← h.1]
        refine ⟨hinv₁, hmono, fun he => ?_⟩
        rw [← h.2] at he
        cases he
      | none =>
        simp only [hstep] at h
        obtain ⟨hinv', hm, hrest⟩ := ih (k + 1) st₁ st' e hinv₁ h
        refine ⟨hinv', fun call hc => hm call (hmono call hc), fun he => ?_⟩
        obtain ⟨hex, hgraph, entries, heq, hall⟩ := hrest he
        rcases hblocks with ⟨hne, _⟩ | ⟨_, hrun, digest, hb⟩
        · exact absurd rfl hne
        · refine ⟨fun g' hg' hne => ?_, fun i g' hi => ?_, ?_⟩
          · rcases List.mem_cons.mp hg' with rfl | hin
            · rcases hcall with ⟨_, hnil⟩ | ⟨csv, heq'⟩
              · exfalso
                have hp := hinv.1 g'.Origin
                rw [hnil rfl] at hp
                exact hne hp.symm.eq_nil
              · refine ⟨⟨g'.Origin, cfg.AIQuarterlyDigestPrompt, rows, csv⟩, hm _ ?_, rfl⟩
                rw [heq']
                exact List.mem_append_right _ (List.mem_singleton.mpr rfl)
            · exact hex g' hin hne
          · cases i with
            | zero =>
              simp only [List.getElem?_cons_zero, Option.some.injEq] at hi
              subst hi
              exact hrun
            | succ i =>
              simp only [List.getElem?_cons_succ] at hi
              have := hgraph i g' hi
              rwa [show k + 1 + i = k + (i + 1) by omega] at this
          · refine ⟨_ :: entries, ?_, List.Forall₂.cons ⟨k, digest, rfl⟩ hall⟩
            rw [heq, hb, List.append_assoc]
            rfl

theorem quarterlyCohort_eq (summaries : List SummaryRow) :
    (fun k : String => summaries.filter (fun s => decide (s.Origin = k))) =
      quarterlyCohort summaries := rfl

/-- The run of `prepareQuarterlyDigestData`: it returns when the limit is not
negative; every summarizer call got a sample of the cohort of its key; on
success every group whose cohort has rows was summarized, the chart of every
group was generated, and the entries are the sorted list of one entry per
group. -/
theorem prepareQuarterlyDigestData_spec (rt : Runtime) (world : Nat → ChartDigestWorld)
    (cfg : DigestConfig) (groups : List FeedbackGroup) (summaries : List SummaryRow)
    (workspace botToken channel : String) (h0 : 0 ≤ cfg.AIDigestInputLimit) :
    ∃ run, prepareQuarterlyDigestData rt world cfg groups summaries workspace botToken
        channel = some run ∧
      (∀ call ∈ run.calls,
        SampleOf cfg.AIDigestInputLimit (quarterlyCohort summaries call.key) call.rows) ∧
      (∀ blocks, run.result = .ok blocks →
        (∀ g ∈ groups, quarterlyCohort summaries g.Origin ≠ [] →
          ∃ call ∈ run.calls, call.key = g.Origin) ∧
        (∀ i g, groups[i]? = some g →
          (GenerateAndUploadQuarterlyGraph (world i).graph botToken channel workspace
            g.Origin).err = none) ∧
        ∃ entries, blocks = rt.sortSlice quarterlyLess entries ∧
          List.Forall₂ (fun g b => ∃ i digest,
            b = (⟨g.Origin, digest,
              (GenerateAndUploadQuarterlyGraph (world i).graph botToken channel workspace
                g.Origin).url⟩ : QuarterlyDigestData)) groups entries) := by
  have hinit := cohortInv_init cfg.AIDigestInputLimit (fun s : SummaryRow => s.Origin)
    summaries
  rw [quarterlyCohort_eq] at hinit
  obtain ⟨⟨st', e⟩, hloop⟩ := quarterlyLoop_isSome rt world cfg workspace botToken channel h0
    groups 0
    ⟨summaries.foldl (fun m s => m.set s.Origin (m.get s.Origin [] ++ [s])) GoMap.empty,
      [], [], []⟩
  obtain ⟨hinv, _, hok⟩ := quarterlyLoop_spec rt world cfg workspace botToken channel
    (quarterlyCohort summaries) groups 0 _ st' e hinit hloop
  unfold prepareQuarterlyDigestData
  simp only [] at hloop ⊢
  rw [hloop]
  cases e with
  | some err =>
    refine ⟨⟨st'.calls, st'.events, .error err⟩, rfl, hinv.2.2, ?_⟩
    intro blocks hb
    cases hb
  | none =>
    refine ⟨⟨st'.calls, st'.events, .ok (rt.sortSlice quarterlyLess st'.digestBlocks)⟩, rfl,
      hinv.2.2, ?_⟩
    intro blocks hb
    simp only [Except.ok.injEq] at hb
    obtain ⟨hex, hgraph, entries, heq, hall⟩ := hok rfl
    refine ⟨hex, fun i g hi => ?_, entries, ?_, hall⟩
    · have := hgraph i g hi
      rwa [Nat.zero_add] at this
    · rw [← hb, heq]
      rfl

/-! ## Chart failures in the prepare functions -/

/-- C11, as stated, fails. One cohort with no cached summaries and exactly 2
monthly points for its chart: `prepareMonthlyDigestData` and
`prepareQuarterlyDigestData` return the chart error wrapped and no digest
entry. -/
theorem prepare_aborts_on_two_points :
    prepareMonthlyDigestData exampleRuntime (fun _ => exampleChartWorld 2) exampleConfig
        [⟨"summarize", "docs", "api"⟩] [] "T1" "xoxb-T1" "C1" =
      some ⟨[], [], .error (.wrapf
        "failed to generate or upload graph for %s/%s of workspace %s: %w"
        ["docs", "api", "T1"]
        (.errorf "no stats for origin %s and category %s" ["docs", "api"]))⟩ ∧
    prepareQuarterlyDigestData exampleRuntime (fun _ => exampleChartWorld 2) exampleConfig
        [⟨"summarize", "docs", "api"⟩] [] "T1" "xoxb-T1" "C1" =
      some ⟨[], [], .error (.wrapf
        "failed to generate or upload graph for %s of workspace %s: %w" ["docs", "T1"]
        (.errorf "not enough stats for origin %s" ["docs"]))⟩ := by
  constructor
  · simp [prepareMonthlyDigestData, monthlyLoop, monthlyGroupStep, GoMap.get, GoMap.find?,
      GoMap.empty, GoMap.lookup, exampleConfig, exampleChartWorld, GetMonthlyFeedbackStats,
      GenerateAndUploadMonthlyGraph, exampleGraphWorldOf]
  · simp [prepareQuarterlyDigestData, quarterlyLoop, quarterlyGroupStep, GoMap.get,
      GoMap.find?, GoMap.empty, GoMap.lookup, exampleConfig, exampleChartWorld,
      GenerateAndUploadQuarterlyGraph, exampleGraphWorldOf]

/-- C11, as the code has it. When the chart of a cohort cannot be generated because its
plot statistics hold fewer than 3 monthly points, `prepareMonthlyDigestData`
and `prepareQuarterlyDigestData` (with a limit that is not negative) return an
error and no digest entries. -/
theorem short_chart_aborts_prepare (rt : Runtime) (world : Nat → ChartDigestWorld)
    (cfg : DigestConfig) (groups : List FeedbackGroup) (summaries : List SummaryRow)
    (workspace botToken channel : String) (i : Nat) (g : FeedbackGroup)
    (stats : List PlotStats) (h0 : 0 ≤ cfg.AIDigestInputLimit) (hi : groups[i]? = some g)
    (hlen : stats.length < 3) :
    ((world i).graph.monthlyPlotStats workspace g.Origin g.Category = .ok stats →
      ∃ run err,
        prepareMonthlyDigestData rt world cfg groups summaries workspace botToken channel =
          some run ∧ run.result = .error err) ∧
    ((world i).graph.quarterlyPlotStats workspace g.Origin = .ok stats →
      ∃ run err,
        prepareQuarterlyDigestData rt world cfg groups summaries workspace botToken channel =
          some run ∧ run.result = .error err) := by
  constructor
  · intro hstats
    obtain ⟨run, hrun, _, hok⟩ := prepareMonthlyDigestData_spec rt world cfg groups summaries
      workspace botToken channel h0
    cases hres : run.result with
    | error err => exact ⟨run, err, hrun, hres⟩
    | ok blocks =>
      exfalso
      have hgraph := (hok blocks hres).2.1 i g hi
      unfold GenerateAndUploadMonthlyGraph at hgraph
      simp only [hstats, if_pos hlen] at hgraph
      cases hgraph
  · intro hstats
    obtain ⟨run, hrun, _, hok⟩ := prepareQuarterlyDigestData_spec rt world cfg groups
      summaries workspace botToken channel h0
    cases hres : run.result with
    | error err => exact ⟨run, err, hrun, hres⟩
    | ok blocks =>
      exfalso
      have hgraph := (hok blocks hres).2.1 i g hi
      unfold GenerateAndUploadQuarterlyGraph at hgraph
      simp only [hstats, if_pos hlen] at hgraph
      cases hgraph

theorem short_chart_aborts_prepare_witness :
    (∃ run err,
      prepareMonthlyDigestData exampleRuntime (fun _ => exampleChartWorld 2) exampleConfig
        [⟨"summarize", "docs", "api"⟩] [⟨1, "docs", "api", "summarize", 2, "fine"⟩] "T1"
        "xoxb-T1" "C1" = some run ∧ run.result = .error err) ∧
    (∃ run err,
      prepareQuarterlyDigestData exampleRuntime (fun _ => exampleChartWorld 2) exampleConfig
        [⟨"summarize", "docs", "api"⟩] [⟨1, "docs", "api", "summarize", 2, "fine"⟩] "T1"
        "xoxb-T1" "C1" = some run ∧ run.result = .error err) :=
  ⟨(short_chart_aborts_prepare exampleRuntime (fun _ => exampleChartWorld 2) exampleConfig
      [⟨"summarize", "docs", "api"⟩] [⟨1, "docs", "api", "summarize", 2, "fine"⟩] "T1"
      "xoxb-T1" "C1" 0 ⟨"summarize", "docs", "api"⟩ (List.replicate 2 ⟨1, 50, 4, 1⟩)
      (by decide) rfl (by decide)).1 rfl,
    (short_chart_aborts_prepare exampleRuntime (fun _ => exampleChartWorld 2) exampleConfig
      [⟨"summarize", "docs", "api"⟩] [⟨1, "docs", "api", "summarize", 2, "fine"⟩] "T1"
      "xoxb-T1" "C1" 0 ⟨"summarize", "docs", "api"⟩ (List.replicate 2 ⟨1, 50, 4, 1⟩)
      (by decide) rfl (by decide)).2 rfl⟩

/-! ## The cohort key of each cadence -/

theorem SampleOf.mem_cohort {α : Type} {M : Int} {cohort rows : List α}
    (h : SampleOf M cohort rows) : ∀ r ∈ rows, r ∈ cohort := by
  intro r hr
  by_cases hgt : (cohort.length : Int) > M
  · exact (h.1 hgt).2.subset hr
  · rw [h.2 (by omega)] at hr
    exact hr

/-- C18, as stated, fails. Two cached rows of origin `docs` that differ in
category and in prompt: `prepareDailyDigestData` summarizes them together, in
one call under the key `docs`. -/
theorem daily_groups_by_origin_only :
    (∃ r₁ ∈ mixedSummaries, ∃ r₂ ∈ mixedSummaries,
      r₁.Category ≠ r₂.Category ∧ r₁.Prompt ≠ r₂.Prompt) ∧
    ∃ csv result,
      prepareDailyDigestData exampleRuntime (fun _ => exampleDigestWorld) wideConfig
        mixedSummaries "T1" = some ([⟨"docs", "daily", mixedSummaries, csv⟩], result) := by
  refine ⟨⟨⟨1, "docs", "api", "summarize", 2, "fine"⟩, by simp [mixedSummaries],
    ⟨2, "docs", "ui", "rate", 1, "slow"⟩, by simp [mixedSummaries], by decide, by decide⟩, ?_⟩
  obtain ⟨csv, hcsv⟩ := exampleRuntime_csv mixedSummaries false
  refine ⟨csv, ?_⟩
  simp only [mixedSummaries] at hcsv
  simp [prepareDailyDigestData, dailyLoop, dailyGroupStep, GoMap.get, GoMap.set, GoMap.insert,
    GoMap.find?, GoMap.empty, GoMap.lookup, wideConfig, exampleConfig, exampleDigestWorld,
    mixedSummaries, hcsv, exampleGateway_summary, exampleRuntime_sort_singleton]

/-- C18, as the code has it. Each cadence partitions the cached summary rows by its
cohort key: the quarterly digest by origin, the monthly digest by (origin,
category), the weekly digest by (origin, category, prompt) and the daily digest
by origin only. With a limit that is not negative every prepare function
returns; the rows of each summarizer call all carry the key of the call, and
they are the whole cohort of that key when it is within the limit and a sample
of it otherwise; the summarizer got the CSV text of exactly these rows, and the
function returns its failure on that text or an entry of the key with its
answer; on success every cohort that has rows (and, but for the daily digest, a
feedback group) was summarized. -/
theorem cadence_cohort_keys (rt : Runtime) (cfg : DigestConfig) (summaries : List SummaryRow)
    (workspace : String) (hsort : SortKeepsEntries rt) (h0 : 0 ≤ cfg.AIDigestInputLimit) :
    (∀ (world : Nat → ChartDigestWorld) (groups : List FeedbackGroup)
        (botToken channel : String),
      ∃ run, prepareQuarterlyDigestData rt world cfg groups summaries workspace botToken
          channel = some run ∧
        (∀ call ∈ run.calls,
          SampleOf cfg.AIDigestInputLimit (quarterlyCohort summaries call.key) call.rows ∧
          (∀ r ∈ call.rows, r ∈ summaries ∧ r.Origin = call.key) ∧
          ∃ j, QuarterlyCallHanded rt (world j).gateway cfg workspace call run.result) ∧
        (∀ blocks, run.result = .ok blocks → ∀ g ∈ groups,
          quarterlyCohort summaries g.Origin ≠ [] → ∃ call ∈ run.calls, call.key = g.Origin)) ∧
    (∀ (world : Nat → ChartDigestWorld) (groups : List FeedbackGroup)
        (botToken channel : String),
      ∃ run, prepareMonthlyDigestData rt world cfg groups summaries workspace botToken
          channel = some run ∧
        (∀ call ∈ run.calls,
          SampleOf cfg.AIDigestInputLimit (monthlyCohort summaries call.key) call.rows ∧
          (∀ r ∈ call.rows, r ∈ summaries ∧ r.Origin = call.key.Origin ∧
            r.Category = call.key.Category) ∧
          ∃ j, MonthlyCallHanded rt (world j).gateway cfg workspace call run.result) ∧
        (∀ blocks, run.result = .ok blocks → ∀ g ∈ groups,
          monthlyCohort summaries ⟨g.Origin, g.Category⟩ ≠ [] →
          ∃ call ∈ run.calls, call.key = ⟨g.Origin, g.Category⟩)) ∧
    (∀ (world : Nat → DigestWorld) (groups : List FeedbackGroup),
      ∃ calls result,
        prepareWeeklyDigestData rt world cfg groups summaries workspace =
          some (calls, result) ∧
        (∀ call ∈ calls,
          SampleOf cfg.AIDigestInputLimit (weeklyCohort summaries call.key) call.rows ∧
          (∀ r ∈ call.rows, r ∈ summaries ∧ r.Origin = call.key.Origin ∧
            r.Category = call.key.Category ∧ r.Prompt = call.key.Prompt) ∧
          ∃ j, WeeklyCallHanded rt (world j).gateway cfg workspace call result) ∧
        ((∃ blocks, result = .ok blocks) → ∀ g ∈ groups, weeklyCohort summaries g ≠ [] →
          ∃ call ∈ calls, call.key = g)) ∧
    ((∀ l : List (String × List SummaryRow), (rt.mapRange l).Perm l) →
      ∀ world : Nat → DigestWorld,
      ∃ calls result,
        prepareDailyDigestData rt world cfg summaries workspace = some (calls, result) ∧
        (∀ call ∈ calls,
          SampleOf cfg.AIDigestInputLimit (dailyCohort summaries call.key) call.rows ∧
          (∀ r ∈ call.rows, r ∈ summaries ∧ r.Origin = call.key) ∧
          ∃ j, DailyCallHanded rt (world j).gateway cfg workspace call result) ∧
        ((∃ blocks, result = .ok blocks) → ∀ origin, dailyCohort summaries origin ≠ [] →
          ∃ call ∈ calls, call.key = origin)) := by
  refine ⟨?_, ?_, ?_, ?_⟩
  · intro world groups botToken channel
    obtain ⟨run, hrun, hcalls, hok⟩ := prepareQuarterlyDigestData_spec rt world cfg groups
      summaries workspace botToken channel h0
    have hh := prepareQuarterlyDigestData_handed rt world cfg groups summaries workspace
      botToken channel hsort run hrun
    refine ⟨run, hrun, fun call hc => ⟨hcalls call hc, fun r hr => ?_, hh call hc⟩,
      fun blocks hb => (hok blocks hb).1⟩
    have hmem := (hcalls call hc).mem_cohort r hr
    unfold quarterlyCohort at hmem
    simpa using hmem
  · intro world groups botToken channel
    obtain ⟨run, hrun, hcalls, hok⟩ := prepareMonthlyDigestData_spec rt world cfg groups
      summaries workspace botToken channel h0
    have hh := prepareMonthlyDigestData_handed rt world cfg groups summaries workspace
      botToken channel hsort run hrun
    refine ⟨run, hrun, fun call hc => ⟨hcalls call hc, fun r hr => ?_, hh call hc⟩,
      fun blocks hb => (hok blocks hb).1⟩
    have hmem := (hcalls call hc).mem_cohort r hr
    unfold monthlyCohort at hmem
    simpa using hmem
  · intro world groups
    obtain ⟨calls, result, hrun, hcalls, hok⟩ := prepareWeeklyDigestData_calls rt world cfg
      groups summaries workspace h0
    have hh := prepareWeeklyDigestData_handed rt world cfg groups summaries workspace hsort
      calls result hrun
    refine ⟨calls, result, hrun, fun call hc => ⟨hcalls call hc, fun r hr => ?_, hh call hc⟩,
      hok⟩
    have hmem := (hcalls call hc).mem_cohort r hr
    unfold weeklyCohort at hmem
    simpa using hmem
  · intro hrange world
    obtain ⟨calls, result, hrun, hcalls, hok⟩ := prepareDailyDigestData_calls rt world cfg
      summaries workspace hrange h0
    have hh := prepareDailyDigestData_handed rt world cfg summaries workspace hsort
      calls result hrun
    refine ⟨calls, result, hrun, fun call hc => ⟨hcalls call hc, fun r hr => ?_, hh call hc⟩,
      hok⟩
    have hmem := (hcalls call hc).mem_cohort r hr
    unfold dailyCohort at hmem
    simpa using hmem

/-- The four prepare functions on the two rows of `mixedSummaries`, which share
the origin `docs` and differ in category and prompt, with one feedback group
for the quarterly, monthly and weekly digest. -/
theorem cadence_cohort_keys_witness :
    (∃ run, prepareQuarterlyDigestData exampleRuntime (fun _ => exampleChartWorld 3)
        wideConfig [⟨"summarize", "docs", "api"⟩] mixedSummaries "T1" "xoxb-T1" "C1" =
          some run ∧
      (∀ call ∈ run.calls,
        SampleOf wideConfig.AIDigestInputLimit (quarterlyCohort mixedSummaries call.key)
          call.rows ∧
        (∀ r ∈ call.rows, r ∈ mixedSummaries ∧ r.Origin = call.key) ∧
        ∃ _ : Nat, QuarterlyCallHanded exampleRuntime (exampleChartWorld 3).gateway
          wideConfig "T1" call run.result) ∧
      (∀ blocks, run.result = .ok blocks →
        ∀ g ∈ [(⟨"summarize", "docs", "api"⟩ : FeedbackGroup)],
        quarterlyCohort mixedSummaries g.Origin ≠ [] →
        ∃ call ∈ run.calls, call.key = g.Origin)) ∧
    (∃ run, prepareMonthlyDigestData exampleRuntime (fun _ => exampleChartWorld 3)
        wideConfig [⟨"summarize", "docs", "api"⟩] mixedSummaries "T1" "xoxb-T1" "C1" =
          some run ∧
      (∀ call ∈ run.calls,
        SampleOf wideConfig.AIDigestInputLimit (monthlyCohort mixedSummaries call.key)
          call.rows ∧
        (∀ r ∈ call.rows, r ∈ mixedSummaries ∧ r.Origin = call.key.Origin ∧
          r.Category = call.key.Category) ∧
        ∃ _ : Nat, MonthlyCallHanded exampleRuntime (exampleChartWorld 3).gateway
          wideConfig "T1" call run.result) ∧
      (∀ blocks, run.result = .ok blocks →
        ∀ g ∈ [(⟨"summarize", "docs", "api"⟩ : FeedbackGroup)],
        monthlyCohort mixedSummaries ⟨g.Origin, g.Category⟩ ≠ [] →
        ∃ call ∈ run.calls, call.key = ⟨g.Origin, g.Category⟩)) ∧
    (∃ calls result,
      prepareWeeklyDigestData exampleRuntime (fun _ => exampleDigestWorld) wideConfig
        [⟨"summarize", "docs", "api"⟩] mixedSummaries "T1" = some (calls, result) ∧
      (∀ call ∈ calls,
        SampleOf wideConfig.AIDigestInputLimit (weeklyCohort mixedSummaries call.key)
          call.rows ∧
        (∀ r ∈ call.rows, r ∈ mixedSummaries ∧ r.Origin = call.key.Origin ∧
          r.Category = call.key.Category ∧ r.Prompt = call.key.Prompt) ∧
        ∃ _ : Nat, WeeklyCallHanded exampleRuntime exampleDigestWorld.gateway wideConfig "T1"
          call result) ∧
      ((∃ blocks, result = .ok blocks) →
        ∀ g ∈ [(⟨"summarize", "docs", "api"⟩ : FeedbackGroup)],
        weeklyCohort mixedSummaries g ≠ [] → ∃ call ∈ calls, call.key = g)) ∧
    (∃ calls result,
      prepareDailyDigestData exampleRuntime (fun _ => exampleDigestWorld) wideConfig
        mixedSummaries "T1" = some (calls, result) ∧
      (∀ call ∈ calls,
        SampleOf wideConfig.AIDigestInputLimit (dailyCohort mixedSummaries call.key)
          call.rows ∧
        (∀ r ∈ call.rows, r ∈ mixedSummaries ∧ r.Origin = call.key) ∧
        ∃ _ : Nat, DailyCallHanded exampleRuntime exampleDigestWorld.gateway wideConfig "T1"
          call result) ∧
      ((∃ blocks, result = .ok blocks) → ∀ origin, dailyCohort mixedSummaries origin ≠ [] →
        ∃ call ∈ calls, call.key = origin)) :=
  ⟨(cadence_cohort_keys exampleRuntime wideConfig mixedSummaries "T1" exampleRuntime_sortKeeps
      (by decide)).1 (fun _ => exampleChartWorld 3) [⟨"summarize", "docs", "api"⟩] "xoxb-T1"
      "C1",
    (cadence_cohort_keys exampleRuntime wideConfig mixedSummaries "T1" exampleRuntime_sortKeeps
      (by decide)).2.1 (fun _ => exampleChartWorld 3) [⟨"summarize", "docs", "api"⟩] "xoxb-T1"
      "C1",
    (cadence_cohort_keys exampleRuntime wideConfig mixedSummaries "T1" exampleRuntime_sortKeeps
      (by decide)).2.2.1 (fun _ => exampleDigestWorld) [⟨"summarize", "docs", "api"⟩],
    (cadence_cohort_keys exampleRuntime wideConfig mixedSummaries "T1" exampleRuntime_sortKeeps
      (by decide)).2.2.2 (fun l => List.Perm.refl l) (fun _ => exampleDigestWorld)⟩

/-! ## Sorted entries -/

theorem sorted_keys_spec {α κ : Type} [LinearOrder κ] (rt : Runtime) (less : α → α → Bool)
    (key : α → κ) (hless : ∀ a b, less a b = decide (key a < key b)) (hsort : SortsBy rt less)
    (entries : List α) :
    (rt.sortSlice less entries).Pairwise (fun a b => key a ≤ key b) ∧
    ((rt.sortSlice less entries).map key).Perm (entries.map key) := by
  obtain ⟨hperm, hpair⟩ := hsort entries
  refine ⟨hpair.imp (fun {a b} h => ?_), hperm.map key⟩
  rw [hless] at h
  exact not_lt.mp (of_decide_eq_false h)

theorem sorted_keys_unique {κ : Type} [LinearOrder κ] (l₁ l₂ : List κ)
    (h₁ : l₁.Pairwise (fun a b => a ≤ b)) (h₂ : l₂.Pairwise (fun a b => a ≤ b))
    (hp : l₁.Perm l₂) : l₁ = l₂ :=
  List.eq_of_perm_of_sorted hp h₁ h₂

theorem forall₂_map_eq {α β γ : Type} (f : α → γ) (k : β → γ) (R : α → β → Prop)
    (hR : ∀ a b, R a b → k b = f a) :
    ∀ {l₁ : List α} {l₂ : List β}, List.Forall₂ R l₁ l₂ → l₂.map k = l₁.map f := by
  intro l₁ l₂ h
  induction h with
  | nil => rfl
  | cons hr _ ih => simp only [List.map_cons, ih, hR _ _ hr]

theorem weeklyLess_eq (a b : WeeklyDigestData) :
    weeklyLess a b = decide ((toLex (a.Origin, toLex (a.Category, a.Prompt)) :
      String ×ₗ String ×ₗ String) < toLex (b.Origin, toLex (b.Category, b.Prompt))) := by
  unfold weeklyLess
  simp only [Prod.Lex.lt_iff]
  by_cases h1 : a.Origin = b.Origin
  · by_cases h2 : a.Category = b.Category
    · simp [h1, h2]
    · simp [h1, h2]
  · simp [h1]

theorem monthlyLess_eq (a b : MonthlyDigestData) :
    monthlyLess a b = decide ((toLex (a.Origin, a.Category) : String ×ₗ String) <
      toLex (b.Origin, b.Category)) := by
  unfold monthlyLess
  simp only [Prod.Lex.lt_iff]
  by_cases h1 : a.Origin = b.Origin
  · simp [h1]
  · simp [h1]

theorem weeklyOrdered_iff (a b : WeeklyDigestData) :
    weeklyOrdered a b ↔ (toLex (a.Origin, toLex (a.Category, a.Prompt)) :
      String ×ₗ String ×ₗ String) ≤ toLex (b.Origin, toLex (b.Category, b.Prompt)) := by
  unfold weeklyOrdered
  simp only [Prod.Lex.le_iff]

theorem monthlyOrdered_iff (a b : MonthlyDigestData) :
    monthlyOrdered a b ↔ (toLex (a.Origin, a.Category) : String ×ₗ String) ≤
      toLex (b.Origin, b.Category) := by
  unfold monthlyOrdered
  simp only [Prod.Lex.le_iff]

/-- What one iteration of the daily loop does to the list of digest entries:
an iteration without error appends one entry, of its origin. -/
theorem dailyGroupStep_blocks (rt : Runtime) (w : DigestWorld) (cfg : DigestConfig)
    (workspace origin : String) (group : List SummaryRow) (st st' : DailyState)
    (h : dailyGroupStep rt w cfg workspace origin group st = some (st', none)) :
    ∃ b : DailyDigestData, b.Origin = origin ∧ st'.digestBlocks = st.digestBlocks ++ [b] := by
  unfold dailyGroupStep at h
  simp only [] at h
  split at h
  · cases h
  · next rows hs =>
    cases hcsv : SummariesToCSV rt rows false with
    | error err =>
      simp only [hcsv] at h
      cases h
    | ok csvData =>
      simp only [hcsv] at h
      cases hai : GetAISummary w.gateway cfg.AIApiURL cfg.AIApiKey cfg.AIModel
          cfg.AIDailyDigestPrompt csvData with
      | error err =>
        simp only [hai] at h
        cases h
      | ok digest =>
        simp only [hai] at h
        cases h
        exact ⟨_, rfl, rfl⟩

theorem dailyLoop_blocks (rt : Runtime) (world : Nat → DigestWorld) (cfg : DigestConfig)
    (workspace : String) :
    ∀ (entries : List (String × List SummaryRow)) (k : Nat) (st st' : DailyState),
      dailyLoop rt world cfg workspace k entries st = some (st', none) →
      ∃ blocks, st'.digestBlocks = st.digestBlocks ++ blocks ∧
        blocks.map (fun b => b.Origin) = entries.map (fun en => en.1) := by
  intro entries
  induction entries with
  | nil =>
    intro k st st' h
    simp only [dailyLoop, Option.some.injEq, Prod.mk.injEq] at h
    exact ⟨[], by rw [← h.1]; simp, rfl⟩
  | cons en rest ih =>
    intro k st st' h
    obtain ⟨origin, group⟩ := en
    rw [dailyLoop] at h
    cases hstep : dailyGroupStep rt (world k) cfg workspace origin group st with
    | none => simp only [hstep] at h; cases h
    | some r =>
      obtain ⟨st₁, e₁⟩ := r
      cases e₁ with
      | some err =>
        simp only [hstep, Option.some.injEq, Prod.mk.injEq] at h
        cases h.2
      | none =>
        simp only [hstep] at h
        obtain ⟨b, hbo, hb⟩ := dailyGroupStep_blocks rt (world k) cfg workspace origin group st
          st₁ hstep
        obtain ⟨blocks, heq, hmap⟩ := ih (k + 1) st₁ st' h
        refine ⟨b :: blocks, ?_, ?_⟩
        · rw [heq, hb, List.append_assoc]
          rfl
        · simp only [List.map_cons, hbo, hmap]

/-- The origins of the entries of `originMap`: no origin twice, and exactly the
origins of the summary rows. -/
theorem originMap_keys (summaries : List SummaryRow) :
    ((summaries.foldl (fun m s => m.set s.Origin (m.get s.Origin [] ++ [s]))
      (GoMap.empty : GoMap String (List SummaryRow))).entries.map (fun en => en.1)).Nodup ∧
    ∀ origin, origin ∈ (summaries.foldl (fun m s => m.set s.Origin (m.get s.Origin [] ++ [s]))
        (GoMap.empty : GoMap String (List SummaryRow))).entries.map (fun en => en.1) ↔
      ∃ s ∈ summaries, s.Origin = origin := by
  obtain ⟨hnd, _, _⟩ := groupFold_empty (fun s : SummaryRow => s.Origin) summaries
  obtain ⟨hent, hhas⟩ := originMap_entries summaries
  refine ⟨hnd, fun origin => ⟨fun hmem => ?_, fun hex => ?_⟩⟩
  · obtain ⟨en, hen, heq⟩ := List.mem_map.mp hmem
    have hc := hent en hen
    obtain ⟨hnd', hfind, _⟩ := groupFold_empty (fun s : SummaryRow => s.Origin) summaries
    have hl := GoMap.lookup_of_mem _ en.1 en.2 hnd' hen
    have hf := hfind en.1
    unfold GoMap.find? at hf
    rw [hl] at hf
    split_ifs at hf with he
    have hne : dailyCohort summaries en.1 ≠ [] := by
      unfold dailyCohort
      intro hnil
      exact he (List.isEmpty_iff.mpr hnil)
    obtain ⟨s, hs⟩ := List.exists_mem_of_ne_nil _ hne
    unfold dailyCohort at hs
    rw [List.mem_filter] at hs
    exact ⟨s, hs.1, by rw [← heq]; simpa using hs.2⟩
  · obtain ⟨s, hs, heq⟩ := hex
    have hne : dailyCohort summaries origin ≠ [] := by
      intro hnil
      have : s ∈ dailyCohort summaries origin := by
        unfold dailyCohort
        rw [List.mem_filter]
        exact ⟨hs, by simpa using heq⟩
      rw [hnil] at this
      simp at this
    exact List.mem_map.mpr ⟨_, hhas origin hne, rfl⟩

theorem exampleRuntime_sortsBy {α κ : Type} [LinearOrder κ] (less : α → α → Bool)
    (key : α → κ) (hless : ∀ a b, less a b = decide (key a < key b)) :
    SortsBy exampleRuntime less := by
  intro l
  refine ⟨List.mergeSort_perm _ _, ?_⟩
  have h := @List.sorted_mergeSort α (fun a b => !less b a)
    (fun a b c hab hbc => by
      simp only [hless, Bool.not_eq_true', decide_eq_false_iff_not, not_lt] at hab hbc ⊢
      exact le_trans hab hbc)
    (fun a b => by
      simp only [hless, Bool.or_eq_true, Bool.not_eq_true', decide_eq_false_iff_not, not_lt]
      exact le_total _ _) l
  exact h.imp (fun {a b} hab => by simpa using hab)

theorem prepareWeeklyDigestData_sorted (rt : Runtime) (world : Nat → DigestWorld)
    (cfg : DigestConfig) (groups : List FeedbackGroup) (summaries : List SummaryRow)
    (workspace : String) (calls : List (SummarizerCall FeedbackGroup SummaryRow))
    (blocks : List WeeklyDigestData) (hsort : SortsBy rt weeklyLess)
    (h : prepareWeeklyDigestData rt world cfg groups summaries workspace =
      some (calls, .ok blocks)) :
    blocks.Pairwise (fun a b => (toLex (a.Origin, toLex (a.Category, a.Prompt)) :
      String ×ₗ String ×ₗ String) ≤ toLex (b.Origin, toLex (b.Category, b.Prompt))) ∧
    (blocks.map (fun b => (toLex (b.Origin, toLex (b.Category, b.Prompt)) :
      String ×ₗ String ×ₗ String))).Perm
      (groups.map (fun g => toLex (g.Origin, toLex (g.Category, g.Prompt)))) := by
  obtain ⟨entries, hb, hall⟩ := prepareWeeklyDigestData_blocks rt world cfg groups summaries
    workspace calls blocks h
  obtain ⟨h1, h2⟩ := sorted_keys_spec rt weeklyLess
    (fun b => (toLex (b.Origin, toLex (b.Category, b.Prompt)) : String ×ₗ String ×ₗ String))
    weeklyLess_eq hsort entries
  rw [← hb] at h1 h2
  refine ⟨h1, ?_⟩
  rw [← forall₂_map_eq
    (fun g : FeedbackGroup => (toLex (g.Origin, toLex (g.Category, g.Prompt)) :
      String ×ₗ String ×ₗ String))
    (fun b : WeeklyDigestData => (toLex (b.Origin, toLex (b.Category, b.Prompt)) :
      String ×ₗ String ×ₗ String)) _
    (fun g b hgb => by
      obtain ⟨_, stats, digest, _, hbe⟩ := hgb
      rw [hbe]
      rfl) hall]
  exact h2

theorem prepareMonthlyDigestData_sorted (rt : Runtime) (world : Nat → ChartDigestWorld)
    (cfg : DigestConfig) (groups : List FeedbackGroup) (summaries : List SummaryRow)
    (workspace botToken channel : String) (run : ChartDigestRun groupKey MonthlyDigestData)
    (blocks : List MonthlyDigestData) (hsort : SortsBy rt monthlyLess)
    (h : prepareMonthlyDigestData rt world cfg groups summaries workspace botToken channel =
      some run) (hres : run.result = .ok blocks) :
    blocks.Pairwise (fun a b => (toLex (a.Origin, a.Category) : String ×ₗ String) ≤
      toLex (b.Origin, b.Category)) ∧
    (blocks.map (fun b => (toLex (b.Origin, b.Category) : String ×ₗ String))).Perm
      (groups.map (fun g => toLex (g.Origin, g.Category))) := by
  have hinit := cohortInv_init cfg.AIDigestInputLimit
    (fun s : SummaryRow => (⟨s.Origin, s.Category⟩ : groupKey)) summaries
  unfold prepareMonthlyDigestData at h
  simp only [] at h
  split at h
  · cases h
  · cases h
    cases hres
  · next st hloop =>
    cases h
    simp only [Except.ok.injEq] at hres
    obtain ⟨_, _, hok⟩ := monthlyLoop_spec rt world cfg workspace botToken channel _ groups 0 _
      st none hinit hloop
    obtain ⟨_, _, entries, heq, hall⟩ := hok rfl
    simp only [List.nil_append] at heq
    obtain ⟨h1, h2⟩ := sorted_keys_spec rt monthlyLess
      (fun b => (toLex (b.Origin, b.Category) : String ×ₗ String)) monthlyLess_eq hsort entries
    rw [heq] at hres
    rw [hres] at h1 h2
    refine ⟨h1, ?_⟩
    rw [← forall₂_map_eq
      (fun g : FeedbackGroup => (toLex (g.Origin, g.Category) : String ×ₗ String))
      (fun b : MonthlyDigestData => (toLex (b.Origin, b.Category) : String ×ₗ String)) _
      (fun g b hgb => by
        obtain ⟨_, stats, digest, _, hbe⟩ := hgb
        rw [hbe]
        rfl) hall]
    exact h2

theorem prepareQuarterlyDigestData_sorted (rt : Runtime) (world : Nat → ChartDigestWorld)
    (cfg : DigestConfig) (groups : List FeedbackGroup) (summaries : List SummaryRow)
    (workspace botToken channel : String) (run : ChartDigestRun String QuarterlyDigestData)
    (blocks : List QuarterlyDigestData) (hsort : SortsBy rt quarterlyLess)
    (h : prepareQuarterlyDigestData rt world cfg groups summaries workspace botToken channel =
      some run) (hres : run.result = .ok blocks) :
    blocks.Pairwise (fun a b => a.Origin ≤ b.Origin) ∧
    (blocks.map (fun b => b.Origin)).Perm (groups.map (fun g => g.Origin)) := by
  have hinit := cohortInv_init cfg.AIDigestInputLimit (fun s : SummaryRow => s.Origin)
    summaries
  unfold prepareQuarterlyDigestData at h
  simp only [] at h
  split at h
  · cases h
  · cases h
    cases hres
  · next st hloop =>
    cases h
    simp only [Except.ok.injEq] at hres
    obtain ⟨_, _, hok⟩ := quarterlyLoop_spec rt world cfg workspace botToken channel _ groups 0
      _ st none hinit hloop
    obtain ⟨_, _, entries, heq, hall⟩ := hok rfl
    simp only [List.nil_append] at heq
    obtain ⟨h1, h2⟩ := sorted_keys_spec rt quarterlyLess (fun b => b.Origin)
      (fun a b => decide_eq_decide.mpr Iff.rfl) hsort entries
    rw [heq] at hres
    rw [hres] at h1 h2
    refine ⟨h1, ?_⟩
    rw [← forall₂_map_eq (fun g : FeedbackGroup => g.Origin)
      (fun b : QuarterlyDigestData => b.Origin) _
      (fun g b hgb => by
        obtain ⟨_, digest, hbe⟩ := hgb
        rw [hbe]) hall]
    exact h2

theorem prepareDailyDigestData_sorted (rt : Runtime) (world : Nat → DigestWorld)
    (cfg : DigestConfig) (summaries : List SummaryRow) (workspace : String)
    (calls : List (SummarizerCall String SummaryRow)) (blocks : List DailyDigestData)
    (hsort : SortsBy rt dailyLess)
    (hrange : ∀ l : List (String × List SummaryRow), (rt.mapRange l).Perm l)
    (h : prepareDailyDigestData rt world cfg summaries workspace = some (calls, .ok blocks)) :
    blocks.Pairwise (fun a b => a.Origin ≤ b.Origin) ∧
    (blocks.map (fun b => b.Origin)).Perm
      ((summaries.foldl (fun m s => m.set s.Origin (m.get s.Origin [] ++ [s]))
        (GoMap.empty : GoMap String (List SummaryRow))).entries.map (fun en => en.1)) := by
  unfold prepareDailyDigestData at h
  simp only [] at h
  split at h
  · cases h
  · cases h
  · next st hloop =>
    simp only [Option.some.injEq, Prod.mk.injEq, Except.ok.injEq] at h
    obtain ⟨entries, heq, hmap⟩ := dailyLoop_blocks rt world cfg workspace _ 0 _ st hloop
    simp only [List.nil_append] at heq
    obtain ⟨h1, h2⟩ := sorted_keys_spec rt dailyLess (fun b => b.Origin)
      (fun a b => decide_eq_decide.mpr Iff.rfl) hsort entries
    rw [heq] at h
    rw [h.2] at h1 h2
    refine ⟨h1, h2.trans ?_⟩
    rw [hmap]
    exact (hrange _).map _

/-- C16. Whenever they succeed, with a `sort.Slice` that meets its contract,
the prepare functions return the digest entries in alphabetical order:
`prepareWeeklyDigestData` by origin, then category, then prompt,
`prepareMonthlyDigestData` by origin, then category, and
`prepareQuarterlyDigestData` and `prepareDailyDigestData` by origin. The keys
of the entries are those of the input groups, one entry per group (for the
daily digest, one entry per origin of the summary rows), and the sequence of
keys is the same for every order of the input groups (for the daily digest,
for every order in which the map is visited). -/
theorem prepare_entries_sorted (rt : Runtime) (cfg : DigestConfig)
    (summaries : List SummaryRow) (workspace : String) :
    (SortsBy rt weeklyLess →
      ∀ (world : Nat → DigestWorld) (groups : List FeedbackGroup) calls blocks,
        prepareWeeklyDigestData rt world cfg groups summaries workspace =
          some (calls, .ok blocks) →
        blocks.Pairwise weeklyOrdered ∧
        (blocks.map (fun b => (b.Origin, b.Category, b.Prompt))).Perm
          (groups.map (fun g => (g.Origin, g.Category, g.Prompt))) ∧
        ∀ (world' : Nat → DigestWorld) (groups' : List FeedbackGroup) calls' blocks',
          groups'.Perm groups →
          prepareWeeklyDigestData rt world' cfg groups' summaries workspace =
            some (calls', .ok blocks') →
          blocks'.map (fun b => (b.Origin, b.Category, b.Prompt)) =
            blocks.map (fun b => (b.Origin, b.Category, b.Prompt))) ∧
    (SortsBy rt monthlyLess →
      ∀ (world : Nat → ChartDigestWorld) (groups : List FeedbackGroup)
        (botToken channel : String) run blocks,
        prepareMonthlyDigestData rt world cfg groups summaries workspace botToken channel =
          some run → run.result = .ok blocks →
        blocks.Pairwise monthlyOrdered ∧
        (blocks.map (fun b => (b.Origin, b.Category))).Perm
          (groups.map (fun g => (g.Origin, g.Category))) ∧
        ∀ (world' : Nat → ChartDigestWorld) (groups' : List FeedbackGroup) run' blocks',
          groups'.Perm groups →
          prepareMonthlyDigestData rt world' cfg groups' summaries workspace botToken channel =
            some run' → run'.result = .ok blocks' →
          blocks'.map (fun b => (b.Origin, b.Category)) =
            blocks.map (fun b => (b.Origin, b.Category))) ∧
    (SortsBy rt quarterlyLess →
      ∀ (world : Nat → ChartDigestWorld) (groups : List FeedbackGroup)
        (botToken channel : String) run blocks,
        prepareQuarterlyDigestData rt world cfg groups summaries workspace botToken channel =
          some run → run.result = .ok blocks →
        blocks.Pairwise (fun a b => a.Origin ≤ b.Origin) ∧
        (blocks.map (fun b => b.Origin)).Perm (groups.map (fun g => g.Origin)) ∧
        ∀ (world' : Nat → ChartDigestWorld) (groups' : List FeedbackGroup) run' blocks',
          groups'.Perm groups →
          prepareQuarterlyDigestData rt world' cfg groups' summaries workspace botToken
            channel = some run' → run'.result = .ok blocks' →
          blocks'.map (fun b => b.Origin) = blocks.map (fun b => b.Origin)) ∧
    (SortsBy rt dailyLess →
      (∀ l : List (String × List SummaryRow), (rt.mapRange l).Perm l) →
      ∀ (world : Nat → DigestWorld) calls blocks,
        prepareDailyDigestData rt world cfg summaries workspace = some (calls, .ok blocks) →
        blocks.Pairwise (fun a b => a.Origin ≤ b.Origin) ∧
        (blocks.map (fun b => b.Origin)).Nodup ∧
        (∀ origin, origin ∈ blocks.map (fun b => b.Origin) ↔
          ∃ s ∈ summaries, s.Origin = origin) ∧
        ∀ (rt' : Runtime) (world' : Nat → DigestWorld) calls' blocks',
          SortsBy rt' dailyLess →
          (∀ l : List (String × List SummaryRow), (rt'.mapRange l).Perm l) →
          prepareDailyDigestData rt' world' cfg summaries workspace =
            some (calls', .ok blocks') →
          blocks'.map (fun b => b.Origin) = blocks.map (fun b => b.Origin)) := by
  refine ⟨?_, ?_, ?_, ?_⟩
  · intro hsort world groups calls blocks h
    obtain ⟨h1, h2⟩ := prepareWeeklyDigestData_sorted rt world cfg groups summaries workspace
      calls blocks hsort h
    refine ⟨h1.imp (fun {a b} hab => (weeklyOrdered_iff a b).mpr hab), h2, ?_⟩
    intro world' groups' calls' blocks' hperm h'
    obtain ⟨h1', h2'⟩ := prepareWeeklyDigestData_sorted rt world' cfg groups' summaries
      workspace calls' blocks' hsort h'
    exact sorted_keys_unique
      (blocks'.map (fun b => (toLex (b.Origin, toLex (b.Category, b.Prompt)) :
        String ×ₗ String ×ₗ String)))
      (blocks.map (fun b => (toLex (b.Origin, toLex (b.Category, b.Prompt)) :
        String ×ₗ String ×ₗ String)))
      (List.pairwise_map.mpr h1') (List.pairwise_map.mpr h1)
      (h2'.trans ((hperm.map _).trans h2.symm))
  · intro hsort world groups botToken channel run blocks h hres
    obtain ⟨h1, h2⟩ := prepareMonthlyDigestData_sorted rt world cfg groups summaries workspace
      botToken channel run blocks hsort h hres
    refine ⟨h1.imp (fun {a b} hab => (monthlyOrdered_iff a b).mpr hab), h2, ?_⟩
    intro world' groups' run' blocks' hperm h' hres'
    obtain ⟨h1', h2'⟩ := prepareMonthlyDigestData_sorted rt world' cfg groups' summaries
      workspace botToken channel run' blocks' hsort h' hres'
    exact sorted_keys_unique
      (blocks'.map (fun b => (toLex (b.Origin, b.Category) : String ×ₗ String)))
      (blocks.map (fun b => (toLex (b.Origin, b.Category) : String ×ₗ String)))
      (List.pairwise_map.mpr h1') (List.pairwise_map.mpr h1)
      (h2'.trans ((hperm.map _).trans h2.symm))
  · intro hsort world groups botToken channel run blocks h hres
    obtain ⟨h1, h2⟩ := prepareQuarterlyDigestData_sorted rt world cfg groups summaries
      workspace botToken channel run blocks hsort h hres
    refine ⟨h1, h2, ?_⟩
    intro world' groups' run' blocks' hperm h' hres'
    obtain ⟨h1', h2'⟩ := prepareQuarterlyDigestData_sorted rt world' cfg groups' summaries
      workspace botToken channel run' blocks' hsort h' hres'
    exact sorted_keys_unique _ _ (List.pairwise_map.mpr h1') (List.pairwise_map.mpr h1)
      (h2'.trans ((hperm.map _).trans h2.symm))
  · intro hsort hrange world calls blocks h
    obtain ⟨h1, h2⟩ := prepareDailyDigestData_sorted rt world cfg summaries workspace calls
      blocks hsort hrange h
    obtain ⟨hnd, hmem⟩ := originMap_keys summaries
    refine ⟨h1, h2.nodup_iff.mpr hnd, fun origin => ?_, ?_⟩
    · rw [h2.mem_iff]
      exact hmem origin
    · intro rt' world' calls' blocks' hsort' hrange' h'
      obtain ⟨h1', h2'⟩ := prepareDailyDigestData_sorted rt' world' cfg summaries workspace
        calls' blocks' hsort' hrange' h'
      exact sorted_keys_unique _ _ (List.pairwise_map.mpr h1') (List.pairwise_map.mpr h1)
        (h2'.trans h2.symm)

theorem exampleWeekly_two :
    prepareWeeklyDigestData exampleRuntime (fun _ => exampleDigestWorld) exampleConfig
        [⟨"summarize", "docs", "api"⟩, ⟨"rate", "app", "ui"⟩] [] "T1" =
      some ([], .ok (exampleRuntime.sortSlice weeklyLess
        [weeklyDigestEntry ⟨"summarize", "docs", "api"⟩
            (selectFeedbackStats ⟨15, 20, 5⟩ ⟨4, 10, 2⟩) "No comments to summarize",
          weeklyDigestEntry ⟨"rate", "app", "ui"⟩
            (selectFeedbackStats ⟨15, 20, 5⟩ ⟨4, 10, 2⟩) "No comments to summarize"])) := by
  simp [prepareWeeklyDigestData, weeklyLoop, weeklyGroupStep, GoMap.get, GoMap.find?,
    GoMap.empty, GoMap.lookup, exampleConfig, exampleDigestWorld, GetWeeklyFeedbackStats]

theorem prepare_entries_sorted_witness :
    SortsBy exampleRuntime weeklyLess ∧
    (exampleRuntime.sortSlice weeklyLess
      [weeklyDigestEntry ⟨"summarize", "docs", "api"⟩
          (selectFeedbackStats ⟨15, 20, 5⟩ ⟨4, 10, 2⟩) "No comments to summarize",
        weeklyDigestEntry ⟨"rate", "app", "ui"⟩
          (selectFeedbackStats ⟨15, 20, 5⟩ ⟨4, 10, 2⟩) "No comments to summarize"]).Pairwise
      weeklyOrdered ∧
    ((exampleRuntime.sortSlice weeklyLess
      [weeklyDigestEntry ⟨"summarize", "docs", "api"⟩
          (selectFeedbackStats ⟨15, 20, 5⟩ ⟨4, 10, 2⟩) "No comments to summarize",
        weeklyDigestEntry ⟨"rate", "app", "ui"⟩
          (selectFeedbackStats ⟨15, 20, 5⟩ ⟨4, 10, 2⟩) "No comments to summarize"]).map
      (fun b => (b.Origin, b.Category, b.Prompt))).Perm
      [("docs", "api", "summarize"), ("app", "ui", "rate")] :=
  ⟨exampleRuntime_sortsBy weeklyLess _ weeklyLess_eq,
    ((prepare_entries_sorted exampleRuntime exampleConfig [] "T1").1
      (exampleRuntime_sortsBy weeklyLess _ weeklyLess_eq) (fun _ => exampleDigestWorld)
      [⟨"summarize", "docs", "api"⟩, ⟨"rate", "app", "ui"⟩] [] _ exampleWeekly_two).1,
    ((prepare_entries_sorted exampleRuntime exampleConfig [] "T1").1
      (exampleRuntime_sortsBy weeklyLess _ weeklyLess_eq) (fun _ => exampleDigestWorld)
      [⟨"summarize", "docs", "api"⟩, ⟨"rate", "app", "ui"⟩] [] _ exampleWeekly_two).2.1⟩

/-! ## Headers of the digest payloads -/

theorem keyChanges_mem {κ : Type} [DecidableEq κ] :
    ∀ (ks : List κ) (last : κ), (∀ x ∈ keyChanges last ks, x ∈ ks) ∧
      (∀ x ∈ ks, x ≠ last → x ∈ keyChanges last ks) := by
  intro ks
  induction ks with
  | nil => intro last; exact ⟨fun x hx => by simp [keyChanges] at hx, fun x hx => by simp at hx⟩
  | cons k rest ih =>
    intro last
    obtain ⟨ih1, ih2⟩ := ih k
    by_cases hk : k = last
    · subst hk
      simp only [keyChanges, ne_eq, not_true_eq_false, if_false]
      refine ⟨fun x hx => List.mem_cons_of_mem _ (ih1 x hx), fun x hx hne => ?_⟩
      rcases List.mem_cons.mp hx with h | h
      · exact absurd h hne
      · exact ih2 x h hne
    · simp only [keyChanges, ne_eq, hk, not_false_eq_true, if_true]
      refine ⟨fun x hx => ?_, fun x hx _ => ?_⟩
      · rcases List.mem_cons.mp hx with h | h
        · exact h ▸ List.mem_cons_self _ _
        · exact List.mem_cons_of_mem _ (ih1 x h)
      · by_cases hxk : x = k
        · exact hxk ▸ List.mem_cons_self _ _
        · rcases List.mem_cons.mp hx with h | h
          · exact absurd h hxk
          · exact List.mem_cons_of_mem _ (ih2 x h hxk)

/-- In a sequence of keys sorted by an antisymmetric, transitive relation, a
key that differs from the key before it differs from all keys before it. -/
theorem keyChanges_sorted {κ : Type} [DecidableEq κ] (r : κ → κ → Prop)
    (htrans : ∀ a b c, r a b → r b c → r a c) (hanti : ∀ a b, r a b → r b a → a = b) :
    ∀ (ks : List κ) (last : κ), ks.Pairwise r → (∀ x ∈ ks, r last x) →
      (keyChanges last ks).Nodup ∧ ∀ x ∈ keyChanges last ks, r last x ∧ x ≠ last := by
  intro ks
  induction ks with
  | nil => intro last _ _; exact ⟨by simp [keyChanges], fun x hx => by simp [keyChanges] at hx⟩
  | cons k rest ih =>
    intro last hp hb
    rw [List.pairwise_cons] at hp
    obtain ⟨ihnd, ihb⟩ := ih k hp.2 hp.1
    have hlk : r last k := hb k (List.mem_cons_self _ _)
    by_cases hk : k = last
    · subst hk
      simp only [keyChanges, ne_eq, not_true_eq_false, if_false]
      exact ⟨ihnd, ihb⟩
    · simp only [keyChanges, ne_eq, hk, not_false_eq_true, if_true]
      refine ⟨List.nodup_cons.mpr ⟨fun hmem => (ihb k hmem).2 rfl, ihnd⟩, fun x hx => ?_⟩
      rcases List.mem_cons.mp hx with h | h
      · subst h
        exact ⟨hlk, hk⟩
      · obtain ⟨hkx, hne⟩ := ihb x h
        refine ⟨htrans _ _ _ hlk hkx, fun hxl => ?_⟩
        subst hxl
        exact hne (hanti _ _ hlk hkx)

/-- In a sorted sequence of keys that does not hold the key `last`, the keys
that differ from the key before them are the distinct keys, once each. -/
theorem keyChanges_distinct {κ : Type} [DecidableEq κ] (r : κ → κ → Prop)
    (htrans : ∀ a b c, r a b → r b c → r a c) (hanti : ∀ a b, r a b → r b a → a = b)
    (ks : List κ) (last : κ) (hp : ks.Pairwise r) (hlast : last ∉ ks) :
    (keyChanges last ks).Nodup ∧ ∀ x, x ∈ keyChanges last ks ↔ x ∈ ks := by
  refine ⟨?_, fun x => ⟨(keyChanges_mem ks last).1 x, fun hx =>
    (keyChanges_mem ks last).2 x hx (fun h => hlast (h ▸ hx))⟩⟩
  cases ks with
  | nil => simp [keyChanges]
  | cons k rest =>
    have hk : k ≠ last := fun h => hlast (h ▸ List.mem_cons_self _ _)
    rw [List.pairwise_cons] at hp
    obtain ⟨hnd, hb⟩ := keyChanges_sorted r htrans hanti rest k hp.2 hp.1
    simp only [keyChanges, ne_eq, hk, not_false_eq_true, if_true]
    exact List.nodup_cons.mpr ⟨fun hmem => (hb k hmem).2 rfl, hnd⟩
theorem headerTexts_append (a b : List JSON) :
    headerTexts (a ++ b) = headerTexts a ++ headerTexts b := by
  simp [headerTexts, List.filter_append]

theorem categoryTexts_append (a b : List JSON) :
    categoryTexts (a ++ b) = categoryTexts a ++ categoryTexts b := by
  simp [categoryTexts, List.filter_append]

theorem headerTexts_footer : headerTexts DigestFooter = [] := by
  simp [headerTexts, DigestFooter, JSON.blockType, JSON.field?, GoMap.lookup, List.filter]

theorem categoryTexts_footer : categoryTexts DigestFooter = [] := by
  simp [categoryTexts, isCategorySection, DigestFooter, JSON.blockType, JSON.blockTextType,
    JSON.field?, GoMap.lookup, List.filter]

/-- What one iteration of the loop of `BuildWeeklyDigestBlocks` adds to the
header blocks and to the category sections. -/
theorem weeklyBlocksStep_spec (st : WeeklyBlocksState) (d : WeeklyDigestData)
    (hc : d.Category ≠ "") :
    (weeklyBlocksStep st d).lastOrigin = d.Origin ∧
    (weeklyBlocksStep st d).lastCategory = d.Category ∧
    headerTexts (weeklyBlocksStep st d).blocks =
      headerTexts st.blocks ++ (if d.Origin ≠ st.lastOrigin then [d.Origin] else []) ∧
    categoryTexts (weeklyBlocksStep st d).blocks =
      categoryTexts st.blocks ++
        (if (d.Origin, d.Category) ≠ (st.lastOrigin, st.lastCategory) then
          ["*" ++ d.Category ++ "*"] else []) := by
  unfold weeklyBlocksStep
  by_cases ho : d.Origin = st.lastOrigin
  · by_cases hcat : d.Category = st.lastCategory
    · refine ⟨?_, ?_, ?_, ?_⟩
      · simp [ho, hcat]
      · simp [ho, hcat]
      · simp [ho, hcat, headerTexts, List.filter_append, quoteBlock, mrkdwnSection, Spacer,
          JSON.blockType, JSON.field?, GoMap.lookup, List.filter]
      · simp [ho, hcat, categoryTexts, isCategorySection, List.filter_append, quoteBlock,
          mrkdwnSection, Spacer, JSON.blockType, JSON.blockTextType, JSON.blockText,
          JSON.field?, GoMap.lookup, List.filter, FormatDigestStats]
    · refine ⟨?_, ?_, ?_, ?_⟩
      · simp [ho, hcat]
      · simp [ho, hcat]
      · simp [ho, hcat, headerTexts, List.filter_append, quoteBlock, mrkdwnSection, Spacer,
          dividerBlock, JSON.blockType, JSON.field?, GoMap.lookup, List.filter]
      · simp [ho, hcat, categoryTexts, isCategorySection, List.filter_append, quoteBlock,
          mrkdwnSection, Spacer, dividerBlock, JSON.blockType, JSON.blockTextType,
          JSON.blockText, JSON.field?, GoMap.lookup, List.filter, FormatDigestStats]
  · refine ⟨?_, ?_, ?_, ?_⟩
    · simp [ho, hc]
    · simp [ho, hc]
    · simp [ho, hc, headerTexts, List.filter_append, quoteBlock, mrkdwnSection, Spacer,
        dividerBlock, headerBlock, JSON.blockType, JSON.blockText, JSON.field?, GoMap.lookup,
        List.filter]
    · simp [ho, hc, categoryTexts, isCategorySection, List.filter_append, quoteBlock,
        mrkdwnSection, Spacer, dividerBlock, headerBlock, JSON.blockType, JSON.blockTextType,
        JSON.blockText, JSON.field?, GoMap.lookup, List.filter, FormatDigestStats]

theorem weeklyFold_texts :
    ∀ (digests : List WeeklyDigestData) (st : WeeklyBlocksState),
      (∀ d ∈ digests, d.Category ≠ "") →
      headerTexts (digests.foldl weeklyBlocksStep st).blocks =
        headerTexts st.blocks ++ keyChanges st.lastOrigin (digests.map (fun d => d.Origin)) ∧
      categoryTexts (digests.foldl weeklyBlocksStep st).blocks =
        categoryTexts st.blocks ++
          (keyChanges (st.lastOrigin, st.lastCategory)
            (digests.map (fun d => (d.Origin, d.Category)))).map
            (fun p => "*" ++ p.2 ++ "*") := by
  intro digests
  induction digests with
  | nil => intro st _; simp [keyChanges]
  | cons d rest ih =>
    intro st hcat
    obtain ⟨h1, h2, h3, h4⟩ := weeklyBlocksStep_spec st d (hcat d (List.mem_cons_self _ _))
    obtain ⟨ih1, ih2⟩ := ih (weeklyBlocksStep st d)
      (fun d' hd' => hcat d' (List.mem_cons_of_mem _ hd'))
    simp only [List.foldl_cons, List.map_cons, keyChanges]
    rw [ih1, ih2, h1, h2, h3, h4]
    constructor
    · split_ifs <;> simp
    · split_ifs <;> simp

/-- What one iteration of the loop of `BuildMonthlyDigestBlocks` adds to the
header blocks. -/
theorem monthlyBlocksStep_spec (st : MonthlyBlocksState) (d : MonthlyDigestData) :
    (monthlyBlocksStep st d).lastOrigin = d.Origin ∧
    headerTexts (monthlyBlocksStep st d).blocks =
      headerTexts st.blocks ++ (if d.Origin ≠ st.lastOrigin then [d.Origin] else []) := by
  unfold monthlyBlocksStep
  by_cases ho : d.Origin = st.lastOrigin
  · by_cases hg : d.GraphURL = ""
    · refine ⟨by simp [ho], ?_⟩
      simp [ho, hg, headerTexts, List.filter_append, quoteBlock, mrkdwnSection, Spacer,
        JSON.blockType, JSON.field?, GoMap.lookup, List.filter]
    · refine ⟨by simp [ho], ?_⟩
      simp [ho, hg, headerTexts, List.filter_append, quoteBlock, mrkdwnSection, Spacer,
        imageBlock, JSON.blockType, JSON.field?, GoMap.lookup, List.filter]
  · by_cases hg : d.GraphURL = ""
    · refine ⟨by simp [ho], ?_⟩
      simp [ho, hg, headerTexts, List.filter_append, quoteBlock, mrkdwnSection, Spacer,
        dividerBlock, headerBlock, JSON.blockType, JSON.blockText, JSON.field?, GoMap.lookup,
        List.filter]
    · refine ⟨by simp [ho], ?_⟩
      simp [ho, hg, headerTexts, List.filter_append, quoteBlock, mrkdwnSection, Spacer,
        imageBlock, dividerBlock, headerBlock, JSON.blockType, JSON.blockText, JSON.field?,
        GoMap.lookup, List.filter]

theorem monthlyFold_texts :
    ∀ (digests : List MonthlyDigestData) (st : MonthlyBlocksState),
      headerTexts (digests.foldl monthlyBlocksStep st).blocks =
        headerTexts st.blocks ++
          keyChanges st.lastOrigin (digests.map (fun d => d.Origin)) := by
  intro digests
  induction digests with
  | nil => intro st; simp [keyChanges]
  | cons d rest ih =>
    intro st
    obtain ⟨h1, h2⟩ := monthlyBlocksStep_spec st d
    simp only [List.foldl_cons, List.map_cons, keyChanges]
    rw [ih, h1, h2]
    split_ifs <;> simp

theorem pairOrder_trans (a b c : String × String)
    (hab : a.1 < b.1 ∨ (a.1 = b.1 ∧ a.2 ≤ b.2)) (hbc : b.1 < c.1 ∨ (b.1 = c.1 ∧ b.2 ≤ c.2)) :
    a.1 < c.1 ∨ (a.1 = c.1 ∧ a.2 ≤ c.2) :=
  (Prod.Lex.le_iff a c).mp
    (le_trans ((Prod.Lex.le_iff a b).mpr hab) ((Prod.Lex.le_iff b c).mpr hbc))

theorem pairOrder_antisymm (a b : String × String)
    (hab : a.1 < b.1 ∨ (a.1 = b.1 ∧ a.2 ≤ b.2)) (hba : b.1 < a.1 ∨ (b.1 = a.1 ∧ b.2 ≤ a.2)) :
    a = b :=
  toLex.injective (le_antisymm ((Prod.Lex.le_iff a b).mpr hab) ((Prod.Lex.le_iff b a).mpr hba))

/-- C17. For every list of weekly digest entries with non-empty origin and
category that is sorted by origin, category, prompt, the header blocks of
`BuildWeeklyDigestBlocks` are the title and then exactly one header per
distinct origin, and its category sections are exactly one per distinct
(origin, category) pair, with the text of the category. For every such list of
monthly entries, sorted by origin and category, the header blocks of
`BuildMonthlyDigestBlocks` are the title and then exactly one header per
distinct origin. -/
theorem digest_headers_once :
    (∀ digests : List WeeklyDigestData,
      (∀ d ∈ digests, d.Origin ≠ "" ∧ d.Category ≠ "") → digests.Pairwise weeklyOrdered →
      ∃ (origins : List String) (pairs : List (String × String)),
        headerTexts (BuildWeeklyDigestBlocks digests) = "Weekly Digest  🚀" :: origins ∧
        origins.Nodup ∧ (∀ o, o ∈ origins ↔ ∃ d ∈ digests, d.Origin = o) ∧
        categoryTexts (BuildWeeklyDigestBlocks digests) =
          pairs.map (fun p => "*" ++ p.2 ++ "*") ∧
        pairs.Nodup ∧ (∀ p, p ∈ pairs ↔ ∃ d ∈ digests, (d.Origin, d.Category) = p)) ∧
    (∀ (digests : List MonthlyDigestData) (monthLabel : String),
      (∀ d ∈ digests, d.Origin ≠ "" ∧ d.Category ≠ "") → digests.Pairwise monthlyOrdered →
      ∃ origins : List String,
        headerTexts (BuildMonthlyDigestBlocks digests monthLabel) =
          "Monthly Digest  🌙" :: origins ∧
        origins.Nodup ∧ (∀ o, o ∈ origins ↔ ∃ d ∈ digests, d.Origin = o)) := by
  constructor
  · intro digests hne hsorted
    obtain ⟨h1, h2⟩ := weeklyFold_texts digests
      ⟨[Spacer, headerBlock "Weekly Digest  🚀", Spacer], "", ""⟩ (fun d hd => (hne d hd).2)
    obtain ⟨hnd1, hmem1⟩ := keyChanges_distinct (fun a b : String => a ≤ b)
      (fun _ _ _ => le_trans) (fun _ _ => le_antisymm) (digests.map (fun d => d.Origin)) ""
      (List.pairwise_map.mpr (hsorted.imp (fun {a b} hab => by
        rcases hab with h | ⟨h, _⟩
        · exact le_of_lt h
        · exact le_of_eq h)))
      (fun hmem => by
        obtain ⟨d, hd, heq⟩ := List.mem_map.mp hmem
        exact (hne d hd).1 heq)
    obtain ⟨hnd2, hmem2⟩ := keyChanges_distinct
      (fun a b : String × String => a.1 < b.1 ∨ (a.1 = b.1 ∧ a.2 ≤ b.2))
      pairOrder_trans pairOrder_antisymm (digests.map (fun d => (d.Origin, d.Category)))
      ("", "")
      (List.pairwise_map.mpr (hsorted.imp (fun {a b} hab => by
        rcases hab with h | ⟨h, h' | ⟨h', _⟩⟩
        · exact Or.inl h
        · exact Or.inr ⟨h, le_of_lt h'⟩
        · exact Or.inr ⟨h, le_of_eq h'⟩)))
      (fun hmem => by
        obtain ⟨d, hd, heq⟩ := List.mem_map.mp hmem
        exact (hne d hd).1 (congrArg Prod.fst heq))
    refine ⟨keyChanges "" (digests.map (fun d => d.Origin)),
      keyChanges ("", "") (digests.map (fun d => (d.Origin, d.Category))), ?_, hnd1,
      fun o => ?_, ?_, hnd2, fun p => ?_⟩
    · unfold BuildWeeklyDigestBlocks
      simp only []
      rw [headerTexts_append, h1, headerTexts_footer, List.append_nil]
      simp [headerTexts, headerBlock, Spacer, JSON.blockType, JSON.blockText, JSON.field?,
        GoMap.lookup, List.filter]
    · rw [hmem1 o, List.mem_map]
    · unfold BuildWeeklyDigestBlocks
      simp only []
      rw [categoryTexts_append, h2, categoryTexts_footer, List.append_nil]
      simp [categoryTexts, isCategorySection, headerBlock, Spacer, JSON.blockType,
        JSON.blockTextType, JSON.blockText, JSON.field?, GoMap.lookup, List.filter]
    · rw [hmem2 p, List.mem_map]
  · intro digests monthLabel hne hsorted
    have h1 := monthlyFold_texts digests
      ⟨[Spacer, headerBlock "Monthly Digest  🌙", contextBlock monthLabel, Spacer], ""⟩
    obtain ⟨hnd1, hmem1⟩ := keyChanges_distinct (fun a b : String => a ≤ b)
      (fun _ _ _ => le_trans) (fun _ _ => le_antisymm) (digests.map (fun d => d.Origin)) ""
      (List.pairwise_map.mpr (hsorted.imp (fun {a b} hab => by
        rcases hab with h | ⟨h, _⟩
        · exact le_of_lt h
        · exact le_of_eq h)))
      (fun hmem => by
        obtain ⟨d, hd, heq⟩ := List.mem_map.mp hmem
        exact (hne d hd).1 heq)
    refine ⟨keyChanges "" (digests.map (fun d => d.Origin)), ?_, hnd1, fun o => ?_⟩
    · unfold BuildMonthlyDigestBlocks
      simp only []
      rw [headerTexts_append, h1, headerTexts_footer, List.append_nil]
      simp [headerTexts, headerBlock, contextBlock, Spacer, JSON.blockType, JSON.blockText,
        JSON.field?, GoMap.lookup, List.filter]
    · rw [hmem1 o, List.mem_map]
theorem exampleWeeklyDigests_sorted : exampleWeeklyDigests.Pairwise weeklyOrdered := by
  simp [exampleWeeklyDigests, weeklyOrdered]
  decide

theorem exampleMonthlyDigests_sorted : exampleMonthlyDigests.Pairwise monthlyOrdered := by
  simp [exampleMonthlyDigests, monthlyOrdered]
  decide

theorem exampleDigests_nonempty :
    (∀ d ∈ exampleWeeklyDigests, d.Origin ≠ "" ∧ d.Category ≠ "") ∧
    (∀ d ∈ exampleMonthlyDigests, d.Origin ≠ "" ∧ d.Category ≠ "") := by
  simp [exampleWeeklyDigests, exampleMonthlyDigests]

theorem digest_headers_once_witness :
    (∃ (origins : List String) (pairs : List (String × String)),
      headerTexts (BuildWeeklyDigestBlocks exampleWeeklyDigests) =
        "Weekly Digest  🚀" :: origins ∧
      origins.Nodup ∧ (∀ o, o ∈ origins ↔ ∃ d ∈ exampleWeeklyDigests, d.Origin = o) ∧
      categoryTexts (BuildWeeklyDigestBlocks exampleWeeklyDigests) =
        pairs.map (fun p => "*" ++ p.2 ++ "*") ∧
      pairs.Nodup ∧
      (∀ p, p ∈ pairs ↔ ∃ d ∈ exampleWeeklyDigests, (d.Origin, d.Category) = p)) ∧
    (∃ origins : List String,
      headerTexts (BuildMonthlyDigestBlocks exampleMonthlyDigests "October 2026") =
        "Monthly Digest  🌙" :: origins ∧
      origins.Nodup ∧ (∀ o, o ∈ origins ↔ ∃ d ∈ exampleMonthlyDigests, d.Origin = o)) :=
  ⟨digest_headers_once.1 exampleWeeklyDigests exampleDigests_nonempty.1
      exampleWeeklyDigests_sorted,
    digest_headers_once.2 exampleMonthlyDigests "October 2026" exampleDigests_nonempty.2
      exampleMonthlyDigests_sorted⟩

/-! ## The rate limiter -/

/-- C30. The limiter of rate 1 with a window and a cleanup interval of 10 s
lets the client through at 0 s, 11 s and 12 s, two requests within one second,
when a cleanup pass takes the mutex between `getVisitor` and the rest of the
handler of the second request: the pass deletes the visitor from the map, the
handler refills the deleted visitor and uses its token, and the third request
gets a new visitor with a token of its own. With the same pass just before the
second request, the third request is rejected. -/
theorem Limit_exceeds_rate_after_cleanup :
    (limiterRun (NewRateLimiter 1 10 10) racingRequests).2 =
      [("10.0.0.1", true), ("10.0.0.1", true), ("10.0.0.1", true)] ∧
    (limiterRun (NewRateLimiter 1 10 10) racingRequests).1.objects =
      [⟨11000000000, 0⟩, ⟨12000000000, 0⟩] ∧
    (limiterRun (NewRateLimiter 1 10 10) racingRequests).1.visitors.entries =
      [("10.0.0.1", 1)] ∧
    (limiterRun (NewRateLimiter 1 10 10) orderlyRequests).2 =
      [("10.0.0.1", true), ("10.0.0.1", true), ("10.0.0.1", false)] := by
  refine ⟨?_, ?_, ?_, ?_⟩ <;> decide

/-! ## Trimming -/

theorem TrimSpace_data (s : String) :
    (TrimSpace s).data = (s.data.dropWhile unicodeIsSpace).rdropWhile unicodeIsSpace := rfl

theorem goLen_eq_zero (s : String) : goLen s = 0 ↔ s = "" := by
  obtain ⟨l⟩ := s
  cases l with
  | nil => simp [goLen, String.utf8ByteSize, String.utf8ByteSize.go]
  | cons c cs =>
    have := Char.utf8Size_pos c
    simp only [goLen, String.utf8ByteSize, String.utf8ByteSize.go]
    constructor
    · intro h; omega
    · intro h; exact absurd (congrArg String.data h) (by simp)

theorem trim_head_not {α : Type} (p : α → Bool) (l : List α) (c : α)
    (h : ((l.dropWhile p).rdropWhile p).head? = some c) : p c = false := by
  have hne : (l.dropWhile p).rdropWhile p ≠ [] := by
    intro h0; rw [h0] at h; simp at h
  have hpre := List.rdropWhile_prefix p (l.dropWhile p)
  have hne2 : l.dropWhile p ≠ [] := by
    intro h0; rw [h0] at hne; simp at hne
  have h1 := hpre.head hne
  have h2 := List.head_dropWhile_not p l hne2
  rw [List.head?_eq_head hne] at h
  injection h with h
  rw [← h, h1]; exact h2

theorem trim_last_not {α : Type} (p : α → Bool) (l : List α) (c : α)
    (h : ((l.dropWhile p).rdropWhile p).getLast? = some c) : p c = false := by
  have hne : (l.dropWhile p).rdropWhile p ≠ [] := by
    intro h0; rw [h0] at h; simp at h
  have h2 := List.rdropWhile_last_not p (l.dropWhile p) hne
  rw [List.getLast?_eq_getLast _ hne] at h
  injection h with h
  rw [← h]; simpa using h2

theorem trim_idempotent {α : Type} (p : α → Bool) (l : List α) :
    ((((l.dropWhile p).rdropWhile p).dropWhile p).rdropWhile p) =
      (l.dropWhile p).rdropWhile p := by
  have h : ((l.dropWhile p).rdropWhile p).dropWhile p = (l.dropWhile p).rdropWhile p := by
    rw [List.dropWhile_eq_self_iff]
    intro hl
    have hne : (l.dropWhile p).rdropWhile p ≠ [] := by
      intro h0; rw [h0] at hl; simp at hl
    have h1 : ((l.dropWhile p).rdropWhile p).head? =
        some (((l.dropWhile p).rdropWhile p).get ⟨0, hl⟩) := by
      rw [List.head?_eq_getElem?, List.getElem?_eq_getElem hl]; rfl
    have := trim_head_not p l _ h1
    rw [this]; simp
  rw [h, List.rdropWhile_idempotent]

theorem TrimSpace_idempotent (s : String) : TrimSpace (TrimSpace s) = TrimSpace s := by
  simp only [TrimSpace, trim_idempotent]

theorem TrimSpace_trimmed (s : String) (h : TrimSpace s ≠ "") : TrimmedNonEmpty (TrimSpace s) := by
  refine ⟨h, ?_, ?_⟩
  · unfold startsWithSpace
    cases hh : (TrimSpace s).data.head? with
    | none => rfl
    | some c => exact trim_head_not unicodeIsSpace s.data c hh
  · unfold endsWithSpace
    cases hh : (TrimSpace s).data.getLast? with
    | none => rfl
    | some c => exact trim_last_not unicodeIsSpace s.data c hh

/-! ## Validation of a feedback request -/

theorem validate_eq_firstFailing (req : FeedbackRequest) :
    validateFeedbackRequest req = firstFailing (feedbackChecks goLen req) := by
  have m1 : "Prompt is required and must be at most " ++ toString MaxPromptLen ++ " characters"
      = "Prompt is required and must be at most 128 characters" := by decide
  have m2 : "Origin is required and must be at most " ++ toString MaxOriginLen ++ " characters"
      = "Origin is required and must be at most 32 characters" := by decide
  have m3 : "UserID is required and must be at most " ++ toString MaxUserIDLen ++ " characters"
      = "UserID is required and must be at most 64 characters" := by decide
  have m4 : "Category is required and must be at most " ++ toString MaxCategoryLen ++
      " characters" = "Category is required and must be at most 32 characters" := by decide
  have m5 : "Comment must be at most " ++ toString MaxCommentLen ++ " characters"
      = "Comment must be at most 256 characters" := by decide
  unfold validateFeedbackRequest firstFailing feedbackChecks
  simp only [m1, m2, m3, m4, m5]
  simp only [goLen_eq_zero, MaxPromptLen, MaxOriginLen, MaxUserIDLen, MaxCategoryLen,
    MaxCommentLen]
  by_cases h1 : TrimSpace req.Prompt = "" ∨ goLen req.Prompt > 128
  · simp [h1, List.find?]
  by_cases h2 : req.ThumbUp = none
  · simp [h1, h2, List.find?]
  by_cases h3 : TrimSpace req.Origin = "" ∨ goLen req.Origin > 32
  · simp [h1, h2, h3, List.find?]
  by_cases h4 : req.InProduction = none
  · simp [h1, h2, h3, h4, List.find?]
  by_cases h5 : TrimSpace req.UserID = "" ∨ goLen req.UserID > 64
  · simp [h1, h2, h3, h4, h5, List.find?]
  by_cases h6 : TrimSpace req.Category = "" ∨ goLen req.Category > 32
  · simp [h1, h2, h3, h4, h5, h6, List.find?]
  by_cases h7 : goLen req.Comment > 256
  · simp [h1, h2, h3, h4, h5, h6, h7, List.find?]
  · simp [h1, h2, h3, h4, h5, h6, h7, List.find?]

theorem utf8Size_ascii (c : Char) (h : c.toNat < 128) : c.utf8Size = 1 := by
  have h1 : c.val ≤ 127 := by
    rw [UInt32.le_def]
    have : c.val.toNat < 128 := h
    show c.val.val ≤ (127 : UInt32).val
    rw [Fin.le_def]
    have h2 : c.val.val.val = c.val.toNat := rfl
    rw [h2]
    have h3 : ((127 : UInt32).val : Nat) = 127 := rfl
    omega
  simp [Char.utf8Size, h1]

theorem goLen_ascii (s : String) (h : isASCII s = true) : goLen s = s.length := by
  obtain ⟨l⟩ := s
  simp only [goLen, String.utf8ByteSize, String.length, isASCII] at *
  induction l with
  | nil => rfl
  | cons c cs ih =>
    simp only [List.all_cons, Bool.and_eq_true, decide_eq_true_eq] at h
    simp only [String.utf8ByteSize.go, List.length_cons, ih h.2, utf8Size_ascii c h.1]

/-- On a request whose text fields are all in ASCII the validation is the one
by characters. -/
theorem validate_ascii (req : FeedbackRequest)
    (h : isASCII req.Prompt = true ∧ isASCII req.Origin = true ∧ isASCII req.UserID = true ∧
      isASCII req.Category = true ∧ isASCII req.Comment = true) :
    validateFeedbackRequest req = validateByCharacters req := by
  rw [validate_eq_firstFailing, validateByCharacters]
  simp only [feedbackChecks, goLen_ascii _ h.1, goLen_ascii _ h.2.1, goLen_ascii _ h.2.2.1,
    goLen_ascii _ h.2.2.2.1, goLen_ascii _ h.2.2.2.2]

/-- C24. `validateFeedbackRequest` returns the outcome of the first failing
check in the order prompt, thumb_up, origin, in_production, user_id, category,
comment, but it counts every length in bytes: the request `accentedRequest`,
whose prompt has 100 characters in 200 bytes and which passes every check by
characters, is rejected with the message that the prompt must be at most 128
characters. -/
theorem validateFeedbackRequest_counts_bytes :
    (∀ req : FeedbackRequest,
      validateFeedbackRequest req = firstFailing (feedbackChecks goLen req)) ∧
    accentedRequest.Prompt.length = 100 ∧
    goLen accentedRequest.Prompt = 200 ∧
    validateByCharacters accentedRequest = ("", true) ∧
    validateFeedbackRequest accentedRequest =
      ("Prompt is required and must be at most 128 characters", false) := by
  refine ⟨validate_eq_firstFailing, ?_, ?_, ?_, ?_⟩
  · decide
  · decide
  · decide
  · decide

/-! ## One request to `PostFeedback` -/

theorem validate_ok (req : FeedbackRequest) (h : (validateFeedbackRequest req).2 = true) :
    TrimSpace req.Prompt ≠ "" ∧ req.ThumbUp ≠ none ∧ TrimSpace req.Origin ≠ "" ∧
      req.InProduction ≠ none ∧ TrimSpace req.UserID ≠ "" ∧ TrimSpace req.Category ≠ "" := by
  unfold validateFeedbackRequest at h
  simp only [goLen_eq_zero] at h
  split_ifs at h with h1 h2 h3 h4 h5 h6 h7
  exact ⟨fun e => h1 (Or.inl e), h2, fun e => h3 (Or.inl e), h4, fun e => h5 (Or.inl e),
    fun e => h6 (Or.inl e)⟩

theorem InsertPrompt_fails (e : GoError) (db : IngestDB) (ws o c p : String) :
    InsertPrompt (some e) db ws o c p = (db, .error e) := rfl

theorem InsertPrompt_none (db : IngestDB) (ws o c p : String) :
    InsertPrompt none db ws o c p =
      if (⟨ws, TrimSpace o, TrimSpace c, TrimSpace p⟩ : PromptRow) ∈ db.prompts then
        (db, .ok false)
      else (⟨db.prompts ++ [⟨ws, TrimSpace o, TrimSpace c, TrimSpace p⟩], db.feedback⟩,
        .ok true) := rfl

/-- What `InsertPrompt` does to the tables: nothing, or one new trimmed row that
the table did not hold. -/
theorem InsertPrompt_tables (fails : Option GoError) (db : IngestDB) (ws o c p : String) :
    (InsertPrompt fails db ws o c p).1.feedback = db.feedback ∧
    ((InsertPrompt fails db ws o c p).1.prompts = db.prompts ∨
      ((⟨ws, TrimSpace o, TrimSpace c, TrimSpace p⟩ : PromptRow) ∉ db.prompts ∧
        (InsertPrompt fails db ws o c p).1.prompts =
          db.prompts ++ [⟨ws, TrimSpace o, TrimSpace c, TrimSpace p⟩])) := by
  cases fails with
  | some e => rw [InsertPrompt_fails]; exact ⟨rfl, Or.inl rfl⟩
  | none =>
    rw [InsertPrompt_none]
    split_ifs with h
    · exact ⟨rfl, Or.inl rfl⟩
    · exact ⟨rfl, Or.inr ⟨h, rfl⟩⟩

/-- What `InsertFeedback` does to the tables: nothing, or one new row with the
three fields trimmed. -/
theorem InsertFeedback_tables (w : IngestWorld) (db : IngestDB) (fb : Feedback) :
    (InsertFeedback w db fb).1.prompts = db.prompts ∧
    ((InsertFeedback w db fb).1.feedback = db.feedback ∨
      ∃ row : Feedback, (InsertFeedback w db fb).1.feedback = db.feedback ++ [row] ∧
        row.SlackWorkspace = fb.SlackWorkspace ∧ row.Origin = TrimSpace fb.Origin ∧
        row.Category = TrimSpace fb.Category ∧ row.Prompt = TrimSpace fb.Prompt) := by
  unfold InsertFeedback
  cases h : w.insertFeedbackFails with
  | some e => exact ⟨rfl, Or.inl rfl⟩
  | none => exact ⟨rfl, Or.inr ⟨_, rfl, rfl, rfl, rfl, rfl⟩⟩

/-- One request: `PostFeedback` returns; the prompt table is unchanged or gains
one trimmed row that it did not hold, and only after the prompt check let the
request through; the feedback table is unchanged or gains one row whose origin,
category and prompt are trimmed and not empty. -/
theorem PostFeedback_step (cfg : IngestConfig) (w : IngestWorld) (apiKey : String)
    (db : IngestDB) :
    ∃ r, PostFeedback cfg w apiKey db = some r ∧
      (r.1.prompts = db.prompts ∨
        ∃ ws o c p : String,
          enforcePromptLimit cfg w.promptLookupFails db ws o c p = true ∧
          (⟨ws, TrimSpace o, TrimSpace c, TrimSpace p⟩ : PromptRow) ∉ db.prompts ∧
          r.1.prompts = db.prompts ++ [⟨ws, TrimSpace o, TrimSpace c, TrimSpace p⟩]) ∧
      (r.1.feedback = db.feedback ∨
        ∃ row : Feedback, r.1.feedback = db.feedback ++ [row] ∧
          TrimmedNonEmpty row.Origin ∧ TrimmedNonEmpty row.Category ∧
          TrimmedNonEmpty row.Prompt) := by
  unfold PostFeedback
  by_cases hk : apiKey = ""
  · exact ⟨_, if_pos hk, Or.inl rfl, Or.inl rfl⟩
  rw [if_neg hk]
  cases hacc : w.getAccount apiKey with
  | error e => exact ⟨_, rfl, Or.inl rfl, Or.inl rfl⟩
  | ok acc =>
    cases acc with
    | none => exact ⟨_, rfl, Or.inl rfl, Or.inl rfl⟩
    | some account =>
      dsimp only
      cases hws : account.SlackWorkspace with
      | none => exact ⟨_, rfl, Or.inl rfl, Or.inl rfl⟩
      | some workspace =>
        dsimp only
        by_cases hexp : account.AccountExpiryDate < w.now
        · exact ⟨_, if_pos hexp, Or.inl rfl, Or.inl rfl⟩
        simp only [if_neg hexp]
        cases hb : w.bindJSON with
        | error e => exact ⟨_, rfl, Or.inl rfl, Or.inl rfl⟩
        | ok req =>
          dsimp only
          cases hv : validateFeedbackRequest req with
          | mk msg ok =>
            cases ok with
            | false => exact ⟨_, rfl, Or.inl rfl, Or.inl rfl⟩
            | true =>
              have hval := validate_ok req (by rw [hv])
              dsimp only
              by_cases hm : account.FeedbackCount ≥ cfg.MonthlyFeedbackLimit
              · exact ⟨_, if_pos hm, Or.inl rfl, Or.inl rfl⟩
              simp only [if_neg hm]
              cases hen : enforcePromptLimit cfg w.promptLookupFails db workspace req.Origin
                  req.Category req.Prompt with
              | false => exact ⟨_, rfl, Or.inl rfl, Or.inl rfl⟩
              | true =>
                simp only [Bool.not_true, Bool.false_eq_true, if_false]
                have hp := InsertPrompt_tables w.insertPromptFails db workspace req.Origin
                  req.Category req.Prompt
                have hprompts : ∀ db1 : IngestDB,
                    db1.prompts = (InsertPrompt w.insertPromptFails db workspace req.Origin
                      req.Category req.Prompt).1.prompts →
                    (db1.prompts = db.prompts ∨
                      ∃ ws o c p : String,
                        enforcePromptLimit cfg w.promptLookupFails db ws o c p = true ∧
                        (⟨ws, TrimSpace o, TrimSpace c, TrimSpace p⟩ : PromptRow) ∉ db.prompts ∧
                        db1.prompts =
                          db.prompts ++ [⟨ws, TrimSpace o, TrimSpace c, TrimSpace p⟩]) := by
                  intro db1 h1
                  rcases hp.2 with h | ⟨hn, h⟩
                  · exact Or.inl (h1.trans h)
                  · exact Or.inr ⟨_, _, _, _, hen, hn, h1.trans h⟩
                cases hip : InsertPrompt w.insertPromptFails db workspace req.Origin
                    req.Category req.Prompt with
                | mk db1 res =>
                  rw [hip] at hp hprompts
                  cases res with
                  | error e => exact ⟨_, rfl, hprompts db1 rfl, Or.inl hp.1⟩
                  | ok b =>
                    cases ht : req.ThumbUp with
                    | none => exact absurd ht hval.2.1
                    | some thumbUp =>
                      cases hi : req.InProduction with
                      | none => exact absurd hi hval.2.2.2.1
                      | some inProduction =>
                        simp only []
                        generalize hfb : (⟨0, 0, workspace, req.Prompt, thumbUp,
                          PtrOrNil req.Comment, req.Origin, req.Category, inProduction,
                          req.UserID⟩ : Feedback) = fb
                        have hf := InsertFeedback_tables w db1 fb
                        have hfeed : ∀ db2 : IngestDB,
                            db2 = (InsertFeedback w db1 fb).1 →
                            (db2.prompts = db.prompts ∨
                              ∃ ws o c p : String,
                                enforcePromptLimit cfg w.promptLookupFails db ws o c p = true ∧
                                (⟨ws, TrimSpace o, TrimSpace c, TrimSpace p⟩ : PromptRow) ∉
                                  db.prompts ∧
                                db2.prompts =
                                  db.prompts ++ [⟨ws, TrimSpace o, TrimSpace c, TrimSpace p⟩]) ∧
                            (db2.feedback = db.feedback ∨
                              ∃ row : Feedback, db2.feedback = db.feedback ++ [row] ∧
                                TrimmedNonEmpty row.Origin ∧ TrimmedNonEmpty row.Category ∧
                                TrimmedNonEmpty row.Prompt) := by
                          intro db2 h2
                          subst h2
                          refine ⟨hprompts _ hf.1, ?_⟩
                          rcases hf.2 with h | ⟨row, h, _, ho, hc, hpr⟩
                          · exact Or.inl (h.trans hp.1)
                          · refine Or.inr ⟨row, by rw [h, hp.1], ?_, ?_, ?_⟩
                            · rw [ho, ← hfb]; exact TrimSpace_trimmed _ hval.2.2.1
                            · rw [hc, ← hfb]; exact TrimSpace_trimmed _ hval.2.2.2.2.2
                            · rw [hpr, ← hfb]; exact TrimSpace_trimmed _ hval.1
                        cases hif : InsertFeedback w db1 fb with
                        | mk db2 err =>
                          have h2 := hfeed db2 (by rw [hif])
                          cases err with
                          | some e => exact ⟨_, rfl, h2.1, h2.2⟩
                          | none => exact ⟨_, rfl, h2.1, h2.2⟩

/-! ## Sequences of requests -/

/-- A property of the tables that every request keeps holds after every
sequence of requests, and the sequence is handled to its end. -/
theorem postFeedbackRun_inv (cfg : IngestConfig) (P : IngestDB → Prop)
    (hstep : ∀ w apiKey db r, P db → PostFeedback cfg w apiKey db = some r → P r.1) :
    ∀ (reqs : List (IngestWorld × String)) (db : IngestDB), P db →
      ∃ r, postFeedbackRun cfg db reqs = some r ∧ P r.1 := by
  intro reqs
  induction reqs with
  | nil => intro db h; exact ⟨_, rfl, h⟩
  | cons x rest ih =>
    intro db h
    obtain ⟨w, apiKey⟩ := x
    obtain ⟨r, hr, -⟩ := PostFeedback_step cfg w apiKey db
    obtain ⟨rs, hrs, hP⟩ := ih r.1 (hstep w apiKey db r h hr)
    refine ⟨(rs.1, r.2 :: rs.2), ?_, hP⟩
    simp only [postFeedbackRun, hr, hrs]

theorem enforcePromptLimit_iff (cfg : IngestConfig) (fails : Option GoError) (db : IngestDB)
    (ws o c p : String) :
    enforcePromptLimit cfg fails db ws o c p = true ↔
      fails = none ∧
        ((⟨ws, o, c, p⟩ : PromptRow) ∈ db.prompts ∨
          ((db.prompts.filter (fun r => r.SlackWorkspace = ws)).length : Int) <
            cfg.PromptCountLimit) := by
  cases fails with
  | some e => simp [enforcePromptLimit, GetPromptCountAndExists]
  | none =>
    simp only [enforcePromptLimit, GetPromptCountAndExists, Bool.or_eq_true, List.any_eq_true,
      decide_eq_true_eq, true_and, List.mem_filter, Bool.and_eq_true]
    constructor
    · rintro (⟨r, ⟨hr, hw⟩, ⟨ho, hc⟩, hp⟩ | h)
      · left
        obtain ⟨w', o', c', p'⟩ := r
        simp only at hw ho hc hp
        subst hw ho hc hp
        exact hr
      · exact Or.inr h
    · rintro (h | h)
      · exact Or.inl ⟨_, ⟨h, rfl⟩, ⟨rfl, rfl⟩, rfl⟩
      · exact Or.inr h

theorem dedup_length_append_singleton {α : Type} [DecidableEq α] (l : List α) (a : α) :
    (l ++ [a]).dedup.length ≤ l.length + 1 := by
  calc (l ++ [a]).dedup.length ≤ (l ++ [a]).length := (List.dedup_sublist _).length_le
    _ = l.length + 1 := by simp

/-- One request keeps the prompt rows trimmed and the number of distinct prompts
of a workspace within the limit. -/
theorem PostFeedback_keeps_bound (cfg : IngestConfig) (ws : String) (w : IngestWorld)
    (apiKey : String) (db : IngestDB) (r : IngestDB × JSONReply)
    (h : PromptsTrimmed db ∧ (distinctPromptCount db ws : Int) ≤ cfg.PromptCountLimit)
    (hr : PostFeedback cfg w apiKey db = some r) :
    PromptsTrimmed r.1 ∧ (distinctPromptCount r.1 ws : Int) ≤ cfg.PromptCountLimit := by
  obtain ⟨r', hr', hp, -⟩ := PostFeedback_step cfg w apiKey db
  rw [hr] at hr'
  injection hr' with hr'
  subst hr'
  rcases hp with hp | ⟨ws', o, c, p, hen, hnew, hp⟩
  · simp only [PromptsTrimmed, distinctPromptCount, hp]
    exact h
  · have hen' := (enforcePromptLimit_iff cfg _ db ws' o c p).mp hen
    constructor
    · intro row hrow
      rw [hp, List.mem_append, List.mem_singleton] at hrow
      rcases hrow with hrow | hrow
      · exact h.1 row hrow
      · subst hrow
        exact ⟨TrimSpace_idempotent _, TrimSpace_idempotent _, TrimSpace_idempotent _⟩
    · by_cases hws : ws' = ws
      · subst hws
        rcases hen'.2 with hex | hlt
        · exfalso
          apply hnew
          have ht := h.1 _ hex
          simp only at ht
          rw [ht.1, ht.2.1, ht.2.2]
          exact hex
        · have h1 : distinctPromptCount r.1 ws' ≤
              (db.prompts.filter (fun r => r.SlackWorkspace = ws')).length + 1 := by
            simp only [distinctPromptCount, hp, List.filter_append]
            have : List.filter (fun r => decide (r.SlackWorkspace = ws'))
                [(⟨ws', TrimSpace o, TrimSpace c, TrimSpace p⟩ : PromptRow)] =
                [⟨ws', TrimSpace o, TrimSpace c, TrimSpace p⟩] := by simp
            rw [this]
            exact dedup_length_append_singleton _ _
          omega
      · have h1 : distinctPromptCount r.1 ws = distinctPromptCount db ws := by
          simp only [distinctPromptCount, hp, List.filter_append]
          have : List.filter (fun r => decide (r.SlackWorkspace = ws))
              [(⟨ws', TrimSpace o, TrimSpace c, TrimSpace p⟩ : PromptRow)] = [] := by
            simp [hws]
          rw [this, List.append_nil]
        rw [h1]; exact h.2

/-- One request keeps the prompt rows trimmed. -/
theorem PostFeedback_keeps_trimmed (cfg : IngestConfig) (w : IngestWorld) (apiKey : String)
    (db : IngestDB) (r : IngestDB × JSONReply) (h : PromptsTrimmed db)
    (hr : PostFeedback cfg w apiKey db = some r) : PromptsTrimmed r.1 := by
  obtain ⟨r', hr', hp, -⟩ := PostFeedback_step cfg w apiKey db
  rw [hr] at hr'
  injection hr' with hr'
  subst hr'
  rcases hp with hp | ⟨ws', o, c, p, -, -, hp⟩
  · simp only [PromptsTrimmed, hp]; exact h
  · intro row hrow
    rw [hp, List.mem_append, List.mem_singleton] at hrow
    rcases hrow with hrow | hrow
    · exact h row hrow
    · subst hrow
      exact ⟨TrimSpace_idempotent _, TrimSpace_idempotent _, TrimSpace_idempotent _⟩

/-- Every sequence of requests from empty tables is handled to its end and
leaves the prompt rows trimmed. -/
theorem postFeedbackRun_promptsTrimmed (cfg : IngestConfig)
    (reqs : List (IngestWorld × String)) :
    ∃ r, postFeedbackRun cfg ⟨[], []⟩ reqs = some r ∧ PromptsTrimmed r.1 :=
  postFeedbackRun_inv cfg PromptsTrimmed
    (fun w apiKey db r h hr => PostFeedback_keeps_trimmed cfg w apiKey db r h hr) reqs ⟨[], []⟩
    (by intro r hr; simp at hr)

/-- One request keeps the origin, category and prompt of every feedback row
trimmed and not empty. -/
theorem PostFeedback_keeps_feedback (cfg : IngestConfig) (w : IngestWorld) (apiKey : String)
    (db : IngestDB) (r : IngestDB × JSONReply)
    (h : ∀ fb ∈ db.feedback,
      TrimmedNonEmpty fb.Origin ∧ TrimmedNonEmpty fb.Category ∧ TrimmedNonEmpty fb.Prompt)
    (hr : PostFeedback cfg w apiKey db = some r) :
    ∀ fb ∈ r.1.feedback,
      TrimmedNonEmpty fb.Origin ∧ TrimmedNonEmpty fb.Category ∧ TrimmedNonEmpty fb.Prompt := by
  obtain ⟨r', hr', -, hf⟩ := PostFeedback_step cfg w apiKey db
  rw [hr] at hr'
  injection hr' with hr'
  subst hr'
  rcases hf with hf | ⟨row, hf, hrow⟩
  · rw [hf]; exact h
  · intro fb hfb
    rw [hf, List.mem_append, List.mem_singleton] at hfb
    rcases hfb with hfb | hfb
    · exact h fb hfb
    · subst hfb; exact hrow

/-! ## Claims on the ingest endpoint -/

/-- C25. From tables whose prompt rows are trimmed, as `InsertPrompt` stores
them, and that hold at most `PromptCountLimit` distinct prompts for a workspace,
every sequence of requests to `PostFeedback`, handled one at a time, is handled
to its end and after each of its requests the workspace holds at most
`PromptCountLimit` distinct prompts; and the prompt check lets a request through
exactly when the lookup succeeds and the prompt row is in the table or the
number of rows of the workspace is below the limit. -/
theorem prompt_count_bounded (cfg : IngestConfig) (db : IngestDB) (ws : String)
    (reqs : List (IngestWorld × String)) (htrim : PromptsTrimmed db)
    (hle : (distinctPromptCount db ws : Int) ≤ cfg.PromptCountLimit) :
    (∀ n : Nat, ∃ r, postFeedbackRun cfg db (reqs.take n) = some r ∧
      (distinctPromptCount r.1 ws : Int) ≤ cfg.PromptCountLimit) ∧
    (∀ (fails : Option GoError) (tables : IngestDB) (o c p : String),
      enforcePromptLimit cfg fails tables ws o c p = true ↔
        fails = none ∧
          ((⟨ws, o, c, p⟩ : PromptRow) ∈ tables.prompts ∨
            ((tables.prompts.filter (fun r => r.SlackWorkspace = ws)).length : Int) <
              cfg.PromptCountLimit)) := by
  refine ⟨fun n => ?_, fun fails tables o c p => enforcePromptLimit_iff cfg fails tables ws o c p⟩
  obtain ⟨r, hr, hP⟩ := postFeedbackRun_inv cfg
    (fun db => PromptsTrimmed db ∧ (distinctPromptCount db ws : Int) ≤ cfg.PromptCountLimit)
    (fun w apiKey db r h hr => PostFeedback_keeps_bound cfg ws w apiKey db r h hr)
    (reqs.take n) db ⟨htrim, hle⟩
  exact ⟨r, hr, hP.2⟩

/-- A workspace at its limit of two prompts: the request for a third prompt is
refused and the count stays at two. -/
theorem prompt_count_bounded_witness :
    PromptsTrimmed fullPromptTable ∧
    (distinctPromptCount fullPromptTable "T1" : Int) ≤ exampleIngestConfig.PromptCountLimit ∧
    (∀ n : Nat, ∃ r, postFeedbackRun exampleIngestConfig fullPromptTable
        ([(exampleIngestWorld paddedRequest, "k1")].take n) = some r ∧
      (distinctPromptCount r.1 "T1" : Int) ≤ exampleIngestConfig.PromptCountLimit) ∧
    (∀ (fails : Option GoError) (tables : IngestDB) (o c p : String),
      enforcePromptLimit exampleIngestConfig fails tables "T1" o c p = true ↔
        fails = none ∧
          ((⟨"T1", o, c, p⟩ : PromptRow) ∈ tables.prompts ∨
            ((tables.prompts.filter (fun r => r.SlackWorkspace = "T1")).length : Int) <
              exampleIngestConfig.PromptCountLimit)) :=
  ⟨by decide, by decide,
    prompt_count_bounded exampleIngestConfig fullPromptTable "T1"
      [(exampleIngestWorld paddedRequest, "k1")] (by decide) (by decide)⟩

/-- C26. Every request to `PostFeedback` returns and leaves the feedback table
as it was or with one more row, whose origin, category and prompt are not empty
and have no white space at either end; so after every sequence of requests from
empty tables every feedback row has these three fields trimmed and not empty.
The padded request `paddedRequest` is stored with its fields trimmed. -/
theorem stored_feedback_trimmed :
    (∀ (cfg : IngestConfig) (w : IngestWorld) (apiKey : String) (db : IngestDB),
      ∃ r, PostFeedback cfg w apiKey db = some r ∧
        (r.1.feedback = db.feedback ∨
          ∃ row : Feedback, r.1.feedback = db.feedback ++ [row] ∧
            TrimmedNonEmpty row.Origin ∧ TrimmedNonEmpty row.Category ∧
            TrimmedNonEmpty row.Prompt)) ∧
    (∀ (cfg : IngestConfig) (reqs : List (IngestWorld × String)),
      ∃ r, postFeedbackRun cfg ⟨[], []⟩ reqs = some r ∧
        ∀ fb ∈ r.1.feedback,
          TrimmedNonEmpty fb.Origin ∧ TrimmedNonEmpty fb.Category ∧
            TrimmedNonEmpty fb.Prompt) ∧
    PostFeedback exampleIngestConfig (exampleIngestWorld paddedRequest) "k1" ⟨[], []⟩ =
      some (⟨[⟨"T1", "docs", "search", "Was this helpful?"⟩],
          [⟨1, 10, "T1", "Was this helpful?", true, some "fine", "docs", "search", true,
            "U1"⟩]⟩,
        ⟨201, "message", "Feedback submitted successfully"⟩) := by
  refine ⟨fun cfg w apiKey db => ?_, fun cfg reqs => ?_, by decide⟩
  · obtain ⟨r, hr, -, hf⟩ := PostFeedback_step cfg w apiKey db
    exact ⟨r, hr, hf⟩
  · exact postFeedbackRun_inv cfg
      (fun db => ∀ fb ∈ db.feedback,
        TrimmedNonEmpty fb.Origin ∧ TrimmedNonEmpty fb.Category ∧ TrimmedNonEmpty fb.Prompt)
      (fun w apiKey db r h hr => PostFeedback_keeps_feedback cfg w apiKey db r h hr) reqs
      ⟨[], []⟩ (by intro fb hfb; simp at hfb)

/-! ## The period subqueries -/

theorem distinctOnFrom_sublist : ∀ (l : List Feedback) (prev : Option String),
    (distinctOnFrom prev l).Sublist l := by
  intro l
  induction l with
  | nil => intro prev; exact List.Sublist.slnil
  | cons a rest ih =>
    intro prev
    unfold distinctOnFrom
    split_ifs with hp
    · exact (ih prev).cons a
    · exact (ih _).cons₂ a

theorem distinctOnFrom_spec : ∀ (l : List Feedback) (prev : Option String),
    groupedByUser l = true →
    l.Pairwise (fun a b => a.UserID = b.UserID → b.CreatedAt ≤ a.CreatedAt) →
    (∀ u, prev = some u →
      (l.dropWhile (fun b => b.UserID = u)).all (fun b => b.UserID ≠ u) = true) →
    (∀ b ∈ distinctOnFrom prev l, prev ≠ some b.UserID) ∧
    ((distinctOnFrom prev l).map (fun f => f.UserID)).Nodup ∧
    (∀ a ∈ l, prev ≠ some a.UserID →
      ∃ b ∈ distinctOnFrom prev l, b.UserID = a.UserID ∧ a.CreatedAt ≤ b.CreatedAt) := by
  intro l
  induction l with
  | nil =>
    intro prev _ _ _
    simp [distinctOnFrom]
  | cons a rest ih =>
    intro prev hg hpw hrun
    simp only [groupedByUser, Bool.and_eq_true] at hg
    rw [List.pairwise_cons] at hpw
    unfold distinctOnFrom
    split_ifs with hp
    · have hrun' : ∀ u, prev = some u →
          (rest.dropWhile (fun b => b.UserID = u)).all (fun b => b.UserID ≠ u) = true := by
        intro u hu
        have h := hrun u hu
        have hau : a.UserID = u := by rw [hu] at hp; exact (Option.some.inj hp).symm
        rw [List.dropWhile_cons_of_pos (by simp [hau])] at h
        exact h
      obtain ⟨h1, h2, h3⟩ := ih prev hg.2 hpw.2 hrun'
      refine ⟨h1, h2, ?_⟩
      intro x hx hxp
      rcases List.mem_cons.mp hx with hxa | hxr
      · subst hxa; exact absurd hp hxp
      · exact h3 x hxr hxp
    · have hrun' : ∀ u, some a.UserID = some u →
          (rest.dropWhile (fun b => b.UserID = u)).all (fun b => b.UserID ≠ u) = true := by
        intro u hu
        have hau : a.UserID = u := Option.some.inj hu
        subst hau
        exact hg.1
      obtain ⟨h1, h2, h3⟩ := ih (some a.UserID) hg.2 hpw.2 hrun'
      have hsub := distinctOnFrom_sublist rest (some a.UserID)
      refine ⟨?_, ?_, ?_⟩
      · intro b hb
        rcases List.mem_cons.mp hb with hba | hbr
        · subst hba; exact hp
        · intro hpb
          have h := hrun _ hpb
          have hne : ¬ a.UserID = b.UserID := by
            intro e; apply hp; rw [hpb, e]
          rw [List.dropWhile_cons_of_neg (by simp [hne])] at h
          have hmem : b ∈ a :: rest := List.mem_cons_of_mem _ (hsub.subset hbr)
          have := List.all_eq_true.mp h b hmem
          simp at this
      · rw [List.map_cons, List.nodup_cons]
        refine ⟨?_, h2⟩
        intro hmem
        obtain ⟨b, hb, hbu⟩ := List.mem_map.mp hmem
        exact h1 b hb (by rw [← hbu])
      · intro x hx _
        by_cases hxu : x.UserID = a.UserID
        · refine ⟨a, List.mem_cons_self _ _, hxu.symm, ?_⟩
          rcases List.mem_cons.mp hx with hxa | hxr
          · rw [hxa]
          · exact hpw.1 x hxr hxu.symm
        · rcases List.mem_cons.mp hx with hxa | hxr
          · exact absurd (by rw [hxa]) hxu
          · obtain ⟨b, hb, hbu, hbt⟩ := h3 x hxr (by
              intro e; exact hxu (Option.some.inj e).symm)
            exact ⟨b, List.mem_cons_of_mem _ hb, hbu, hbt⟩

/-- A period subquery over rows that the database ordered keeps, of every user
id of the window, one newest row. -/
theorem periodRows_latest (db : StatsDB) (cohort : Feedback → Bool) (lo hi : Int)
    (h : OrderedByUserNewestFirst db (periodWhere db cohort lo hi)) :
    LatestPerUser (periodWhere db cohort lo hi) (periodRows db cohort lo hi) := by
  obtain ⟨hperm, hg, hpw⟩ := h
  obtain ⟨-, h2, h3⟩ := distinctOnFrom_spec _ none hg hpw (by intro u hu; cases hu)
  have hsub := distinctOnFrom_sublist (db.orderBy (periodWhere db cohort lo hi)) none
  refine ⟨?_, h2, ?_⟩
  · intro b hb
    exact hperm.subset (hsub.subset hb)
  · intro a ha
    exact h3 a (hperm.symm.subset ha) (by simp)

/-- A period subquery counts no more comments than the window holds. -/
theorem periodRows_comments_le (db : StatsDB) (cohort : Feedback → Bool) (lo hi : Int)
    (h : OrderedByUserNewestFirst db (periodWhere db cohort lo hi)) :
    (aggregatePeriod (periodRows db cohort lo hi)).num_comments ≤
      commentsOfAllRows db cohort lo hi := by
  obtain ⟨hperm, -, -⟩ := h
  have hsub := distinctOnFrom_sublist (db.orderBy (periodWhere db cohort lo hi)) none
  simp only [aggregatePeriod, commentsOfAllRows, periodRows, distinctOnUser]
  calc ((distinctOnFrom none (db.orderBy (periodWhere db cohort lo hi))).filter
          (fun f => f.Comment.isSome)).length
      ≤ ((db.orderBy (periodWhere db cohort lo hi)).filter
          (fun f => f.Comment.isSome)).length := (hsub.filter _).length_le
    _ = ((periodWhere db cohort lo hi).filter (fun f => f.Comment.isSome)).length :=
        (hperm.filter _).length_eq

theorem pct_bounds (a n : Nat) (h : a ≤ n) :
    (0 : ℚ) ≤ (if n > 0 then 100 * (a : ℚ) / (n : ℚ) else 0) ∧
      (if n > 0 then 100 * (a : ℚ) / (n : ℚ) else 0) ≤ 100 := by
  split_ifs with hn
  · have hn' : (0 : ℚ) < (n : ℚ) := by exact_mod_cast hn
    have ha : (a : ℚ) ≤ (n : ℚ) := by exact_mod_cast h
    constructor
    · positivity
    · rw [div_le_iff₀ hn']; nlinarith
  · exact ⟨le_refl _, by norm_num⟩

theorem aggregatePeriod_le (rows : List Feedback) :
    (aggregatePeriod rows).thumbs_up ≤ (aggregatePeriod rows).num_feedback :=
  List.length_filter_le _ _

theorem GetWeeklyFeedbackStats_ok (db : StatsDB) (workspace origin category prompt : String)
    (hq : db.queryFails = none) :
    GetWeeklyFeedbackStats (weeklyPeriodCounts db) workspace origin category prompt =
      .ok (selectFeedbackStats
        (aggregatePeriod (periodRows db (weeklyStatsWhere workspace origin category prompt)
          (db.currentDate - 7) db.currentDate))
        (aggregatePeriod (periodRows db (weeklyStatsWhere workspace origin category prompt)
          (db.currentDate - 14) (db.currentDate - 7)))) := by
  simp only [GetWeeklyFeedbackStats, weeklyPeriodCounts, hq]

theorem GetMonthlyFeedbackStats_ok (db : StatsDB) (workspace origin category : String)
    (hq : db.queryFails = none) :
    GetMonthlyFeedbackStats (monthlyPeriodCounts db) workspace origin category =
      .ok (selectFeedbackStats
        (aggregatePeriod (periodRows db (monthlyStatsWhere workspace origin category)
          (db.monthStart 1) (db.monthStart 0)))
        (aggregatePeriod (periodRows db (monthlyStatsWhere workspace origin category)
          (db.monthStart 2) (db.monthStart 1)))) := by
  simp only [GetMonthlyFeedbackStats, monthlyPeriodCounts, hq]

/-! ## Claims on the statistics query -/

/-- C21, as stated, fails. In `exampleStatsDB` user `u1` has two commented
records of the cohort in the current window, so the window holds two records
with a comment, yet `GetWeeklyFeedbackStats` reports a comment count of 1. -/
theorem comments_counted_once_per_user :
    commentsOfAllRows exampleStatsDB (weeklyStatsWhere "T1" "docs" "api" "summarize")
      (exampleStatsDB.currentDate - 7) exampleStatsDB.currentDate = 2 ∧
    ∃ stats, GetWeeklyFeedbackStats (weeklyPeriodCounts exampleStatsDB) "T1" "docs" "api"
        "summarize" = .ok stats ∧ stats.NComments = 1 :=
  ⟨by decide, _, rfl, by decide⟩

/-- C21, as the code has it. The comment count of `GetWeeklyFeedbackStats` and
of `GetMonthlyFeedbackStats` is counted after the deduplication by user: it is
the number of rows with a comment among the rows the current period keeps, which
are one newest row per user id of the window; so it is at most the number of all
rows of the window that have a comment. -/
theorem comments_counted_after_dedup (db : StatsDB) (workspace origin category prompt : String)
    (hq : db.queryFails = none)
    (hweek : OrderedByUserNewestFirst db
      (periodWhere db (weeklyStatsWhere workspace origin category prompt)
        (db.currentDate - 7) db.currentDate))
    (hmonth : OrderedByUserNewestFirst db
      (periodWhere db (monthlyStatsWhere workspace origin category)
        (db.monthStart 1) (db.monthStart 0))) :
    (∃ stats, GetWeeklyFeedbackStats (weeklyPeriodCounts db) workspace origin category prompt =
        .ok stats ∧
      stats.NComments =
        (((periodRows db (weeklyStatsWhere workspace origin category prompt)
          (db.currentDate - 7) db.currentDate).filter (fun f => f.Comment.isSome)).length : Int) ∧
      LatestPerUser
        (periodWhere db (weeklyStatsWhere workspace origin category prompt)
          (db.currentDate - 7) db.currentDate)
        (periodRows db (weeklyStatsWhere workspace origin category prompt)
          (db.currentDate - 7) db.currentDate) ∧
      stats.NComments ≤
        (commentsOfAllRows db (weeklyStatsWhere workspace origin category prompt)
          (db.currentDate - 7) db.currentDate : Int)) ∧
    (∃ stats, GetMonthlyFeedbackStats (monthlyPeriodCounts db) workspace origin category =
        .ok stats ∧
      stats.NComments =
        (((periodRows db (monthlyStatsWhere workspace origin category)
          (db.monthStart 1) (db.monthStart 0)).filter (fun f => f.Comment.isSome)).length : Int) ∧
      LatestPerUser
        (periodWhere db (monthlyStatsWhere workspace origin category)
          (db.monthStart 1) (db.monthStart 0))
        (periodRows db (monthlyStatsWhere workspace origin category)
          (db.monthStart 1) (db.monthStart 0)) ∧
      stats.NComments ≤
        (commentsOfAllRows db (monthlyStatsWhere workspace origin category)
          (db.monthStart 1) (db.monthStart 0) : Int)) := by
  constructor
  · refine ⟨_, GetWeeklyFeedbackStats_ok db workspace origin category prompt hq, rfl,
      periodRows_latest _ _ _ _ hweek, ?_⟩
    have := periodRows_comments_le _ _ _ _ hweek
    simp only [selectFeedbackStats]
    exact_mod_cast this
  · refine ⟨_, GetMonthlyFeedbackStats_ok db workspace origin category hq, rfl,
      periodRows_latest _ _ _ _ hmonth, ?_⟩
    have := periodRows_comments_le _ _ _ _ hmonth
    simp only [selectFeedbackStats]
    exact_mod_cast this

/-- C22. When the database orders the rows of each window by user id and
newest first, `GetWeeklyFeedbackStats` counts in each window one row per user
id, a newest one of that user in the window; the approval percentage of a
window is 100 times the approvals among these rows over their number when there
are any and 0 otherwise, and lies between 0 and 100. -/
theorem weekly_stats_latest_per_user (db : StatsDB)
    (workspace origin category prompt : String) (hq : db.queryFails = none)
    (hcur : OrderedByUserNewestFirst db
      (periodWhere db (weeklyStatsWhere workspace origin category prompt)
        (db.currentDate - 7) db.currentDate))
    (hprev : OrderedByUserNewestFirst db
      (periodWhere db (weeklyStatsWhere workspace origin category prompt)
        (db.currentDate - 14) (db.currentDate - 7))) :
    ∃ stats cur prev,
      GetWeeklyFeedbackStats (weeklyPeriodCounts db) workspace origin category prompt =
        .ok stats ∧
      cur = periodRows db (weeklyStatsWhere workspace origin category prompt)
        (db.currentDate - 7) db.currentDate ∧
      prev = periodRows db (weeklyStatsWhere workspace origin category prompt)
        (db.currentDate - 14) (db.currentDate - 7) ∧
      LatestPerUser
        (periodWhere db (weeklyStatsWhere workspace origin category prompt)
          (db.currentDate - 7) db.currentDate) cur ∧
      LatestPerUser
        (periodWhere db (weeklyStatsWhere workspace origin category prompt)
          (db.currentDate - 14) (db.currentDate - 7)) prev ∧
      stats.NFeedback = (cur.length : Int) ∧
      stats.PrevNFeedback = (prev.length : Int) ∧
      stats.ThumbsUpPct =
        (if cur.length > 0 then
          100 * ((cur.filter (fun f => f.ThumbUp)).length : ℚ) / (cur.length : ℚ)
        else 0) ∧
      stats.PrevThumbsUpPct =
        (if prev.length > 0 then
          100 * ((prev.filter (fun f => f.ThumbUp)).length : ℚ) / (prev.length : ℚ)
        else 0) ∧
      0 ≤ stats.ThumbsUpPct ∧ stats.ThumbsUpPct ≤ 100 ∧
      0 ≤ stats.PrevThumbsUpPct ∧ stats.PrevThumbsUpPct ≤ 100 := by
  refine ⟨_, _, _, GetWeeklyFeedbackStats_ok db workspace origin category prompt hq, rfl, rfl,
    periodRows_latest _ _ _ _ hcur, periodRows_latest _ _ _ _ hprev, rfl, rfl, rfl, rfl,
    ?_, ?_, ?_, ?_⟩
  · exact (pct_bounds _ _ (aggregatePeriod_le _)).1
  · exact (pct_bounds _ _ (aggregatePeriod_le _)).2
  · exact (pct_bounds _ _ (aggregatePeriod_le _)).1
  · exact (pct_bounds _ _ (aggregatePeriod_le _)).2

/-- The example database orders both weekly windows of the example cohort, and
there the two records of user `u1` count as one response. -/
theorem weekly_stats_latest_per_user_witness :
    exampleStatsDB.queryFails = none ∧
    OrderedByUserNewestFirst exampleStatsDB
      (periodWhere exampleStatsDB (weeklyStatsWhere "T1" "docs" "api" "summarize")
        (exampleStatsDB.currentDate - 7) exampleStatsDB.currentDate) ∧
    OrderedByUserNewestFirst exampleStatsDB
      (periodWhere exampleStatsDB (weeklyStatsWhere "T1" "docs" "api" "summarize")
        (exampleStatsDB.currentDate - 14) (exampleStatsDB.currentDate - 7)) ∧
    ∃ stats cur prev,
      GetWeeklyFeedbackStats (weeklyPeriodCounts exampleStatsDB) "T1" "docs" "api" "summarize" =
        .ok stats ∧
      cur = periodRows exampleStatsDB (weeklyStatsWhere "T1" "docs" "api" "summarize")
        (exampleStatsDB.currentDate - 7) exampleStatsDB.currentDate ∧
      prev = periodRows exampleStatsDB (weeklyStatsWhere "T1" "docs" "api" "summarize")
        (exampleStatsDB.currentDate - 14) (exampleStatsDB.currentDate - 7) ∧
      LatestPerUser
        (periodWhere exampleStatsDB (weeklyStatsWhere "T1" "docs" "api" "summarize")
          (exampleStatsDB.currentDate - 7) exampleStatsDB.currentDate) cur ∧
      LatestPerUser
        (periodWhere exampleStatsDB (weeklyStatsWhere "T1" "docs" "api" "summarize")
          (exampleStatsDB.currentDate - 14) (exampleStatsDB.currentDate - 7)) prev ∧
      stats.NFeedback = (cur.length : Int) ∧
      stats.PrevNFeedback = (prev.length : Int) ∧
      stats.ThumbsUpPct =
        (if cur.length > 0 then
          100 * ((cur.filter (fun f => f.ThumbUp)).length : ℚ) / (cur.length : ℚ)
        else 0) ∧
      stats.PrevThumbsUpPct =
        (if prev.length > 0 then
          100 * ((prev.filter (fun f => f.ThumbUp)).length : ℚ) / (prev.length : ℚ)
        else 0) ∧
      0 ≤ stats.ThumbsUpPct ∧ stats.ThumbsUpPct ≤ 100 ∧
      0 ≤ stats.PrevThumbsUpPct ∧ stats.PrevThumbsUpPct ≤ 100 :=
  ⟨rfl, by decide, by decide,
    weekly_stats_latest_per_user exampleStatsDB "T1" "docs" "api" "summarize" rfl (by decide)
      (by decide)⟩

/-- The example database orders the weekly and the monthly window of the example
cohort; its comment counts are those of the deduplicated rows. -/
theorem comments_counted_after_dedup_witness :
    exampleStatsDB.queryFails = none ∧
    OrderedByUserNewestFirst exampleStatsDB
      (periodWhere exampleStatsDB (weeklyStatsWhere "T1" "docs" "api" "summarize")
        (exampleStatsDB.currentDate - 7) exampleStatsDB.currentDate) ∧
    OrderedByUserNewestFirst exampleStatsDB
      (periodWhere exampleStatsDB (monthlyStatsWhere "T1" "docs" "api")
        (exampleStatsDB.monthStart 1) (exampleStatsDB.monthStart 0)) ∧
    (∃ stats, GetWeeklyFeedbackStats (weeklyPeriodCounts exampleStatsDB) "T1" "docs" "api"
        "summarize" = .ok stats ∧
      stats.NComments =
        (((periodRows exampleStatsDB (weeklyStatsWhere "T1" "docs" "api" "summarize")
          (exampleStatsDB.currentDate - 7) exampleStatsDB.currentDate).filter
            (fun f => f.Comment.isSome)).length : Int) ∧
      LatestPerUser
        (periodWhere exampleStatsDB (weeklyStatsWhere "T1" "docs" "api" "summarize")
          (exampleStatsDB.currentDate - 7) exampleStatsDB.currentDate)
        (periodRows exampleStatsDB (weeklyStatsWhere "T1" "docs" "api" "summarize")
          (exampleStatsDB.currentDate - 7) exampleStatsDB.currentDate) ∧
      stats.NComments ≤
        (commentsOfAllRows exampleStatsDB (weeklyStatsWhere "T1" "docs" "api" "summarize")
          (exampleStatsDB.currentDate - 7) exampleStatsDB.currentDate : Int)) ∧
    (∃ stats, GetMonthlyFeedbackStats (monthlyPeriodCounts exampleStatsDB) "T1" "docs" "api" =
        .ok stats ∧
      stats.NComments =
        (((periodRows exampleStatsDB (monthlyStatsWhere "T1" "docs" "api")
          (exampleStatsDB.monthStart 1) (exampleStatsDB.monthStart 0)).filter
            (fun f => f.Comment.isSome)).length : Int) ∧
      LatestPerUser
        (periodWhere exampleStatsDB (monthlyStatsWhere "T1" "docs" "api")
          (exampleStatsDB.monthStart 1) (exampleStatsDB.monthStart 0))
        (periodRows exampleStatsDB (monthlyStatsWhere "T1" "docs" "api")
          (exampleStatsDB.monthStart 1) (exampleStatsDB.monthStart 0)) ∧
      stats.NComments ≤
        (commentsOfAllRows exampleStatsDB (monthlyStatsWhere "T1" "docs" "api")
          (exampleStatsDB.monthStart 1) (exampleStatsDB.monthStart 0) : Int)) :=
  ⟨rfl, by decide, by decide,
    comments_counted_after_dedup exampleStatsDB "T1" "docs" "api" "summarize" rfl (by decide)
      (by decide)⟩

/-! ## Issue reports -/

/-- The rows and the text that an iteration of `prepareIssueReports` sends to
the summarizer do not depend on the origin of the iteration. -/
theorem issueReportStep_payload (rt : Runtime) (w : IssueWorld) (cfg : DigestConfig)
    (workspace : String) (i : Nat) (origin origin' : String) :
    (issueReportStep rt w cfg workspace i origin).map
        (fun r => r.calls.map (fun c => (c.rows, c.csv))) =
      (issueReportStep rt w cfg workspace i origin').map
        (fun r => r.calls.map (fun c => (c.rows, c.csv))) := by
  unfold issueReportStep
  cases GetLatestSummaries w i workspace with
  | error e => rfl
  | ok summaries =>
    dsimp only
    cases (if (summaries.length : Int) > cfg.AICacheInputLimit then
        sliceTo summaries cfg.AICacheInputLimit else some summaries) with
    | none => rfl
    | some rows =>
      dsimp only
      cases SummariesToCSV rt rows true with
      | error e => rfl
      | ok csv =>
        dsimp only
        cases GetAISummary (w.gateway i) cfg.AIApiURL cfg.AIApiKey cfg.AIModel
            cfg.AIIssueCachePrompt csv with
        | error e => rfl
        | ok report =>
          dsimp only
          by_cases he : report = ""
          · simp only [he, if_true]; rfl
          · simp only [he, if_false]
            cases w.insertIssueReport i ⟨workspace, origin, report⟩ <;>
              cases w.insertIssueReport i ⟨workspace, origin', report⟩ <;> rfl

/-- C23. When the summarizer returns an empty report in the iteration of an
origin, that iteration of `prepareIssueReports` makes its one summarizer call,
inserts nothing and returns no error, and the loop goes on with the next
origin: the run from this origin on is the run from the next origin on, with
this call in front. -/
theorem empty_report_skipped (rt : Runtime) (w : IssueWorld) (cfg : DigestConfig)
    (workspace : String) (i : Nat) (origin : String) (rest : List String)
    (summaries rows : List SummaryRow) (csv : String)
    (hq : GetLatestSummaries w i workspace = .ok summaries)
    (ht : (if (summaries.length : Int) > cfg.AICacheInputLimit then
        sliceTo summaries cfg.AICacheInputLimit else some summaries) = some rows)
    (hcsv : SummariesToCSV rt rows true = .ok csv)
    (hai : GetAISummary (w.gateway i) cfg.AIApiURL cfg.AIApiKey cfg.AIModel
        cfg.AIIssueCachePrompt csv = .ok "") :
    issueReportStep rt w cfg workspace i origin =
      some ⟨[⟨origin, cfg.AIIssueCachePrompt, rows, csv⟩], [], none⟩ ∧
    issueReportLoop rt w cfg workspace i (origin :: rest) =
      (issueReportLoop rt w cfg workspace (i + 1) rest).map
        (fun r => ⟨⟨origin, cfg.AIIssueCachePrompt, rows, csv⟩ :: r.calls, r.inserts, r.err⟩) := by
  have hstep : issueReportStep rt w cfg workspace i origin =
      some ⟨[⟨origin, cfg.AIIssueCachePrompt, rows, csv⟩], [], none⟩ := by
    unfold issueReportStep
    simp only [hq, ht, hcsv, hai, if_true]
  refine ⟨hstep, ?_⟩
  rw [issueReportLoop, hstep]
  cases issueReportLoop rt w cfg workspace (i + 1) rest with
  | none => rfl
  | some rs => simp

/-- In the example world the summarizer answers the call for origin `app` with
an empty text: nothing is inserted for `app` and the run goes on with `docs`. -/
theorem empty_report_skipped_witness :
    GetLatestSummaries exampleIssueWorld 0 "T1" =
      .ok [⟨3, "docs", "api", "summarize", 4, "better"⟩, ⟨2, "app", "ui", "rate", 1, "slow"⟩,
        ⟨1, "docs", "api", "summarize", 2, "fine"⟩] ∧
    issueReportStep exampleRuntime exampleIssueWorld exampleIssueConfig "T1" 0 "app" =
      some ⟨[⟨"app", exampleIssueConfig.AIIssueCachePrompt,
        [⟨3, "docs", "api", "summarize", 4, "better"⟩, ⟨2, "app", "ui", "rate", 1, "slow"⟩,
          ⟨1, "docs", "api", "summarize", 2, "fine"⟩],
        "summary_date,category,prompt,n_comments,summary\n3,api,summarize,4,better\n2,ui,rate,1,slow\n1,api,summarize,2,fine"⟩],
        [], none⟩ ∧
    issueReportLoop exampleRuntime exampleIssueWorld exampleIssueConfig "T1" 0 ["app", "docs"] =
      (issueReportLoop exampleRuntime exampleIssueWorld exampleIssueConfig "T1" 1 ["docs"]).map
        (fun r => ⟨⟨"app", exampleIssueConfig.AIIssueCachePrompt,
          [⟨3, "docs", "api", "summarize", 4, "better"⟩, ⟨2, "app", "ui", "rate", 1, "slow"⟩,
            ⟨1, "docs", "api", "summarize", 2, "fine"⟩],
          "summary_date,category,prompt,n_comments,summary\n3,api,summarize,4,better\n2,ui,rate,1,slow\n1,api,summarize,2,fine"⟩
          :: r.calls, r.inserts, r.err⟩) :=
  ⟨rfl,
    empty_report_skipped exampleRuntime exampleIssueWorld exampleIssueConfig "T1" 0 "app"
      ["docs"]
      [⟨3, "docs", "api", "summarize", 4, "better"⟩, ⟨2, "app", "ui", "rate", 1, "slow"⟩,
        ⟨1, "docs", "api", "summarize", 2, "fine"⟩]
      [⟨3, "docs", "api", "summarize", 4, "better"⟩, ⟨2, "app", "ui", "rate", 1, "slow"⟩,
        ⟨1, "docs", "api", "summarize", 2, "fine"⟩]
      "summary_date,category,prompt,n_comments,summary\n3,api,summarize,4,better\n2,ui,rate,1,slow\n1,api,summarize,2,fine"
      rfl (by decide) rfl rfl⟩

/-- C29. The rows that an iteration of `prepareIssueReports` sends to the
summarizer do not depend on the origin of the iteration: `GetLatestSummaries`
selects by workspace only. In the example world, where workspace `T1` has
summaries of origins `docs` and `app`, the call for `app` and the call for
`docs` both carry the rows of both origins. -/
theorem issue_report_rows_ignore_origin :
    (∀ (rt : Runtime) (w : IssueWorld) (cfg : DigestConfig) (workspace : String) (i : Nat)
        (origin origin' : String),
      (issueReportStep rt w cfg workspace i origin).map
          (fun r => r.calls.map (fun c => (c.rows, c.csv))) =
        (issueReportStep rt w cfg workspace i origin').map
          (fun r => r.calls.map (fun c => (c.rows, c.csv)))) ∧
    (prepareIssueReports exampleRuntime exampleIssueWorld exampleIssueConfig "T1").map
        (fun r => (r.calls.map (fun c => (c.key, c.rows.map (fun s => s.Origin))),
          r.inserts, r.err)) =
      some ([("app", ["docs", "app", "docs"]), ("docs", ["docs", "app", "docs"])],
        [⟨"T1", "docs", "Users like it."⟩], none) :=
  ⟨issueReportStep_payload, by decide⟩

/-! ## Replies of `HandleViewInteraction` -/

/-- When the context cannot be extracted, the reply carries the text of the
error. -/
theorem HandleViewInteraction_context_error (w : InteractWorld)
    (payload : List (String × AnyValue)) (err : GoError)
    (h : ExtractInteractionContext w payload = .error err) :
    HandleViewInteraction w payload = ⟨400, "error", err.Error⟩ := by
  unfold HandleViewInteraction
  rw [h]

theorem botTokenFailure_context (dbError : String) :
    ExtractInteractionContext (botTokenFailure dbError) examplePayload =
      .error (.wrapf "failed to fetch bot token for workspace %s: %w" ["T1"]
        (.external dbError)) := by
  rfl

theorem botTokenFailure_text (dbError : String) :
    (GoError.wrapf "failed to fetch bot token for workspace %s: %w" ["T1"]
      (.external dbError)).Error = "failed to fetch bot token for workspace T1: " ++ dbError := by
  obtain ⟨l⟩ := dbError
  apply String.ext
  rw [String.data_append]
  have h1 : sprintf "failed to fetch bot token for workspace %s: %w".data ["T1", ⟨l⟩] =
      "failed to fetch bot token for workspace T1: ".data ++ (l ++ []) := rfl
  rw [List.append_nil] at h1
  exact h1

/-- An error of `ExtractInteractionContext` is one of five fixed errors or wraps
the error of the bot token query. -/
theorem ExtractInteractionContext_errors (w : InteractWorld)
    (payload : List (String × AnyValue)) (err : GoError)
    (h : ExtractInteractionContext w payload = .error err) :
    err.Error ∈ ["missing or invalid trigger_id", "missing or invalid team in payload",
        "missing or invalid workspace ID", "missing or invalid user in payload",
        "missing or invalid user ID"] ∨
      ∃ workspace dbErr, w.getBotTokenForWorkspace workspace = .error dbErr ∧
        err = .wrapf "failed to fetch bot token for workspace %s: %w" [workspace] dbErr := by
  unfold ExtractInteractionContext at h
  repeat' split at h
  all_goals first
    | (injection h with h; subst h; left; decide)
    | (injection h with h; subst h; right; exact ⟨_, _, by assumption, rfl⟩)
    | exact absurd h (by simp)

/-- Every reply of `HandleViewInteraction` carries one of sixteen fixed texts,
or the text of the wrapped error of the bot token query. -/
theorem HandleViewInteraction_replies (w : InteractWorld) (payload : List (String × AnyValue)) :
    (HandleViewInteraction w payload).text ∈
        ["invalid actions payload", "invalid action structure", "missing or invalid action ID",
          "failed to handle action", "action handled", "unknown action",
          "unable to process request", "missing or invalid activation code",
          "failed to link workspace", "activation code not found or already used",
          "workspace linked", "missing or invalid trigger_id",
          "missing or invalid team in payload", "missing or invalid workspace ID",
          "missing or invalid user in payload", "missing or invalid user ID"] ∨
      ∃ workspace dbErr, w.getBotTokenForWorkspace workspace = .error dbErr ∧
        HandleViewInteraction w payload =
          ⟨400, "error",
            (GoError.wrapf "failed to fetch bot token for workspace %s: %w" [workspace]
              dbErr).Error⟩ := by
  cases hctx : ExtractInteractionContext w payload with
  | error err =>
    rw [HandleViewInteraction_context_error w payload err hctx]
    rcases ExtractInteractionContext_errors w payload err hctx with h | ⟨ws, dbErr, h1, h2⟩
    · left
      simp only [List.mem_cons, List.mem_singleton, List.not_mem_nil, or_false] at h ⊢
      tauto
    · right
      exact ⟨ws, dbErr, h1, by rw [h2]⟩
  | ok ctx =>
    left
    unfold HandleViewInteraction
    rw [hctx]
    dsimp only
    unfold handleLinkWorkspace
    repeat' split
    all_goals simp

/-- C27. The reply of `HandleViewInteraction` to a failure is a fixed text
when a delegated handler fails, whatever its error, but not when the bot token
cannot be fetched: for the payload `examplePayload` and every text `dbError` of
the database error, the body of the reply ends with that text. This is the one
failure whose reply is not a fixed text. -/
theorem HandleViewInteraction_leaks_error_text :
    (∀ (w : InteractWorld) (payload : List (String × AnyValue)),
      (HandleViewInteraction w payload).text ∈
          ["invalid actions payload", "invalid action structure",
            "missing or invalid action ID", "failed to handle action", "action handled",
            "unknown action", "unable to process request",
            "missing or invalid activation code", "failed to link workspace",
            "activation code not found or already used", "workspace linked",
            "missing or invalid trigger_id", "missing or invalid team in payload",
            "missing or invalid workspace ID", "missing or invalid user in payload",
            "missing or invalid user ID"] ∨
        ∃ workspace dbErr, w.getBotTokenForWorkspace workspace = .error dbErr ∧
          HandleViewInteraction w payload =
            ⟨400, "error",
              (GoError.wrapf "failed to fetch bot token for workspace %s: %w" [workspace]
                dbErr).Error⟩) ∧
    (∀ dbError : String,
      HandleViewInteraction (botTokenFailure dbError) examplePayload =
        ⟨400, "error", "failed to fetch bot token for workspace T1: " ++ dbError⟩) ∧
    (∀ err : GoError,
      HandleViewInteraction (handlerFailure err) examplePayload =
        ⟨500, "error", "failed to handle action"⟩) := by
  refine ⟨HandleViewInteraction_replies, ?_, ?_⟩
  · intro dbError
    rw [HandleViewInteraction_context_error _ _ _ (botTokenFailure_context dbError),
      botTokenFailure_text]
  · intro err
    rfl

/-! ## The windows of the stats view -/

theorem truncateFloat_int (n : Int) : truncateFloat (n : ℚ) = n := by
  simp [truncateFloat]

/-- The number of days `handleStatsViewAction` computes for a range of whole
days shorter than the longest `time.Duration`. -/
theorem periodDays_whole (fromDay toDay : Int) (hle : fromDay ≤ toDay)
    (hspan : toDay - fromDay < 106751) :
    truncateFloat (durationHours (timeSub (AddDate (toDay * dayNs) 1) (fromDay * dayNs)) / 24) =
      toDay + 1 - fromDay := by
  have hsub : timeSub (AddDate (toDay * dayNs) 1) (fromDay * dayNs) =
      (toDay + 1 - fromDay) * dayNs := by
    unfold timeSub AddDate maxDuration minDuration dayNs
    have h1 : ¬ (toDay * 86400000000000 + 1 * 86400000000000 - fromDay * 86400000000000 >
        9223372036854775807) := by omega
    have h2 : ¬ (toDay * 86400000000000 + 1 * 86400000000000 - fromDay * 86400000000000 <
        -9223372036854775808) := by omega
    rw [if_neg h1, if_neg h2]; ring
  rw [hsub]
  have : durationHours ((toDay + 1 - fromDay) * dayNs) / 24 = ((toDay + 1 - fromDay : Int) : ℚ) := by
    unfold durationHours dayNs
    push_cast
    ring
  rw [this, truncateFloat_int]

/-- C28. For a range of whole days `fromDay..toDay` with `fromDay ≤ toDay`,
shorter than the longest `time.Duration`, `handleStatsViewAction` calls
`GetFilteredStats` once per group with the current window
`[fromDay, toDay + 1)` and the previous window
`[fromDay - (toDay + 1 - fromDay), fromDay - 1)`, in days: the previous window
ends one day before the current one begins and is one day shorter. -/
theorem stats_view_previous_window (w : StatsViewWorld) (ctx : InteractionContext)
    (values : StatsFilterValues) (fromDay toDay : Int) (groups : List FeedbackGroup)
    (hfrom : w.parseDate values.DateFrom = fromDay * dayNs)
    (hto : w.parseDate values.DateTo = toDay * dayNs)
    (hle : fromDay ≤ toDay) (hspan : toDay - fromDay < 106751)
    (hgroups : w.feedbackGroups ctx.Workspace (fromDay * dayNs) ((toDay + 1) * dayNs)
      values.Origin values.Category values.Prompt values.Thumb = .ok groups) :
    (handleStatsViewAction w ctx values).calls =
      groups.map (fun g =>
        (⟨ctx.Workspace, g.Origin, g.Category, g.Prompt, fromDay * dayNs, (toDay + 1) * dayNs,
          (fromDay - (toDay + 1 - fromDay)) * dayNs, (fromDay - 1) * dayNs, values.Thumb⟩ :
          FilteredStatsCall)) ∧
    ∀ call ∈ (handleStatsViewAction w ctx values).calls,
      call.prevTo = call.fromTime - dayNs ∧
        call.prevTo - call.prevFrom = (call.toTime - call.fromTime) - dayNs := by
  have hto1 : AddDate (toDay * dayNs) 1 = (toDay + 1) * dayNs := by unfold AddDate; ring
  have hcalls : (handleStatsViewAction w ctx values).calls =
      groups.map (fun g =>
        (⟨ctx.Workspace, g.Origin, g.Category, g.Prompt, fromDay * dayNs, (toDay + 1) * dayNs,
          (fromDay - (toDay + 1 - fromDay)) * dayNs, (fromDay - 1) * dayNs, values.Thumb⟩ :
          FilteredStatsCall)) := by
    unfold handleStatsViewAction
    simp only [hfrom, hto, periodDays_whole fromDay toDay hle hspan]
    rw [hto1, hgroups]
    simp only
    apply List.map_congr_left
    intro g _
    have h1 : AddDate (fromDay * dayNs) (-1) = (fromDay - 1) * dayNs := by unfold AddDate; ring
    have h2 : AddDate ((fromDay - 1) * dayNs) (-(toDay + 1 - fromDay) + 1) =
        (fromDay - (toDay + 1 - fromDay)) * dayNs := by unfold AddDate; ring
    rw [h1, h2]
  refine ⟨hcalls, ?_⟩
  intro call hcall
  rw [hcalls] at hcall
  obtain ⟨g, -, rfl⟩ := List.mem_map.mp hcall
  constructor
  · show (fromDay - 1) * dayNs = fromDay * dayNs - dayNs
    ring
  · show (fromDay - 1) * dayNs - (fromDay - (toDay + 1 - fromDay)) * dayNs =
      ((toDay + 1) * dayNs - fromDay * dayNs) - dayNs
    ring

/-- The range of the single day 10 March 2024, day 9 of the example world: the
current window is day 9, the previous window runs from day 8 to day 8 and is
empty. -/
theorem stats_view_previous_window_witness :
    (handleStatsViewAction exampleStatsViewWorld ⟨"trig1", "T1", "xoxb-1", "U1"⟩
        ⟨"", "", "", "2024-03-10", "2024-03-10", ""⟩).calls =
      [⟨"T1", "docs", "api", "summarize", 9 * dayNs, 10 * dayNs, 8 * dayNs, 8 * dayNs, ""⟩] ∧
    ∀ call ∈ (handleStatsViewAction exampleStatsViewWorld ⟨"trig1", "T1", "xoxb-1", "U1"⟩
        ⟨"", "", "", "2024-03-10", "2024-03-10", ""⟩).calls,
      call.prevTo = call.fromTime - dayNs ∧
        call.prevTo - call.prevFrom = (call.toTime - call.fromTime) - dayNs :=
  stats_view_previous_window exampleStatsViewWorld ⟨"trig1", "T1", "xoxb-1", "U1"⟩
    ⟨"", "", "", "2024-03-10", "2024-03-10", ""⟩ 9 9 [⟨"summarize", "docs", "api"⟩] rfl rfl
    (by decide) (by decide) rfl

end TwoThumbs
